import Mathlib

/-!
# JaxBoy-3DS: a shallow embedding of the emulator core

The development embeds the CPU (`Processor`), the memory bus (`MemoryBus`,
`MBC`, `MBC1`, `MBC3`) and the register file of the PPU as Lean definitions
that follow the C++ sources statement by statement, and proves properties of them.

Conventions.
* `u8` / `u16` values are natural numbers; every place where the C++ code
  truncates to the width of its destination carries an explicit `% 256` or
  `% 65536`.  An `s8` value is an `Int`.
* A `Reg16` union is stored as its two byte halves (`reg_A`/`reg_F`, ...);
  `Processor.r16` is the `.word` view (little-endian: the first named register
  is the high byte).  `reg_PC` and `reg_SP` are only ever used as words.
* A `Reg8&` / `Reg16&` argument becomes a register name (`R8`, `R16`).
* Code that can throw (`std::vector::at`) or has undefined behaviour
  (`GetPage` running off its end, a raw array indexed out of bounds) returns
  `Except Fault`.
* Console logging (`Debug::Logger`) has no effect on the machine state and is
  left out.
-/

namespace JaxBoy

/-! ## Common types -/

/-- Abnormal ends of a memory access. -/
inductive Fault where
  /-- Exception `std::out_of_range` thrown by `std::vector::at` (never caught). -/
  | out_of_range
  /-- Undefined behaviour: `GetPage` returns nothing for the address, or a raw
  array / buffer is accessed outside its bounds. -/
  | undefined
  /-- The nesting bound of `Write8F` was exhausted (never happens for `Write8`). -/
  | fuel
  deriving DecidableEq, Repr

/-- Names of the `Reg8&` references that the instruction helpers receive. -/
inductive R8 where
  | reg_A | reg_B | reg_C | reg_D | reg_E | reg_H | reg_L
  deriving DecidableEq, Repr

/-- Names of the `Reg16` unions of the processor. -/
inductive R16 where
  | reg_AF | reg_BC | reg_DE | reg_HL | reg_SP | reg_PC
  deriving DecidableEq, Repr

/-- Cast `static_cast<s8>` of a byte. -/
def static_cast_s8 (n : Nat) : Int :=
  if n % 256 < 128 then ((n % 256 : Nat) : Int) else ((n % 256 : Nat) : Int) - 256

/-- Cast `static_cast<u8>` of an integer. -/
def static_cast_u8 (i : Int) : Nat := (i % 256).toNat

/-- Cast `static_cast<u16>` of an integer (also the implicit truncation of `u16 += int`). -/
def static_cast_u16 (i : Int) : Nat := (i % 65536).toNat

/-- Conversion of an integer expression to `bool`. -/
def toBool (n : Nat) : Bool := n != 0

/-! ## Processor registers and flags (`Processor.h`) -/

/-- The register file and interrupt registers of `Core::Processor`. -/
structure Processor where
  reg_PC : Nat
  reg_SP : Nat
  reg_A : Nat
  reg_F : Nat
  reg_B : Nat
  reg_C : Nat
  reg_D : Nat
  reg_E : Nat
  reg_H : Nat
  reg_L : Nat
  IME : Bool
  IE : Nat
  IF : Nat

namespace Processor

/-- Read through a `Reg8&`. -/
def r8 (p : Processor) : R8 → Nat
  | .reg_A => p.reg_A
  | .reg_B => p.reg_B
  | .reg_C => p.reg_C
  | .reg_D => p.reg_D
  | .reg_E => p.reg_E
  | .reg_H => p.reg_H
  | .reg_L => p.reg_L

/-- Assign through a `Reg8&`. -/
def setR8 (p : Processor) (r : R8) (v : Nat) : Processor :=
  match r with
  | .reg_A => { p with reg_A := v }
  | .reg_B => { p with reg_B := v }
  | .reg_C => { p with reg_C := v }
  | .reg_D => { p with reg_D := v }
  | .reg_E => { p with reg_E := v }
  | .reg_H => { p with reg_H := v }
  | .reg_L => { p with reg_L := v }

/-- The `.word` member of a `Reg16` union. -/
def r16 (p : Processor) : R16 → Nat
  | .reg_AF => p.reg_A * 256 + p.reg_F
  | .reg_BC => p.reg_B * 256 + p.reg_C
  | .reg_DE => p.reg_D * 256 + p.reg_E
  | .reg_HL => p.reg_H * 256 + p.reg_L
  | .reg_SP => p.reg_SP
  | .reg_PC => p.reg_PC

/-- Assign the `.word` member of a `Reg16` union. -/
def setR16 (p : Processor) (r : R16) (w : Nat) : Processor :=
  match r with
  | .reg_AF => { p with reg_A := w / 256 % 256, reg_F := w % 256 }
  | .reg_BC => { p with reg_B := w / 256 % 256, reg_C := w % 256 }
  | .reg_DE => { p with reg_D := w / 256 % 256, reg_E := w % 256 }
  | .reg_HL => { p with reg_H := w / 256 % 256, reg_L := w % 256 }
  | .reg_SP => { p with reg_SP := w % 65536 }
  | .reg_PC => { p with reg_PC := w % 65536 }

/-- Source `SetZero`: `(value)? (reg_F |= 0x80) : (reg_F &= ~0x80)`. -/
def SetZero (p : Processor) (value : Bool) : Processor :=
  { p with reg_F := if value then p.reg_F ||| 0x80 else p.reg_F &&& 0x7F }

/-- Source `SetSubtract`: `(value)? (reg_F |= 0x40) : (reg_F &= ~0x40)`. -/
def SetSubtract (p : Processor) (value : Bool) : Processor :=
  { p with reg_F := if value then p.reg_F ||| 0x40 else p.reg_F &&& 0xBF }

/-- Source `SetHalfCarry`: `(value)? (reg_F |= 0x20) : (reg_F &= ~0x20)`. -/
def SetHalfCarry (p : Processor) (value : Bool) : Processor :=
  { p with reg_F := if value then p.reg_F ||| 0x20 else p.reg_F &&& 0xDF }

/-- Source `SetCarry`: `(value)? (reg_F |= 0x10) : (reg_F &= ~0x10)`. -/
def SetCarry (p : Processor) (value : Bool) : Processor :=
  { p with reg_F := if value then p.reg_F ||| 0x10 else p.reg_F &&& 0xEF }

/-- Source `Zero()`. -/
def Zero (p : Processor) : Bool := (p.reg_F &&& 0x80) != 0x00

/-- Source `Subtract()`. -/
def Subtract (p : Processor) : Bool := (p.reg_F &&& 0x40) != 0x00

/-- Source `HalfCarry()`. -/
def HalfCarry (p : Processor) : Bool := (p.reg_F &&& 0x20) != 0x00

/-- Source `Carry()`. -/
def Carry (p : Processor) : Bool := (p.reg_F &&& 0x10) != 0x00

/-! ## Register-only instructions (`Opcodes.cpp`) -/

/-- Source `Processor::ld(Reg8&, u8)`. -/
def ld (p : Processor) (reg : R8) (value : Nat) : Processor :=
  p.setR8 reg value

/-- Source `Processor::ld(Reg16&, u16)`. -/
def ld16 (p : Processor) (reg : R16) (value : Nat) : Processor :=
  p.setR16 reg value

/-- Source `Processor::ld_sp_plus(Reg16&, s8)`. -/
def ld_sp_plus (p : Processor) (reg : R16) (value : Int) : Processor :=
  let sp := p.reg_SP
  let p := p.SetZero false
  let p := p.SetSubtract false
  let p := p.SetHalfCarry (toBool (((sp &&& 0x000F) + (static_cast_u8 value &&& 0x0F)) &&& 0x0010))
  let p := p.SetCarry (toBool (((sp &&& 0x00FF) + static_cast_u8 value) &&& 0x0100))
  p.setR16 reg (static_cast_u16 ((sp : Int) + value))

/-- Source `Processor::inc(Reg8&)`. -/
def inc (p : Processor) (reg : R8) : Processor :=
  let p := p.SetSubtract false
  let p := p.SetHalfCarry ((p.r8 reg &&& 0x0F) == 0x0F)
  let p := p.setR8 reg ((p.r8 reg + 1) % 256)
  p.SetZero (p.r8 reg == 0x00)

/-- Source `Processor::inc(Reg16&)`. -/
def inc16 (p : Processor) (reg16 : R16) : Processor :=
  p.setR16 reg16 ((p.r16 reg16 + 1) % 65536)

/-- Source `Processor::dec(Reg8&)`. -/
def dec (p : Processor) (reg : R8) : Processor :=
  let p := p.SetSubtract true
  let p := p.SetHalfCarry ((p.r8 reg &&& 0x0F) == 0x00)
  let p := p.setR8 reg ((p.r8 reg + 255) % 256)
  p.SetZero (p.r8 reg == 0x00)

/-- Source `Processor::dec(Reg16&)`. -/
def dec16 (p : Processor) (reg16 : R16) : Processor :=
  p.setR16 reg16 ((p.r16 reg16 + 65535) % 65536)

/-- Source `Processor::add(Reg8&, u8)`. -/
def add (p : Processor) (reg : R8) (value : Nat) : Processor :=
  let r := p.r8 reg
  let tempAdd := (r + value) % 65536
  let p := p.SetSubtract false
  let p := p.SetHalfCarry (toBool (((r &&& 0x0F) + (value &&& 0x0F)) &&& 0x10))
  let p := p.SetCarry (toBool (tempAdd &&& 0x0100))
  let p := p.SetZero ((tempAdd &&& 0x00FF) == 0x00)
  p.setR8 reg (tempAdd % 256)

/-- Source `Processor::add(Reg16&, u16)`. -/
def add16 (p : Processor) (reg : R16) (value : Nat) : Processor :=
  let w := p.r16 reg
  let p := p.SetSubtract false
  let p := p.SetHalfCarry (toBool (((w &&& 0x0FFF) + (value &&& 0x0FFF)) &&& 0x1000))
  let p := p.SetCarry (decide (value > 0xFFFF - w))
  p.setR16 reg ((w + value) % 65536)

/-- Source `Processor::add(Reg16&, s8)`. -/
def add_s8 (p : Processor) (reg : R16) (value : Int) : Processor :=
  let w := p.r16 reg
  let p := p.SetSubtract false
  let p := p.SetZero false
  let p := p.SetHalfCarry (toBool (((w &&& 0x000F) + (static_cast_u8 value &&& 0x0F)) &&& 0x0010))
  let p := p.SetCarry (toBool (((w &&& 0x00FF) + static_cast_u8 value) &&& 0x0100))
  p.setR16 reg (static_cast_u16 ((w : Int) + value))

/-- Source `Processor::adc`. -/
def adc (p : Processor) (reg : R8) (value : Nat) : Processor :=
  let r := p.r8 reg
  let c := p.Carry.toNat
  let tempAdd := (r + value + c) % 65536
  let p := p.SetSubtract false
  let p := p.SetHalfCarry (toBool (((r &&& 0x0F) + (value &&& 0x0F) + c) &&& 0x10))
  let p := p.SetCarry (toBool (tempAdd &&& 0x0100))
  let p := p.SetZero ((tempAdd &&& 0x00FF) == 0x00)
  p.setR8 reg (tempAdd &&& 0x00FF)

/-- Source `Processor::sub`. -/
def sub (p : Processor) (reg : R8) (value : Nat) : Processor :=
  let r := p.r8 reg
  let p := p.SetSubtract true
  let p := p.SetHalfCarry (decide ((r &&& 0x0F) < (value &&& 0x0F)))
  let p := p.SetCarry (decide (r < value))
  let p := p.setR8 reg (static_cast_u8 ((r : Int) - value))
  p.SetZero (p.r8 reg == 0x00)

/-- Source `Processor::sbc`. -/
def sbc (p : Processor) (reg : R8) (value : Nat) : Processor :=
  let r := p.r8 reg
  let adder := if p.Carry then 1 else 0
  let p := p.SetSubtract true
  let p := p.SetHalfCarry (decide ((r &&& 0x0F) < (value &&& 0x0F) + adder))
  let p := p.SetCarry (decide (r < value + adder))
  let p := p.setR8 reg (static_cast_u8 ((r : Int) - ((value + adder : Nat) : Int)))
  p.SetZero (p.r8 reg == 0x00)

/-- Source `Processor::and8`. -/
def and8 (p : Processor) (reg : R8) (value : Nat) : Processor :=
  let p := p.setR8 reg (p.r8 reg &&& value)
  let p := p.SetSubtract false
  let p := p.SetHalfCarry true
  let p := p.SetCarry false
  p.SetZero (p.r8 reg == 0x00)

/-- Source `Processor::xor8`. -/
def xor8 (p : Processor) (reg : R8) (value : Nat) : Processor :=
  let p := p.setR8 reg (p.r8 reg ^^^ value)
  let p := p.SetSubtract false
  let p := p.SetHalfCarry false
  let p := p.SetCarry false
  p.SetZero (p.r8 reg == 0x00)

/-- Source `Processor::or8`. -/
def or8 (p : Processor) (reg : R8) (value : Nat) : Processor :=
  let p := p.setR8 reg (p.r8 reg ||| value)
  let p := p.SetSubtract false
  let p := p.SetHalfCarry false
  let p := p.SetCarry false
  p.SetZero (p.r8 reg == 0x00)

/-- Source `Processor::daa`. -/
def daa (p : Processor) : Processor :=
  let p :=
    if p.Subtract then
      let p := if p.Carry then p.setR8 .reg_A (static_cast_u8 ((p.reg_A : Int) - 0x60)) else p
      let p := if p.HalfCarry then p.setR8 .reg_A (static_cast_u8 ((p.reg_A : Int) - 0x06)) else p
      p
    else
      let p := if p.Carry || decide (p.reg_A > 0x99) then
          (p.setR8 .reg_A ((p.reg_A + 0x60) % 256)).SetCarry true
        else p
      let p := if p.HalfCarry || decide ((p.reg_A &&& 0x0F) > 0x09) then
          p.setR8 .reg_A ((p.reg_A + 0x06) % 256)
        else p
      p
  let p := p.SetZero (p.reg_A == 0x00)
  p.SetHalfCarry false

/-- Source `Processor::cp`. -/
def cp (p : Processor) (value : Nat) : Processor :=
  let a := p.reg_A
  let p := p.SetSubtract true
  let p := p.SetHalfCarry (decide ((a &&& 0x0F) < (value &&& 0x0F)))
  let p := p.SetCarry (decide (a < value))
  p.SetZero (a == value)

/-- Source `Processor::jr`: `reg_PC.word += amt`. -/
def jr (p : Processor) (amt : Int) : Processor :=
  { p with reg_PC := static_cast_u16 ((p.reg_PC : Int) + amt) }

/-- Source `Processor::jp`. -/
def jp (p : Processor) (addr : Nat) : Processor :=
  { p with reg_PC := addr }

/-- Source `Processor::rlc(Reg8&, bool)`. -/
def rlc (p : Processor) (reg : R8) (zero : Bool) : Processor :=
  let newCarry := toBool (p.r8 reg &&& 0x80)
  let p := p.setR8 reg ((p.r8 reg <<< 1) % 256)
  let p := p.setR8 reg (p.r8 reg ||| newCarry.toNat)
  let p := p.SetCarry newCarry
  let p := p.SetSubtract false
  let p := p.SetHalfCarry false
  p.SetZero (if zero then p.r8 reg == 0x00 else false)

/-- Source `Processor::rl(Reg8&, bool)`. -/
def rl (p : Processor) (reg : R8) (zero : Bool) : Processor :=
  let newCarry := toBool (p.r8 reg &&& 0x80)
  let p := p.setR8 reg ((p.r8 reg <<< 1) % 256)
  let p := p.setR8 reg (p.r8 reg ||| p.Carry.toNat)
  let p := p.SetCarry newCarry
  let p := p.SetSubtract false
  let p := p.SetHalfCarry false
  p.SetZero (if zero then p.r8 reg == 0x00 else false)

/-- Source `Processor::rrc(Reg8&, bool)`. -/
def rrc (p : Processor) (reg : R8) (zero : Bool) : Processor :=
  let newCarry := toBool (p.r8 reg &&& 0x01)
  let p := p.setR8 reg (p.r8 reg >>> 1)
  let p := p.setR8 reg ((p.r8 reg ||| (newCarry.toNat <<< 7)) % 256)
  let p := p.SetCarry newCarry
  let p := p.SetSubtract false
  let p := p.SetHalfCarry false
  p.SetZero (if zero then p.r8 reg == 0x00 else false)

/-- Source `Processor::rr(Reg8&, bool)`. -/
def rr (p : Processor) (reg : R8) (zero : Bool) : Processor :=
  let newCarry := toBool (p.r8 reg &&& 0x01)
  let p := p.setR8 reg (p.r8 reg >>> 1)
  let p := p.setR8 reg ((p.r8 reg ||| (p.Carry.toNat <<< 7)) % 256)
  let p := p.SetCarry newCarry
  let p := p.SetSubtract false
  let p := p.SetHalfCarry false
  p.SetZero (if zero then p.r8 reg == 0x00 else false)

/-- Source `Processor::sla`. -/
def sla (p : Processor) (reg : R8) : Processor :=
  let p := p.SetCarry (toBool (p.r8 reg &&& 0x80))
  let p := p.setR8 reg ((p.r8 reg <<< 1) % 256)
  let p := p.SetSubtract false
  let p := p.SetHalfCarry false
  p.SetZero (p.r8 reg == 0x00)

/-- Source `Processor::srl`. -/
def srl (p : Processor) (reg : R8) : Processor :=
  let p := p.SetCarry (toBool (p.r8 reg &&& 0x01))
  let p := p.setR8 reg (p.r8 reg >>> 1)
  let p := p.SetSubtract false
  let p := p.SetHalfCarry false
  p.SetZero (p.r8 reg == 0x00)

/-- Source `Processor::sra`. -/
def sra (p : Processor) (reg : R8) : Processor :=
  let p := p.SetCarry (toBool (p.r8 reg &&& 0x01))
  let p := p.setR8 reg (p.r8 reg >>> 1)
  let p := p.setR8 reg ((p.r8 reg ||| ((p.r8 reg &&& 0x40) <<< 1)) % 256)
  let p := p.SetSubtract false
  let p := p.SetHalfCarry false
  p.SetZero (p.r8 reg == 0x00)

/-- Source `Processor::bit(u8 byte, u8 bit)`: the source passes `true` to `SetZero`; the
test on `byte` is commented out there. -/
def bit (p : Processor) (_byte : Nat) (_bit : Nat) : Processor :=
  let p := p.SetSubtract false
  let p := p.SetHalfCarry true
  p.SetZero true

/-- Source `Processor::swap`. -/
def swap (p : Processor) (reg : R8) : Processor :=
  let p := p.setR8 reg ((((p.r8 reg &&& 0x0F) <<< 4) ||| ((p.r8 reg &&& 0xF0) >>> 4)) % 256)
  let p := p.SetSubtract false
  let p := p.SetHalfCarry false
  let p := p.SetCarry false
  p.SetZero (p.r8 reg == 0)

/-- Source `Processor::cpl`: `reg = ~reg`. -/
def cpl (p : Processor) (reg : R8) : Processor :=
  let p := p.setR8 reg ((p.r8 reg ^^^ 0xFF) % 256)
  let p := p.SetSubtract true
  p.SetHalfCarry true

/-- Source `Processor::ccf`. -/
def ccf (p : Processor) : Processor :=
  let p := p.SetCarry (!p.Carry)
  let p := p.SetSubtract false
  p.SetHalfCarry false

/-- Source `Processor::scf`. -/
def scf (p : Processor) : Processor :=
  let p := p.SetCarry true
  let p := p.SetSubtract false
  p.SetHalfCarry false

/-- Source `Processor::res(Reg8&, u8)`: `reg &= ~(0x1 << bit)`. -/
def res (p : Processor) (reg : R8) (bit : Nat) : Processor :=
  p.setR8 reg (p.r8 reg &&& (0xFF ^^^ ((0x1 <<< bit) % 256)))

/-- Source `Processor::set(Reg8&, u8)`: `reg |= (0x1 << bit)`. -/
def set (p : Processor) (reg : R8) (bit : Nat) : Processor :=
  p.setR8 reg ((p.r8 reg ||| (0x1 <<< bit)) % 256)

end Processor

/-! ## Memory pages and bank controllers (`MBC.h`, `MBC.cpp`, `MBC1.cpp`, `MBC3.cpp`) -/

/-- A `Memory::MemoryPage`: `bytes` is the `std::vector<u8>` of length `size`
(only offsets below `size` exist). -/
structure MemoryPage where
  base : Nat
  size : Nat
  bytes : Nat → Nat

namespace MemoryPage

/-- Constructor `MemoryPage(base, size)`: a zero-filled vector. -/
def new (base size : Nat) : MemoryPage := { base := base, size := size, bytes := fun _ => 0 }

/-- Read `GetBytes().at(i)`. -/
def read (pg : MemoryPage) (i : Nat) : Except Fault Nat :=
  if i < pg.size then .ok (pg.bytes i) else .error .out_of_range

/-- Assignment `GetBytes().at(i) = v`. -/
def write (pg : MemoryPage) (i v : Nat) : Except Fault MemoryPage :=
  if i < pg.size then .ok { pg with bytes := Function.update pg.bytes i v }
  else .error .out_of_range

/-- Block copy `std::memcpy(GetRaw() + off, src, n)`; writing past the vector is
undefined behaviour. -/
def memcpyIn (pg : MemoryPage) (off : Nat) (src : Nat → Nat) (n : Nat) : Except Fault MemoryPage :=
  if off + n ≤ pg.size then
    .ok { pg with bytes := fun i => if off ≤ i ∧ i < off + n then src (i - off) else pg.bytes i }
  else .error .undefined

/-- Block copy `std::memcpy(dst, GetRaw() + off, n)`; reading past the vector is
undefined behaviour. -/
def memcpyOut (pg : MemoryPage) (off n : Nat) : Except Fault (List Nat) :=
  if off + n ≤ pg.size then .ok ((List.range n).map (fun i => pg.bytes (off + i)))
  else .error .undefined

end MemoryPage

/-- The dynamic class of the bank controller object. -/
inductive MBCKind where
  | MBC | MBC1 | MBC3
  deriving DecidableEq, Repr

/-- The page a `GetPage` call refers to (the `std::unique_ptr<MemoryPage>&` it returns). -/
inductive PageRef where
  | romBank0 | romBank1 | vram | sram | wram | oam | highRam
  | switchableBanks (i : Nat)
  | ramBanks (i : Nat)
  deriving DecidableEq, Repr

/-- The members of `Memory::MBC` and of its subclasses `MBC1`, `MBC3`
(`kind` tells which class the object is). -/
structure MBC where
  kind : MBCKind
  romBank0 : MemoryPage
  romBank1 : MemoryPage
  vram : MemoryPage
  sram : MemoryPage
  wram : MemoryPage
  oam : MemoryPage
  highRam : MemoryPage
  switchableBanks : List MemoryPage
  romBank : Nat
  numBanks : Nat
  extRamEnabled : Bool
  ramBanking : Bool
  ramBanks : List MemoryPage
  selectedBank : Nat

namespace MBC

/-- Dereference a page reference: `switchableBanks.at(i)` throws, `ramBanks[i]`
outside the array of four is undefined. -/
def page (m : MBC) : PageRef → Except Fault MemoryPage
  | .romBank0 => .ok m.romBank0
  | .romBank1 => .ok m.romBank1
  | .vram => .ok m.vram
  | .sram => .ok m.sram
  | .wram => .ok m.wram
  | .oam => .ok m.oam
  | .highRam => .ok m.highRam
  | .switchableBanks i =>
      match m.switchableBanks[i]? with
      | some pg => .ok pg
      | none => .error .out_of_range
  | .ramBanks i =>
      match m.ramBanks[i]? with
      | some pg => .ok pg
      | none => .error .undefined

/-- Store a page back through a page reference. -/
def setPage (m : MBC) (r : PageRef) (pg : MemoryPage) : MBC :=
  match r with
  | .romBank0 => { m with romBank0 := pg }
  | .romBank1 => { m with romBank1 := pg }
  | .vram => { m with vram := pg }
  | .sram => { m with sram := pg }
  | .wram => { m with wram := pg }
  | .oam => { m with oam := pg }
  | .highRam => { m with highRam := pg }
  | .switchableBanks i => { m with switchableBanks := m.switchableBanks.set i pg }
  | .ramBanks i => { m with ramBanks := m.ramBanks.set i pg }

/-- Source `MBC::GetPage` (the base class version); no `return` is reached for
any other address. -/
def GetPage_MBC (address : Nat) : Except Fault PageRef :=
  if address ≤ 0x3FFF then .ok .romBank0
  else if address ≥ 0x4000 ∧ address ≤ 0x7FFF then .ok .romBank1
  else if address ≥ 0x8000 ∧ address ≤ 0x9FFF then .ok .vram
  else if address ≥ 0xA000 ∧ address ≤ 0xBFFF then .ok .sram
  else if address ≥ 0xC000 ∧ address ≤ 0xDFFF then .ok .wram
  else if address ≥ 0xFE00 ∧ address ≤ 0xFE9F then .ok .oam
  else if address ≥ 0xFF80 ∧ address ≤ 0xFFFE then .ok .highRam
  else .error .undefined

/-- Source `MBC1::GetPage`.  The index `romBank - 1 | (selectedBank << 5)` is an
`int`; a negative one makes `at` throw. -/
def GetPage_MBC1 (m : MBC) (address : Nat) : Except Fault PageRef :=
  if address ≥ 0x4000 ∧ address ≤ 0x7FFF then
    if m.romBank = 0 then .error .out_of_range
    else if !m.ramBanking then
      (if ((m.romBank - 1) ||| (m.selectedBank <<< 5)) < m.switchableBanks.length
        then .ok (.switchableBanks ((m.romBank - 1) ||| (m.selectedBank <<< 5)))
        else .error .out_of_range)
    else
      (if m.romBank - 1 < m.switchableBanks.length
        then .ok (.switchableBanks (m.romBank - 1))
        else .error .out_of_range)
  else if address ≥ 0xA000 ∧ address ≤ 0xBFFF then
    if !m.extRamEnabled || !m.ramBanking then
      (if 0 < m.ramBanks.length then .ok (.ramBanks 0x00) else .error .undefined)
    else
      (if m.selectedBank < m.ramBanks.length then .ok (.ramBanks m.selectedBank)
        else .error .undefined)
  else GetPage_MBC address

/-- Source `MBC3::GetPage`. -/
def GetPage_MBC3 (m : MBC) (address : Nat) : Except Fault PageRef :=
  if address ≥ 0x4000 ∧ address ≤ 0x7FFF then
    if m.romBank = 0 then .error .out_of_range
    else if m.romBank - 1 < m.switchableBanks.length
      then .ok (.switchableBanks (m.romBank - 1))
      else .error .out_of_range
  else GetPage_MBC1 m address

/-- The virtual call `GetPage(address)`. -/
def GetPage (m : MBC) (address : Nat) : Except Fault PageRef :=
  match m.kind with
  | .MBC => GetPage_MBC address
  | .MBC1 => GetPage_MBC1 m address
  | .MBC3 => GetPage_MBC3 m address

/-- Source `MBC::Write8`. -/
def Write8_MBC (m : MBC) (address data : Nat) : Except Fault MBC := do
  let ref ← m.GetPage address
  let pg ← m.page ref
  let address := (address + 65536 - pg.base % 65536) % 65536
  let pg ← pg.write address data
  pure (m.setPage ref pg)

/-- Source `MBC::Write16` (inherited unchanged by `MBC1` and `MBC3`). -/
def Write16 (m : MBC) (address data : Nat) : Except Fault MBC := do
  let ref ← m.GetPage address
  let pg ← m.page ref
  let address := (address + 65536 - pg.base % 65536) % 65536
  let pg ← pg.write address (data &&& 0x00FF)
  let pg ← pg.write (address + 1) ((data &&& 0xFF00) >>> 8)
  pure (m.setPage ref pg)

/-- Source `MBC::Read8`. -/
def Read8_MBC (m : MBC) (address : Nat) : Except Fault Nat := do
  let ref ← m.GetPage address
  let pg ← m.page ref
  let address := (address + 65536 - pg.base % 65536) % 65536
  pg.read address

/-- Source `MBC::Read16` (inherited unchanged by `MBC1` and `MBC3`). -/
def Read16 (m : MBC) (address : Nat) : Except Fault Nat := do
  let ref ← m.GetPage address
  let pg ← m.page ref
  let address := (address + 65536 - pg.base % 65536) % 65536
  let lo ← pg.read address
  let hi ← pg.read (address + 1)
  pure (lo ||| (hi <<< 8))

/-- Source `MBC::WriteBytes` (inherited unchanged by `MBC1` and `MBC3`). -/
def WriteBytes (m : MBC) (src : Nat → Nat) (destination size : Nat) : Except Fault MBC := do
  let ref ← m.GetPage destination
  let pg ← m.page ref
  if destination < pg.base then .error .undefined
  else do
    let pg ← pg.memcpyIn (destination - pg.base) src size
    pure (m.setPage ref pg)

/-- Source `MBC::ReadBytes` (inherited unchanged by `MBC1` and `MBC3`). -/
def ReadBytes (m : MBC) (src size : Nat) : Except Fault (List Nat) := do
  let ref ← m.GetPage src
  let pg ← m.page ref
  if src < pg.base then .error .undefined
  else pg.memcpyOut (src - pg.base) size

/-- Source `MBC1::Write8`. -/
def Write8_MBC1 (m : MBC) (address data : Nat) : Except Fault MBC :=
  if address ≤ 0x1FFF then
    if (data &&& 0xF) = 0xA then .ok { m with extRamEnabled := true }
    else .ok { m with extRamEnabled := false }
  else if address ≥ 0x2000 ∧ address ≤ 0x3FFF then
    let data := if (data &&& 0x0F) = 0x00 then (data + 1) % 256 else data
    .ok { m with romBank := data &&& 0x1F }
  else if address ≥ 0x4000 ∧ address ≤ 0x5FFF then
    .ok { m with selectedBank := data }
  else if address ≥ 0x6000 ∧ address ≤ 0x7FFF then
    if data = 0x00 then .ok { m with ramBanking := false }
    else .ok { m with ramBanking := true }
  else Write8_MBC m address data

/-- Source `MBC3::Write8`. -/
def Write8_MBC3 (m : MBC) (address data : Nat) : Except Fault MBC :=
  if address ≥ 0x2000 ∧ address ≤ 0x3FFF then
    let data := if (data &&& 0x7F) = 0x00 then (data + 1) % 256 else data
    .ok { m with romBank := data &&& 0x7F }
  else Write8_MBC1 m address data

/-- The virtual call `Write8(address, data)`. -/
def Write8 (m : MBC) (address data : Nat) : Except Fault MBC :=
  match m.kind with
  | .MBC => Write8_MBC m address data
  | .MBC1 => Write8_MBC1 m address data
  | .MBC3 => Write8_MBC3 m address data

/-- Source `MBC3::Read8`. -/
def Read8_MBC3 (m : MBC) (address : Nat) : Except Fault Nat :=
  if address ≥ 0xA000 ∧ address ≤ 0xBFFF then
    if (m.selectedBank &&& 0x08) ≠ 0 then .ok 0xFF
    else
      match m.ramBanks[m.selectedBank]? with
      | some pg => pg.read (address - 0xA000)
      | none => .error .undefined
  else Read8_MBC m address

/-- The virtual call `Read8(address)` (`MBC1` does not override it). -/
def Read8 (m : MBC) (address : Nat) : Except Fault Nat :=
  match m.kind with
  | .MBC => Read8_MBC m address
  | .MBC1 => Read8_MBC m address
  | .MBC3 => Read8_MBC3 m address

end MBC

/-! ## The machine (`GameBoy.h`, `PPU.h`, `Rom.h`, `Globals.h`) -/

/-- Table `gColors` of `Globals.h`. -/
def gColors (i : Nat) : Nat :=
  match i with
  | 0 => 0x9BBC0FFF
  | 1 => 0x8BAC0FFF
  | 2 => 0x306230FF
  | _ => 0x0F380FFF

/-- A `Graphics::Tile`: the eight decoded rows. -/
structure Tile where
  rows : List Nat

/-- A `Graphics::Sprite`. -/
structure Sprite where
  _y : Nat
  _x : Nat
  id : Nat
  priority : Nat
  flipY : Bool
  flipX : Bool
  palette : Nat

/-- A `Color[4]` palette array. -/
structure Palette where
  c0 : Nat
  c1 : Nat
  c2 : Nat
  c3 : Nat

/-- The members of `Core::PPU`. -/
structure PPU where
  LCDC : Nat
  STAT : Nat
  SCY : Nat
  SCX : Nat
  LY : Nat
  LYC : Nat
  BGPalette : Palette
  OBJ0Palette : Palette
  OBJ1Palette : Palette
  WY : Nat
  WX : Nat
  back_buffer : List Nat
  BGTileset : List Tile
  OBJTileset : List Tile
  ScanlineSprites : List Sprite
  width : Int
  height : Int
  frameCycles : Int

/-- The members of `Core::Rom` that the core reads. -/
structure Rom where
  bytes : List Nat
  CartType : Nat
  RomSize : Nat

/-- The members of `GameBoy::Options`. -/
structure Options where
  debug : Bool
  scale : Int
  force_mbc : Int
  skip_bootrom : Bool
  framelimiter_hack : Bool

/-- The members of `Core::GameBoy`, with the bank controller owned by its
`MemoryBus`.  `uninit_data` stands for the indeterminate value of the
uninitialised local `u8 data` of `MemoryBus::Read8`, which is what a read of an
I/O address without a `case` in `TryIORead` returns. -/
structure GameBoy where
  P1 : Nat
  Keys : Nat
  TIMA : Nat
  TMA : Nat
  TAC : Nat
  options : Options
  processor : Processor
  ppu : PPU
  game_rom : Rom
  mbc : MBC
  InBootROM : Bool
  Stopped : Bool
  framelimiter : Int
  SpeedEnabled : Bool
  uninit_data : Nat

/-! ## The memory bus (`MemoryBus.cpp`) -/

/-- Source `CheckBounds8`. -/
def CheckBounds8 (address : Nat) : Bool :=
  if (address ≥ 0xE000 ∧ address ≤ 0xFDFF) ∨ (address ≥ 0xFEA0 ∧ address ≤ 0xFEFF) then false
  else true

/-- Source `CheckBounds16` (`address+1` is an `int` and does not wrap). -/
def CheckBounds16 (address : Nat) : Bool :=
  if (address ≥ 0xE000 ∧ address ≤ 0xFDFF) ∨
     (address + 1 ≥ 0xE000 ∧ address + 1 ≤ 0xFDFF) ∨
     (address ≥ 0xFEA0 ∧ address ≤ 0xFEFF) ∨
     (address + 1 ≥ 0xFEA0 ∧ address + 1 ≤ 0xFEFF) then false
  else true

/-- The palette that the cases `0x47`, `0x48`, `0x49` of `TryIOWrite` store. -/
def decodePalette (data : Nat) : Palette :=
  { c0 := gColors ((data &&& 0b00000011) >>> 0)
    c1 := gColors ((data &&& 0b00001100) >>> 2)
    c2 := gColors ((data &&& 0b00110000) >>> 4)
    c3 := gColors ((data &&& 0b11000000) >>> 6) }

/-- Source `MemoryBus::TryIORead`; the result is `none` when it returns `false`,
and `retval` otherwise (left as it was when no `case` matches). -/
def TryIORead (gb : GameBoy) (address : Nat) (retval : Nat) : Option Nat :=
  if (address ≥ 0xFF00 ∧ address < 0xFF80) ∨ address = 0xFFFF then
    match address &&& 0x00FF with
    | 0x00 => some (gb.P1 ||| 0xC0)
    | 0x0F => some gb.processor.IF
    | 0x40 => some gb.ppu.LCDC
    | 0x41 => some gb.ppu.STAT
    | 0x42 => some gb.ppu.SCY
    | 0x43 => some gb.ppu.SCX
    | 0x44 => some gb.ppu.LY
    | 0x45 => some gb.ppu.LYC
    | 0x4A => some gb.ppu.WY
    | 0x4B => some gb.ppu.WX
    | 0xFF => some gb.processor.IE
    | _ => some retval
  else none

/-- Source `MemoryBus::Read8`. -/
def Read8 (gb : GameBoy) (address : Nat) : Except Fault Nat :=
  if !CheckBounds8 address then .ok 0xFF
  else
    match TryIORead gb address gb.uninit_data with
    | some data => .ok data
    | none => gb.mbc.Read8 address

/-- Source `MemoryBus::Read16`. -/
def Read16 (gb : GameBoy) (address : Nat) : Except Fault Nat :=
  if !CheckBounds16 address then .ok 0xFFFF
  else gb.mbc.Read16 address

/-- Source `MemoryBus::Write16`. -/
def Write16 (gb : GameBoy) (address data : Nat) : Except Fault GameBoy :=
  if !CheckBounds16 address then .ok gb
  else do
    let m ← gb.mbc.Write16 address data
    pure { gb with mbc := m }

/-- Source `MemoryBus::WriteBytes`. -/
def WriteBytes (gb : GameBoy) (src : Nat → Nat) (destination size : Nat) : Except Fault GameBoy := do
  let m ← gb.mbc.WriteBytes src destination size
  pure { gb with mbc := m }

/-- Source `MemoryBus::ReadBytes`. -/
def ReadBytes (gb : GameBoy) (src size : Nat) : Except Fault (List Nat) :=
  gb.mbc.ReadBytes src size

/-- Source `Processor::StartDMATransfer`, over the `Write8` it calls back into. -/
def StartDMATransfer (write8 : GameBoy → Nat → Nat → Except Fault GameBoy)
    (gb : GameBoy) (addrH : Nat) : Except Fault GameBoy :=
  let address := (addrH <<< 8) % 65536
  let totalBytes := 40 * 4
  (List.range totalBytes).foldlM
    (fun gb i => do
      let v ← Read8 gb ((address + i) % 65536)
      write8 gb (0xFE00 + i) v)
    gb

/-- Source `MemoryBus::TryIOWrite`, over the `Write8` that the DMA transfer calls
back into; the Boolean is the value returned. -/
def TryIOWrite (write8 : GameBoy → Nat → Nat → Except Fault GameBoy)
    (gb : GameBoy) (address data : Nat) : Except Fault (Bool × GameBoy) :=
  if (address ≥ 0xFF00 ∧ address < 0xFF80) ∨ address = 0xFFFF then
    match address &&& 0x00FF with
    | 0x00 => .ok (true, { gb with P1 := (gb.P1 &&& 0x0F) ||| (data &&& 0x30) })
    | 0x0F => .ok (true, { gb with processor := { gb.processor with IF := data } })
    | 0x40 => .ok (true, { gb with ppu := { gb.ppu with LCDC := data } })
    | 0x41 => .ok (true, { gb with ppu := { gb.ppu with STAT := data } })
    | 0x42 => .ok (true, { gb with ppu := { gb.ppu with SCY := data } })
    | 0x43 => .ok (true, { gb with ppu := { gb.ppu with SCX := data } })
    | 0x44 => .ok (true, { gb with ppu := { gb.ppu with LY := 0 } })
    | 0x45 => .ok (true, { gb with ppu := { gb.ppu with LYC := data } })
    | 0x46 => do
        let gb ← StartDMATransfer write8 gb data
        pure (true, gb)
    | 0x47 => .ok (true, { gb with ppu := { gb.ppu with BGPalette := decodePalette data } })
    | 0x48 => .ok (true, { gb with ppu := { gb.ppu with OBJ0Palette := decodePalette data } })
    | 0x49 => .ok (true, { gb with ppu := { gb.ppu with OBJ1Palette := decodePalette data } })
    | 0x4A => .ok (true, { gb with ppu := { gb.ppu with WY := data } })
    | 0x4B => .ok (true, { gb with ppu := { gb.ppu with WX := data } })
    | 0x50 =>
        if gb.game_rom.bytes.length < 0x100 then .error .undefined
        else do
          let gb ← WriteBytes gb (fun i => gb.game_rom.bytes.getD i 0) 0x0000 0x100
          pure (true, { gb with InBootROM := false })
    | 0xFF => .ok (true, { gb with processor := { gb.processor with IE := data } })
    | _ => .ok (true, gb)
  else .ok (false, gb)

/-- Source `MemoryBus::Write8`, with a bound on the nesting of the calls
`Write8 → TryIOWrite → StartDMATransfer → Write8`. -/
def Write8F : Nat → GameBoy → Nat → Nat → Except Fault GameBoy
  | 0, _, _, _ => .error .fuel
  | n + 1, gb, address, data =>
    if !CheckBounds8 address then .ok gb
    else do
      let (handled, gb) ← TryIOWrite (Write8F n) gb address data
      if handled then pure gb
      else do
        let m ← gb.mbc.Write8 address data
        pure { gb with mbc := m }

/-- Source `MemoryBus::Write8`.  The writes of a DMA transfer go to `0xFE00 + i`,
which is no I/O address, so the calls nest twice at most. -/
def Write8 (gb : GameBoy) (address data : Nat) : Except Fault GameBoy :=
  Write8F 2 gb address data

/-! ## Instruction execution (`Processor.cpp`, `Opcodes.cpp`) -/

/-- A computation on the machine: from a machine state it faults, or gives a
value and the next machine state. -/
def Exec (α : Type) : Type := GameBoy → Except Fault (α × GameBoy)

namespace Exec

/-- Return a value, leaving the state as it is. -/
protected def pure {α : Type} (a : α) : Exec α := fun gb => .ok (a, gb)

/-- Sequencing: run `m`, then `f` on its value in the state `m` left. -/
protected def bind {α β : Type} (m : Exec α) (f : α → Exec β) : Exec β :=
  fun gb =>
    match m gb with
    | .ok (a, gb') => f a gb'
    | .error e => .error e

instance : Monad Exec where
  pure := Exec.pure
  bind := Exec.bind

end Exec

/-- Update the processor registers. -/
def cpu (f : Processor → Processor) : Exec Unit :=
  fun gb => .ok ((), { gb with processor := f gb.processor })

/-- Value of an 8-bit register. -/
def getR8 (r : R8) : Exec Nat := fun gb => .ok (gb.processor.r8 r, gb)

/-- Value of the `.word` of a 16-bit register. -/
def getR16 (r : R16) : Exec Nat := fun gb => .ok (gb.processor.r16 r, gb)

/-- Value of an interrupt register (`IE`, `IF`). -/
def getPort (f : Processor → Nat) : Exec Nat := fun gb => .ok (f gb.processor, gb)

/-- Value of a flag test such as `Zero()`, or of `IME`. -/
def getFlag (f : Processor → Bool) : Exec Bool := fun gb => .ok (f gb.processor, gb)

/-- Call `memory_bus->Read8(address)`. -/
def read8 (address : Nat) : Exec Nat :=
  fun gb =>
    match Read8 gb address with
    | .ok v => .ok (v, gb)
    | .error e => .error e

/-- Call `memory_bus->Read16(address)`. -/
def read16 (address : Nat) : Exec Nat :=
  fun gb =>
    match Read16 gb address with
    | .ok v => .ok (v, gb)
    | .error e => .error e

/-- Call `memory_bus->Write8(address, data)`. -/
def write8 (address data : Nat) : Exec Unit :=
  fun gb =>
    match Write8 gb address data with
    | .ok gb' => .ok ((), gb')
    | .error e => .error e

/-- Call `memory_bus->Write16(address, data)`. -/
def write16 (address data : Nat) : Exec Unit :=
  fun gb =>
    match Write16 gb address data with
    | .ok gb' => .ok ((), gb')
    | .error e => .error e

/-- Call `gameboy->Stop()`. -/
def stop : Exec Unit := fun gb => .ok ((), { gb with Stopped := true })

/-- A `switch` statement over constant `case` labels: the body of the first row
whose label equals `x`, and `default` when there is none. -/
def switchOn {α : Type} (default : α) : List (Nat × α) → Nat → α
  | [], _ => default
  | (label, body) :: rest, x => if x = label then body else switchOn default rest x

/-- An entry of the tables `OPCODE_LOOKUP` and `CB_OPCODE_LOOKUP` (declared in
`Opcodes.h`): the two cycle counts that `ExecuteNext` reads. -/
structure Opcode where
  cycles : Int
  cycles_branch : Int

namespace Processor

/-- Source `Processor::GetOperand8`: `memory_bus->Read8(reg_PC.word++)`. -/
def GetOperand8 : Exec Nat := do
  let pc ← getR16 .reg_PC
  cpu (·.setR16 .reg_PC ((pc + 1) % 65536))
  read8 pc

/-- Source `Processor::GetOperand16`. -/
def GetOperand16 : Exec Nat := do
  let operand ← read16 (← getR16 .reg_PC)
  cpu (fun p => p.setR16 .reg_PC ((p.reg_PC + 2) % 65536))
  pure operand

/-- Source `Processor::ldAt(u16, u8)`. -/
def ldAt (addr value : Nat) : Exec Unit := write8 addr value

/-- Source `Processor::ldAt(u16, u16)`. -/
def ldAt16 (addr value : Nat) : Exec Unit := write16 addr value

/-- Source `Processor::incAt`. -/
def incAt (addr : Nat) : Exec Unit := do
  let value ← read8 addr
  cpu (·.SetSubtract false)
  cpu (·.SetHalfCarry ((value &&& 0x0F) == 0x0F))
  let value := (value + 1) % 256
  write8 addr value
  cpu (·.SetZero (value == 0x00))

/-- Source `Processor::decAt`. -/
def decAt (addr : Nat) : Exec Unit := do
  let value ← read8 addr
  cpu (·.SetSubtract true)
  cpu (·.SetHalfCarry ((value &&& 0x0F) == 0x00))
  let value := (value + 255) % 256
  write8 addr value
  cpu (·.SetZero (value == 0x00))

/-- Source `Processor::push`. -/
def push (value : Nat) : Exec Unit := do
  cpu (fun p => p.setR16 .reg_SP ((p.reg_SP + 65534) % 65536))
  write16 (← getR16 .reg_SP) value

/-- Source `Processor::pop`. -/
def pop (reg16 : R16) : Exec Unit := do
  let w ← read16 (← getR16 .reg_SP)
  cpu (·.setR16 reg16 w)
  cpu (fun p => p.setR16 .reg_SP ((p.reg_SP + 2) % 65536))

/-- Source `Processor::call`. -/
def call (addr : Nat) : Exec Unit := do
  push (← getR16 .reg_PC)
  cpu (·.setR16 .reg_PC addr)

/-- Source `Processor::ret`. -/
def ret : Exec Unit := pop .reg_PC

/-- Source `Processor::rlcAt`. -/
def rlcAt (addr : Nat) (zero : Bool) : Exec Unit := do
  let value ← read8 addr
  let newCarry := toBool (value &&& 0x80)
  let value := (value <<< 1) % 256
  let value := value ||| newCarry.toNat
  cpu (·.SetCarry newCarry)
  cpu (·.SetSubtract false)
  cpu (·.SetHalfCarry false)
  cpu (·.SetZero (if zero then value == 0x00 else false))
  write8 addr value

/-- Source `Processor::rlAt`. -/
def rlAt (addr : Nat) (zero : Bool) : Exec Unit := do
  let value ← read8 addr
  let newCarry := toBool (value &&& 0x80)
  let value := (value <<< 1) % 256
  let value := value ||| (← getFlag Processor.Carry).toNat
  cpu (·.SetCarry newCarry)
  cpu (·.SetSubtract false)
  cpu (·.SetHalfCarry false)
  cpu (·.SetZero (if zero then value == 0x00 else false))
  write8 addr value

/-- Source `Processor::rrcAt`. -/
def rrcAt (addr : Nat) (zero : Bool) : Exec Unit := do
  let value ← read8 addr
  let newCarry := toBool (value &&& 0x01)
  let value := value >>> 1
  let value := (value ||| (newCarry.toNat <<< 7)) % 256
  cpu (·.SetCarry newCarry)
  cpu (·.SetSubtract false)
  cpu (·.SetHalfCarry false)
  cpu (·.SetZero (if zero then value == 0x00 else false))
  write8 addr value

/-- Source `Processor::rrAt`. -/
def rrAt (addr : Nat) (zero : Bool) : Exec Unit := do
  let value ← read8 addr
  let newCarry := toBool (value &&& 0x01)
  let value := value >>> 1
  let value := (value ||| ((← getFlag Processor.Carry).toNat <<< 7)) % 256
  cpu (·.SetCarry newCarry)
  cpu (·.SetSubtract false)
  cpu (·.SetHalfCarry false)
  cpu (·.SetZero (if zero then value == 0x00 else false))
  write8 addr value

/-- Source `Processor::slaAt`. -/
def slaAt (addr : Nat) : Exec Unit := do
  let value ← read8 addr
  cpu (·.SetCarry (toBool (value &&& 0x80)))
  let value := (value <<< 1) % 256
  cpu (·.SetSubtract false)
  cpu (·.SetHalfCarry false)
  cpu (·.SetZero (value == 0x00))
  write8 addr value

/-- Source `Processor::srlAt`. -/
def srlAt (addr : Nat) : Exec Unit := do
  let value ← read8 addr
  cpu (·.SetCarry (toBool (value &&& 0x01)))
  let value := value >>> 1
  cpu (·.SetSubtract false)
  cpu (·.SetHalfCarry false)
  cpu (·.SetZero (value == 0x00))
  write8 addr value

/-- Source `Processor::sraAt`. -/
def sraAt (addr : Nat) : Exec Unit := do
  let value ← read8 addr
  cpu (·.SetCarry (toBool (value &&& 0x01)))
  let value := value >>> 1
  let value := (value ||| ((value &&& 0x40) <<< 1)) % 256
  cpu (·.SetSubtract false)
  cpu (·.SetHalfCarry false)
  cpu (·.SetZero (value == 0x00))
  write8 addr value

/-- Source `Processor::swapAt`. -/
def swapAt (addr : Nat) : Exec Unit := do
  let value ← read8 addr
  let value := (((value &&& 0x0F) <<< 4) ||| ((value &&& 0xF0) >>> 4)) % 256
  cpu (·.SetSubtract false)
  cpu (·.SetHalfCarry false)
  cpu (·.SetCarry false)
  cpu (·.SetZero (value == 0))
  write8 addr value

/-- Source `Processor::resAt`. -/
def resAt (addr bit : Nat) : Exec Unit := do
  let value ← read8 addr
  write8 addr (value &&& (0xFF ^^^ ((0x1 <<< bit) % 256)))

/-- Source `Processor::setAt`. -/
def setAt (addr bit : Nat) : Exec Unit := do
  let value ← read8 addr
  write8 addr ((value ||| (0x1 <<< bit)) % 256)

set_option maxRecDepth 8192 in
/-- The `case` rows of the `switch(opcode)` in `Processor::ExecuteCBOpcode`. -/
def ExecuteCBOpcode_cases : List (Nat × Exec Unit) :=
  (0x00, do cpu (·.rlc .reg_B true); pure ()) ::
  (0x01, do cpu (·.rlc .reg_C true); pure ()) ::
  (0x02, do cpu (·.rlc .reg_D true); pure ()) ::
  (0x03, do cpu (·.rlc .reg_E true); pure ()) ::
  (0x04, do cpu (·.rlc .reg_H true); pure ()) ::
  (0x05, do cpu (·.rlc .reg_L true); pure ()) ::
  (0x06, do rlcAt (← getR16 .reg_HL) true; pure ()) ::
  (0x07, do cpu (·.rlc .reg_A true); pure ()) ::
  (0x10, do cpu (·.rl .reg_B true); pure ()) ::
  (0x11, do cpu (·.rl .reg_C true); pure ()) ::
  (0x12, do cpu (·.rl .reg_D true); pure ()) ::
  (0x13, do cpu (·.rl .reg_E true); pure ()) ::
  (0x14, do cpu (·.rl .reg_H true); pure ()) ::
  (0x15, do cpu (·.rl .reg_L true); pure ()) ::
  (0x16, do rlAt (← getR16 .reg_HL) true; pure ()) ::
  (0x17, do cpu (·.rl .reg_A true); pure ()) ::
  (0x08, do cpu (·.rrc .reg_B true); pure ()) ::
  (0x09, do cpu (·.rrc .reg_C true); pure ()) ::
  (0x0A, do cpu (·.rrc .reg_D true); pure ()) ::
  (0x0B, do cpu (·.rrc .reg_E true); pure ()) ::
  (0x0C, do cpu (·.rrc .reg_H true); pure ()) ::
  (0x0D, do cpu (·.rrc .reg_L true); pure ()) ::
  (0x0E, do rrcAt (← getR16 .reg_HL) true; pure ()) ::
  (0x0F, do cpu (·.rrc .reg_A true); pure ()) ::
  (0x18, do cpu (·.rr .reg_B true); pure ()) ::
  (0x19, do cpu (·.rr .reg_C true); pure ()) ::
  (0x1A, do cpu (·.rr .reg_D true); pure ()) ::
  (0x1B, do cpu (·.rr .reg_E true); pure ()) ::
  (0x1C, do cpu (·.rr .reg_H true); pure ()) ::
  (0x1D, do cpu (·.rr .reg_L true); pure ()) ::
  (0x1E, do rrAt (← getR16 .reg_HL) true; pure ()) ::
  (0x1F, do cpu (·.rr .reg_A true); pure ()) ::
  (0x20, do cpu (·.sla .reg_B); pure ()) ::
  (0x21, do cpu (·.sla .reg_C); pure ()) ::
  (0x22, do cpu (·.sla .reg_D); pure ()) ::
  (0x23, do cpu (·.sla .reg_E); pure ()) ::
  (0x24, do cpu (·.sla .reg_H); pure ()) ::
  (0x25, do cpu (·.sla .reg_L); pure ()) ::
  (0x26, do slaAt (← getR16 .reg_HL); pure ()) ::
  (0x27, do cpu (·.sla .reg_A); pure ()) ::
  (0x28, do cpu (·.sra .reg_B); pure ()) ::
  (0x29, do cpu (·.sra .reg_C); pure ()) ::
  (0x2A, do cpu (·.sra .reg_D); pure ()) ::
  (0x2B, do cpu (·.sra .reg_E); pure ()) ::
  (0x2C, do cpu (·.sra .reg_H); pure ()) ::
  (0x2D, do cpu (·.sra .reg_L); pure ()) ::
  (0x2E, do sraAt (← getR16 .reg_HL); pure ()) ::
  (0x2F, do cpu (·.sra .reg_A); pure ()) ::
  (0x30, do cpu (·.swap .reg_B); pure ()) ::
  (0x31, do cpu (·.swap .reg_C); pure ()) ::
  (0x32, do cpu (·.swap .reg_D); pure ()) ::
  (0x33, do cpu (·.swap .reg_E); pure ()) ::
  (0x34, do cpu (·.swap .reg_H); pure ()) ::
  (0x35, do cpu (·.swap .reg_L); pure ()) ::
  (0x36, do swapAt (← getR16 .reg_HL); pure ()) ::
  (0x37, do cpu (·.swap .reg_A); pure ()) ::
  (0x38, do cpu (·.srl .reg_B); pure ()) ::
  (0x39, do cpu (·.srl .reg_C); pure ()) ::
  (0x3A, do cpu (·.srl .reg_D); pure ()) ::
  (0x3B, do cpu (·.srl .reg_E); pure ()) ::
  (0x3C, do cpu (·.srl .reg_H); pure ()) ::
  (0x3D, do cpu (·.srl .reg_L); pure ()) ::
  (0x3E, do srlAt (← getR16 .reg_HL); pure ()) ::
  (0x3F, do cpu (·.srl .reg_A); pure ()) ::
  (0x40, do let v ← getR8 .reg_B; cpu (·.bit v 0); pure ()) ::
  (0x41, do let v ← getR8 .reg_C; cpu (·.bit v 0); pure ()) ::
  (0x42, do let v ← getR8 .reg_D; cpu (·.bit v 0); pure ()) ::
  (0x43, do let v ← getR8 .reg_E; cpu (·.bit v 0); pure ()) ::
  (0x44, do let v ← getR8 .reg_H; cpu (·.bit v 0); pure ()) ::
  (0x45, do let v ← getR8 .reg_L; cpu (·.bit v 0); pure ()) ::
  (0x46, do let v ← read8 (← getR16 .reg_HL); cpu (·.bit v 0); pure ()) ::
  (0x47, do let v ← getR8 .reg_A; cpu (·.bit v 0); pure ()) ::
  (0x48, do let v ← getR8 .reg_B; cpu (·.bit v 1); pure ()) ::
  (0x49, do let v ← getR8 .reg_C; cpu (·.bit v 1); pure ()) ::
  (0x4A, do let v ← getR8 .reg_D; cpu (·.bit v 1); pure ()) ::
  (0x4B, do let v ← getR8 .reg_E; cpu (·.bit v 1); pure ()) ::
  (0x4C, do let v ← getR8 .reg_H; cpu (·.bit v 1); pure ()) ::
  (0x4D, do let v ← getR8 .reg_L; cpu (·.bit v 1); pure ()) ::
  (0x4E, do let v ← read8 (← getR16 .reg_HL); cpu (·.bit v 1); pure ()) ::
  (0x4F, do let v ← getR8 .reg_A; cpu (·.bit v 1); pure ()) ::
  (0x50, do let v ← getR8 .reg_B; cpu (·.bit v 2); pure ()) ::
  (0x51, do let v ← getR8 .reg_C; cpu (·.bit v 2); pure ()) ::
  (0x52, do let v ← getR8 .reg_D; cpu (·.bit v 2); pure ()) ::
  (0x53, do let v ← getR8 .reg_E; cpu (·.bit v 2); pure ()) ::
  (0x54, do let v ← getR8 .reg_H; cpu (·.bit v 2); pure ()) ::
  (0x55, do let v ← getR8 .reg_L; cpu (·.bit v 2); pure ()) ::
  (0x56, do let v ← read8 (← getR16 .reg_HL); cpu (·.bit v 2); pure ()) ::
  (0x57, do let v ← getR8 .reg_A; cpu (·.bit v 2); pure ()) ::
  (0x58, do let v ← getR8 .reg_B; cpu (·.bit v 3); pure ()) ::
  (0x59, do let v ← getR8 .reg_C; cpu (·.bit v 3); pure ()) ::
  (0x5A, do let v ← getR8 .reg_D; cpu (·.bit v 3); pure ()) ::
  (0x5B, do let v ← getR8 .reg_E; cpu (·.bit v 3); pure ()) ::
  (0x5C, do let v ← getR8 .reg_H; cpu (·.bit v 3); pure ()) ::
  (0x5D, do let v ← getR8 .reg_L; cpu (·.bit v 3); pure ()) ::
  (0x5E, do let v ← read8 (← getR16 .reg_HL); cpu (·.bit v 3); pure ()) ::
  (0x5F, do let v ← getR8 .reg_A; cpu (·.bit v 3); pure ()) ::
  (0x60, do let v ← getR8 .reg_B; cpu (·.bit v 4); pure ()) ::
  (0x61, do let v ← getR8 .reg_C; cpu (·.bit v 4); pure ()) ::
  (0x62, do let v ← getR8 .reg_D; cpu (·.bit v 4); pure ()) ::
  (0x63, do let v ← getR8 .reg_E; cpu (·.bit v 4); pure ()) ::
  (0x64, do let v ← getR8 .reg_H; cpu (·.bit v 4); pure ()) ::
  (0x65, do let v ← getR8 .reg_L; cpu (·.bit v 4); pure ()) ::
  (0x66, do let v ← read8 (← getR16 .reg_HL); cpu (·.bit v 4); pure ()) ::
  (0x67, do let v ← getR8 .reg_A; cpu (·.bit v 4); pure ()) ::
  (0x68, do let v ← getR8 .reg_B; cpu (·.bit v 5); pure ()) ::
  (0x69, do let v ← getR8 .reg_C; cpu (·.bit v 5); pure ()) ::
  (0x6A, do let v ← getR8 .reg_D; cpu (·.bit v 5); pure ()) ::
  (0x6B, do let v ← getR8 .reg_E; cpu (·.bit v 5); pure ()) ::
  (0x6C, do let v ← getR8 .reg_H; cpu (·.bit v 5); pure ()) ::
  (0x6D, do let v ← getR8 .reg_L; cpu (·.bit v 5); pure ()) ::
  (0x6E, do let v ← read8 (← getR16 .reg_HL); cpu (·.bit v 5); pure ()) ::
  (0x6F, do let v ← getR8 .reg_A; cpu (·.bit v 5); pure ()) ::
  (0x70, do let v ← getR8 .reg_B; cpu (·.bit v 6); pure ()) ::
  (0x71, do let v ← getR8 .reg_C; cpu (·.bit v 6); pure ()) ::
  (0x72, do let v ← getR8 .reg_D; cpu (·.bit v 6); pure ()) ::
  (0x73, do let v ← getR8 .reg_E; cpu (·.bit v 6); pure ()) ::
  (0x74, do let v ← getR8 .reg_H; cpu (·.bit v 6); pure ()) ::
  (0x75, do let v ← getR8 .reg_L; cpu (·.bit v 6); pure ()) ::
  (0x76, do let v ← read8 (← getR16 .reg_HL); cpu (·.bit v 6); pure ()) ::
  (0x77, do let v ← getR8 .reg_A; cpu (·.bit v 6); pure ()) ::
  (0x78, do let v ← getR8 .reg_B; cpu (·.bit v 7); pure ()) ::
  (0x79, do let v ← getR8 .reg_C; cpu (·.bit v 7); pure ()) ::
  (0x7A, do let v ← getR8 .reg_D; cpu (·.bit v 7); pure ()) ::
  (0x7B, do let v ← getR8 .reg_E; cpu (·.bit v 7); pure ()) ::
  (0x7C, do let v ← getR8 .reg_H; cpu (·.bit v 7); pure ()) ::
  (0x7D, do let v ← getR8 .reg_L; cpu (·.bit v 7); pure ()) ::
  (0x7E, do let v ← read8 (← getR16 .reg_HL); cpu (·.bit v 7); pure ()) ::
  (0x7F, do let v ← getR8 .reg_A; cpu (·.bit v 7); pure ()) ::
  (0x80, do cpu (·.res .reg_B 0); pure ()) ::
  (0x81, do cpu (·.res .reg_C 0); pure ()) ::
  (0x82, do cpu (·.res .reg_D 0); pure ()) ::
  (0x83, do cpu (·.res .reg_E 0); pure ()) ::
  (0x84, do cpu (·.res .reg_H 0); pure ()) ::
  (0x85, do cpu (·.res .reg_L 0); pure ()) ::
  (0x86, do resAt (← getR16 .reg_HL) 0; pure ()) ::
  (0x87, do cpu (·.res .reg_A 0); pure ()) ::
  (0x88, do cpu (·.res .reg_B 1); pure ()) ::
  (0x89, do cpu (·.res .reg_C 1); pure ()) ::
  (0x8A, do cpu (·.res .reg_D 1); pure ()) ::
  (0x8B, do cpu (·.res .reg_E 1); pure ()) ::
  (0x8C, do cpu (·.res .reg_H 1); pure ()) ::
  (0x8D, do cpu (·.res .reg_L 1); pure ()) ::
  (0x8E, do resAt (← getR16 .reg_HL) 1; pure ()) ::
  (0x8F, do cpu (·.res .reg_A 1); pure ()) ::
  (0x90, do cpu (·.res .reg_B 2); pure ()) ::
  (0x91, do cpu (·.res .reg_C 2); pure ()) ::
  (0x92, do cpu (·.res .reg_D 2); pure ()) ::
  (0x93, do cpu (·.res .reg_E 2); pure ()) ::
  (0x94, do cpu (·.res .reg_H 2); pure ()) ::
  (0x95, do cpu (·.res .reg_L 2); pure ()) ::
  (0x96, do resAt (← getR16 .reg_HL) 2; pure ()) ::
  (0x97, do cpu (·.res .reg_A 2); pure ()) ::
  (0x98, do cpu (·.res .reg_B 3); pure ()) ::
  (0x99, do cpu (·.res .reg_C 3); pure ()) ::
  (0x9A, do cpu (·.res .reg_D 3); pure ()) ::
  (0x9B, do cpu (·.res .reg_E 3); pure ()) ::
  (0x9C, do cpu (·.res .reg_H 3); pure ()) ::
  (0x9D, do cpu (·.res .reg_L 3); pure ()) ::
  (0x9E, do resAt (← getR16 .reg_HL) 3; pure ()) ::
  (0x9F, do cpu (·.res .reg_A 3); pure ()) ::
  (0xA0, do cpu (·.res .reg_B 4); pure ()) ::
  (0xA1, do cpu (·.res .reg_C 4); pure ()) ::
  (0xA2, do cpu (·.res .reg_D 4); pure ()) ::
  (0xA3, do cpu (·.res .reg_E 4); pure ()) ::
  (0xA4, do cpu (·.res .reg_H 4); pure ()) ::
  (0xA5, do cpu (·.res .reg_L 4); pure ()) ::
  (0xA6, do resAt (← getR16 .reg_HL) 4; pure ()) ::
  (0xA7, do cpu (·.res .reg_A 4); pure ()) ::
  (0xA8, do cpu (·.res .reg_B 5); pure ()) ::
  (0xA9, do cpu (·.res .reg_C 5); pure ()) ::
  (0xAA, do cpu (·.res .reg_D 5); pure ()) ::
  (0xAB, do cpu (·.res .reg_E 5); pure ()) ::
  (0xAC, do cpu (·.res .reg_H 5); pure ()) ::
  (0xAD, do cpu (·.res .reg_L 5); pure ()) ::
  (0xAE, do resAt (← getR16 .reg_HL) 5; pure ()) ::
  (0xAF, do cpu (·.res .reg_A 5); pure ()) ::
  (0xB0, do cpu (·.res .reg_B 6); pure ()) ::
  (0xB1, do cpu (·.res .reg_C 6); pure ()) ::
  (0xB2, do cpu (·.res .reg_D 6); pure ()) ::
  (0xB3, do cpu (·.res .reg_E 6); pure ()) ::
  (0xB4, do cpu (·.res .reg_H 6); pure ()) ::
  (0xB5, do cpu (·.res .reg_L 6); pure ()) ::
  (0xB6, do resAt (← getR16 .reg_HL) 6; pure ()) ::
  (0xB7, do cpu (·.res .reg_A 6); pure ()) ::
  (0xB8, do cpu (·.res .reg_B 7); pure ()) ::
  (0xB9, do cpu (·.res .reg_C 7); pure ()) ::
  (0xBA, do cpu (·.res .reg_D 7); pure ()) ::
  (0xBB, do cpu (·.res .reg_E 7); pure ()) ::
  (0xBC, do cpu (·.res .reg_H 7); pure ()) ::
  (0xBD, do cpu (·.res .reg_L 7); pure ()) ::
  (0xBE, do resAt (← getR16 .reg_HL) 7; pure ()) ::
  (0xBF, do cpu (·.res .reg_A 7); pure ()) ::
  (0xC0, do cpu (·.set .reg_B 0); pure ()) ::
  (0xC1, do cpu (·.set .reg_C 0); pure ()) ::
  (0xC2, do cpu (·.set .reg_D 0); pure ()) ::
  (0xC3, do cpu (·.set .reg_E 0); pure ()) ::
  (0xC4, do cpu (·.set .reg_H 0); pure ()) ::
  (0xC5, do cpu (·.set .reg_L 0); pure ()) ::
  (0xC6, do setAt (← getR16 .reg_HL) 0; pure ()) ::
  (0xC7, do cpu (·.set .reg_A 0); pure ()) ::
  (0xC8, do cpu (·.set .reg_B 1); pure ()) ::
  (0xC9, do cpu (·.set .reg_C 1); pure ()) ::
  (0xCA, do cpu (·.set .reg_D 1); pure ()) ::
  (0xCB, do cpu (·.set .reg_E 1); pure ()) ::
  (0xCC, do cpu (·.set .reg_H 1); pure ()) ::
  (0xCD, do cpu (·.set .reg_L 1); pure ()) ::
  (0xCE, do setAt (← getR16 .reg_HL) 1; pure ()) ::
  (0xCF, do cpu (·.set .reg_A 1); pure ()) ::
  (0xD0, do cpu (·.set .reg_B 2); pure ()) ::
  (0xD1, do cpu (·.set .reg_C 2); pure ()) ::
  (0xD2, do cpu (·.set .reg_D 2); pure ()) ::
  (0xD3, do cpu (·.set .reg_E 2); pure ()) ::
  (0xD4, do cpu (·.set .reg_H 2); pure ()) ::
  (0xD5, do cpu (·.set .reg_L 2); pure ()) ::
  (0xD6, do setAt (← getR16 .reg_HL) 2; pure ()) ::
  (0xD7, do cpu (·.set .reg_A 2); pure ()) ::
  (0xD8, do cpu (·.set .reg_B 3); pure ()) ::
  (0xD9, do cpu (·.set .reg_C 3); pure ()) ::
  (0xDA, do cpu (·.set .reg_D 3); pure ()) ::
  (0xDB, do cpu (·.set .reg_E 3); pure ()) ::
  (0xDC, do cpu (·.set .reg_H 3); pure ()) ::
  (0xDD, do cpu (·.set .reg_L 3); pure ()) ::
  (0xDE, do setAt (← getR16 .reg_HL) 3; pure ()) ::
  (0xDF, do cpu (·.set .reg_A 3); pure ()) ::
  (0xE0, do cpu (·.set .reg_B 4); pure ()) ::
  (0xE1, do cpu (·.set .reg_C 4); pure ()) ::
  (0xE2, do cpu (·.set .reg_D 4); pure ()) ::
  (0xE3, do cpu (·.set .reg_E 4); pure ()) ::
  (0xE4, do cpu (·.set .reg_H 4); pure ()) ::
  (0xE5, do cpu (·.set .reg_L 4); pure ()) ::
  (0xE6, do setAt (← getR16 .reg_HL) 4; pure ()) ::
  (0xE7, do cpu (·.set .reg_A 4); pure ()) ::
  (0xE8, do cpu (·.set .reg_B 5); pure ()) ::
  (0xE9, do cpu (·.set .reg_C 5); pure ()) ::
  (0xEA, do cpu (·.set .reg_D 5); pure ()) ::
  (0xEB, do cpu (·.set .reg_E 5); pure ()) ::
  (0xEC, do cpu (·.set .reg_H 5); pure ()) ::
  (0xED, do cpu (·.set .reg_L 5); pure ()) ::
  (0xEE, do setAt (← getR16 .reg_HL) 5; pure ()) ::
  (0xEF, do cpu (·.set .reg_A 5); pure ()) ::
  (0xF0, do cpu (·.set .reg_B 6); pure ()) ::
  (0xF1, do cpu (·.set .reg_C 6); pure ()) ::
  (0xF2, do cpu (·.set .reg_D 6); pure ()) ::
  (0xF3, do cpu (·.set .reg_E 6); pure ()) ::
  (0xF4, do cpu (·.set .reg_H 6); pure ()) ::
  (0xF5, do cpu (·.set .reg_L 6); pure ()) ::
  (0xF6, do setAt (← getR16 .reg_HL) 6; pure ()) ::
  (0xF7, do cpu (·.set .reg_A 6); pure ()) ::
  (0xF8, do cpu (·.set .reg_B 7); pure ()) ::
  (0xF9, do cpu (·.set .reg_C 7); pure ()) ::
  (0xFA, do cpu (·.set .reg_D 7); pure ()) ::
  (0xFB, do cpu (·.set .reg_E 7); pure ()) ::
  (0xFC, do cpu (·.set .reg_H 7); pure ()) ::
  (0xFD, do cpu (·.set .reg_L 7); pure ()) ::
  (0xFE, do setAt (← getR16 .reg_HL) 7; pure ()) ::
  (0xFF, do cpu (·.set .reg_A 7); pure ()) ::
  []

/-- Source `Processor::ExecuteCBOpcode`; the value is the opcode it returns. -/
def ExecuteCBOpcode : Exec Nat := do
  let opcode ← GetOperand8
  switchOn (do stop; pure ()) ExecuteCBOpcode_cases opcode
  pure opcode

set_option maxRecDepth 8192 in
/-- The `case` rows of the `switch(opcode)` in `Processor::ExecuteNext`, but for
`case 0xCB`; the value of a row is `branch_taken`. -/
def ExecuteNext_cases : List (Nat × Exec Bool) :=
  (0x00, pure false) ::
  (0x10, pure false) ::
  (0x76, pure false) ::
  (0xF3, do cpu (fun p => { p with IME := false }); pure false) ::
  (0xFB, do cpu (fun p => { p with IME := true }); pure false) ::
  (0x06, do let v ← GetOperand8; cpu (·.ld .reg_B v); pure false) ::
  (0x0E, do let v ← GetOperand8; cpu (·.ld .reg_C v); pure false) ::
  (0x16, do let v ← GetOperand8; cpu (·.ld .reg_D v); pure false) ::
  (0x1E, do let v ← GetOperand8; cpu (·.ld .reg_E v); pure false) ::
  (0x26, do let v ← GetOperand8; cpu (·.ld .reg_H v); pure false) ::
  (0x2E, do let v ← GetOperand8; cpu (·.ld .reg_L v); pure false) ::
  (0x3E, do let v ← GetOperand8; cpu (·.ld .reg_A v); pure false) ::
  (0x0A, do let v ← read8 (← getR16 .reg_BC); cpu (·.ld .reg_A v); pure false) ::
  (0x1A, do let v ← read8 (← getR16 .reg_DE); cpu (·.ld .reg_A v); pure false) ::
  (0x2A, do
      let w ← getR16 .reg_HL
      cpu (·.setR16 .reg_HL ((w + 1) % 65536))
      let v ← read8 w
      cpu (·.ld .reg_A v)
      pure false) ::
  (0x3A, do
      let w ← getR16 .reg_HL
      cpu (·.setR16 .reg_HL ((w + 65535) % 65536))
      let v ← read8 w
      cpu (·.ld .reg_A v)
      pure false) ::
  (0x46, do let v ← read8 (← getR16 .reg_HL); cpu (·.ld .reg_B v); pure false) ::
  (0x4E, do let v ← read8 (← getR16 .reg_HL); cpu (·.ld .reg_C v); pure false) ::
  (0x56, do let v ← read8 (← getR16 .reg_HL); cpu (·.ld .reg_D v); pure false) ::
  (0x5E, do let v ← read8 (← getR16 .reg_HL); cpu (·.ld .reg_E v); pure false) ::
  (0x66, do let v ← read8 (← getR16 .reg_HL); cpu (·.ld .reg_H v); pure false) ::
  (0x6E, do let v ← read8 (← getR16 .reg_HL); cpu (·.ld .reg_L v); pure false) ::
  (0x7E, do let v ← read8 (← getR16 .reg_HL); cpu (·.ld .reg_A v); pure false) ::
  (0xF0, do let v ← read8 (0xFF00 + (← GetOperand8)); cpu (·.ld .reg_A v); pure false) ::
  (0xF2, do let v ← read8 (0xFF00 + (← getR8 .reg_C)); cpu (·.ld .reg_A v); pure false) ::
  (0xFA, do let v ← read8 (← GetOperand16); cpu (·.ld .reg_A v); pure false) ::
  (0x40, do let v ← getR8 .reg_B; cpu (·.ld .reg_B v); pure false) ::
  (0x41, do let v ← getR8 .reg_C; cpu (·.ld .reg_B v); pure false) ::
  (0x42, do let v ← getR8 .reg_D; cpu (·.ld .reg_B v); pure false) ::
  (0x43, do let v ← getR8 .reg_E; cpu (·.ld .reg_B v); pure false) ::
  (0x44, do let v ← getR8 .reg_H; cpu (·.ld .reg_B v); pure false) ::
  (0x45, do let v ← getR8 .reg_L; cpu (·.ld .reg_B v); pure false) ::
  (0x47, do let v ← getR8 .reg_A; cpu (·.ld .reg_B v); pure false) ::
  (0x48, do let v ← getR8 .reg_B; cpu (·.ld .reg_C v); pure false) ::
  (0x49, do let v ← getR8 .reg_C; cpu (·.ld .reg_C v); pure false) ::
  (0x4A, do let v ← getR8 .reg_D; cpu (·.ld .reg_C v); pure false) ::
  (0x4B, do let v ← getR8 .reg_E; cpu (·.ld .reg_C v); pure false) ::
  (0x4C, do let v ← getR8 .reg_H; cpu (·.ld .reg_C v); pure false) ::
  (0x4D, do let v ← getR8 .reg_L; cpu (·.ld .reg_C v); pure false) ::
  (0x4F, do let v ← getR8 .reg_A; cpu (·.ld .reg_C v); pure false) ::
  (0x50, do let v ← getR8 .reg_B; cpu (·.ld .reg_D v); pure false) ::
  (0x51, do let v ← getR8 .reg_C; cpu (·.ld .reg_D v); pure false) ::
  (0x52, do let v ← getR8 .reg_D; cpu (·.ld .reg_D v); pure false) ::
  (0x53, do let v ← getR8 .reg_E; cpu (·.ld .reg_D v); pure false) ::
  (0x54, do let v ← getR8 .reg_H; cpu (·.ld .reg_D v); pure false) ::
  (0x55, do let v ← getR8 .reg_L; cpu (·.ld .reg_D v); pure false) ::
  (0x57, do let v ← getR8 .reg_A; cpu (·.ld .reg_D v); pure false) ::
  (0x58, do let v ← getR8 .reg_B; cpu (·.ld .reg_E v); pure false) ::
  (0x59, do let v ← getR8 .reg_C; cpu (·.ld .reg_E v); pure false) ::
  (0x5A, do let v ← getR8 .reg_D; cpu (·.ld .reg_E v); pure false) ::
  (0x5B, do let v ← getR8 .reg_E; cpu (·.ld .reg_E v); pure false) ::
  (0x5C, do let v ← getR8 .reg_H; cpu (·.ld .reg_E v); pure false) ::
  (0x5D, do let v ← getR8 .reg_L; cpu (·.ld .reg_E v); pure false) ::
  (0x5F, do let v ← getR8 .reg_A; cpu (·.ld .reg_E v); pure false) ::
  (0x60, do let v ← getR8 .reg_B; cpu (·.ld .reg_H v); pure false) ::
  (0x61, do let v ← getR8 .reg_C; cpu (·.ld .reg_H v); pure false) ::
  (0x62, do let v ← getR8 .reg_D; cpu (·.ld .reg_H v); pure false) ::
  (0x63, do let v ← getR8 .reg_E; cpu (·.ld .reg_H v); pure false) ::
  (0x64, do let v ← getR8 .reg_H; cpu (·.ld .reg_H v); pure false) ::
  (0x65, do let v ← getR8 .reg_L; cpu (·.ld .reg_H v); pure false) ::
  (0x67, do let v ← getR8 .reg_A; cpu (·.ld .reg_H v); pure false) ::
  (0x68, do let v ← getR8 .reg_B; cpu (·.ld .reg_L v); pure false) ::
  (0x69, do let v ← getR8 .reg_C; cpu (·.ld .reg_L v); pure false) ::
  (0x6A, do let v ← getR8 .reg_D; cpu (·.ld .reg_L v); pure false) ::
  (0x6B, do let v ← getR8 .reg_E; cpu (·.ld .reg_L v); pure false) ::
  (0x6C, do let v ← getR8 .reg_H; cpu (·.ld .reg_L v); pure false) ::
  (0x6D, do let v ← getR8 .reg_L; cpu (·.ld .reg_L v); pure false) ::
  (0x6F, do let v ← getR8 .reg_A; cpu (·.ld .reg_L v); pure false) ::
  (0x78, do let v ← getR8 .reg_B; cpu (·.ld .reg_A v); pure false) ::
  (0x79, do let v ← getR8 .reg_C; cpu (·.ld .reg_A v); pure false) ::
  (0x7A, do let v ← getR8 .reg_D; cpu (·.ld .reg_A v); pure false) ::
  (0x7B, do let v ← getR8 .reg_E; cpu (·.ld .reg_A v); pure false) ::
  (0x7C, do let v ← getR8 .reg_H; cpu (·.ld .reg_A v); pure false) ::
  (0x7D, do let v ← getR8 .reg_L; cpu (·.ld .reg_A v); pure false) ::
  (0x7F, do let v ← getR8 .reg_A; cpu (·.ld .reg_A v); pure false) ::
  (0x01, do let v ← GetOperand16; cpu (·.ld16 .reg_BC v); pure false) ::
  (0x11, do let v ← GetOperand16; cpu (·.ld16 .reg_DE v); pure false) ::
  (0x21, do let v ← GetOperand16; cpu (·.ld16 .reg_HL v); pure false) ::
  (0x31, do let v ← GetOperand16; cpu (·.ld16 .reg_SP v); pure false) ::
  (0xF8, do let v := static_cast_s8 (← GetOperand8); cpu (·.ld_sp_plus .reg_HL v); pure false) ::
  (0xF9, do let v ← getR16 .reg_HL; cpu (·.ld16 .reg_SP v); pure false) ::
  (0x02, do ldAt (← getR16 .reg_BC) (← getR8 .reg_A); pure false) ::
  (0x12, do ldAt (← getR16 .reg_DE) (← getR8 .reg_A); pure false) ::
  (0x22, do
      let w ← getR16 .reg_HL
      cpu (·.setR16 .reg_HL ((w + 1) % 65536))
      ldAt w (← getR8 .reg_A)
      pure false) ::
  (0x32, do
      let w ← getR16 .reg_HL
      cpu (·.setR16 .reg_HL ((w + 65535) % 65536))
      ldAt w (← getR8 .reg_A)
      pure false) ::
  (0x36, do ldAt (← getR16 .reg_HL) (← GetOperand8); pure false) ::
  (0x70, do ldAt (← getR16 .reg_HL) (← getR8 .reg_B); pure false) ::
  (0x71, do ldAt (← getR16 .reg_HL) (← getR8 .reg_C); pure false) ::
  (0x72, do ldAt (← getR16 .reg_HL) (← getR8 .reg_D); pure false) ::
  (0x73, do ldAt (← getR16 .reg_HL) (← getR8 .reg_E); pure false) ::
  (0x74, do ldAt (← getR16 .reg_HL) (← getR8 .reg_H); pure false) ::
  (0x75, do ldAt (← getR16 .reg_HL) (← getR8 .reg_L); pure false) ::
  (0x77, do ldAt (← getR16 .reg_HL) (← getR8 .reg_A); pure false) ::
  (0xE0, do ldAt (0xFF00 + (← GetOperand8)) (← getR8 .reg_A); pure false) ::
  (0xE2, do ldAt (0xFF00 + (← getR8 .reg_C)) (← getR8 .reg_A); pure false) ::
  (0xEA, do ldAt (← GetOperand16) (← getR8 .reg_A); pure false) ::
  (0x08, do ldAt16 (← GetOperand16) (← getR16 .reg_SP); pure false) ::
  (0x04, do cpu (·.inc .reg_B); pure false) ::
  (0x0C, do cpu (·.inc .reg_C); pure false) ::
  (0x14, do cpu (·.inc .reg_D); pure false) ::
  (0x1C, do cpu (·.inc .reg_E); pure false) ::
  (0x24, do cpu (·.inc .reg_H); pure false) ::
  (0x2C, do cpu (·.inc .reg_L); pure false) ::
  (0x3C, do cpu (·.inc .reg_A); pure false) ::
  (0x03, do cpu (·.inc16 .reg_BC); pure false) ::
  (0x13, do cpu (·.inc16 .reg_DE); pure false) ::
  (0x23, do cpu (·.inc16 .reg_HL); pure false) ::
  (0x33, do cpu (·.inc16 .reg_SP); pure false) ::
  (0x34, do incAt (← getR16 .reg_HL); pure false) ::
  (0x05, do cpu (·.dec .reg_B); pure false) ::
  (0x0D, do cpu (·.dec .reg_C); pure false) ::
  (0x15, do cpu (·.dec .reg_D); pure false) ::
  (0x1D, do cpu (·.dec .reg_E); pure false) ::
  (0x25, do cpu (·.dec .reg_H); pure false) ::
  (0x2D, do cpu (·.dec .reg_L); pure false) ::
  (0x3D, do cpu (·.dec .reg_A); pure false) ::
  (0x0B, do cpu (·.dec16 .reg_BC); pure false) ::
  (0x1B, do cpu (·.dec16 .reg_DE); pure false) ::
  (0x2B, do cpu (·.dec16 .reg_HL); pure false) ::
  (0x3B, do cpu (·.dec16 .reg_SP); pure false) ::
  (0x35, do decAt (← getR16 .reg_HL); pure false) ::
  (0x80, do let v ← getR8 .reg_B; cpu (·.add .reg_A v); pure false) ::
  (0x81, do let v ← getR8 .reg_C; cpu (·.add .reg_A v); pure false) ::
  (0x82, do let v ← getR8 .reg_D; cpu (·.add .reg_A v); pure false) ::
  (0x83, do let v ← getR8 .reg_E; cpu (·.add .reg_A v); pure false) ::
  (0x84, do let v ← getR8 .reg_H; cpu (·.add .reg_A v); pure false) ::
  (0x85, do let v ← getR8 .reg_L; cpu (·.add .reg_A v); pure false) ::
  (0x86, do let v ← read8 (← getR16 .reg_HL); cpu (·.add .reg_A v); pure false) ::
  (0x87, do let v ← getR8 .reg_A; cpu (·.add .reg_A v); pure false) ::
  (0xC6, do let v ← GetOperand8; cpu (·.add .reg_A v); pure false) ::
  (0x09, do let v ← getR16 .reg_BC; cpu (·.add16 .reg_HL v); pure false) ::
  (0x19, do let v ← getR16 .reg_DE; cpu (·.add16 .reg_HL v); pure false) ::
  (0x29, do let v ← getR16 .reg_HL; cpu (·.add16 .reg_HL v); pure false) ::
  (0x39, do let v ← getR16 .reg_SP; cpu (·.add16 .reg_HL v); pure false) ::
  (0xE8, do let v := static_cast_s8 (← GetOperand8); cpu (·.add_s8 .reg_SP v); pure false) ::
  (0x88, do let v ← getR8 .reg_B; cpu (·.adc .reg_A v); pure false) ::
  (0x89, do let v ← getR8 .reg_C; cpu (·.adc .reg_A v); pure false) ::
  (0x8A, do let v ← getR8 .reg_D; cpu (·.adc .reg_A v); pure false) ::
  (0x8B, do let v ← getR8 .reg_E; cpu (·.adc .reg_A v); pure false) ::
  (0x8C, do let v ← getR8 .reg_H; cpu (·.adc .reg_A v); pure false) ::
  (0x8D, do let v ← getR8 .reg_L; cpu (·.adc .reg_A v); pure false) ::
  (0x8E, do let v ← read8 (← getR16 .reg_HL); cpu (·.adc .reg_A v); pure false) ::
  (0x8F, do let v ← getR8 .reg_A; cpu (·.adc .reg_A v); pure false) ::
  (0xCE, do let v ← GetOperand8; cpu (·.adc .reg_A v); pure false) ::
  (0x90, do let v ← getR8 .reg_B; cpu (·.sub .reg_A v); pure false) ::
  (0x91, do let v ← getR8 .reg_C; cpu (·.sub .reg_A v); pure false) ::
  (0x92, do let v ← getR8 .reg_D; cpu (·.sub .reg_A v); pure false) ::
  (0x93, do let v ← getR8 .reg_E; cpu (·.sub .reg_A v); pure false) ::
  (0x94, do let v ← getR8 .reg_H; cpu (·.sub .reg_A v); pure false) ::
  (0x95, do let v ← getR8 .reg_L; cpu (·.sub .reg_A v); pure false) ::
  (0x96, do let v ← read8 (← getR16 .reg_HL); cpu (·.sub .reg_A v); pure false) ::
  (0x97, do let v ← getR8 .reg_A; cpu (·.sub .reg_A v); pure false) ::
  (0xD6, do let v ← GetOperand8; cpu (·.sub .reg_A v); pure false) ::
  (0x98, do let v ← getR8 .reg_B; cpu (·.sbc .reg_A v); pure false) ::
  (0x99, do let v ← getR8 .reg_C; cpu (·.sbc .reg_A v); pure false) ::
  (0x9A, do let v ← getR8 .reg_D; cpu (·.sbc .reg_A v); pure false) ::
  (0x9B, do let v ← getR8 .reg_E; cpu (·.sbc .reg_A v); pure false) ::
  (0x9C, do let v ← getR8 .reg_H; cpu (·.sbc .reg_A v); pure false) ::
  (0x9D, do let v ← getR8 .reg_L; cpu (·.sbc .reg_A v); pure false) ::
  (0x9E, do let v ← read8 (← getR16 .reg_HL); cpu (·.sbc .reg_A v); pure false) ::
  (0x9F, do let v ← getR8 .reg_A; cpu (·.sbc .reg_A v); pure false) ::
  (0xDE, do let v ← GetOperand8; cpu (·.sbc .reg_A v); pure false) ::
  (0xA0, do let v ← getR8 .reg_B; cpu (·.and8 .reg_A v); pure false) ::
  (0xA1, do let v ← getR8 .reg_C; cpu (·.and8 .reg_A v); pure false) ::
  (0xA2, do let v ← getR8 .reg_D; cpu (·.and8 .reg_A v); pure false) ::
  (0xA3, do let v ← getR8 .reg_E; cpu (·.and8 .reg_A v); pure false) ::
  (0xA4, do let v ← getR8 .reg_H; cpu (·.and8 .reg_A v); pure false) ::
  (0xA5, do let v ← getR8 .reg_L; cpu (·.and8 .reg_A v); pure false) ::
  (0xA6, do let v ← read8 (← getR16 .reg_HL); cpu (·.and8 .reg_A v); pure false) ::
  (0xA7, do let v ← getR8 .reg_A; cpu (·.and8 .reg_A v); pure false) ::
  (0xE6, do let v ← GetOperand8; cpu (·.and8 .reg_A v); pure false) ::
  (0xA8, do let v ← getR8 .reg_B; cpu (·.xor8 .reg_A v); pure false) ::
  (0xA9, do let v ← getR8 .reg_C; cpu (·.xor8 .reg_A v); pure false) ::
  (0xAA, do let v ← getR8 .reg_D; cpu (·.xor8 .reg_A v); pure false) ::
  (0xAB, do let v ← getR8 .reg_E; cpu (·.xor8 .reg_A v); pure false) ::
  (0xAC, do let v ← getR8 .reg_H; cpu (·.xor8 .reg_A v); pure false) ::
  (0xAD, do let v ← getR8 .reg_L; cpu (·.xor8 .reg_A v); pure false) ::
  (0xAE, do let v ← read8 (← getR16 .reg_HL); cpu (·.xor8 .reg_A v); pure false) ::
  (0xAF, do let v ← getR8 .reg_A; cpu (·.xor8 .reg_A v); pure false) ::
  (0xEE, do let v ← GetOperand8; cpu (·.xor8 .reg_A v); pure false) ::
  (0x2F, do cpu (·.cpl .reg_A); pure false) ::
  (0x3F, do cpu (·.ccf); pure false) ::
  (0x37, do cpu (·.scf); pure false) ::
  (0xB0, do let v ← getR8 .reg_B; cpu (·.or8 .reg_A v); pure false) ::
  (0xB1, do let v ← getR8 .reg_C; cpu (·.or8 .reg_A v); pure false) ::
  (0xB2, do let v ← getR8 .reg_D; cpu (·.or8 .reg_A v); pure false) ::
  (0xB3, do let v ← getR8 .reg_E; cpu (·.or8 .reg_A v); pure false) ::
  (0xB4, do let v ← getR8 .reg_H; cpu (·.or8 .reg_A v); pure false) ::
  (0xB5, do let v ← getR8 .reg_L; cpu (·.or8 .reg_A v); pure false) ::
  (0xB6, do let v ← read8 (← getR16 .reg_HL); cpu (·.or8 .reg_A v); pure false) ::
  (0xB7, do let v ← getR8 .reg_A; cpu (·.or8 .reg_A v); pure false) ::
  (0xF6, do let v ← GetOperand8; cpu (·.or8 .reg_A v); pure false) ::
  (0x07, do cpu (·.rlc .reg_A false); pure false) ::
  (0x17, do cpu (·.rl .reg_A false); pure false) ::
  (0x0F, do cpu (·.rrc .reg_A false); pure false) ::
  (0x1F, do cpu (·.rr .reg_A false); pure false) ::
  (0x27, do cpu (·.daa); pure false) ::
  (0xB8, do let v ← getR8 .reg_B; cpu (·.cp v); pure false) ::
  (0xB9, do let v ← getR8 .reg_C; cpu (·.cp v); pure false) ::
  (0xBA, do let v ← getR8 .reg_D; cpu (·.cp v); pure false) ::
  (0xBB, do let v ← getR8 .reg_E; cpu (·.cp v); pure false) ::
  (0xBC, do let v ← getR8 .reg_H; cpu (·.cp v); pure false) ::
  (0xBD, do let v ← getR8 .reg_L; cpu (·.cp v); pure false) ::
  (0xBE, do let v ← read8 (← getR16 .reg_HL); cpu (·.cp v); pure false) ::
  (0xBF, do let v ← getR8 .reg_A; cpu (·.cp v); pure false) ::
  (0xFE, do let v ← GetOperand8; cpu (·.cp v); pure false) ::
  (0x18, do let v := static_cast_s8 (← GetOperand8); cpu (·.jr v); pure false) ::
  (0x20, do
      if !(← getFlag Processor.Zero) then
        let v := static_cast_s8 (← GetOperand8)
        cpu (·.jr v)
        pure true
      else
        cpu (·.inc16 .reg_PC)
        pure false) ::
  (0x28, do
      if (← getFlag Processor.Zero) then
        let v := static_cast_s8 (← GetOperand8)
        cpu (·.jr v)
        pure true
      else
        cpu (·.inc16 .reg_PC)
        pure false) ::
  (0x30, do
      if !(← getFlag Processor.Carry) then
        let v := static_cast_s8 (← GetOperand8)
        cpu (·.jr v)
        pure true
      else
        cpu (·.inc16 .reg_PC)
        pure false) ::
  (0x38, do
      if (← getFlag Processor.Carry) then
        let v := static_cast_s8 (← GetOperand8)
        cpu (·.jr v)
        pure true
      else
        cpu (·.inc16 .reg_PC)
        pure false) ::
  (0xC3, do let v ← GetOperand16; cpu (·.jp v); pure false) ::
  (0xC2, do
      if !(← getFlag Processor.Zero) then
        let v ← GetOperand16
        cpu (·.jp v)
        pure true
      else
        cpu (fun p => p.setR16 .reg_PC ((p.reg_PC + 2) % 65536))
        pure false) ::
  (0xCA, do
      if (← getFlag Processor.Zero) then
        let v ← GetOperand16
        cpu (·.jp v)
        pure true
      else
        cpu (fun p => p.setR16 .reg_PC ((p.reg_PC + 2) % 65536))
        pure false) ::
  (0xD2, do
      if !(← getFlag Processor.Carry) then
        let v ← GetOperand16
        cpu (·.jp v)
        pure true
      else
        cpu (fun p => p.setR16 .reg_PC ((p.reg_PC + 2) % 65536))
        pure false) ::
  (0xDA, do
      if (← getFlag Processor.Carry) then
        let v ← GetOperand16
        cpu (·.jp v)
        pure true
      else
        cpu (fun p => p.setR16 .reg_PC ((p.reg_PC + 2) % 65536))
        pure false) ::
  (0xE9, do let v ← getR16 .reg_HL; cpu (·.jp v); pure false) ::
  (0xCD, do call (← GetOperand16); pure false) ::
  (0xC4, do
      if !(← getFlag Processor.Zero) then
        call (← GetOperand16)
        pure true
      else
        cpu (fun p => p.setR16 .reg_PC ((p.reg_PC + 2) % 65536))
        pure false) ::
  (0xCC, do
      if (← getFlag Processor.Zero) then
        call (← GetOperand16)
        pure true
      else
        cpu (fun p => p.setR16 .reg_PC ((p.reg_PC + 2) % 65536))
        pure false) ::
  (0xD4, do
      if !(← getFlag Processor.Carry) then
        call (← GetOperand16)
        pure true
      else
        cpu (fun p => p.setR16 .reg_PC ((p.reg_PC + 2) % 65536))
        pure false) ::
  (0xDC, do
      if (← getFlag Processor.Carry) then
        call (← GetOperand16)
        pure true
      else
        cpu (fun p => p.setR16 .reg_PC ((p.reg_PC + 2) % 65536))
        pure false) ::
  (0xC7, do call 0x0000; pure false) ::
  (0xCF, do call 0x0008; pure false) ::
  (0xD7, do call 0x0010; pure false) ::
  (0xDF, do call 0x0018; pure false) ::
  (0xE7, do call 0x0020; pure false) ::
  (0xEF, do call 0x0028; pure false) ::
  (0xF7, do call 0x0030; pure false) ::
  (0xFF, do call 0x0038; pure false) ::
  (0xC9, do ret; pure false) ::
  (0xC0, do
      if !(← getFlag Processor.Zero) then
        ret
        pure true
      else
        pure false) ::
  (0xC8, do
      if (← getFlag Processor.Zero) then
        ret
        pure true
      else
        pure false) ::
  (0xD0, do
      if !(← getFlag Processor.Carry) then
        ret
        pure true
      else
        pure false) ::
  (0xD8, do
      if (← getFlag Processor.Carry) then
        ret
        pure true
      else
        pure false) ::
  (0xD9, do cpu (fun p => { p with IME := true }); ret; pure false) ::
  (0xC5, do push (← getR16 .reg_BC); pure false) ::
  (0xD5, do push (← getR16 .reg_DE); pure false) ::
  (0xE5, do push (← getR16 .reg_HL); pure false) ::
  (0xF5, do push (← getR16 .reg_AF); pure false) ::
  (0xC1, do pop .reg_BC; pure false) ::
  (0xD1, do pop .reg_DE; pure false) ::
  (0xE1, do pop .reg_HL; pure false) ::
  (0xF1, do pop .reg_AF; cpu (fun p => { p with reg_F := p.reg_F &&& 0xF0 }); pure false) ::
  []

/-- Source `Processor::ExecuteNext`, over the two lookup tables of `Opcodes.h`;
the value is the cycle count it returns. -/
def ExecuteNext (OPCODE_LOOKUP CB_OPCODE_LOOKUP : Nat → Opcode) : Exec Int := do
  let opcode ← GetOperand8
  if opcode = 0xCB then
    let opcode ← ExecuteCBOpcode
    pure (CB_OPCODE_LOOKUP opcode).cycles
  else
    let branch_taken ← switchOn (do stop; pure false) ExecuteNext_cases opcode
    pure (if !branch_taken then (OPCODE_LOOKUP opcode).cycles
      else (OPCODE_LOOKUP opcode).cycles_branch)

/-- Source `Processor::TickInterrupts`. -/
def TickInterrupts : Exec Int := do
  let IME ← getFlag (·.IME)
  let IE ← getPort (·.IE)
  let IF ← getPort (·.IF)
  if IME then
    if IE != 0 && IF != 0 then
      let interruptsPending := IE &&& IF
      if interruptsPending &&& 0b00000001 ≠ 0 then
        cpu (fun p => { p with IME := false })
        cpu (fun p => { p with IF := p.IF &&& 0xFE })
        call 0x0040
        pure 12
      else if interruptsPending &&& 0b00000010 ≠ 0 then
        cpu (fun p => { p with IME := false })
        cpu (fun p => { p with IF := p.IF &&& 0xFD })
        call 0x0048
        pure 12
      else if interruptsPending &&& 0b00000100 ≠ 0 then
        cpu (fun p => { p with IME := false })
        cpu (fun p => { p with IF := p.IF &&& 0xFB })
        call 0x0050
        pure 12
      else if interruptsPending &&& 0b00001000 ≠ 0 then
        cpu (fun p => { p with IME := false })
        cpu (fun p => { p with IF := p.IF &&& 0xF7 })
        call 0x0058
        pure 12
      else if interruptsPending &&& 0b00010000 ≠ 0 then
        cpu (fun p => { p with IME := false })
        cpu (fun p => { p with IF := p.IF &&& 0xEF })
        call 0x0060
        pure 12
      else pure 0
    else pure 0
  else pure 0

/-- Source `Processor::Tick`. -/
def Tick (OPCODE_LOOKUP CB_OPCODE_LOOKUP : Nat → Opcode) : Exec Int := do
  let new_cycles ← ExecuteNext OPCODE_LOOKUP CB_OPCODE_LOOKUP
  let new_cycles := new_cycles + (← TickInterrupts)
  pure new_cycles

end Processor

/-! ## Auxiliary definitions for the statements -/

/-- A register file with every register zero and `IME` set: a fixture for the
examples.  Of these fields the constructor of `Processor` sets only `IME` (and
`PC`, `SP` when the boot ROM is skipped); the zeroes are chosen here. -/
def Processor.zeroed : Processor :=
  { reg_PC := 0, reg_SP := 0, reg_A := 0, reg_F := 0, reg_B := 0, reg_C := 0, reg_D := 0,
    reg_E := 0, reg_H := 0, reg_L := 0, IME := true, IE := 0, IF := 0 }

/-- Decimal value of a packed-BCD byte. -/
def bcdValue (x : Nat) : Nat := 10 * (x / 16) + x % 16

/-- Packed-BCD encoding of a number below 100. -/
def bcdEncode (y : Nat) : Nat := 16 * (y / 10) + y % 10

/-- A byte is packed BCD when both of its nibbles are at most 9. -/
def IsPackedBCD (x : Nat) : Prop := x / 16 ≤ 9 ∧ x % 16 ≤ 9

instance : DecidablePred IsPackedBCD := fun x => by unfold IsPackedBCD; infer_instance

/-- The low nibble of the flag register is clear. -/
def FlagsLowClear (gb : GameBoy) : Prop := gb.processor.reg_F &&& 0x0F = 0

/-- A computation that, started with the low nibble of `F` clear, ends with it clear. -/
def Keeps {α : Type} (m : Exec α) : Prop :=
  ∀ gb a gb', FlagsLowClear gb → m gb = .ok (a, gb') → FlagsLowClear gb'

/-- Two register files that differ at most in `IE` and `IF`. -/
def SameRegs (p q : Processor) : Prop := q = { p with IE := q.IE, IF := q.IF }

/-- The bank controller as the constructor `MBC::MBC` builds it for a cartridge
without a controller: seven zero-filled pages.  (The members that only `MBC1`
and `MBC3` have are given the values of the `MBC1` constructor.) -/
def MBC.constructed : MBC :=
  { kind := .MBC
    romBank0 := MemoryPage.new 0x0000 0x4000
    romBank1 := MemoryPage.new 0x4000 0x4000
    vram := MemoryPage.new 0x8000 0x2000
    sram := MemoryPage.new 0xA000 0x2000
    wram := MemoryPage.new 0xC000 0x2000
    oam := MemoryPage.new 0xFE00 0x00A0
    highRam := MemoryPage.new 0xFF80 0x007F
    switchableBanks := []
    romBank := 0x01
    numBanks := 0
    extRamEnabled := false
    ramBanking := false
    ramBanks := []
    selectedBank := 0x00 }

/-- A register file of the PPU with every register zero and empty buffers. -/
def PPU.zeroed : PPU :=
  { LCDC := 0, STAT := 0, SCY := 0, SCX := 0, LY := 0, LYC := 0
    BGPalette := ⟨gColors 0, gColors 0, gColors 0, gColors 0⟩
    OBJ0Palette := ⟨gColors 0, gColors 0, gColors 0, gColors 0⟩
    OBJ1Palette := ⟨gColors 0, gColors 0, gColors 0, gColors 0⟩
    WY := 0, WX := 0, back_buffer := [], BGTileset := [], OBJTileset := []
    ScanlineSprites := [], width := 160, height := 144, frameCycles := 0 }

/-- A machine for the examples: a cartridge without a controller whose ROM bank 0
holds `program` (byte `i` of the bank is `program i`), all RAM zero, and the
registers as `Processor::Processor` sets them with `skip_bootrom`
(`PC = 0x0100`, `SP = 0xFFFE`, `IME` set), every other register zero. -/
def exampleMachine (program : Nat → Nat) : GameBoy :=
  { P1 := 0xCF, Keys := 0xFF, TIMA := 0, TMA := 0, TAC := 0
    options := { debug := false, scale := 1, force_mbc := -1, skip_bootrom := true,
                 framelimiter_hack := false }
    processor := { Processor.zeroed with reg_PC := 0x0100, reg_SP := 0xFFFE }
    ppu := PPU.zeroed
    game_rom := { bytes := [], CartType := 0, RomSize := 0 }
    mbc := { MBC.constructed with
      romBank0 := { base := 0x0000, size := 0x4000, bytes := program } }
    InBootROM := false, Stopped := false, framelimiter := 50, SpeedEnabled := false
    uninit_data := 0 }

/-- A cycle table for the examples: every opcode costs 4 cycles, 12 when a branch
is taken. -/
def exampleCycles : Nat → Opcode := fun _ => { cycles := 4, cycles_branch := 12 }

/-- The bytes of a short program placed at `0x0100`; zero elsewhere. -/
def programAt0100 (code : List Nat) : Nat → Nat :=
  fun i => if 0x0100 ≤ i then code.getD (i - 0x0100) 0 else 0

/-- The pages of the bank controller have the bases and sizes that the
constructor `MBC::MBC` gives them. -/
def MBC.PagesAsConstructed (m : MBC) : Prop :=
  (m.romBank0.base = 0x0000 ∧ m.romBank0.size = 0x4000) ∧
  (m.romBank1.base = 0x4000 ∧ m.romBank1.size = 0x4000) ∧
  (m.vram.base = 0x8000 ∧ m.vram.size = 0x2000) ∧
  (m.sram.base = 0xA000 ∧ m.sram.size = 0x2000) ∧
  (m.wram.base = 0xC000 ∧ m.wram.size = 0x2000) ∧
  (m.oam.base = 0xFE00 ∧ m.oam.size = 0x00A0) ∧
  (m.highRam.base = 0xFF80 ∧ m.highRam.size = 0x007F)

/-- The two bytes at `a` and `a + 1` lie in one page of ordinary RAM: work RAM
(`0xC000..0xDFFF`) or high RAM (`0xFF80..0xFFFE`). -/
def StackSlot (a : Nat) : Prop := (0xC000 ≤ a ∧ a ≤ 0xDFFE) ∨ (0xFF80 ≤ a ∧ a ≤ 0xFFFD)

instance : DecidablePred StackSlot := fun a => by unfold StackSlot; infer_instance

/-- The page of a stack slot. -/
def stackRef (a : Nat) : PageRef := if a ≤ 0xDFFF then .wram else .highRam

/-- The base address of the page of a stack slot. -/
def stackBase (a : Nat) : Nat := if a ≤ 0xDFFF then 0xC000 else 0xFF80

/-- The machine after the 16-bit word `v` has been stored in the stack slot `a`. -/
def storeWord (gb : GameBoy) (a v : Nat) : GameBoy :=
  if a ≤ 0xDFFF then
    { gb with mbc := { gb.mbc with wram := { gb.mbc.wram with
        bytes := Function.update (Function.update gb.mbc.wram.bytes (a - 0xC000) (v &&& 0x00FF))
          (a - 0xC000 + 1) ((v &&& 0xFF00) >>> 8) } } }
  else
    { gb with mbc := { gb.mbc with highRam := { gb.mbc.highRam with
        bytes := Function.update (Function.update gb.mbc.highRam.bytes (a - 0xFF80) (v &&& 0x00FF))
          (a - 0xFF80 + 1) ((v &&& 0xFF00) >>> 8) } } }

/-- The machine with another program counter. -/
def GameBoy.withPC (gb : GameBoy) (w : Nat) : GameBoy :=
  { gb with processor := { gb.processor with reg_PC := w } }

/-- The branch condition of the conditional jumps `JR NZ` (`0x20`), `JR Z`
(`0x28`), `JR NC` (`0x30`) and `JR C` (`0x38`). -/
def jrCondition (opcode : Nat) (p : Processor) : Bool :=
  if opcode = 0x20 then !p.Zero
  else if opcode = 0x28 then p.Zero
  else if opcode = 0x30 then !p.Carry
  else p.Carry

/-- A machine with `POP AF` (`0xF1`) at `PC = 0x0100`, `SP = 0xC000` and the word
`0xFFFF` on the stack. -/
def popAFExample : GameBoy :=
  storeWord { exampleMachine (programAt0100 [0xF1]) with
    processor := { (exampleMachine (programAt0100 [0xF1])).processor with reg_SP := 0xC000 } }
    0xC000 0xFFFF

/-- The machine `popAFExample` after its `POP AF`. -/
def popAFExampleAfter : GameBoy :=
  { popAFExample with
    processor := { popAFExample.processor with
      reg_PC := 0x0101, reg_SP := 0xC002, reg_A := 0xFF, reg_F := 0xF0 } }

/-- A machine with `LD A,0xFF; PUSH AF; POP AF` at `PC = 0x0100`, `F = 0xB5` and
`SP = 0xFFFE`. -/
def pushPopExample : GameBoy :=
  { exampleMachine (programAt0100 [0x3E, 0xFF, 0xF5, 0xF1]) with
    processor := { (exampleMachine (programAt0100 [0x3E, 0xFF, 0xF5, 0xF1])).processor with
      reg_F := 0xB5 } }

/-- A machine with `CALL 0x0105` at `PC = 0x0100`, `RET` at `0x0105` and
`SP = 0xFFFE`. -/
def callRetExample : GameBoy :=
  exampleMachine (programAt0100 [0xCD, 0x05, 0x01, 0x00, 0x00, 0xC9])

/-- A machine with `IME` set, `IE = IF = 0x05` (V-Blank and Timer pending),
`PC = 0x0100` and `SP = 0xFFFE`. -/
def irqExample : GameBoy :=
  { exampleMachine (programAt0100 []) with
    processor := { (exampleMachine (programAt0100 [])).processor with IE := 0x05, IF := 0x05 } }

/-- A machine with `HALT; INC B` (`0x76 0x04`) at `PC = 0x0100` and
`IE = IF = 0`. -/
def haltExample : GameBoy := exampleMachine (programAt0100 [0x76, 0x04])

/-! ## Auxiliary definitions for the memory claims -/

/-- An address of the forbidden ranges `0xE000..0xFDFF` and `0xFEA0..0xFEFF`. -/
def Forbidden (a : Nat) : Prop := (0xE000 ≤ a ∧ a ≤ 0xFDFF) ∨ (0xFEA0 ≤ a ∧ a ≤ 0xFEFF)

instance : DecidablePred Forbidden := fun a => by unfold Forbidden; infer_instance

/-- The machine after the first `0x100` bytes of the cartridge image have been
copied to the start of ROM bank 0 and the boot flag has been cleared. -/
def afterBootDisable (gb : GameBoy) : GameBoy :=
  { gb with
    mbc := { gb.mbc with romBank0 := { gb.mbc.romBank0 with
      bytes := fun i => if 0 ≤ i ∧ i < 0 + 0x100 then gb.game_rom.bytes.getD (i - 0) 0
        else gb.mbc.romBank0.bytes i } }
    InBootROM := false }

/-- A machine in its boot ROM: the cartridge image is `0x150` bytes `0xC3`, the
start of ROM bank 0 is overlaid by a boot image of bytes `0x31`, and
`InBootROM` is set. -/
def bootExample : GameBoy :=
  { exampleMachine (fun i => if i < 0x100 then 0x31 else 0xC3) with
    game_rom := { bytes := List.replicate 0x150 0xC3, CartType := 0, RomSize := 0 }
    processor := { Processor.zeroed with reg_PC := 0x0000, reg_SP := 0x0000 }
    InBootROM := true }

/-- A machine without a bank controller whose last byte of ROM bank 0 (address
`0x3FFF`) is `0x34`, the byte after it (`0x4000`, in ROM bank 1) being `0x00`,
and whose `LCDC` and `STAT` are `0x91` and `0x85`. -/
def busExample : GameBoy :=
  { exampleMachine (fun i => if i = 0x3FFF then 0x34 else 0x00) with
    ppu := { PPU.zeroed with LCDC := 0x91, STAT := 0x85 } }

/-- A machine with an `MBC1` controller and a cartridge of four ROM banks, every
byte of bank `i` being `i`; ROM bank 1 is selected, external RAM is disabled and
the mode is ROM banking, as after `MBC1::MBC1`. -/
def mbc1Example : GameBoy :=
  { exampleMachine (fun _ => 0x00) with
    mbc := { (exampleMachine (fun _ => 0x00)).mbc with
      kind := .MBC1
      switchableBanks :=
        [{ base := 0x4000, size := 0x4000, bytes := fun _ => 0x01 },
         { base := 0x4000, size := 0x4000, bytes := fun _ => 0x02 },
         { base := 0x4000, size := 0x4000, bytes := fun _ => 0x03 }]
      numBanks := 4
      ramBanks := List.replicate 4 (MemoryPage.new 0xA000 0x2000) } }

/-- The machine with the first `n` bytes of OAM replaced by `f 0 .. f (n - 1)`. -/
def withOam (gb : GameBoy) (f : Nat → Nat) (n : Nat) : GameBoy :=
  { gb with mbc := { gb.mbc with oam := { gb.mbc.oam with
      bytes := fun j => if j < n then f j else gb.mbc.oam.bytes j } } }

/-- A machine whose work RAM holds the byte `j mod 256` at offset `j`. -/
def dmaExample : GameBoy :=
  { exampleMachine (fun _ => 0x00) with
    mbc := { (exampleMachine (fun _ => 0x00)).mbc with
      wram := { base := 0xC000, size := 0x2000, bytes := fun j => j % 256 } } }

/-! ## Loading a cartridge (`MBC.cpp`, `MBC1.cpp`) -/

namespace MBC

/-- Source `MBC1::MBC1`: the members of `MBC::MBC`, ROM bank 1 selected, external
RAM disabled, ROM banking mode.  `numBanks` is set by `Load` only, and the four
`ramBanks` pointers are null until `Load` (no page to dereference). -/
def constructed1 : MBC :=
  { MBC.constructed with
    kind := .MBC1
    romBank := 0x01
    extRamEnabled := false
    ramBanking := false
    selectedBank := 0x00 }

/-- Source `MBC::Load`.  Each `WriteBytes` copies `0x4000` bytes from the image;
reading past its end is undefined behaviour. -/
def Load_MBC (m : MBC) (rom : Rom) : Except Fault MBC :=
  if rom.bytes.length < 0x4000 then .error .undefined
  else do
    let m ← m.WriteBytes (fun i => rom.bytes.getD i 0) 0x0000 0x4000
    if rom.bytes.length < 0x4000 + 0x4000 then .error .undefined
    else m.WriteBytes (fun i => rom.bytes.getD (0x4000 + i) 0) 0x4000 0x4000

/-- One turn of the loop of `MBC1::Load`, for the bank number `i`: a zero page is
pushed to `switchableBanks`, and bank `i` of the image is copied into
`switchableBanks.at(i-1)`. -/
def Load_MBC1_step (rom : Rom) (m : MBC) (i : Nat) : Except Fault MBC :=
  let m := { m with switchableBanks := m.switchableBanks ++ [MemoryPage.new 0x4000 0x4000] }
  match m.switchableBanks[i - 1]? with
  | none => .error .out_of_range
  | some pg =>
    if rom.bytes.length < 0x4000 * i + 0x4000 then .error .undefined
    else do
      let pg ← pg.memcpyIn 0 (fun k => rom.bytes.getD (0x4000 * i + k) 0) 0x4000
      pure { m with switchableBanks := m.switchableBanks.set (i - 1) pg }

/-- Source `MBC1::Load`.  `romSize` is a `u16` made from the `double`
`32 * pow(2, RomSize)` (undefined when that does not fit), `banks` is the `u8`
made from `romSize / 16`, and the loop runs for `i = 1 .. banks - 1`. -/
def Load_MBC1 (m : MBC) (rom : Rom) : Except Fault MBC :=
  if rom.bytes.length < 0x4000 then .error .undefined
  else do
    let m ← m.WriteBytes (fun i => rom.bytes.getD i 0) 0x0000 0x4000
    if 32 * 2 ^ rom.RomSize ≥ 65536 then .error .undefined
    else
      let romSize := 32 * 2 ^ rom.RomSize
      let banks := (romSize / 16) % 256
      let m := { m with numBanks := banks }
      do
        let m ← (List.range (banks - 1)).foldlM (fun m j => Load_MBC1_step rom m (j + 1)) m
        pure { m with ramBanks := List.replicate 4 (MemoryPage.new 0xA000 0x2000) }

/-- The virtual call `Load(rom)` (`MBC3` does not override `MBC1::Load`). -/
def Load (m : MBC) (rom : Rom) : Except Fault MBC :=
  match m.kind with
  | .MBC => Load_MBC m rom
  | .MBC1 => Load_MBC1 m rom
  | .MBC3 => Load_MBC1 m rom

end MBC

/-- The page that `MBC1::Load` makes of bank `i` of the cartridge image. -/
def bankPage (rom : Rom) (i : Nat) : MemoryPage :=
  { base := 0x4000, size := 0x4000,
    bytes := fun k => if 0 ≤ k ∧ k < 0 + 0x4000 then rom.bytes.getD (0x4000 * i + (k - 0)) 0 else 0 }

/-- The switchable banks `1 .. n` of a cartridge image, as `MBC1::Load` makes them. -/
def loadedBanks (rom : Rom) (n : Nat) : List MemoryPage :=
  (List.range n).map (fun j => bankPage rom (j + 1))

/-- The `MBC1` controller after `MBC1::Load` of a cartridge image. -/
def loadedMBC1 (rom : Rom) : MBC :=
  { MBC.constructed1 with
    romBank0 := { MBC.constructed1.romBank0 with
      bytes := fun i => if 0 ≤ i ∧ i < 0 + 0x4000 then rom.bytes.getD (i - 0) 0
        else MBC.constructed1.romBank0.bytes i }
    numBanks := (32 * 2 ^ rom.RomSize / 16) % 256
    switchableBanks := loadedBanks rom ((32 * 2 ^ rom.RomSize / 16) % 256 - 1)
    ramBanks := List.replicate 4 (MemoryPage.new 0xA000 0x2000) }

/-- A cartridge image of 32 KiB (`RomSize` code 0, two banks) of bytes `0xC3`. -/
def smallRom : Rom := { bytes := List.replicate 0x8000 0xC3, CartType := 0x01, RomSize := 0 }

/-! ## The PPU (`PPU.h`, `PPU.cpp`)

The `int` members `frameCycles`, `width` and `height` are integers without a
bound (a signed overflow is undefined in the source).  The pixels that
`DrawScanline` sends to the framebuffer of the console (`gfxGetFramebuffer`,
`gfxFlushBuffers`, `gfxSwapBuffers`, `gspWaitForVBlank` of `<3ds.h>`) leave the
machine and are not kept; every read, index and shift that computes them is. -/

namespace Tile

/-- Source `Tile::Decode`, the body of its loop: the `u16` stored in `rows[row]`. -/
def Decode_row (src : Nat → Nat) (row : Nat) : Nat :=
  let upper := (src ((row * 2) + 1) <<< 16) % 4294967296
  let lower := src (row * 2)
  let morton := upper ||| lower
  let morton := (morton ^^^ ((morton <<< 4) % 4294967296)) &&& 0x0F0F0F0F
  let morton := (morton ^^^ ((morton <<< 2) % 4294967296)) &&& 0x33333333
  let morton := (morton ^^^ ((morton <<< 1) % 4294967296)) &&& 0x55555555
  (morton ||| (morton >>> 15)) % 65536

/-- Source `Tile::Decode`: all eight rows are assigned. -/
def Decode (src : Nat → Nat) : Tile :=
  { rows := (List.range 8).map (Decode_row src) }

/-- Source `Tile::GetPixel(u8 x, u8 y)`.  `rows` is an array of eight, so an index
`y >= 8` is outside it, and for a doubled `x` above 14 the shift count `14 - x`
is negative: both are undefined. -/
def GetPixel (t : Tile) (x y : Nat) : Except Fault Nat :=
  let x := (x * 2) % 256
  match t.rows[y]? with
  | none => .error .undefined
  | some row =>
    if 14 < x then .error .undefined
    else .ok (((row &&& (0xC000 >>> x)) >>> (14 - x)) % 256)

end Tile

namespace Sprite

/-- Source `Sprite::Decode`. -/
def Decode (src : Nat → Nat) : Sprite :=
  { _y := src 0
    _x := src 1
    id := src 2
    priority := (src 3 &&& 0b10000000) >>> 7
    flipY := (src 3 &&& 0b01000000) != 0
    flipX := (src 3 &&& 0b00100000) != 0
    palette := (src 3 &&& 0b00010000) >>> 4 }

end Sprite

/-- Indexing a `Color[4]` palette array; an index above 3 is outside it. -/
def Palette.get (p : Palette) (i : Nat) : Except Fault Nat :=
  match i with
  | 0 => .ok p.c0
  | 1 => .ok p.c1
  | 2 => .ok p.c2
  | 3 => .ok p.c3
  | _ => .error .undefined

namespace PPU

/-- Source `PPU::DrawScanline`, the coordinates it computes for the screen
column `x`: the row `fetchY` and column `fetchX` of the cell of the tile map,
and the arguments `pixelX + pixelXoff`, `pixelY + pixelYoff` of `GetPixel`. -/
def DrawScanline_cell (ppu : PPU) (x : Nat) : Nat × Nat × Nat × Nat :=
  let y := ppu.LY
  let tileY := (y / 8) % 256
  let tileX := (x / 8) % 256
  let pixelY := (y % 8) % 256
  let pixelX := (x % 8) % 256
  let tileYoff := (ppu.SCY / 8) % 256
  let tileXoff := (ppu.SCX / 8) % 256
  let pixelYoff := (ppu.SCY % 8) % 256
  let pixelXoff := (ppu.SCX % 8) % 256
  let upperHalf := (8 - pixelYoff) % 256
  let leftHalf := (8 - pixelXoff) % 256
  let fetchY := (tileY + tileYoff) % 256
  let fetchX := (tileX + tileXoff) % 256
  let fetchY' := if pixelY ≥ upperHalf then (fetchY + 1) % 256 else fetchY
  let pixelY' := if pixelY ≥ upperHalf then (pixelY + 256 - upperHalf) % 256 else pixelY
  let pixelYoff' := if pixelY ≥ upperHalf then 0 else pixelYoff
  let fetchX' := if pixelX ≥ leftHalf then (fetchX + 1) % 256 else fetchX
  let pixelX' := if pixelX ≥ leftHalf then (pixelX + 256 - leftHalf) % 256 else pixelX
  let pixelXoff' := if pixelX ≥ leftHalf then 0 else pixelXoff
  let fetchY'' := if fetchY' ≥ 32 then fetchY' % 32 else fetchY'
  let fetchX'' := if fetchX' ≥ 32 then fetchX' % 32 else fetchX'
  (fetchY'', fetchX'', pixelX' + pixelXoff', pixelY' + pixelYoff')

/-- Source `PPU::DrawScanline`, the body of its loop for the column `x`: the
colour it computes (and sends to the framebuffer of the console). -/
def DrawScanline_column (gb : GameBoy) (x : Nat) : Except Fault Nat := do
  let cell := DrawScanline_cell gb.ppu x
  let base := if gb.ppu.LCDC &&& 0x08 ≠ 0 then (0x9800 + 0x0400) % 65536 else 0x9800
  let tileID ← Read8 gb ((base + (cell.1 * 32) + cell.2.1) % 65536)
  match gb.ppu.BGTileset[tileID]? with
  | none => .error .undefined
  | some tile => do
    let pixel ← tile.GetPixel (cell.2.2.1 % 256) (cell.2.2.2 % 256)
    gb.ppu.BGPalette.get pixel

/-- Source `PPU::DrawScanline`, its loop over the columns. -/
def DrawScanline_columns (gb : GameBoy) : List Nat → Except Fault Unit
  | [] => .ok ()
  | x :: xs => do
    let _ ← DrawScanline_column gb x
    DrawScanline_columns gb xs

/-- Store into `back_buffer[i]`; an index outside the vector is undefined. -/
def setBackBuffer (gb : GameBoy) (i : Int) (c : Nat) : Except Fault GameBoy :=
  if i < 0 ∨ i ≥ gb.ppu.back_buffer.length then .error .undefined
  else .ok { gb with ppu := { gb.ppu with back_buffer := gb.ppu.back_buffer.set i.toNat c } }

/-- Source `PPU::DrawScanlineWindow`, the body of its loop for `x`. -/
def DrawScanlineWindow_column (gb : GameBoy) (x : Int) : Except Fault GameBoy := do
  let y : Int := gb.ppu.LY
  let tileY := static_cast_u8 (((gb.ppu.LY : Int) - gb.ppu.WY).tdiv 8)
  let tileX := static_cast_u8 ((x - gb.ppu.WX).tdiv 8)
  let pixelY := static_cast_u8 (((gb.ppu.LY : Int) - gb.ppu.WY).tmod 8)
  let pixelX := static_cast_u8 ((x - gb.ppu.WX).tmod 8)
  let base := if gb.ppu.LCDC &&& 0x40 ≠ 0 then (0x9800 + 0x0400) % 65536 else 0x9800
  let tileID ← Read8 gb ((base + (tileY * 32) + tileX) % 65536)
  let drawY := y * gb.ppu.width
  let drawX := x - 7
  if drawX < 0 then pure gb
  else
    match gb.ppu.BGTileset[tileID]? with
    | none => .error .undefined
    | some tile => do
      let pixel ← tile.GetPixel pixelX pixelY
      let color ← gb.ppu.BGPalette.get pixel
      setBackBuffer gb (drawY + drawX) color

/-- Source `PPU::DrawScanlineWindow`: `x` runs from `WX` to `width + 6`. -/
def DrawScanlineWindow (gb : GameBoy) : Except Fault GameBoy :=
  ((List.range (gb.ppu.width + 7 - gb.ppu.WX).toNat).map (fun k => (gb.ppu.WX : Int) + k)).foldlM
    DrawScanlineWindow_column gb

/-- Source `PPU::DrawScanlineSprites`, the body of its inner loop for the pixel
`px` of a sprite. -/
def DrawScanlineSprites_pixel (gb : GameBoy) (sprite : Sprite) (px : Nat) :
    Except Fault GameBoy :=
  let SPRITE_HEIGHT : Int := if gb.ppu.LCDC &&& 4 ≠ 0 then 16 else 8
  let adjScanline : Int := gb.ppu.LY + 16
  let y : Int := sprite._y
  let x : Int := sprite._x
  let palette := if sprite.palette = 0 then gb.ppu.OBJ0Palette else gb.ppu.OBJ1Palette
  if x + px < 8 ∨ x + px ≥ 168 then .ok gb
  else
    let oamX : Int := if sprite.flipX then 7 - px else px
    let oamY : Int :=
      if sprite.flipY then (SPRITE_HEIGHT - 1) - (adjScanline - y) else adjScanline - y
    match gb.ppu.OBJTileset[sprite.id]? with
    | none => .error .undefined
    | some tile => do
      let color ← tile.GetPixel (static_cast_u8 oamX) (static_cast_u8 oamY)
      if color = 0x00 then pure gb
      else do
        let drawY : Int := gb.ppu.LY * gb.ppu.width
        let drawX : Int := (x - 8) + px
        let c ← palette.get color
        setBackBuffer gb (drawY + drawX) c

/-- Source `PPU::DrawScanlineSprites`. -/
def DrawScanlineSprites (gb : GameBoy) : Except Fault GameBoy := do
  let gb' ← gb.ppu.ScanlineSprites.foldlM
    (fun g sprite => (List.range 8).foldlM (fun g px => DrawScanlineSprites_pixel g sprite px) g) gb
  pure { gb' with ppu := { gb'.ppu with ScanlineSprites := [] } }

/-- Source `PPU::DrawScanline`. -/
def DrawScanline (gb : GameBoy) : Except Fault GameBoy := do
  let _ ← DrawScanline_columns gb (List.range gb.ppu.width.toNat)
  let gb ← if gb.ppu.LCDC &&& 0x20 ≠ 0 ∧ gb.ppu.LY ≥ gb.ppu.WY then DrawScanlineWindow gb
    else pure gb
  if gb.ppu.LCDC &&& 0x02 ≠ 0 then DrawScanlineSprites gb else pure gb

/-- Source `PPU::FetchScanlineSprites`, its loop over the OAM entries `i`, with
the local `spriteCounter`; the `return` leaves the loop. -/
def FetchScanlineSprites_loop : List Nat → Nat → GameBoy → Except Fault GameBoy
  | [], _, gb => .ok gb
  | i :: rest, spriteCounter, gb => do
    let SPRITE_HEIGHT := if gb.ppu.LCDC &&& 4 ≠ 0 then 16 else 8
    let buffer ← ReadBytes gb ((0xFE00 + (i * 4)) % 65536) 4
    let sprite := Sprite.Decode (fun k => buffer.getD k 0)
    let adjScanline := (gb.ppu.LY + 16) % 256
    let y := sprite._y
    let x := sprite._x
    if (y = 0 ∨ y ≥ 160) ∨ (x = 0 ∨ x ≥ 168) then
      FetchScanlineSprites_loop rest spriteCounter gb
    else if adjScanline < y ∨ (adjScanline - y) ≥ SPRITE_HEIGHT then
      FetchScanlineSprites_loop rest spriteCounter gb
    else if spriteCounter + 1 > 10 then .ok gb
    else
      FetchScanlineSprites_loop rest (spriteCounter + 1)
        { gb with ppu := { gb.ppu with ScanlineSprites := gb.ppu.ScanlineSprites ++ [sprite] } }

/-- Source `PPU::FetchScanlineSprites`. -/
def FetchScanlineSprites (gb : GameBoy) : Except Fault GameBoy :=
  FetchScanlineSprites_loop (List.range 40) 0 gb

/-- Source `PPU::DecodeTiles`, the body of its first loop: the address the 16
bytes of the background tile `bg` are read from. -/
def DecodeTiles_bgAddress (ppu : PPU) (bg : Nat) : Nat :=
  let rawTile := bg % 256
  if ppu.LCDC &&& 0x10 = 0 then
    if bg ≥ 128 then (0x8800 + (((rawTile + 256 - 128) % 256) * 16)) % 65536
    else (0x9000 + (rawTile * 16)) % 65536
  else (0x8000 + (rawTile * 16)) % 65536

/-- Source `PPU::DecodeTiles`, the body of its first loop. -/
def DecodeTiles_bg (gb : GameBoy) (bg : Nat) : Except Fault GameBoy := do
  let buffer ← ReadBytes gb (DecodeTiles_bgAddress gb.ppu bg) 16
  if bg < gb.ppu.BGTileset.length then
    pure { gb with ppu := { gb.ppu with
      BGTileset := gb.ppu.BGTileset.set bg (Tile.Decode (fun k => buffer.getD k 0)) } }
  else .error .out_of_range

/-- Source `PPU::DecodeTiles`, the body of its second loop. -/
def DecodeTiles_obj (gb : GameBoy) (obj : Nat) : Except Fault GameBoy := do
  let buffer ← ReadBytes gb ((0x8000 + (obj * 16)) % 65536) 16
  if obj < gb.ppu.OBJTileset.length then
    pure { gb with ppu := { gb.ppu with
      OBJTileset := gb.ppu.OBJTileset.set obj (Tile.Decode (fun k => buffer.getD k 0)) } }
  else .error .out_of_range

/-- Source `PPU::DecodeTiles`. -/
def DecodeTiles (gb : GameBoy) : Except Fault GameBoy := do
  let gb ← (List.range 256).foldlM DecodeTiles_bg gb
  (List.range 256).foldlM DecodeTiles_obj gb

/-- The assignment `STAT = (STAT & ~0x03) | mode`. -/
def setMode (gb : GameBoy) (mode : Nat) : GameBoy :=
  { gb with ppu := { gb.ppu with STAT := (gb.ppu.STAT &&& 0xFC) ||| mode } }

/-- The statement `memory_bus->Write8(0xFF0F, memory_bus->Read8(0xFF0F) | bit)`. -/
def requestInterrupt (gb : GameBoy) (bit : Nat) : Except Fault GameBoy := do
  let v ← Read8 gb 0xFF0F
  Write8 gb 0xFF0F ((v ||| bit) % 256)

/-- Source `PPU::Update`, the case `DISPLAY_HBLANK`. -/
def Update_HBLANK (gb : GameBoy) : Except Fault GameBoy :=
  if gb.ppu.frameCycles > 207 then do
    let gb ← DrawScanline gb
    let gb := { gb with ppu := { gb.ppu with frameCycles := gb.ppu.frameCycles.tmod 207 } }
    let gb := { gb with ppu := { gb.ppu with LY := (gb.ppu.LY + 1) % 256 } }
    let gb ←
      if gb.ppu.LY = 144 then requestInterrupt (setMode gb 1) 0x01
      else pure (setMode gb 2)
    if gb.ppu.LY = gb.ppu.LYC then
      requestInterrupt { gb with ppu := { gb.ppu with STAT := gb.ppu.STAT ||| 0x44 } } 0x02
    else pure { gb with ppu := { gb.ppu with STAT := gb.ppu.STAT &&& 0xBB } }
  else pure gb

/-- Source `PPU::Update`, the case `DISPLAY_VBLANK`. -/
def Update_VBLANK (gb : GameBoy) : GameBoy :=
  if (gb.ppu.frameCycles.tdiv 465) + 144 > gb.ppu.LY then
    let gb := { gb with ppu := { gb.ppu with LY := (gb.ppu.LY + 1) % 256 } }
    if gb.ppu.LY > 153 then
      let gb := { gb with ppu := { gb.ppu with frameCycles := gb.ppu.frameCycles.tmod 4560 } }
      let gb := setMode gb 2
      { gb with ppu := { gb.ppu with LY := 0 } }
    else gb
  else gb

/-- Source `PPU::Update`, the case `DISPLAY_OAMACCESS`. -/
def Update_OAMACCESS (gb : GameBoy) : Except Fault GameBoy :=
  if gb.ppu.frameCycles > 83 then do
    let gb ← FetchScanlineSprites gb
    let gb := { gb with ppu := { gb.ppu with frameCycles := gb.ppu.frameCycles.tmod 83 } }
    pure (setMode gb 3)
  else pure gb

/-- Source `PPU::Update`, the case `DISPLAY_UPDATE`. -/
def Update_UPDATE (gb : GameBoy) : Except Fault GameBoy :=
  if gb.ppu.frameCycles > 175 then
    let gb := { gb with ppu := { gb.ppu with frameCycles := gb.ppu.frameCycles.tmod 175 } }
    DecodeTiles (setMode gb 0)
  else pure gb

/-- Source `PPU::Update`; the value is `return_code` and the next machine. -/
def Update (gb : GameBoy) (cycles : Int) : Except Fault (Int × GameBoy) :=
  let return_code : Int := 0
  if gb.ppu.LCDC &&& 0x80 ≠ 0 then do
    let gb := { gb with ppu := { gb.ppu with frameCycles := gb.ppu.frameCycles + cycles } }
    let gb ←
      match gb.ppu.STAT &&& 0x03 with
      | 0 => Update_HBLANK gb
      | 1 => pure (Update_VBLANK gb)
      | 2 => Update_OAMACCESS gb
      | _ => Update_UPDATE gb
    pure (return_code, gb)
  else
    pure (return_code, { gb with ppu := { gb.ppu with frameCycles := 0, LY := 0 } })

end PPU

/-! ## Auxiliary definitions for the PPU claims -/

/-- A sequence of `PPU::Update` calls, one for each cycle count of the list. -/
def PPU.UpdateAll (gb : GameBoy) (cs : List Int) : Except Fault GameBoy :=
  cs.foldlM (fun g c => do
    let r ← PPU.Update g c
    pure r.2) gb

/-- A machine whose LCD is off (`LCDC = 0x00`) in mode 1 (`STAT = 0x01`) at
`LY = 5` with 100 cycles on the counter. -/
def lcdOffExample : GameBoy :=
  { exampleMachine (fun _ => 0x00) with
    ppu := { PPU.zeroed with LCDC := 0x00, STAT := 0x01, LY := 5, frameCycles := 100 } }

/-- A machine in V-Blank: the LCD is on (`LCDC = 0x91`), the mode is 1
(`STAT = 0x01`, no coincidence bit), `IF` is zero, and `LY`, `LYC` and the cycle
counter are as given. -/
def vblankExample (LY LYC : Nat) (frameCycles : Int) : GameBoy :=
  { exampleMachine (fun _ => 0x00) with
    ppu := { PPU.zeroed with
      LCDC := 0x91, STAT := 0x01, LY := LY, LYC := LYC, frameCycles := frameCycles } }

/-- The machine with the cycle counter and `LY` of the PPU replaced. -/
def withLine (gb : GameBoy) (frameCycles : Int) (LY : Nat) : GameBoy :=
  { gb with ppu := { gb.ppu with frameCycles := frameCycles, LY := LY } }

/-- The entry `i` of the OAM, decoded as `Sprite::Decode` does from its four
bytes. -/
def oamSprite (gb : GameBoy) (i : Nat) : Sprite :=
  Sprite.Decode (fun k => gb.mbc.oam.bytes (i * 4 + k))

/-- The sprite is on screen: `1 ≤ y < 160` and `1 ≤ x < 168`. -/
def Sprite.OnScreen (s : Sprite) : Prop := (1 ≤ s._y ∧ s._y < 160) ∧ (1 ≤ s._x ∧ s._x < 168)

instance : DecidablePred Sprite.OnScreen := fun s => by unfold Sprite.OnScreen; infer_instance

/-- The Y range of the sprite contains the scanline: `y ≤ LY + 16 < y + height`,
the height being 16 when bit 2 of `LCDC` is set and 8 otherwise, and `LY + 16`
being taken in 8 bits. -/
def Sprite.OnLine (s : Sprite) (LCDC LY : Nat) : Prop :=
  s._y ≤ (LY + 16) % 256 ∧ (LY + 16) % 256 < s._y + (if LCDC &&& 4 ≠ 0 then 16 else 8)

instance (LCDC LY : Nat) : DecidablePred (fun s : Sprite => s.OnLine LCDC LY) :=
  fun s => by unfold Sprite.OnLine; infer_instance

/-- A machine with 16 sprites on the line `LY = 0`: the OAM entries 0 to 15 are
at `y = 16`, `x = 8 + i` with tile `i`, and the entries 16 to 39 are zero.  The
LCD is on in mode 2 with the sprites 8 rows high. -/
def spriteExample : GameBoy :=
  { withOam (exampleMachine (fun _ => 0x00))
      (fun j => if j < 64 then (if j % 4 = 0 then 16 else if j % 4 = 1 then 8 + j / 4
        else if j % 4 = 2 then j / 4 else 0) else 0) 160 with
    ppu := { PPU.zeroed with LCDC := 0x93, STAT := 0x02, LY := 0 } }

/-- A machine whose OAM entry 0 is at `y = 16`, `x = 0` (its rows 0 to 7 are the
lines 0 to 7, and it is left of the screen), the other entries being zero, at
`LY = 0` with the sprites 8 rows high. -/
def hiddenSpriteExample : GameBoy :=
  { withOam (exampleMachine (fun _ => 0x00)) (fun j => if j = 0 then 16 else 0) 160 with
    ppu := { PPU.zeroed with LCDC := 0x93, STAT := 0x02, LY := 0 } }

/-- The machine `b` differs from the machine `a` at most in the buffers of the
PPU: `back_buffer`, the two tile sets and `ScanlineSprites`. -/
def SameButBuffers (a b : GameBoy) : Prop :=
  ∃ bb bg obj ss, b = { a with ppu := { a.ppu with
    back_buffer := bb, BGTileset := bg, OBJTileset := obj, ScanlineSprites := ss } }

/-- A machine at the end of the H-Blank of the last visible line: the LCD is on
with the window and the sprites off (`LCDC = 0x91`), the mode is 0, `LY = 143`,
`LYC = 0`, 204 cycles are counted, `IF` is `0x14`, the video RAM is zero and the
256 background tiles are blank. -/
def hblankExample : GameBoy :=
  { exampleMachine (fun _ => 0x00) with
    processor := { Processor.zeroed with reg_PC := 0x0100, reg_SP := 0xFFFE, IF := 0x14 }
    ppu := { PPU.zeroed with
      LCDC := 0x91, STAT := 0x00, LY := 143, LYC := 0, frameCycles := 204
      BGTileset := List.replicate 256 { rows := [0, 0, 0, 0, 0, 0, 0, 0] } } }

/-! ## Auxiliary definitions for the last claims -/

/-- A cartridge image of 4 MiB (`RomSize` code 7, 256 banks) of bytes `0xC3`. -/
def largeRom : Rom :=
  { bytes := List.replicate (0x4000 * 256) 0xC3, CartType := 0x01, RomSize := 7 }

/-- The tile that the 16 bytes at `address` of the video RAM decode to. -/
def vramTile (gb : GameBoy) (address : Nat) : Tile :=
  Tile.Decode (fun k => gb.mbc.vram.bytes (address - 0x8000 + k))

/-- The address of the background tile `i` when the index is taken as a signed
8-bit value from the base `0x9000`. -/
def signedTileAddress (i : Nat) : Int := 0x9000 + 16 * static_cast_s8 i

/-- A machine for `DecodeTiles`: bit 4 of `LCDC` is clear (`LCDC = 0x81`), the
two tile caches hold 256 blank tiles, and the video RAM holds `0xFF`, `0xFF` at
`0x8800`, `0x8801` and `0xFF`, `0x00` at `0x9000`, `0x9001`, zero elsewhere. -/
def tilesExample : GameBoy :=
  { exampleMachine (fun _ => 0x00) with
    mbc := { (exampleMachine (fun _ => 0x00)).mbc with
      vram := { base := 0x8000, size := 0x2000,
                bytes := fun j => if j = 0x0800 ∨ j = 0x0801 ∨ j = 0x1000 then 0xFF else 0x00 } }
    ppu := { PPU.zeroed with
      LCDC := 0x81
      BGTileset := List.replicate 256 { rows := [0, 0, 0, 0, 0, 0, 0, 0] }
      OBJTileset := List.replicate 256 { rows := [0, 0, 0, 0, 0, 0, 0, 0] } } }

/-- A machine at `LY = 10` with the scroll `SCY = 250`, `SCX = 254`: the LCD is
on with the window and the sprites off (`LCDC = 0x91`), the screen is 160
columns wide, the video RAM is zero and the BG tile cache holds 256 blank
tiles. -/
def scrollExample : GameBoy :=
  { exampleMachine (fun _ => 0x00) with
    ppu := { PPU.zeroed with
      LCDC := 0x91, LY := 10, SCY := 250, SCX := 254
      BGTileset := List.replicate 256 { rows := [0, 0, 0, 0, 0, 0, 0, 0] } } }

/-- The range predicate of `LY`: at most 143 in the modes 0, 2 and 3, and at most
153 in mode 1. -/
def PPU.LYInRange (ppu : PPU) : Prop :=
  ((ppu.STAT &&& 0x03 = 0 ∨ ppu.STAT &&& 0x03 = 2 ∨ ppu.STAT &&& 0x03 = 3) → ppu.LY ≤ 143) ∧
  (ppu.STAT &&& 0x03 = 1 → ppu.LY ≤ 153)

/-- A machine with the sprites disabled (`LCDC = 0x91`: LCD on, bit 1 clear) in
mode 2 at `LY = 0` with an empty sprite list: the OAM entries 0 to 9 are at
`y = 16`, `x = 8 + i` (on the lines 0 to 7), the other entries are zero, the
video RAM is zero and the tile caches hold 256 blank tiles. -/
def spritesOffExample : GameBoy :=
  { withOam (exampleMachine (fun _ => 0x00))
      (fun j => if j < 40 then (if j % 4 = 0 then 16 else if j % 4 = 1 then 8 + j / 4
        else if j % 4 = 2 then j / 4 else 0) else 0) 160 with
    ppu := { PPU.zeroed with
      LCDC := 0x91, STAT := 0x02, LY := 0
      BGTileset := List.replicate 256 { rows := [0, 0, 0, 0, 0, 0, 0, 0] }
      OBJTileset := List.replicate 256 { rows := [0, 0, 0, 0, 0, 0, 0, 0] } } }

/-- Source `PPU::DrawScanlineSprites`: the row index `oamY` that it passes to
`Tile::GetPixel` for a sprite of the list (an `int`, before the conversion to
the `u8` parameter). -/
def PPU.DrawScanlineSprites_oamY (ppu : PPU) (sprite : Sprite) : Int :=
  let SPRITE_HEIGHT : Int := if ppu.LCDC &&& 4 ≠ 0 then 16 else 8
  let adjScanline : Int := ppu.LY + 16
  let y : Int := sprite._y
  if sprite.flipY then (SPRITE_HEIGHT - 1) - (adjScanline - y) else adjScanline - y

/-- A machine with sprites of 16 rows (`LCDC = 0x97`: LCD on, bits 2 and 1 set)
in mode 2 at `LY = 8` with an empty sprite list: the OAM entry 0 is at `y = 16`,
`x = 8` (its rows 0 to 15 are the lines 0 to 15), the other entries are zero,
and the tile caches hold 256 blank tiles. -/
def tallSpriteExample : GameBoy :=
  { withOam (exampleMachine (fun _ => 0x00))
      (fun j => if j = 0 then 16 else if j = 1 then 8 else 0) 160 with
    ppu := { PPU.zeroed with
      LCDC := 0x97, STAT := 0x02, LY := 8
      BGTileset := List.replicate 256 { rows := [0, 0, 0, 0, 0, 0, 0, 0] }
      OBJTileset := List.replicate 256 { rows := [0, 0, 0, 0, 0, 0, 0, 0] } } }

/-! ## Bit-level facts about the flag register -/

theorem or_and_mask (F c m : Nat) : (F ||| c) &&& m = (F &&& m) ||| (c &&& m) := by
  rw [Nat.and_comm, Nat.and_or_distrib_left, Nat.and_comm m F, Nat.and_comm m c]

theorem lowNibble_or (F c : Nat) (h : c &&& 15 = 0) : (F ||| c) &&& 15 = F &&& 15 := by
  rw [or_and_mask, h, Nat.or_zero]

theorem lowNibble_and (F c : Nat) (h : c &&& 15 = 15) : (F &&& c) &&& 15 = F &&& 15 := by
  rw [Nat.and_assoc, h]

theorem and_two_pow_ne_zero (F i : Nat) : ((F &&& 2 ^ i) != 0) = F.testBit i := by
  rw [Nat.and_two_pow]
  cases F.testBit i <;> simp

theorem flag_testBit_same (F c d i : Nat) (v : Bool) (hc : c.testBit i = true)
    (hd : d.testBit i = false) : (if v then F ||| c else F &&& d).testBit i = v := by
  cases v <;> simp [hc, hd]

theorem flag_testBit_other (F c d i : Nat) (v : Bool) (hc : c.testBit i = false)
    (hd : d.testBit i = true) : (if v then F ||| c else F &&& d).testBit i = F.testBit i := by
  cases v <;> simp [hc, hd]

theorem toBool_and_16 : ∀ x < 32, toBool (x &&& 0x10) = decide (16 ≤ x) := by decide

set_option maxRecDepth 8192 in
theorem toBool_and_256 : ∀ x < 512, toBool (x &&& 0x100) = decide (256 ≤ x) := by decide

theorem and_15 (x : Nat) : x &&& 15 = x % 16 := Nat.and_pow_two_sub_one_eq_mod x 4

theorem and_255 (x : Nat) : x &&& 255 = x % 256 := Nat.and_pow_two_sub_one_eq_mod x 8

namespace Processor

theorem Zero_eq (p : Processor) : p.Zero = p.reg_F.testBit 7 := and_two_pow_ne_zero _ 7

theorem Subtract_eq (p : Processor) : p.Subtract = p.reg_F.testBit 6 := and_two_pow_ne_zero _ 6

theorem HalfCarry_eq (p : Processor) : p.HalfCarry = p.reg_F.testBit 5 := and_two_pow_ne_zero _ 5

theorem Carry_eq (p : Processor) : p.Carry = p.reg_F.testBit 4 := and_two_pow_ne_zero _ 4

@[simp] theorem Zero_SetZero (p : Processor) (v : Bool) : (p.SetZero v).Zero = v := by
  rw [Zero_eq]; exact flag_testBit_same _ _ _ _ _ (by decide) (by decide)

@[simp] theorem Zero_SetSubtract (p : Processor) (v : Bool) : (p.SetSubtract v).Zero = p.Zero := by
  rw [Zero_eq, Zero_eq]; exact flag_testBit_other _ _ _ _ _ (by decide) (by decide)

@[simp] theorem Zero_SetHalfCarry (p : Processor) (v : Bool) : (p.SetHalfCarry v).Zero = p.Zero := by
  rw [Zero_eq, Zero_eq]; exact flag_testBit_other _ _ _ _ _ (by decide) (by decide)

@[simp] theorem Zero_SetCarry (p : Processor) (v : Bool) : (p.SetCarry v).Zero = p.Zero := by
  rw [Zero_eq, Zero_eq]; exact flag_testBit_other _ _ _ _ _ (by decide) (by decide)

@[simp] theorem Subtract_SetZero (p : Processor) (v : Bool) : (p.SetZero v).Subtract = p.Subtract := by
  rw [Subtract_eq, Subtract_eq]; exact flag_testBit_other _ _ _ _ _ (by decide) (by decide)

@[simp] theorem Subtract_SetSubtract (p : Processor) (v : Bool) : (p.SetSubtract v).Subtract = v := by
  rw [Subtract_eq]; exact flag_testBit_same _ _ _ _ _ (by decide) (by decide)

@[simp] theorem Subtract_SetHalfCarry (p : Processor) (v : Bool) :
    (p.SetHalfCarry v).Subtract = p.Subtract := by
  rw [Subtract_eq, Subtract_eq]; exact flag_testBit_other _ _ _ _ _ (by decide) (by decide)

@[simp] theorem Subtract_SetCarry (p : Processor) (v : Bool) : (p.SetCarry v).Subtract = p.Subtract := by
  rw [Subtract_eq, Subtract_eq]; exact flag_testBit_other _ _ _ _ _ (by decide) (by decide)

@[simp] theorem HalfCarry_SetZero (p : Processor) (v : Bool) : (p.SetZero v).HalfCarry = p.HalfCarry := by
  rw [HalfCarry_eq, HalfCarry_eq]; exact flag_testBit_other _ _ _ _ _ (by decide) (by decide)

@[simp] theorem HalfCarry_SetSubtract (p : Processor) (v : Bool) :
    (p.SetSubtract v).HalfCarry = p.HalfCarry := by
  rw [HalfCarry_eq, HalfCarry_eq]; exact flag_testBit_other _ _ _ _ _ (by decide) (by decide)

@[simp] theorem HalfCarry_SetHalfCarry (p : Processor) (v : Bool) : (p.SetHalfCarry v).HalfCarry = v := by
  rw [HalfCarry_eq]; exact flag_testBit_same _ _ _ _ _ (by decide) (by decide)

@[simp] theorem HalfCarry_SetCarry (p : Processor) (v : Bool) : (p.SetCarry v).HalfCarry = p.HalfCarry := by
  rw [HalfCarry_eq, HalfCarry_eq]; exact flag_testBit_other _ _ _ _ _ (by decide) (by decide)

@[simp] theorem Carry_SetZero (p : Processor) (v : Bool) : (p.SetZero v).Carry = p.Carry := by
  rw [Carry_eq, Carry_eq]; exact flag_testBit_other _ _ _ _ _ (by decide) (by decide)

@[simp] theorem Carry_SetSubtract (p : Processor) (v : Bool) : (p.SetSubtract v).Carry = p.Carry := by
  rw [Carry_eq, Carry_eq]; exact flag_testBit_other _ _ _ _ _ (by decide) (by decide)

@[simp] theorem Carry_SetHalfCarry (p : Processor) (v : Bool) : (p.SetHalfCarry v).Carry = p.Carry := by
  rw [Carry_eq, Carry_eq]; exact flag_testBit_other _ _ _ _ _ (by decide) (by decide)

@[simp] theorem Carry_SetCarry (p : Processor) (v : Bool) : (p.SetCarry v).Carry = v := by
  rw [Carry_eq]; exact flag_testBit_same _ _ _ _ _ (by decide) (by decide)

/-! ### The setters and the other registers -/

@[simp] theorem r8_SetZero (p : Processor) (v : Bool) (r : R8) : (p.SetZero v).r8 r = p.r8 r := by
  cases r <;> rfl

@[simp] theorem r8_SetSubtract (p : Processor) (v : Bool) (r : R8) : (p.SetSubtract v).r8 r = p.r8 r := by
  cases r <;> rfl

@[simp] theorem r8_SetHalfCarry (p : Processor) (v : Bool) (r : R8) :
    (p.SetHalfCarry v).r8 r = p.r8 r := by
  cases r <;> rfl

@[simp] theorem r8_SetCarry (p : Processor) (v : Bool) (r : R8) : (p.SetCarry v).r8 r = p.r8 r := by
  cases r <;> rfl

@[simp] theorem r8_setR8_same (p : Processor) (r : R8) (v : Nat) : (p.setR8 r v).r8 r = v := by
  cases r <;> rfl

@[simp] theorem Zero_setR8 (p : Processor) (r : R8) (v : Nat) : (p.setR8 r v).Zero = p.Zero := by
  cases r <;> rfl

@[simp] theorem Subtract_setR8 (p : Processor) (r : R8) (v : Nat) :
    (p.setR8 r v).Subtract = p.Subtract := by
  cases r <;> rfl

@[simp] theorem HalfCarry_setR8 (p : Processor) (r : R8) (v : Nat) :
    (p.setR8 r v).HalfCarry = p.HalfCarry := by
  cases r <;> rfl

@[simp] theorem Carry_setR8 (p : Processor) (r : R8) (v : Nat) : (p.setR8 r v).Carry = p.Carry := by
  cases r <;> rfl

@[simp] theorem reg_F_setR8 (p : Processor) (r : R8) (v : Nat) : (p.setR8 r v).reg_F = p.reg_F := by
  cases r <;> rfl

set_option maxRecDepth 100000 in
/-- The flag byte after the four setters have run, for a flag byte that had its
low nibble clear. -/
theorem reg_F_after_all (p : Processor) (n h c z : Bool) (hF : p.reg_F < 256)
    (hlow : p.reg_F &&& 0x0F = 0) :
    ((((p.SetSubtract n).SetHalfCarry h).SetCarry c).SetZero z).reg_F =
      z.toNat * 0x80 + n.toNat * 0x40 + h.toNat * 0x20 + c.toNat * 0x10 := by
  have hF2 := hF
  have hlow2 := hlow
  revert hF2 hlow2
  simp only [SetSubtract, SetHalfCarry, SetCarry, SetZero]
  generalize p.reg_F = F
  revert F
  cases n <;> cases h <;> cases c <;> cases z <;> decide

end Processor

/-! ## The low nibble of `F` under the register-only instructions -/

namespace Processor

@[simp] theorem lowF_SetZero (p : Processor) (v : Bool) :
    (p.SetZero v).reg_F &&& 15 = p.reg_F &&& 15 := by
  cases v
  · exact lowNibble_and _ _ (by decide)
  · exact lowNibble_or _ _ (by decide)

@[simp] theorem lowF_SetSubtract (p : Processor) (v : Bool) :
    (p.SetSubtract v).reg_F &&& 15 = p.reg_F &&& 15 := by
  cases v
  · exact lowNibble_and _ _ (by decide)
  · exact lowNibble_or _ _ (by decide)

@[simp] theorem lowF_SetHalfCarry (p : Processor) (v : Bool) :
    (p.SetHalfCarry v).reg_F &&& 15 = p.reg_F &&& 15 := by
  cases v
  · exact lowNibble_and _ _ (by decide)
  · exact lowNibble_or _ _ (by decide)

@[simp] theorem lowF_SetCarry (p : Processor) (v : Bool) :
    (p.SetCarry v).reg_F &&& 15 = p.reg_F &&& 15 := by
  cases v
  · exact lowNibble_and _ _ (by decide)
  · exact lowNibble_or _ _ (by decide)

theorem reg_F_setR16 (p : Processor) (r : R16) (w : Nat) (h : r ≠ .reg_AF) :
    (p.setR16 r w).reg_F = p.reg_F := by
  cases r <;> first | rfl | exact absurd rfl h

@[simp] theorem reg_F_setR16_BC (p : Processor) (w : Nat) : (p.setR16 .reg_BC w).reg_F = p.reg_F := rfl

@[simp] theorem reg_F_setR16_DE (p : Processor) (w : Nat) : (p.setR16 .reg_DE w).reg_F = p.reg_F := rfl

@[simp] theorem reg_F_setR16_HL (p : Processor) (w : Nat) : (p.setR16 .reg_HL w).reg_F = p.reg_F := rfl

@[simp] theorem reg_F_setR16_SP (p : Processor) (w : Nat) : (p.setR16 .reg_SP w).reg_F = p.reg_F := rfl

@[simp] theorem reg_F_setR16_PC (p : Processor) (w : Nat) : (p.setR16 .reg_PC w).reg_F = p.reg_F := rfl

@[simp] theorem lowF_ld (p : Processor) (r : R8) (v : Nat) : (p.ld r v).reg_F &&& 15 = p.reg_F &&& 15 := by
  simp [ld]

@[simp] theorem lowF_inc (p : Processor) (r : R8) : (p.inc r).reg_F &&& 15 = p.reg_F &&& 15 := by
  simp [inc]

@[simp] theorem lowF_dec (p : Processor) (r : R8) : (p.dec r).reg_F &&& 15 = p.reg_F &&& 15 := by
  simp [dec]

@[simp] theorem lowF_add (p : Processor) (r : R8) (v : Nat) :
    (p.add r v).reg_F &&& 15 = p.reg_F &&& 15 := by
  simp [add]

@[simp] theorem lowF_adc (p : Processor) (r : R8) (v : Nat) :
    (p.adc r v).reg_F &&& 15 = p.reg_F &&& 15 := by
  simp [adc]

@[simp] theorem lowF_sub (p : Processor) (r : R8) (v : Nat) :
    (p.sub r v).reg_F &&& 15 = p.reg_F &&& 15 := by
  simp [sub]

@[simp] theorem lowF_sbc (p : Processor) (r : R8) (v : Nat) :
    (p.sbc r v).reg_F &&& 15 = p.reg_F &&& 15 := by
  simp [sbc]

@[simp] theorem lowF_and8 (p : Processor) (r : R8) (v : Nat) :
    (p.and8 r v).reg_F &&& 15 = p.reg_F &&& 15 := by
  simp [and8]

@[simp] theorem lowF_xor8 (p : Processor) (r : R8) (v : Nat) :
    (p.xor8 r v).reg_F &&& 15 = p.reg_F &&& 15 := by
  simp [xor8]

@[simp] theorem lowF_or8 (p : Processor) (r : R8) (v : Nat) :
    (p.or8 r v).reg_F &&& 15 = p.reg_F &&& 15 := by
  simp [or8]

@[simp] theorem lowF_cp (p : Processor) (v : Nat) : (p.cp v).reg_F &&& 15 = p.reg_F &&& 15 := by
  simp [cp]

@[simp] theorem lowF_daa (p : Processor) : p.daa.reg_F &&& 15 = p.reg_F &&& 15 := by
  simp only [daa]
  split_ifs <;> simp

@[simp] theorem lowF_jr (p : Processor) (v : Int) : (p.jr v).reg_F &&& 15 = p.reg_F &&& 15 := rfl

@[simp] theorem lowF_jp (p : Processor) (v : Nat) : (p.jp v).reg_F &&& 15 = p.reg_F &&& 15 := rfl

@[simp] theorem lowF_rlc (p : Processor) (r : R8) (z : Bool) :
    (p.rlc r z).reg_F &&& 15 = p.reg_F &&& 15 := by
  simp [rlc]

@[simp] theorem lowF_rl (p : Processor) (r : R8) (z : Bool) :
    (p.rl r z).reg_F &&& 15 = p.reg_F &&& 15 := by
  simp [rl]

@[simp] theorem lowF_rrc (p : Processor) (r : R8) (z : Bool) :
    (p.rrc r z).reg_F &&& 15 = p.reg_F &&& 15 := by
  simp [rrc]

@[simp] theorem lowF_rr (p : Processor) (r : R8) (z : Bool) :
    (p.rr r z).reg_F &&& 15 = p.reg_F &&& 15 := by
  simp [rr]

@[simp] theorem lowF_sla (p : Processor) (r : R8) : (p.sla r).reg_F &&& 15 = p.reg_F &&& 15 := by
  simp [sla]

@[simp] theorem lowF_srl (p : Processor) (r : R8) : (p.srl r).reg_F &&& 15 = p.reg_F &&& 15 := by
  simp [srl]

@[simp] theorem lowF_sra (p : Processor) (r : R8) : (p.sra r).reg_F &&& 15 = p.reg_F &&& 15 := by
  simp [sra]

@[simp] theorem lowF_bit (p : Processor) (v b : Nat) : (p.bit v b).reg_F &&& 15 = p.reg_F &&& 15 := by
  simp [bit]

@[simp] theorem lowF_swap (p : Processor) (r : R8) : (p.swap r).reg_F &&& 15 = p.reg_F &&& 15 := by
  simp [swap]

@[simp] theorem lowF_cpl (p : Processor) (r : R8) : (p.cpl r).reg_F &&& 15 = p.reg_F &&& 15 := by
  simp [cpl]

@[simp] theorem lowF_ccf (p : Processor) : p.ccf.reg_F &&& 15 = p.reg_F &&& 15 := by
  simp [ccf]

@[simp] theorem lowF_scf (p : Processor) : p.scf.reg_F &&& 15 = p.reg_F &&& 15 := by
  simp [scf]

@[simp] theorem lowF_res (p : Processor) (r : R8) (b : Nat) :
    (p.res r b).reg_F &&& 15 = p.reg_F &&& 15 := by
  simp [res]

@[simp] theorem lowF_set (p : Processor) (r : R8) (b : Nat) :
    (p.set r b).reg_F &&& 15 = p.reg_F &&& 15 := by
  simp [Processor.set]

@[simp] theorem lowF_inc16 (p : Processor) (r : R16) (h : r ≠ .reg_AF) :
    (p.inc16 r).reg_F &&& 15 = p.reg_F &&& 15 := by
  simp [inc16, reg_F_setR16 _ _ _ h]

@[simp] theorem lowF_dec16 (p : Processor) (r : R16) (h : r ≠ .reg_AF) :
    (p.dec16 r).reg_F &&& 15 = p.reg_F &&& 15 := by
  simp [dec16, reg_F_setR16 _ _ _ h]

@[simp] theorem lowF_ld16 (p : Processor) (r : R16) (v : Nat) (h : r ≠ .reg_AF) :
    (p.ld16 r v).reg_F &&& 15 = p.reg_F &&& 15 := by
  simp [ld16, reg_F_setR16 _ _ _ h]

@[simp] theorem lowF_add16 (p : Processor) (r : R16) (v : Nat) (h : r ≠ .reg_AF) :
    (p.add16 r v).reg_F &&& 15 = p.reg_F &&& 15 := by
  simp [add16, reg_F_setR16 _ _ _ h]

@[simp] theorem lowF_add_s8 (p : Processor) (r : R16) (v : Int) (h : r ≠ .reg_AF) :
    (p.add_s8 r v).reg_F &&& 15 = p.reg_F &&& 15 := by
  simp [add_s8, reg_F_setR16 _ _ _ h]

@[simp] theorem lowF_ld_sp_plus (p : Processor) (r : R16) (v : Int) (h : r ≠ .reg_AF) :
    (p.ld_sp_plus r v).reg_F &&& 15 = p.reg_F &&& 15 := by
  simp [ld_sp_plus, reg_F_setR16 _ _ _ h]

end Processor

/-! ## What a bus write leaves alone -/

theorem SameRegs.refl (p : Processor) : SameRegs p p := rfl

theorem SameRegs.trans {p q r : Processor} (h1 : SameRegs p q) (h2 : SameRegs q r) :
    SameRegs p r := by
  unfold SameRegs at *
  rw [h2, h1]

theorem SameRegs.reg_F {p q : Processor} (h : SameRegs p q) : q.reg_F = p.reg_F := by
  unfold SameRegs at h; rw [h]

theorem SameRegs.set_IF (p : Processor) (v : Nat) : SameRegs p { p with IF := v } := rfl

theorem SameRegs.set_IE (p : Processor) (v : Nat) : SameRegs p { p with IE := v } := rfl

theorem except_bind_ok {ε α β : Type} {x : Except ε α} {f : α → Except ε β} {b : β}
    (h : (x >>= f) = .ok b) : ∃ a, x = .ok a ∧ f a = .ok b := by
  cases x with
  | error e => simp [bind, Except.bind] at h
  | ok a => exact ⟨a, rfl, h⟩

theorem except_pure_ok {ε α : Type} {a b : α} (h : (pure a : Except ε α) = .ok b) : a = b := by
  simpa [pure, Except.pure] using h

theorem WriteBytes_processor {gb gb' : GameBoy} {src : Nat → Nat} {d n : Nat}
    (h : WriteBytes gb src d n = .ok gb') : gb'.processor = gb.processor := by
  unfold WriteBytes at h
  obtain ⟨m, -, h⟩ := except_bind_ok h
  rw [← except_pure_ok h]

theorem foldlM_invariant {α β : Type} (P : β → Prop) (f : β → α → Except Fault β)
    (hf : ∀ b a b', P b → f b a = .ok b' → P b') :
    ∀ (l : List α) (b b' : β), P b → l.foldlM f b = .ok b' → P b' := by
  intro l
  induction l with
  | nil =>
    intro b b' hb h
    rw [List.foldlM_nil] at h
    rw [← except_pure_ok h]; exact hb
  | cons a l ih =>
    intro b b' hb h
    rw [List.foldlM_cons] at h
    obtain ⟨b1, hfa, h⟩ := except_bind_ok h
    exact ih b1 b' (hf b a b1 hb hfa) h

theorem StartDMATransfer_regs (w : GameBoy → Nat → Nat → Except Fault GameBoy)
    (hw : ∀ gb a d gb', w gb a d = .ok gb' → SameRegs gb.processor gb'.processor)
    {gb gb' : GameBoy} {addrH : Nat} (h : StartDMATransfer w gb addrH = .ok gb') :
    SameRegs gb.processor gb'.processor := by
  unfold StartDMATransfer at h
  refine foldlM_invariant (fun g => SameRegs gb.processor g.processor) _ ?_ _ gb gb'
    (SameRegs.refl _) h
  intro b a b' hb hstep
  obtain ⟨v, -, hstep⟩ := except_bind_ok hstep
  exact hb.trans (hw _ _ _ _ hstep)

theorem TryIOWrite_regs (w : GameBoy → Nat → Nat → Except Fault GameBoy)
    (hw : ∀ gb a d gb', w gb a d = .ok gb' → SameRegs gb.processor gb'.processor)
    {gb gb' : GameBoy} {address data : Nat} {handled : Bool}
    (h : TryIOWrite w gb address data = .ok (handled, gb')) :
    SameRegs gb.processor gb'.processor := by
  unfold TryIOWrite at h
  split at h
  · split at h
    all_goals first
      | (simp only [Except.ok.injEq, Prod.mk.injEq] at h
         obtain ⟨-, rfl⟩ := h
         exact SameRegs.refl _)
      | skip
    · obtain ⟨g, hd, h⟩ := except_bind_ok h
      have h := except_pure_ok h
      simp only [Prod.mk.injEq] at h
      obtain ⟨-, rfl⟩ := h
      exact StartDMATransfer_regs w hw hd
    · split at h
      · simp at h
      · obtain ⟨g, hd, h⟩ := except_bind_ok h
        have h := except_pure_ok h
        simp only [Prod.mk.injEq] at h
        obtain ⟨-, rfl⟩ := h
        show SameRegs gb.processor g.processor
        rw [WriteBytes_processor hd]
        exact SameRegs.refl _
  · simp only [Except.ok.injEq, Prod.mk.injEq] at h
    obtain ⟨-, rfl⟩ := h
    exact SameRegs.refl _

theorem Write8F_regs : ∀ (n : Nat) (gb : GameBoy) (address data : Nat) (gb' : GameBoy),
    Write8F n gb address data = .ok gb' → SameRegs gb.processor gb'.processor := by
  intro n
  induction n with
  | zero => intro gb address data gb' h; simp [Write8F] at h
  | succ n ih =>
    intro gb address data gb' h
    unfold Write8F at h
    split at h
    · simp only [Except.ok.injEq] at h
      rw [← h]; exact SameRegs.refl _
    · obtain ⟨⟨handled, g⟩, ht, h⟩ := except_bind_ok h
      have hg := TryIOWrite_regs (Write8F n) ih ht
      cases handled with
      | true =>
        rw [← except_pure_ok h]; exact hg
      | false =>
        obtain ⟨m, -, h⟩ := except_bind_ok h
        rw [← except_pure_ok h]; exact hg

theorem Write8_regs {gb gb' : GameBoy} {address data : Nat}
    (h : Write8 gb address data = .ok gb') : SameRegs gb.processor gb'.processor :=
  Write8F_regs 2 gb address data gb' h

theorem Write16_processor {gb gb' : GameBoy} {address data : Nat}
    (h : Write16 gb address data = .ok gb') : gb'.processor = gb.processor := by
  unfold Write16 at h
  split at h
  · simp only [Except.ok.injEq] at h
    rw [← h]
  · obtain ⟨m, -, h⟩ := except_bind_ok h
    rw [← except_pure_ok h]

/-! ## Computations that keep the low nibble of `F` clear -/

theorem exec_bind_ok {α β : Type} {m : Exec α} {f : α → Exec β} {gb gb' : GameBoy} {b : β}
    (h : (m >>= f) gb = .ok (b, gb')) :
    ∃ a gb1, m gb = .ok (a, gb1) ∧ f a gb1 = .ok (b, gb') := by
  change (match m gb with
    | .ok (a, g) => f a g
    | .error e => .error e) = .ok (b, gb') at h
  cases hm : m gb with
  | error e => rw [hm] at h; cases h
  | ok r =>
    obtain ⟨a, g⟩ := r
    rw [hm] at h
    exact ⟨a, g, rfl, h⟩

theorem exec_pure_ok {α : Type} {a b : α} {gb gb' : GameBoy}
    (h : (pure a : Exec α) gb = .ok (b, gb')) : a = b ∧ gb = gb' := by
  change Except.ok (a, gb) = .ok (b, gb') at h
  simpa using h

theorem Keeps_pure {α : Type} (a : α) : Keeps (pure a : Exec α) := by
  intro gb b gb' hgb h
  rw [← (exec_pure_ok h).2]; exact hgb

theorem Keeps_bind {α β : Type} {m : Exec α} {f : α → Exec β} (hm : Keeps m)
    (hf : ∀ a, Keeps (f a)) : Keeps (m >>= f) := by
  intro gb b gb' hgb h
  obtain ⟨a, gb1, h1, h2⟩ := exec_bind_ok h
  exact hf a gb1 b gb' (hm gb a gb1 hgb h1) h2

theorem Keeps_ite {α : Type} {c : Prop} [Decidable c] {m n : Exec α} (hm : Keeps m)
    (hn : Keeps n) : Keeps (if c then m else n) := by
  split <;> assumption

theorem Keeps_cpu (f : Processor → Processor)
    (hf : ∀ p, (f p).reg_F &&& 15 = p.reg_F &&& 15) : Keeps (cpu f) := by
  intro gb a gb' hgb h
  simp only [cpu, Except.ok.injEq, Prod.mk.injEq] at h
  rw [← h.2]
  unfold FlagsLowClear at *
  show (f gb.processor).reg_F &&& 15 = 0
  rw [hf]; exact hgb

theorem Keeps_of_reads {α : Type} (m : Exec α)
    (hm : ∀ gb a gb', m gb = .ok (a, gb') → gb' = gb) : Keeps m := by
  intro gb a gb' hgb h
  rw [hm gb a gb' h]; exact hgb

theorem Keeps_getR8 (r : R8) : Keeps (getR8 r) :=
  Keeps_of_reads _ (by intro gb a gb' h; simp only [getR8, Except.ok.injEq, Prod.mk.injEq] at h; exact h.2.symm)

theorem Keeps_getR16 (r : R16) : Keeps (getR16 r) :=
  Keeps_of_reads _ (by intro gb a gb' h; simp only [getR16, Except.ok.injEq, Prod.mk.injEq] at h; exact h.2.symm)

theorem Keeps_getFlag (f : Processor → Bool) : Keeps (getFlag f) :=
  Keeps_of_reads _ (by intro gb a gb' h; simp only [getFlag, Except.ok.injEq, Prod.mk.injEq] at h; exact h.2.symm)

theorem Keeps_getPort (f : Processor → Nat) : Keeps (getPort f) :=
  Keeps_of_reads _ (by intro gb a gb' h; simp only [getPort, Except.ok.injEq, Prod.mk.injEq] at h; exact h.2.symm)

theorem read8_ok {address v : Nat} {gb gb' : GameBoy} (h : read8 address gb = .ok (v, gb')) :
    Read8 gb address = .ok v ∧ gb' = gb := by
  unfold read8 at h
  cases hr : Read8 gb address with
  | error e => rw [hr] at h; cases h
  | ok x =>
    rw [hr] at h
    simp only [Except.ok.injEq, Prod.mk.injEq] at h
    exact ⟨by rw [h.1], h.2.symm⟩

theorem read16_ok {address v : Nat} {gb gb' : GameBoy} (h : read16 address gb = .ok (v, gb')) :
    Read16 gb address = .ok v ∧ gb' = gb := by
  unfold read16 at h
  cases hr : Read16 gb address with
  | error e => rw [hr] at h; cases h
  | ok x =>
    rw [hr] at h
    simp only [Except.ok.injEq, Prod.mk.injEq] at h
    exact ⟨by rw [h.1], h.2.symm⟩

theorem write8_ok {address data : Nat} {u : Unit} {gb gb' : GameBoy}
    (h : write8 address data gb = .ok (u, gb')) : Write8 gb address data = .ok gb' := by
  unfold write8 at h
  cases hr : Write8 gb address data with
  | error e => rw [hr] at h; cases h
  | ok x =>
    rw [hr] at h
    simp only [Except.ok.injEq, Prod.mk.injEq] at h
    rw [h.2]

theorem write16_ok {address data : Nat} {u : Unit} {gb gb' : GameBoy}
    (h : write16 address data gb = .ok (u, gb')) : Write16 gb address data = .ok gb' := by
  unfold write16 at h
  cases hr : Write16 gb address data with
  | error e => rw [hr] at h; cases h
  | ok x =>
    rw [hr] at h
    simp only [Except.ok.injEq, Prod.mk.injEq] at h
    rw [h.2]

theorem Keeps_read8 (address : Nat) : Keeps (read8 address) :=
  Keeps_of_reads _ (fun _ _ _ h => (read8_ok h).2)

theorem Keeps_read16 (address : Nat) : Keeps (read16 address) :=
  Keeps_of_reads _ (fun _ _ _ h => (read16_ok h).2)

theorem Keeps_write8 (address data : Nat) : Keeps (write8 address data) := by
  intro gb a gb' hgb h
  unfold FlagsLowClear at *
  rw [(Write8_regs (write8_ok h)).reg_F]; exact hgb

theorem Keeps_write16 (address data : Nat) : Keeps (write16 address data) := by
  intro gb a gb' hgb h
  unfold FlagsLowClear at *
  rw [Write16_processor (write16_ok h)]; exact hgb

theorem Keeps_stop : Keeps stop := by
  intro gb a gb' hgb h
  simp only [stop, Except.ok.injEq, Prod.mk.injEq] at h
  rw [← h.2]; exact hgb

theorem Keeps_switchOn {α : Type} (d : Exec α) (hd : Keeps d) :
    ∀ (rows : List (Nat × Exec α)), (∀ e ∈ rows, Keeps e.2) → ∀ x, Keeps (switchOn d rows x) := by
  intro rows
  induction rows with
  | nil => intro _ x; exact hd
  | cons r rows ih =>
    intro h x
    obtain ⟨label, body⟩ := r
    unfold switchOn
    split
    · exact h (label, body) (List.mem_cons_self _ _)
    · exact ih (fun e he => h e (List.mem_cons_of_mem _ he)) x

theorem rows_cons {α : Type} {P : Exec α → Prop} {label : Nat} {body : Exec α}
    {rows : List (Nat × Exec α)} (h1 : P body) (h2 : ∀ e ∈ rows, P e.2) :
    ∀ e ∈ (label, body) :: rows, P e.2 := by
  intro e he
  rcases List.mem_cons.mp he with rfl | he
  · exact h1
  · exact h2 e he

theorem rows_nil {α : Type} {P : Exec α → Prop} : ∀ e ∈ ([] : List (Nat × Exec α)), P e.2 := by
  intro e he
  cases he

namespace Processor

theorem Keeps_GetOperand8 : Keeps GetOperand8 :=
  Keeps_bind (Keeps_getR16 _) fun _ =>
    Keeps_bind (Keeps_cpu _ (fun _ => by simp)) fun _ => Keeps_read8 _

theorem Keeps_GetOperand16 : Keeps GetOperand16 :=
  Keeps_bind (Keeps_getR16 _) fun _ =>
    Keeps_bind (Keeps_read16 _) fun _ =>
      Keeps_bind (Keeps_cpu _ (fun _ => by simp)) fun _ => Keeps_pure _

theorem Keeps_ldAt (a v : Nat) : Keeps (ldAt a v) := Keeps_write8 _ _

theorem Keeps_ldAt16 (a v : Nat) : Keeps (ldAt16 a v) := Keeps_write16 _ _

theorem Keeps_push (v : Nat) : Keeps (push v) :=
  Keeps_bind (Keeps_cpu _ (fun _ => by simp)) fun _ =>
    Keeps_bind (Keeps_getR16 _) fun _ => Keeps_write16 _ _

theorem Keeps_pop (r : R16) (h : r ≠ .reg_AF) : Keeps (pop r) :=
  Keeps_bind (Keeps_getR16 _) fun _ =>
    Keeps_bind (Keeps_read16 _) fun _ =>
      Keeps_bind (Keeps_cpu _ (fun _ => by rw [reg_F_setR16 _ _ _ h])) fun _ =>
        Keeps_cpu _ (fun _ => by simp)

theorem Keeps_call (a : Nat) : Keeps (call a) :=
  Keeps_bind (Keeps_getR16 _) fun _ =>
    Keeps_bind (Keeps_push _) fun _ => Keeps_cpu _ (fun _ => by simp)

theorem Keeps_ret : Keeps ret := Keeps_pop _ (by decide)

/-- The case `0xF1`: `pop(reg_AF)` followed by `reg_F &= 0xF0`. -/
theorem Keeps_pop_AF_masked {α : Type} (m : Exec α) (hm : Keeps m) :
    Keeps (pop .reg_AF >>= fun _ =>
      (cpu (fun p => { p with reg_F := p.reg_F &&& 0xF0 }) >>= fun _ => m)) := by
  intro gb a gb' _ h
  obtain ⟨_, gb1, -, h2⟩ := exec_bind_ok h
  obtain ⟨_, gb2, h3, h4⟩ := exec_bind_ok h2
  refine hm gb2 a gb' ?_ h4
  simp only [cpu, Except.ok.injEq, Prod.mk.injEq] at h3
  rw [← h3.2]
  show (gb1.processor.reg_F &&& 0xF0) &&& 0x0F = 0
  rw [Nat.and_assoc]
  exact Nat.and_zero _

end Processor

namespace Processor

theorem Keeps_incAt (a : Nat) : Keeps (incAt a) := by
  unfold incAt
  repeat' with_reducible first
    | exact Keeps_pure _ | exact Keeps_read8 _ | exact Keeps_write8 _ _ | exact Keeps_getFlag _
    | exact Keeps_cpu _ (fun _ => by simp)
    | refine Keeps_bind ?_ (fun _ => ?_)

theorem Keeps_decAt (a : Nat) : Keeps (decAt a) := by
  unfold decAt
  repeat' with_reducible first
    | exact Keeps_pure _ | exact Keeps_read8 _ | exact Keeps_write8 _ _ | exact Keeps_getFlag _
    | exact Keeps_cpu _ (fun _ => by simp)
    | refine Keeps_bind ?_ (fun _ => ?_)

theorem Keeps_rlcAt (a : Nat) (z : Bool) : Keeps (rlcAt a z) := by
  unfold rlcAt
  repeat' with_reducible first
    | exact Keeps_pure _ | exact Keeps_read8 _ | exact Keeps_write8 _ _ | exact Keeps_getFlag _
    | exact Keeps_cpu _ (fun _ => by simp)
    | refine Keeps_bind ?_ (fun _ => ?_)

theorem Keeps_rlAt (a : Nat) (z : Bool) : Keeps (rlAt a z) := by
  unfold rlAt
  repeat' with_reducible first
    | exact Keeps_pure _ | exact Keeps_read8 _ | exact Keeps_write8 _ _ | exact Keeps_getFlag _
    | exact Keeps_cpu _ (fun _ => by simp)
    | refine Keeps_bind ?_ (fun _ => ?_)

theorem Keeps_rrcAt (a : Nat) (z : Bool) : Keeps (rrcAt a z) := by
  unfold rrcAt
  repeat' with_reducible first
    | exact Keeps_pure _ | exact Keeps_read8 _ | exact Keeps_write8 _ _ | exact Keeps_getFlag _
    | exact Keeps_cpu _ (fun _ => by simp)
    | refine Keeps_bind ?_ (fun _ => ?_)

theorem Keeps_rrAt (a : Nat) (z : Bool) : Keeps (rrAt a z) := by
  unfold rrAt
  repeat' with_reducible first
    | exact Keeps_pure _ | exact Keeps_read8 _ | exact Keeps_write8 _ _ | exact Keeps_getFlag _
    | exact Keeps_cpu _ (fun _ => by simp)
    | refine Keeps_bind ?_ (fun _ => ?_)

theorem Keeps_slaAt (a : Nat) : Keeps (slaAt a) := by
  unfold slaAt
  repeat' with_reducible first
    | exact Keeps_pure _ | exact Keeps_read8 _ | exact Keeps_write8 _ _ | exact Keeps_getFlag _
    | exact Keeps_cpu _ (fun _ => by simp)
    | refine Keeps_bind ?_ (fun _ => ?_)

theorem Keeps_srlAt (a : Nat) : Keeps (srlAt a) := by
  unfold srlAt
  repeat' with_reducible first
    | exact Keeps_pure _ | exact Keeps_read8 _ | exact Keeps_write8 _ _ | exact Keeps_getFlag _
    | exact Keeps_cpu _ (fun _ => by simp)
    | refine Keeps_bind ?_ (fun _ => ?_)

theorem Keeps_sraAt (a : Nat) : Keeps (sraAt a) := by
  unfold sraAt
  repeat' with_reducible first
    | exact Keeps_pure _ | exact Keeps_read8 _ | exact Keeps_write8 _ _ | exact Keeps_getFlag _
    | exact Keeps_cpu _ (fun _ => by simp)
    | refine Keeps_bind ?_ (fun _ => ?_)

theorem Keeps_swapAt (a : Nat) : Keeps (swapAt a) := by
  unfold swapAt
  repeat' with_reducible first
    | exact Keeps_pure _ | exact Keeps_read8 _ | exact Keeps_write8 _ _ | exact Keeps_getFlag _
    | exact Keeps_cpu _ (fun _ => by simp)
    | refine Keeps_bind ?_ (fun _ => ?_)

theorem Keeps_resAt (a b : Nat) : Keeps (resAt a b) := by
  unfold resAt
  repeat' with_reducible first
    | exact Keeps_pure _ | exact Keeps_read8 _ | exact Keeps_write8 _ _ | exact Keeps_getFlag _
    | exact Keeps_cpu _ (fun _ => by simp)
    | refine Keeps_bind ?_ (fun _ => ?_)

theorem Keeps_setAt (a b : Nat) : Keeps (setAt a b) := by
  unfold setAt
  repeat' with_reducible first
    | exact Keeps_pure _ | exact Keeps_read8 _ | exact Keeps_write8 _ _ | exact Keeps_getFlag _
    | exact Keeps_cpu _ (fun _ => by simp)
    | refine Keeps_bind ?_ (fun _ => ?_)

set_option maxRecDepth 100000 in
set_option maxHeartbeats 4000000 in
theorem ExecuteCBOpcode_cases_keep : ∀ e ∈ ExecuteCBOpcode_cases, Keeps e.2 := by
  unfold ExecuteCBOpcode_cases
  repeat' with_reducible first
    | exact rows_nil
    | refine rows_cons ?_ ?_
    | exact Keeps_pure _ | exact Keeps_read8 _ | exact Keeps_getR8 _ | exact Keeps_getR16 _
    | exact Keeps_rlcAt _ _ | exact Keeps_rlAt _ _ | exact Keeps_rrcAt _ _ | exact Keeps_rrAt _ _
    | exact Keeps_slaAt _ | exact Keeps_srlAt _ | exact Keeps_sraAt _ | exact Keeps_swapAt _
    | exact Keeps_resAt _ _ | exact Keeps_setAt _ _
    | exact Keeps_cpu _ (fun _ => by simp)
    | refine Keeps_bind ?_ (fun _ => ?_)

set_option maxRecDepth 100000 in
set_option maxHeartbeats 4000000 in
theorem ExecuteNext_cases_keep : ∀ e ∈ ExecuteNext_cases, Keeps e.2 := by
  unfold ExecuteNext_cases
  repeat' with_reducible first
    | exact rows_nil
    | refine rows_cons ?_ ?_
    | exact Keeps_pure _ | exact Keeps_read8 _ | exact Keeps_getR8 _ | exact Keeps_getR16 _
    | exact Keeps_getFlag _ | exact Keeps_GetOperand8 | exact Keeps_GetOperand16
    | exact Keeps_ldAt _ _ | exact Keeps_ldAt16 _ _ | exact Keeps_incAt _ | exact Keeps_decAt _
    | exact Keeps_push _ | exact Keeps_call _ | exact Keeps_ret
    | exact Keeps_pop _ (by decide)
    | exact Keeps_cpu _ (fun _ => by simp)
    | exact Keeps_cpu _ (fun _ => rfl)
    | refine Keeps_pop_AF_masked _ ?_
    | refine Keeps_ite ?_ ?_
    | refine Keeps_bind ?_ (fun _ => ?_)

/-- The instruction step keeps the low nibble of `F` clear. -/
theorem Keeps_ExecuteNext (OPCODE_LOOKUP CB_OPCODE_LOOKUP : Nat → Opcode) :
    Keeps (ExecuteNext OPCODE_LOOKUP CB_OPCODE_LOOKUP) := by
  unfold ExecuteNext
  refine Keeps_bind Keeps_GetOperand8 (fun opcode => ?_)
  refine Keeps_ite ?_ ?_
  · refine Keeps_bind ?_ (fun _ => Keeps_pure _)
    unfold ExecuteCBOpcode
    refine Keeps_bind Keeps_GetOperand8 (fun cb => ?_)
    refine Keeps_bind ?_ (fun _ => Keeps_pure _)
    exact Keeps_switchOn _ (Keeps_bind Keeps_stop (fun _ => Keeps_pure _)) _
      ExecuteCBOpcode_cases_keep cb
  · refine Keeps_bind ?_ (fun _ => Keeps_pure _)
    exact Keeps_switchOn _ (Keeps_bind Keeps_stop (fun _ => Keeps_pure _)) _
      ExecuteNext_cases_keep opcode

end Processor

/-! ## Words on the stack -/

theorem GetPage_ram (m : MBC) (a : Nat)
    (ha : (0xC000 ≤ a ∧ a ≤ 0xDFFF) ∨ (0xFF80 ≤ a ∧ a ≤ 0xFFFE)) :
    m.GetPage a = .ok (stackRef a) := by
  unfold MBC.GetPage MBC.GetPage_MBC3 MBC.GetPage_MBC1 MBC.GetPage_MBC stackRef
  have h1 : ¬ (a ≥ 0x4000 ∧ a ≤ 0x7FFF) := by omega
  have h2 : ¬ (a ≥ 0xA000 ∧ a ≤ 0xBFFF) := by omega
  have h3 : ¬ (a ≤ 0x3FFF) := by omega
  have h4 : ¬ (a ≥ 0x8000 ∧ a ≤ 0x9FFF) := by omega
  have h5 : ¬ (a ≥ 0xFE00 ∧ a ≤ 0xFE9F) := by omega
  rcases ha with h | h
  · have h6 : a ≥ 0xC000 ∧ a ≤ 0xDFFF := by omega
    have h7 : a ≤ 0xDFFF := by omega
    cases m.kind <;> simp [h1, h2, h3, h4, h6, h7]
  · have h6 : ¬ (a ≥ 0xC000 ∧ a ≤ 0xDFFF) := by omega
    have h7 : ¬ a ≤ 0xDFFF := by omega
    have h8 : a ≥ 0xFF80 ∧ a ≤ 0xFFFE := by omega
    cases m.kind <;> simp [h1, h2, h3, h4, h5, h6, h7, h8]

theorem GetPage_stack (m : MBC) (a : Nat) (ha : StackSlot a) : m.GetPage a = .ok (stackRef a) := by
  unfold StackSlot at ha
  exact GetPage_ram m a (by omega)

theorem CheckBounds16_stack (a : Nat) (ha : StackSlot a) : CheckBounds16 a = true := by
  unfold StackSlot at ha
  unfold CheckBounds16
  rw [if_neg (by omega)]

theorem Write16_stack (gb : GameBoy) (hp : gb.mbc.PagesAsConstructed) (a v : Nat)
    (ha : StackSlot a) : Write16 gb a v = .ok (storeWord gb a v) := by
  obtain ⟨-, -, -, -, ⟨hw1, hw2⟩, -, ⟨hh1, hh2⟩⟩ := hp
  unfold Write16 MBC.Write16
  rw [CheckBounds16_stack a ha, GetPage_stack _ a ha]
  unfold StackSlot at ha
  unfold stackRef storeWord
  rcases ha with h | h
  · have h7 : a ≤ 0xDFFF := by omega
    have e1 : (a + 16384) % 65536 = a - 0xC000 := by omega
    have e2 : a - 0xC000 < 8192 := by omega
    have e3 : a - 0xC000 + 1 < 8192 := by omega
    simp [h7, MBC.page, MBC.setPage, MemoryPage.write, hw1, hw2, bind, Except.bind, pure,
      Except.pure, e1, e2, e3]
  · have h7 : ¬ a ≤ 0xDFFF := by omega
    have e1 : (a + 128) % 65536 = a - 0xFF80 := by omega
    have e2 : a - 0xFF80 < 127 := by omega
    have e3 : a - 0xFF80 + 1 < 127 := by omega
    simp [h7, MBC.page, MBC.setPage, MemoryPage.write, hh1, hh2, bind, Except.bind, pure,
      Except.pure, e1, e2, e3]

theorem word_of_bytes (v : Nat) (hv : v < 65536) :
    (v &&& 0x00FF) ||| (((v &&& 0xFF00) >>> 8) <<< 8) = v := by
  apply Nat.eq_of_testBit_eq
  intro i
  simp only [Nat.testBit_or, Nat.testBit_and, Nat.testBit_shiftLeft, Nat.testBit_shiftRight]
  have h255 : Nat.testBit 255 i = decide (i < 8) := by
    rw [show (255 : Nat) = 2 ^ 8 - 1 by norm_num, Nat.testBit_two_pow_sub_one]
  by_cases hi : i < 8
  · have h8 : ¬ (8 ≤ i) := by omega
    simp [h255, hi, h8]
  · have h8 : 8 ≤ i := by omega
    have e : 8 + (i - 8) = i := by omega
    by_cases hi16 : i < 16
    · have hFF00 : Nat.testBit 65280 i = true := by
        interval_cases i <;> rfl
      simp [h255, hi, h8, e, hFF00]
    · have hlt : v < 2 ^ i := lt_of_lt_of_le hv (by
        calc 65536 = 2 ^ 16 := by norm_num
          _ ≤ 2 ^ i := Nat.pow_le_pow_right (by norm_num) (by omega))
      simp [h255, hi, h8, e, Nat.testBit_lt_two_pow hlt]

theorem high_byte (v : Nat) (hv : v < 65536) : (v &&& 0xFF00) >>> 8 = v / 256 := by
  apply Nat.eq_of_testBit_eq
  intro i
  rw [show (256 : Nat) = 2 ^ 8 by norm_num, ← Nat.shiftRight_eq_div_pow]
  simp only [Nat.testBit_shiftRight, Nat.testBit_and]
  by_cases hi : i < 8
  · have hFF00 : Nat.testBit 65280 (8 + i) = true := by
      interval_cases i <;> rfl
    rw [hFF00, Bool.and_true]
  · have hlt : v < 2 ^ (8 + i) := lt_of_lt_of_le hv (by
      calc 65536 = 2 ^ 16 := by norm_num
        _ ≤ 2 ^ (8 + i) := Nat.pow_le_pow_right (by norm_num) (by omega))
    rw [Nat.testBit_lt_two_pow hlt, Bool.false_and]

theorem storeWord_processor (gb : GameBoy) (a v : Nat) :
    (storeWord gb a v).processor = gb.processor := by
  unfold storeWord; split <;> rfl

theorem storeWord_pages (gb : GameBoy) (a v : Nat) (hp : gb.mbc.PagesAsConstructed) :
    (storeWord gb a v).mbc.PagesAsConstructed := by
  unfold storeWord; split <;> exact hp

theorem CheckBounds8_stack (a : Nat) (ha : (0xC000 ≤ a ∧ a ≤ 0xDFFF) ∨ (0xFF80 ≤ a ∧ a ≤ 0xFFFE)) :
    CheckBounds8 a = true := by
  unfold CheckBounds8
  rw [if_neg (by omega)]

theorem TryIORead_stack (gb : GameBoy) (a d : Nat)
    (ha : (0xC000 ≤ a ∧ a ≤ 0xDFFF) ∨ (0xFF80 ≤ a ∧ a ≤ 0xFFFE)) : TryIORead gb a d = none := by
  unfold TryIORead
  rw [if_neg (by omega)]

theorem MBC_Read16_wram (m : MBC) (hb : m.wram.base = 0xC000) (hs : m.wram.size = 0x2000)
    (a : Nat) (h : 0xC000 ≤ a ∧ a ≤ 0xDFFE) :
    m.Read16 a = .ok (m.wram.bytes (a - 0xC000) ||| (m.wram.bytes (a - 0xC000 + 1) <<< 8)) := by
  have e1 : (a + 65536 - 49152 % 65536) % 65536 = a - 0xC000 := by omega
  have e2 : a - 0xC000 < 8192 := by omega
  have e3 : a - 0xC000 + 1 < 8192 := by omega
  unfold MBC.Read16
  rw [GetPage_stack m a (Or.inl h)]
  unfold stackRef
  rw [if_pos (by omega)]
  simp only [MBC.page, bind, Except.bind, hb, e1, MemoryPage.read, hs, e2, e3, if_true, pure,
    Except.pure]

theorem MBC_Read16_highRam (m : MBC) (hb : m.highRam.base = 0xFF80) (hs : m.highRam.size = 0x7F)
    (a : Nat) (h : 0xFF80 ≤ a ∧ a ≤ 0xFFFD) :
    m.Read16 a =
      .ok (m.highRam.bytes (a - 0xFF80) ||| (m.highRam.bytes (a - 0xFF80 + 1) <<< 8)) := by
  have e1 : (a + 65536 - 65408 % 65536) % 65536 = a - 0xFF80 := by omega
  have e2 : a - 0xFF80 < 127 := by omega
  have e3 : a - 0xFF80 + 1 < 127 := by omega
  unfold MBC.Read16
  rw [GetPage_stack m a (Or.inr h)]
  unfold stackRef
  rw [if_neg (by omega)]
  simp only [MBC.page, bind, Except.bind, hb, e1, MemoryPage.read, hs, e2, e3, if_true, pure,
    Except.pure]

theorem Read16_of_bounds (gb : GameBoy) (a : Nat) (h : CheckBounds16 a = true) :
    Read16 gb a = gb.mbc.Read16 a := by
  simp [Read16, h]

theorem storeWord_mbc_wram (gb : GameBoy) (a v : Nat) (h : a ≤ 0xDFFF) :
    (storeWord gb a v).mbc = { gb.mbc with wram := { gb.mbc.wram with
        bytes := Function.update (Function.update gb.mbc.wram.bytes (a - 0xC000) (v &&& 0x00FF))
          (a - 0xC000 + 1) ((v &&& 0xFF00) >>> 8) } } := by
  unfold storeWord
  rw [if_pos h]

theorem storeWord_mbc_highRam (gb : GameBoy) (a v : Nat) (h : ¬ a ≤ 0xDFFF) :
    (storeWord gb a v).mbc = { gb.mbc with highRam := { gb.mbc.highRam with
        bytes := Function.update (Function.update gb.mbc.highRam.bytes (a - 0xFF80) (v &&& 0x00FF))
          (a - 0xFF80 + 1) ((v &&& 0xFF00) >>> 8) } } := by
  unfold storeWord
  rw [if_neg h]

theorem Read16_storeWord (gb : GameBoy) (hp : gb.mbc.PagesAsConstructed) (a v : Nat)
    (ha : StackSlot a) (hv : v < 65536) : Read16 (storeWord gb a v) a = .ok v := by
  obtain ⟨-, -, -, -, ⟨hw1, hw2⟩, -, ⟨hh1, hh2⟩⟩ := hp
  rw [Read16_of_bounds _ _ (CheckBounds16_stack a ha)]
  have hword := word_of_bytes v hv
  unfold StackSlot at ha
  rcases ha with h | h
  · have hle : a ≤ 0xDFFF := by omega
    rw [MBC_Read16_wram (storeWord gb a v).mbc (by rw [storeWord_mbc_wram gb a v hle]; exact hw1)
      (by rw [storeWord_mbc_wram gb a v hle]; exact hw2) a h, storeWord_mbc_wram gb a v hle]
    dsimp only
    rw [Function.update_noteq (by omega), Function.update_same, Function.update_same, hword]
  · have hle : ¬ a ≤ 0xDFFF := by omega
    rw [MBC_Read16_highRam (storeWord gb a v).mbc
      (by rw [storeWord_mbc_highRam gb a v hle]; exact hh1)
      (by rw [storeWord_mbc_highRam gb a v hle]; exact hh2) a h, storeWord_mbc_highRam gb a v hle]
    dsimp only
    rw [Function.update_noteq (by omega), Function.update_same, Function.update_same, hword]

theorem MBC_Read8_wram (m : MBC) (hb : m.wram.base = 0xC000) (hs : m.wram.size = 0x2000)
    (a : Nat) (h : 0xC000 ≤ a ∧ a ≤ 0xDFFF) : m.Read8 a = .ok (m.wram.bytes (a - 0xC000)) := by
  have e1 : (a + 65536 - 49152 % 65536) % 65536 = a - 0xC000 := by omega
  have e2 : a - 0xC000 < 8192 := by omega
  have h2 : ¬ (a ≥ 0xA000 ∧ a ≤ 0xBFFF) := by omega
  have hbase : m.Read8_MBC a = .ok (m.wram.bytes (a - 0xC000)) := by
    unfold MBC.Read8_MBC
    rw [GetPage_ram m a (Or.inl h)]
    unfold stackRef
    rw [if_pos (by omega)]
    simp only [MBC.page, bind, Except.bind, hb, e1, MemoryPage.read, hs, e2, if_true]
  unfold MBC.Read8 MBC.Read8_MBC3
  rw [if_neg h2]
  cases m.kind <;> exact hbase

theorem MBC_Read8_highRam (m : MBC) (hb : m.highRam.base = 0xFF80) (hs : m.highRam.size = 0x7F)
    (a : Nat) (h : 0xFF80 ≤ a ∧ a ≤ 0xFFFE) : m.Read8 a = .ok (m.highRam.bytes (a - 0xFF80)) := by
  have e1 : (a + 65536 - 65408 % 65536) % 65536 = a - 0xFF80 := by omega
  have e2 : a - 0xFF80 < 127 := by omega
  have h2 : ¬ (a ≥ 0xA000 ∧ a ≤ 0xBFFF) := by omega
  have hbase : m.Read8_MBC a = .ok (m.highRam.bytes (a - 0xFF80)) := by
    unfold MBC.Read8_MBC
    rw [GetPage_ram m a (Or.inr h)]
    unfold stackRef
    rw [if_neg (by omega)]
    simp only [MBC.page, bind, Except.bind, hb, e1, MemoryPage.read, hs, e2, if_true]
  unfold MBC.Read8 MBC.Read8_MBC3
  rw [if_neg h2]
  cases m.kind <;> exact hbase

theorem Read8_of_ram (gb : GameBoy) (a : Nat)
    (ha : (0xC000 ≤ a ∧ a ≤ 0xDFFF) ∨ (0xFF80 ≤ a ∧ a ≤ 0xFFFE)) :
    Read8 gb a = gb.mbc.Read8 a := by
  simp [Read8, CheckBounds8_stack a ha, TryIORead_stack gb a _ ha]

/-- The two bytes of a word stored in a stack slot, read back one at a time. -/
theorem Read8_storeWord (gb : GameBoy) (hp : gb.mbc.PagesAsConstructed) (a v : Nat)
    (ha : StackSlot a) (hv : v < 65536) :
    Read8 (storeWord gb a v) a = .ok (v % 256) ∧
    Read8 (storeWord gb a v) (a + 1) = .ok (v / 256) := by
  obtain ⟨-, -, -, -, ⟨hw1, hw2⟩, -, ⟨hh1, hh2⟩⟩ := hp
  unfold StackSlot at ha
  rw [Read8_of_ram _ a (by omega), Read8_of_ram _ (a + 1) (by omega)]
  rcases ha with h | h
  · have hle : a ≤ 0xDFFF := by omega
    have e : a + 1 - 0xC000 = a - 0xC000 + 1 := by omega
    rw [MBC_Read8_wram (storeWord gb a v).mbc (by rw [storeWord_mbc_wram gb a v hle]; exact hw1)
      (by rw [storeWord_mbc_wram gb a v hle]; exact hw2) a (by omega),
      MBC_Read8_wram (storeWord gb a v).mbc (by rw [storeWord_mbc_wram gb a v hle]; exact hw1)
      (by rw [storeWord_mbc_wram gb a v hle]; exact hw2) (a + 1) (by omega),
      storeWord_mbc_wram gb a v hle, e]
    dsimp only
    rw [Function.update_noteq (by omega), Function.update_same, Function.update_same,
      high_byte v hv, and_255]
    exact ⟨rfl, rfl⟩
  · have hle : ¬ a ≤ 0xDFFF := by omega
    have e : a + 1 - 0xFF80 = a - 0xFF80 + 1 := by omega
    rw [MBC_Read8_highRam (storeWord gb a v).mbc
      (by rw [storeWord_mbc_highRam gb a v hle]; exact hh1)
      (by rw [storeWord_mbc_highRam gb a v hle]; exact hh2) a (by omega),
      MBC_Read8_highRam (storeWord gb a v).mbc
      (by rw [storeWord_mbc_highRam gb a v hle]; exact hh1)
      (by rw [storeWord_mbc_highRam gb a v hle]; exact hh2) (a + 1) (by omega),
      storeWord_mbc_highRam gb a v hle, e]
    dsimp only
    rw [Function.update_noteq (by omega), Function.update_same, Function.update_same,
      high_byte v hv, and_255]
    exact ⟨rfl, rfl⟩

/-! ## Running single instructions -/

theorem Read8_processor (gb : GameBoy) (p : Processor) (hIE : p.IE = gb.processor.IE)
    (hIF : p.IF = gb.processor.IF) (a : Nat) :
    Read8 { gb with processor := p } a = Read8 gb a := by
  simp only [Read8, TryIORead, hIE, hIF]

theorem Read8_withPC (gb : GameBoy) (w a : Nat) : Read8 (gb.withPC w) a = Read8 gb a :=
  Read8_processor gb _ rfl rfl a

theorem bind_run {α β : Type} (m : Exec α) (f : α → Exec β) (gb gb1 : GameBoy) (a : α)
    (h : m gb = .ok (a, gb1)) : (m >>= f) gb = f a gb1 := by
  change (match m gb with
    | .ok (a, g) => f a g
    | .error e => .error e) = f a gb1
  rw [h]

theorem read8_run (gb : GameBoy) (a v : Nat) (h : Read8 gb a = .ok v) :
    read8 a gb = .ok (v, gb) := by
  unfold read8; rw [h]

theorem read16_run (gb : GameBoy) (a v : Nat) (h : Read16 gb a = .ok v) :
    read16 a gb = .ok (v, gb) := by
  unfold read16; rw [h]

theorem write16_run (gb gb' : GameBoy) (a v : Nat) (h : Write16 gb a v = .ok gb') :
    write16 a v gb = .ok ((), gb') := by
  unfold write16; rw [h]

namespace Processor

theorem GetOperand8_run (gb : GameBoy) (v : Nat) (h : Read8 gb gb.processor.reg_PC = .ok v) :
    GetOperand8 gb = .ok (v, gb.withPC ((gb.processor.reg_PC + 1) % 65536)) := by
  unfold GetOperand8
  rw [bind_run _ _ gb gb gb.processor.reg_PC rfl]
  rw [bind_run _ _ gb (gb.withPC ((gb.processor.reg_PC + 1) % 65536)) ()
    (by simp [cpu, GameBoy.withPC, Processor.setR16])]
  exact read8_run _ _ _ (by rw [Read8_withPC]; exact h)

theorem ExecuteNext_run (T CBT : Nat → Opcode) (gb : GameBoy) (op : Nat)
    (h : Read8 gb gb.processor.reg_PC = .ok op) (hne : op ≠ 0xCB) :
    ExecuteNext T CBT gb =
      (switchOn (do stop; pure false) ExecuteNext_cases op >>= fun branch_taken =>
        (pure (if !branch_taken then (T op).cycles else (T op).cycles_branch) : Exec Int))
        (gb.withPC ((gb.processor.reg_PC + 1) % 65536)) := by
  unfold ExecuteNext
  rw [bind_run _ _ gb _ op (GetOperand8_run gb op h), if_neg hne]

set_option maxRecDepth 100000 in
theorem case_0x20 : switchOn (do stop; pure false) ExecuteNext_cases 0x20 =
    (do
      if !(← getFlag Processor.Zero) then
        let v := static_cast_s8 (← GetOperand8)
        cpu (·.jr v)
        pure true
      else
        cpu (·.inc16 .reg_PC)
        pure false) := rfl

set_option maxRecDepth 100000 in
theorem case_0x28 : switchOn (do stop; pure false) ExecuteNext_cases 0x28 =
    (do
      if (← getFlag Processor.Zero) then
        let v := static_cast_s8 (← GetOperand8)
        cpu (·.jr v)
        pure true
      else
        cpu (·.inc16 .reg_PC)
        pure false) := rfl

set_option maxRecDepth 100000 in
theorem case_0x30 : switchOn (do stop; pure false) ExecuteNext_cases 0x30 =
    (do
      if !(← getFlag Processor.Carry) then
        let v := static_cast_s8 (← GetOperand8)
        cpu (·.jr v)
        pure true
      else
        cpu (·.inc16 .reg_PC)
        pure false) := rfl

set_option maxRecDepth 100000 in
theorem case_0x38 : switchOn (do stop; pure false) ExecuteNext_cases 0x38 =
    (do
      if (← getFlag Processor.Carry) then
        let v := static_cast_s8 (← GetOperand8)
        cpu (·.jr v)
        pure true
      else
        cpu (·.inc16 .reg_PC)
        pure false) := rfl

end Processor

theorem bind_apply {α β : Type} (m : Exec α) (f : α → Exec β) (gb : GameBoy) :
    (m >>= f) gb = match m gb with
      | .ok (a, g) => f a g
      | .error e => .error e := rfl

theorem pure_apply {α : Type} (a : α) (gb : GameBoy) : (pure a : Exec α) gb = .ok (a, gb) := rfl

theorem cpu_apply (f : Processor → Processor) (gb : GameBoy) :
    cpu f gb = .ok ((), { gb with processor := f gb.processor }) := rfl

theorem getFlag_apply (f : Processor → Bool) (gb : GameBoy) :
    getFlag f gb = .ok (f gb.processor, gb) := rfl

theorem getPort_apply (f : Processor → Nat) (gb : GameBoy) :
    getPort f gb = .ok (f gb.processor, gb) := rfl

theorem getR8_apply (r : R8) (gb : GameBoy) : getR8 r gb = .ok (gb.processor.r8 r, gb) := rfl

theorem getR16_apply (r : R16) (gb : GameBoy) : getR16 r gb = .ok (gb.processor.r16 r, gb) := rfl

theorem jr_target (p e : Nat) :
    static_cast_u16 ((((p + 1) % 65536 + 1) % 65536 : Nat) + static_cast_s8 e) =
      static_cast_u16 ((p : Int) + 2 + static_cast_s8 e) := by
  unfold static_cast_u16
  congr 1
  omega

@[simp] theorem withPC_withPC (gb : GameBoy) (w w' : Nat) : (gb.withPC w).withPC w' = gb.withPC w' := rfl

@[simp] theorem withPC_reg_PC (gb : GameBoy) (w : Nat) : (gb.withPC w).processor.reg_PC = w := rfl

namespace Processor

/-- The body shared by the four conditional `JR` cases, run on a machine whose
`PC` points at the displacement byte `e`. -/
theorem jr_body_run (fl : Processor → Bool) (g : Bool → Bool) (gb : GameBoy) (e : Nat)
    (h : Read8 gb gb.processor.reg_PC = .ok e) :
    (getFlag fl >>= fun x =>
      if g x = true then
        (GetOperand8 >>= fun o => (cpu (·.jr (static_cast_s8 o)) >>= fun _ => (pure true : Exec Bool)))
      else (cpu (·.inc16 .reg_PC) >>= fun _ => (pure false : Exec Bool))) gb =
    .ok (g (fl gb.processor), gb.withPC (if g (fl gb.processor) = true
      then static_cast_u16 ((((gb.processor.reg_PC + 1) % 65536 : Nat) : Int) + static_cast_s8 e)
      else (gb.processor.reg_PC + 1) % 65536)) := by
  rw [bind_run _ _ gb gb (fl gb.processor) rfl]
  cases hg : g (fl gb.processor)
  · simp only [Bool.false_eq_true, if_false]
    have h16 : (gb.processor.reg_PC + 1) % 65536 % 65536 = (gb.processor.reg_PC + 1) % 65536 := by
      omega
    simp only [bind_apply, cpu_apply, pure_apply, Processor.inc16, Processor.setR16, Processor.r16,
      GameBoy.withPC, h16]
  · simp only [if_true]
    rw [bind_run _ _ gb _ e (GetOperand8_run gb e h)]
    rfl

end Processor

theorem jr_target_int (p : Nat) (s : Int) :
    static_cast_u16 (((p : Int) + 2) % 65536 + s) = static_cast_u16 ((p : Int) + 2 + s) := by
  unfold static_cast_u16
  congr 1
  omega

namespace Processor

set_option maxRecDepth 100000 in
theorem case_0xF1 : switchOn (do stop; pure false) ExecuteNext_cases 0xF1 =
    (do pop .reg_AF; cpu (fun p => { p with reg_F := p.reg_F &&& 0xF0 }); pure false) := rfl

set_option maxRecDepth 100000 in
theorem case_0xF5 : switchOn (do stop; pure false) ExecuteNext_cases 0xF5 =
    (do push (← getR16 .reg_AF); pure false) := rfl

set_option maxRecDepth 100000 in
theorem case_0x3E : switchOn (do stop; pure false) ExecuteNext_cases 0x3E =
    (do let v ← GetOperand8; cpu (·.ld .reg_A v); pure false) := rfl

set_option maxRecDepth 100000 in
theorem case_0xCD : switchOn (do stop; pure false) ExecuteNext_cases 0xCD =
    (do call (← GetOperand16); pure false) := rfl

set_option maxRecDepth 100000 in
theorem case_0xC9 : switchOn (do stop; pure false) ExecuteNext_cases 0xC9 =
    (do ret; pure false) := rfl

set_option maxRecDepth 100000 in
theorem case_0x76 : switchOn (do stop; pure false) ExecuteNext_cases 0x76 = pure false := rfl

theorem pop_run (gb : GameBoy) (reg16 : R16) (w : Nat) (h : Read16 gb gb.processor.reg_SP = .ok w) :
    pop reg16 gb = .ok ((), { gb with processor :=
      (gb.processor.setR16 reg16 w).setR16 .reg_SP (((gb.processor.setR16 reg16 w).reg_SP + 2) % 65536) }) := by
  unfold pop
  refine (bind_run _ _ gb gb _ (getR16_apply _ _)).trans ?_
  refine (bind_run _ _ gb gb w (read16_run gb _ w h)).trans ?_
  rfl

theorem cpu_push_SP (gb : GameBoy) :
    cpu (fun p => p.setR16 .reg_SP ((p.reg_SP + 65534) % 65536)) gb =
      .ok ((), { gb with processor :=
        { gb.processor with reg_SP := (gb.processor.reg_SP + 65534) % 65536 } }) := by
  rw [cpu_apply]
  simp only [Processor.setR16]
  rw [Nat.mod_mod]

theorem push_run (gb : GameBoy) (v : Nat) (hp : gb.mbc.PagesAsConstructed)
    (hs : StackSlot ((gb.processor.reg_SP + 65534) % 65536)) :
    push v gb = .ok ((), storeWord
      { gb with processor := { gb.processor with reg_SP := (gb.processor.reg_SP + 65534) % 65536 } }
      ((gb.processor.reg_SP + 65534) % 65536) v) := by
  unfold push
  refine (bind_run _ _ gb _ () (cpu_push_SP gb)).trans ?_
  refine (bind_run _ _ _ _ _ (getR16_apply _ _)).trans ?_
  have hw := Write16_stack
    { gb with processor := { gb.processor with reg_SP := (gb.processor.reg_SP + 65534) % 65536 } }
    hp ((gb.processor.reg_SP + 65534) % 65536) v hs
  exact write16_run _ _ _ _ hw

end Processor

theorem storeWord_with_processor (gb : GameBoy) (p : Processor) (a v : Nat) :
    storeWord { gb with processor := p } a v = { storeWord gb a v with processor := p } := by
  unfold storeWord
  split <;> rfl

theorem Read8_storeWord_processor (gb : GameBoy) (p : Processor) (a v x : Nat)
    (hIE : p.IE = gb.processor.IE) (hIF : p.IF = gb.processor.IF) :
    Read8 (storeWord { gb with processor := p } a v) x = Read8 (storeWord gb a v) x := by
  rw [storeWord_with_processor]
  exact Read8_processor _ p (by rw [storeWord_processor]; exact hIE)
    (by rw [storeWord_processor]; exact hIF) x

namespace Processor

/-- Running `POP AF` (`0xF1`). -/
theorem pop_AF_run (T CBT : Nat → Opcode) (gb : GameBoy) (w : Nat)
    (hop : Read8 gb gb.processor.reg_PC = .ok 0xF1)
    (hw : Read16 gb gb.processor.reg_SP = .ok w) (hw16 : w < 65536) :
    ExecuteNext T CBT gb = .ok ((T 0xF1).cycles,
      { gb with processor := { gb.processor with
          reg_PC := (gb.processor.reg_PC + 1) % 65536
          reg_A := w / 256
          reg_F := (w % 256) &&& 0xF0
          reg_SP := (gb.processor.reg_SP + 2) % 65536 } }) := by
  rw [ExecuteNext_run T CBT gb 0xF1 hop (by decide), case_0xF1]
  have hd : w / 256 % 256 = w / 256 := by omega
  refine (bind_run _ _ _ _ _ (bind_run _ _ _ _ _
    (pop_run (gb.withPC ((gb.processor.reg_PC + 1) % 65536)) .reg_AF w hw))).trans ?_
  simp only [bind_apply, cpu_apply, pure_apply, GameBoy.withPC, Processor.setR16, Nat.mod_mod, hd,
    Bool.not_false, if_true]

/-- Running `LD A,n` (`0x3E`). -/
theorem ld_A_run (T CBT : Nat → Opcode) (gb : GameBoy) (n : Nat)
    (hop : Read8 gb gb.processor.reg_PC = .ok 0x3E)
    (hn : Read8 gb ((gb.processor.reg_PC + 1) % 65536) = .ok n) :
    ExecuteNext T CBT gb = .ok ((T 0x3E).cycles,
      { gb with processor := { gb.processor with
          reg_PC := (gb.processor.reg_PC + 2) % 65536
          reg_A := n } }) := by
  rw [ExecuteNext_run T CBT gb 0x3E hop (by decide), case_0x3E]
  have h1 : Read8 (gb.withPC ((gb.processor.reg_PC + 1) % 65536))
      (gb.withPC ((gb.processor.reg_PC + 1) % 65536)).processor.reg_PC = .ok n := by
    rw [Read8_withPC]; exact hn
  have hnt : ((gb.processor.reg_PC + 1) % 65536 + 1) % 65536 = (gb.processor.reg_PC + 2) % 65536 := by
    omega
  refine (bind_run _ _ _ _ _ (bind_run _ _ _ _ _ (GetOperand8_run _ n h1))).trans ?_
  simp only [bind_apply, cpu_apply, pure_apply, GameBoy.withPC, Processor.ld, Processor.setR8, hnt,
    Bool.not_false, if_true]

/-- Running `PUSH AF` (`0xF5`) with the stack in RAM. -/
theorem push_AF_run (T CBT : Nat → Opcode) (gb : GameBoy)
    (hop : Read8 gb gb.processor.reg_PC = .ok 0xF5)
    (hp : gb.mbc.PagesAsConstructed)
    (hs : StackSlot ((gb.processor.reg_SP + 65534) % 65536)) :
    ExecuteNext T CBT gb = .ok ((T 0xF5).cycles,
      storeWord { gb with processor := { gb.processor with
          reg_PC := (gb.processor.reg_PC + 1) % 65536
          reg_SP := (gb.processor.reg_SP + 65534) % 65536 } }
        ((gb.processor.reg_SP + 65534) % 65536)
        (gb.processor.reg_A * 256 + gb.processor.reg_F)) := by
  rw [ExecuteNext_run T CBT gb 0xF5 hop (by decide), case_0xF5]
  have hbody : (do push (← getR16 .reg_AF); pure false : Exec Bool)
      (gb.withPC ((gb.processor.reg_PC + 1) % 65536)) =
      .ok (false, storeWord { gb with processor := { gb.processor with
          reg_PC := (gb.processor.reg_PC + 1) % 65536
          reg_SP := (gb.processor.reg_SP + 65534) % 65536 } }
        ((gb.processor.reg_SP + 65534) % 65536)
        (gb.processor.reg_A * 256 + gb.processor.reg_F)) :=
    (bind_run _ _ _ _ _ (getR16_apply _ _)).trans
      ((bind_run _ _ _ _ _
        (push_run (gb.withPC ((gb.processor.reg_PC + 1) % 65536)) _ hp hs)).trans rfl)
  exact (bind_run _ _ _ _ _ hbody).trans rfl

end Processor

theorem stackSlot_sub_two (s : Nat) (hs : StackSlot (s - 2)) :
    (s + 65534) % 65536 = s - 2 ∧ ((s - 2) + 2) % 65536 = s := by
  unfold StackSlot at hs
  omega

theorem storeWord_set_processor (gb : GameBoy) (p : Processor) (a v : Nat) :
    { storeWord gb a v with processor := p } = storeWord { gb with processor := p } a v :=
  (storeWord_with_processor gb p a v).symm

namespace Processor

/-- Running `call(addr)` with the stack slot in RAM. -/
theorem call_run (gb : GameBoy) (addr : Nat) (hp : gb.mbc.PagesAsConstructed)
    (hs : StackSlot (gb.processor.reg_SP - 2)) :
    call addr gb = .ok ((), storeWord
      { gb with processor := { gb.processor with
          reg_PC := addr % 65536
          reg_SP := gb.processor.reg_SP - 2 } }
      (gb.processor.reg_SP - 2) gb.processor.reg_PC) := by
  have hs2 := (stackSlot_sub_two _ hs).1
  have hs' : StackSlot ((gb.processor.reg_SP + 65534) % 65536) := by rw [hs2]; exact hs
  unfold call
  refine (bind_run _ _ _ _ _ (getR16_apply _ _)).trans ?_
  refine (bind_run _ _ _ _ _ (push_run gb (gb.processor.r16 .reg_PC) hp hs')).trans ?_
  rw [hs2, cpu_apply, storeWord_processor, storeWord_set_processor]
  rfl

end Processor

theorem Read16_processor (gb : GameBoy) (p : Processor) (a : Nat) :
    Read16 { gb with processor := p } a = Read16 gb a := rfl

namespace Processor

theorem GetOperand16_run (gb : GameBoy) (v : Nat) (h : Read16 gb gb.processor.reg_PC = .ok v) :
    GetOperand16 gb = .ok (v, gb.withPC ((gb.processor.reg_PC + 2) % 65536)) := by
  unfold GetOperand16
  refine (bind_run _ _ gb gb _ (getR16_apply _ _)).trans ?_
  refine (bind_run _ _ gb gb v (read16_run gb _ v h)).trans ?_
  simp only [bind_apply, cpu_apply, pure_apply, GameBoy.withPC, Processor.setR16, Nat.mod_mod]

/-- Running `CALL nn` (`0xCD`) with the stack slot in RAM. -/
theorem call_nn_run (T CBT : Nat → Opcode) (gb : GameBoy) (t : Nat)
    (hop : Read8 gb gb.processor.reg_PC = .ok 0xCD)
    (ht : Read16 gb ((gb.processor.reg_PC + 1) % 65536) = .ok t)
    (hp : gb.mbc.PagesAsConstructed)
    (hs : StackSlot (gb.processor.reg_SP - 2)) :
    ExecuteNext T CBT gb = .ok ((T 0xCD).cycles,
      storeWord { gb with processor := { gb.processor with
          reg_PC := t % 65536
          reg_SP := gb.processor.reg_SP - 2 } }
        (gb.processor.reg_SP - 2) ((gb.processor.reg_PC + 3) % 65536)) := by
  rw [ExecuteNext_run T CBT gb 0xCD hop (by decide), case_0xCD]
  have hpc : ((gb.processor.reg_PC + 1) % 65536 + 2) % 65536 = (gb.processor.reg_PC + 3) % 65536 := by
    omega
  have h1 : GetOperand16 (gb.withPC ((gb.processor.reg_PC + 1) % 65536)) =
      .ok (t, gb.withPC ((gb.processor.reg_PC + 3) % 65536)) := by
    rw [GetOperand16_run (gb.withPC ((gb.processor.reg_PC + 1) % 65536)) t ht]
    simp only [withPC_reg_PC, withPC_withPC, hpc]
  have h2 := call_run (gb.withPC ((gb.processor.reg_PC + 3) % 65536)) t hp hs
  have hbody : (do call (← GetOperand16); pure false : Exec Bool)
      (gb.withPC ((gb.processor.reg_PC + 1) % 65536)) =
      .ok (false, storeWord { gb with processor := { gb.processor with
          reg_PC := t % 65536
          reg_SP := gb.processor.reg_SP - 2 } }
        (gb.processor.reg_SP - 2) ((gb.processor.reg_PC + 3) % 65536)) :=
    (bind_run _ _ _ _ _ h1).trans ((bind_run _ _ _ _ _ h2).trans rfl)
  exact (bind_run _ _ _ _ _ hbody).trans rfl

/-- Running `RET` (`0xC9`). -/
theorem ret_run (T CBT : Nat → Opcode) (gb : GameBoy) (w : Nat)
    (hop : Read8 gb gb.processor.reg_PC = .ok 0xC9)
    (hw : Read16 gb gb.processor.reg_SP = .ok w) :
    ExecuteNext T CBT gb = .ok ((T 0xC9).cycles,
      { gb with processor := { gb.processor with
          reg_PC := w % 65536
          reg_SP := (gb.processor.reg_SP + 2) % 65536 } }) := by
  rw [ExecuteNext_run T CBT gb 0xC9 hop (by decide), case_0xC9]
  have hbody : (do ret; pure false : Exec Bool)
      (gb.withPC ((gb.processor.reg_PC + 1) % 65536)) =
      .ok (false, { gb with processor := { gb.processor with
          reg_PC := w % 65536
          reg_SP := (gb.processor.reg_SP + 2) % 65536 } }) :=
    (bind_run _ _ _ _ _
      (pop_run (gb.withPC ((gb.processor.reg_PC + 1) % 65536)) .reg_PC w hw)).trans
      (by simp only [pure_apply, GameBoy.withPC, Processor.setR16, Nat.mod_mod])
  exact (bind_run _ _ _ _ _ hbody).trans rfl

end Processor

/-! ## Interrupt dispatch -/

theorem and_bit_eq_zero (x i : Nat) : x &&& 2 ^ i = 0 ↔ x.testBit i = false := by
  have h := and_two_pow_ne_zero x i
  cases hb : x.testBit i
  · rw [hb] at h
    simpa using h
  · rw [hb] at h
    simpa using h

theorem and_mask5_eq_zero (x : Nat) :
    x &&& 0x1F = 0 ↔ ∀ j < 5, x.testBit j = false := by
  constructor
  · intro h j hj
    have h2 : (x &&& 0x1F).testBit j = false := by rw [h]; simp
    rw [Nat.testBit_and] at h2
    have h3 : Nat.testBit 0x1F j = true := by interval_cases j <;> decide
    rw [h3] at h2
    simpa using h2
  · intro h
    apply Nat.eq_of_testBit_eq
    intro j
    rw [Nat.testBit_and]
    by_cases hj : j < 5
    · simp [h j hj]
    · have h3 : Nat.testBit 0x1F j = false := by
        apply Nat.testBit_lt_two_pow
        calc 0x1F < 2 ^ 5 := by decide
          _ ≤ 2 ^ j := Nat.pow_le_pow_right (by decide) (by omega)
      simp [h3]

namespace Processor

/-- The steps of `TickInterrupts` when nothing is pending or `IME` is clear. -/
theorem TickInterrupts_idle (gb : GameBoy)
    (h : ¬ (gb.processor.IME = true ∧ gb.processor.IE &&& gb.processor.IF &&& 0x1F ≠ 0)) :
    TickInterrupts gb = .ok (0, gb) := by
  unfold TickInterrupts
  refine (bind_run _ _ gb gb _ (getFlag_apply _ _)).trans ?_
  refine (bind_run _ _ gb gb _ (getPort_apply _ _)).trans ?_
  refine (bind_run _ _ gb gb _ (getPort_apply _ _)).trans ?_
  by_cases hime : gb.processor.IME = true
  · have hz : gb.processor.IE &&& gb.processor.IF &&& 0x1F = 0 := by
      by_contra hne
      exact h ⟨hime, hne⟩
    have hb := (and_mask5_eq_zero _).mp hz
    have b0 := (and_bit_eq_zero _ 0).mpr (hb 0 (by decide))
    have b1 := (and_bit_eq_zero _ 1).mpr (hb 1 (by decide))
    have b2 := (and_bit_eq_zero _ 2).mpr (hb 2 (by decide))
    have b3 := (and_bit_eq_zero _ 3).mpr (hb 3 (by decide))
    have b4 := (and_bit_eq_zero _ 4).mpr (hb 4 (by decide))
    simp only [Nat.reducePow] at b0 b1 b2 b3 b4
    simp only [hime, if_true, b0, b1, b2, b3, b4, ne_eq, not_true_eq_false, if_false]
    split <;> rfl
  · simp only [hime]
    rfl

end Processor

theorem ne_zero_of_and_testBit (x y k : Nat) (h : (x &&& y).testBit k = true) :
    x ≠ 0 ∧ y ≠ 0 := by
  constructor
  · rintro rfl
    simp at h
  · rintro rfl
    simp at h

namespace Processor

/-- The steps of `TickInterrupts` when `IME` is set and bit `k` is the lowest
pending one: the body of the matching `if`, which clears `IME` and the flag bit
and calls the vector. -/
theorem TickInterrupts_service (gb : GameBoy) (k : Nat) (hime : gb.processor.IME = true)
    (hk : k < 5) (hbit : (gb.processor.IE &&& gb.processor.IF).testBit k = true)
    (hlow : ∀ j < k, (gb.processor.IE &&& gb.processor.IF).testBit j = false) :
    TickInterrupts gb =
      (call (0x40 + 8 * k) >>= fun _ => (pure 12 : Exec Int))
        { gb with processor := { gb.processor with
            IME := false
            IF := gb.processor.IF &&& (0xFF - 2 ^ k) } } := by
  unfold TickInterrupts
  refine (bind_run _ _ gb gb _ (getFlag_apply _ _)).trans ?_
  refine (bind_run _ _ gb gb _ (getPort_apply _ _)).trans ?_
  refine (bind_run _ _ gb gb _ (getPort_apply _ _)).trans ?_
  obtain ⟨hIE, hIF⟩ := ne_zero_of_and_testBit _ _ _ hbit
  have hnz : (gb.processor.IE != 0 && gb.processor.IF != 0) = true := by
    simp [hIE, hIF]
  have hset : gb.processor.IE &&& gb.processor.IF &&& 2 ^ k ≠ 0 := by
    intro h0
    rw [and_bit_eq_zero] at h0
    rw [h0] at hbit
    exact Bool.false_ne_true hbit
  have hclr : ∀ j < k, gb.processor.IE &&& gb.processor.IF &&& 2 ^ j = 0 :=
    fun j hj => (and_bit_eq_zero _ j).mpr (hlow j hj)
  simp only [hime, hnz, if_true]
  interval_cases k
  · simp only [Nat.reducePow] at hset
    rw [if_pos hset]
    refine (bind_run _ _ _ _ _ (cpu_apply _ _)).trans ?_
    refine (bind_run _ _ _ _ _ (cpu_apply _ _)).trans ?_
    rfl
  · have c0 := hclr 0 (by decide)
    simp only [Nat.reducePow] at hset c0
    rw [if_neg (not_not.mpr c0), if_pos hset]
    refine (bind_run _ _ _ _ _ (cpu_apply _ _)).trans ?_
    refine (bind_run _ _ _ _ _ (cpu_apply _ _)).trans ?_
    rfl
  · have c0 := hclr 0 (by decide)
    have c1 := hclr 1 (by decide)
    simp only [Nat.reducePow] at hset c0 c1
    rw [if_neg (not_not.mpr c0), if_neg (not_not.mpr c1), if_pos hset]
    refine (bind_run _ _ _ _ _ (cpu_apply _ _)).trans ?_
    refine (bind_run _ _ _ _ _ (cpu_apply _ _)).trans ?_
    rfl
  · have c0 := hclr 0 (by decide)
    have c1 := hclr 1 (by decide)
    have c2 := hclr 2 (by decide)
    simp only [Nat.reducePow] at hset c0 c1 c2
    rw [if_neg (not_not.mpr c0), if_neg (not_not.mpr c1), if_neg (not_not.mpr c2), if_pos hset]
    refine (bind_run _ _ _ _ _ (cpu_apply _ _)).trans ?_
    refine (bind_run _ _ _ _ _ (cpu_apply _ _)).trans ?_
    rfl
  · have c0 := hclr 0 (by decide)
    have c1 := hclr 1 (by decide)
    have c2 := hclr 2 (by decide)
    have c3 := hclr 3 (by decide)
    simp only [Nat.reducePow] at hset c0 c1 c2 c3
    rw [if_neg (not_not.mpr c0), if_neg (not_not.mpr c1), if_neg (not_not.mpr c2),
      if_neg (not_not.mpr c3), if_pos hset]
    refine (bind_run _ _ _ _ _ (cpu_apply _ _)).trans ?_
    refine (bind_run _ _ _ _ _ (cpu_apply _ _)).trans ?_
    rfl

end Processor

theorem clear_bit_testBit (x k : Nat) (hk : k < 5) :
    ∀ j < 8, (x &&& (0xFF - 2 ^ k)).testBit j = (x.testBit j && decide (j ≠ k)) := by
  intro j hj
  rw [Nat.testBit_and]
  congr 1
  interval_cases k <;> interval_cases j <;> decide

theorem lowest_pending_exists (x : Nat) (h : x &&& 0x1F ≠ 0) :
    ∃ k < 5, x.testBit k = true ∧ ∀ j < k, x.testBit j = false := by
  have hex : ∃ k, k < 5 ∧ x.testBit k = true := by
    by_contra hno
    apply h
    rw [and_mask5_eq_zero]
    intro j hj
    cases hb : x.testBit j
    · rfl
    · exact absurd ⟨j, hj, hb⟩ hno
  refine ⟨Nat.find hex, (Nat.find_spec hex).1, (Nat.find_spec hex).2, ?_⟩
  intro j hj
  have hmin := Nat.find_min hex hj
  cases hb : x.testBit j
  · rfl
  · exact absurd ⟨by have := (Nat.find_spec hex).1; omega, hb⟩ hmin

/-! ## Bus accesses below `0x4000` and the boot overlay -/

theorem GetPage_low (m : MBC) (a : Nat) (ha : a ≤ 0x3FFF) : m.GetPage a = .ok .romBank0 := by
  have h1 : ¬ (a ≥ 0x4000 ∧ a ≤ 0x7FFF) := by omega
  have h2 : ¬ (a ≥ 0xA000 ∧ a ≤ 0xBFFF) := by omega
  unfold MBC.GetPage
  cases m.kind <;>
    simp only [MBC.GetPage_MBC3, MBC.GetPage_MBC1, MBC.GetPage_MBC, h1, h2, ha, if_true, if_false]

theorem MBC_Read8_low (m : MBC) (a : Nat) (ha : a ≤ 0x3FFF) (hb : m.romBank0.base = 0)
    (hs : m.romBank0.size = 0x4000) : m.Read8 a = .ok (m.romBank0.bytes a) := by
  have h2 : ¬ (a ≥ 0xA000 ∧ a ≤ 0xBFFF) := by omega
  have hread : m.Read8_MBC a = .ok (m.romBank0.bytes a) := by
    unfold MBC.Read8_MBC
    rw [GetPage_low m a ha]
    have e : (a + 65536) % 65536 = a := by omega
    have ha' : a < 16384 := by omega
    simp [MBC.page, MemoryPage.read, hb, hs, bind, Except.bind, e, ha']
  unfold MBC.Read8
  cases m.kind <;> simp only [MBC.Read8_MBC3, h2, if_false, hread]

theorem Read8_low (gb : GameBoy) (a : Nat) (ha : a ≤ 0x3FFF) (hb : gb.mbc.romBank0.base = 0)
    (hs : gb.mbc.romBank0.size = 0x4000) : Read8 gb a = .ok (gb.mbc.romBank0.bytes a) := by
  have hc : CheckBounds8 a = true := by
    unfold CheckBounds8
    rw [if_neg (by omega)]
  have hio : TryIORead gb a gb.uninit_data = none := by
    unfold TryIORead
    rw [if_neg (by omega)]
  unfold Read8
  rw [hc, hio]
  exact MBC_Read8_low gb.mbc a ha hb hs

/-- The write to `0xFF50`: the start of the cartridge image is copied over the
first `0x100` bytes of ROM bank 0 and `InBootROM` is cleared, whatever the byte
written. -/
theorem Write8_FF50 (gb : GameBoy) (v : Nat) (hb : gb.mbc.romBank0.base = 0)
    (hs : gb.mbc.romBank0.size = 0x4000) (hrom : 0x100 ≤ gb.game_rom.bytes.length) :
    Write8 gb 0xFF50 v = .ok (afterBootDisable gb) := by
  have hio : TryIOWrite (Write8F 1) gb 0xFF50 v =
      (if gb.game_rom.bytes.length < 0x100 then .error .undefined
        else do
          let g ← WriteBytes gb (fun i => gb.game_rom.bytes.getD i 0) 0x0000 0x100
          pure (true, { g with InBootROM := false })) := rfl
  have hw : WriteBytes gb (fun i => gb.game_rom.bytes.getD i 0) 0x0000 0x100 =
      .ok { gb with mbc := { gb.mbc with romBank0 := { gb.mbc.romBank0 with
        bytes := fun i => if 0 ≤ i ∧ i < 0 + 0x100 then gb.game_rom.bytes.getD (i - 0) 0
          else gb.mbc.romBank0.bytes i } } } := by
    unfold WriteBytes MBC.WriteBytes
    rw [GetPage_low gb.mbc 0 (by decide)]
    simp [MBC.page, MBC.setPage, MemoryPage.memcpyIn, hb, hs, bind, Except.bind, pure,
      Except.pure]
  have hc : CheckBounds8 0xFF50 = true := rfl
  have hlen : ¬ gb.game_rom.bytes.length < 0x100 := Nat.not_lt.mpr hrom
  rw [if_neg hlen, hw] at hio
  unfold Write8 Write8F
  rw [hc, hio]
  rfl

theorem afterBootDisable_read (gb : GameBoy) (hb : gb.mbc.romBank0.base = 0)
    (hs : gb.mbc.romBank0.size = 0x4000) (a : Nat) (ha : a < 0x100) :
    Read8 (afterBootDisable gb) a = .ok (gb.game_rom.bytes.getD a 0) := by
  rw [Read8_low (afterBootDisable gb) a (by omega) hb hs]
  simp [afterBootDisable, ha]

/-! ## The OAM DMA transfer -/

theorem GetPage_oam (m : MBC) (a : Nat) (ha : 0xFE00 ≤ a ∧ a ≤ 0xFE9F) :
    m.GetPage a = .ok .oam := by
  have h1 : ¬ (a ≥ 0x4000 ∧ a ≤ 0x7FFF) := by omega
  have h2 : ¬ (a ≥ 0xA000 ∧ a ≤ 0xBFFF) := by omega
  have h3 : ¬ a ≤ 0x3FFF := by omega
  have h4 : ¬ (a ≥ 0x8000 ∧ a ≤ 0x9FFF) := by omega
  have h5 : ¬ (a ≥ 0xC000 ∧ a ≤ 0xDFFF) := by omega
  have h6 : a ≥ 0xFE00 ∧ a ≤ 0xFE9F := ha
  unfold MBC.GetPage
  cases m.kind <;>
    simp only [MBC.GetPage_MBC3, MBC.GetPage_MBC1, MBC.GetPage_MBC, h1, h2, h3, h4, h5, h6,
      and_self, if_true, if_false]

/-- The pages that `GetPage` gives below `0xE000` are not the OAM page. -/
theorem GetPage_below_ne_oam (m : MBC) (a : Nat) (ha : a < 0xE000) (ref : PageRef)
    (h : m.GetPage a = .ok ref) : ref ≠ .oam := by
  have hb : ∀ r, MBC.GetPage_MBC a = .ok r → r ≠ .oam := by
    intro r hr
    unfold MBC.GetPage_MBC at hr
    split_ifs at hr <;> first | omega | (cases hr; simp)
  have h1 : ∀ r, MBC.GetPage_MBC1 m a = .ok r → r ≠ .oam := by
    intro r hr
    unfold MBC.GetPage_MBC1 at hr
    split_ifs at hr <;> first | exact hb r hr | (cases hr; simp)
  have h3 : ∀ r, MBC.GetPage_MBC3 m a = .ok r → r ≠ .oam := by
    intro r hr
    unfold MBC.GetPage_MBC3 at hr
    split_ifs at hr <;> first | exact h1 r hr | (cases hr; simp)
  unfold MBC.GetPage at h
  cases hk : m.kind <;> rw [hk] at h
  · exact hb ref h
  · exact h1 ref h
  · exact h3 ref h

theorem page_set_oam (m : MBC) (pg : MemoryPage) (ref : PageRef) (h : ref ≠ .oam) :
    ({ m with oam := pg } : MBC).page ref = m.page ref := by
  cases ref <;> first | rfl | exact absurd rfl h

theorem GetPage_set_oam (m : MBC) (pg : MemoryPage) (a : Nat) :
    ({ m with oam := pg } : MBC).GetPage a = m.GetPage a := rfl

theorem MBC_Read8_MBC_set_oam (m : MBC) (pg : MemoryPage) (a : Nat) (ha : a < 0xE000) :
    ({ m with oam := pg } : MBC).Read8_MBC a = m.Read8_MBC a := by
  unfold MBC.Read8_MBC
  rw [GetPage_set_oam]
  cases hg : m.GetPage a with
  | error e => rfl
  | ok ref =>
    have hne := GetPage_below_ne_oam m a ha ref hg
    show (do
      let p ← ({ m with oam := pg } : MBC).page ref
      p.read ((a + 65536 - p.base % 65536) % 65536)) = _
    rw [page_set_oam m pg ref hne]
    rfl

/-- A read below `0xE000` does not see the OAM page. -/
theorem Read8_set_oam (gb : GameBoy) (pg : MemoryPage) (a : Nat) (ha : a < 0xE000) :
    Read8 { gb with mbc := { gb.mbc with oam := pg } } a = Read8 gb a := by
  have hm := MBC_Read8_MBC_set_oam gb.mbc pg a ha
  have h8 : ({ gb.mbc with oam := pg } : MBC).Read8 a = gb.mbc.Read8 a := by
    unfold MBC.Read8
    cases hk : gb.mbc.kind
    · exact hm
    · exact hm
    · show MBC.Read8_MBC3 _ a = MBC.Read8_MBC3 _ a
      unfold MBC.Read8_MBC3
      rw [hm]
  unfold Read8
  show (if (!CheckBounds8 a) = true then _ else
    match TryIORead gb a gb.uninit_data with
    | some data => Except.ok data
    | none => ({ gb.mbc with oam := pg } : MBC).Read8 a) = _
  rw [h8]

theorem MBC_Write8_oam (m : MBC) (i x : Nat) (hi : i < 0xA0) (hb : m.oam.base = 0xFE00)
    (hs : m.oam.size = 0xA0) :
    m.Write8 (0xFE00 + i) x =
      .ok { m with oam := { m.oam with bytes := Function.update m.oam.bytes i x } } := by
  have h0 : ¬ (0xFE00 + i ≤ 0x1FFF) := by omega
  have h1 : ¬ (0xFE00 + i ≥ 0x2000 ∧ 0xFE00 + i ≤ 0x3FFF) := by omega
  have h2 : ¬ (0xFE00 + i ≥ 0x4000 ∧ 0xFE00 + i ≤ 0x5FFF) := by omega
  have h3 : ¬ (0xFE00 + i ≥ 0x6000 ∧ 0xFE00 + i ≤ 0x7FFF) := by omega
  have e : (0xFE00 + i + 65536 - 0xFE00 % 65536) % 65536 = i := by omega
  have hw : m.Write8_MBC (0xFE00 + i) x =
      .ok { m with oam := { m.oam with bytes := Function.update m.oam.bytes i x } } := by
    unfold MBC.Write8_MBC
    rw [GetPage_oam m (0xFE00 + i) (by omega)]
    show (do
      let pg ← MemoryPage.write m.oam ((0xFE00 + i + 65536 - m.oam.base % 65536) % 65536) x
      pure (m.setPage .oam pg)) = _
    rw [hb, e]
    unfold MemoryPage.write
    rw [if_pos (by rw [hs]; exact hi)]
    rfl
  rw [← hw]
  unfold MBC.Write8
  cases m.kind <;>
    simp only [MBC.Write8_MBC3, MBC.Write8_MBC1, h0, h1, h2, h3, if_false]

/-- A write of the DMA transfer: the byte goes to the OAM page. -/
theorem Write8F_oam (gb : GameBoy) (i x : Nat) (hi : i < 0xA0)
    (hb : gb.mbc.oam.base = 0xFE00) (hs : gb.mbc.oam.size = 0xA0) :
    Write8F 1 gb (0xFE00 + i) x =
      .ok { gb with mbc := { gb.mbc with oam := { gb.mbc.oam with
        bytes := Function.update gb.mbc.oam.bytes i x } } } := by
  have hc : CheckBounds8 (0xFE00 + i) = true := by
    unfold CheckBounds8
    rw [if_neg (by omega)]
  have hio : TryIOWrite (Write8F 0) gb (0xFE00 + i) x = .ok (false, gb) := by
    unfold TryIOWrite
    rw [if_neg (by omega)]
  unfold Write8F
  rw [hc, hio]
  show (do
    let m ← gb.mbc.Write8 (0xFE00 + i) x
    pure { gb with mbc := m }) = _
  rw [MBC_Write8_oam gb.mbc i x hi hb hs]
  rfl

theorem Read8_oam (gb : GameBoy) (i : Nat) (hi : i < 0xA0)
    (hb : gb.mbc.oam.base = 0xFE00) (hs : gb.mbc.oam.size = 0xA0) :
    Read8 gb (0xFE00 + i) = .ok (gb.mbc.oam.bytes i) := by
  have hc : CheckBounds8 (0xFE00 + i) = true := by
    unfold CheckBounds8
    rw [if_neg (by omega)]
  have hio : TryIORead gb (0xFE00 + i) gb.uninit_data = none := by
    unfold TryIORead
    rw [if_neg (by omega)]
  have e : (0xFE00 + i + 65536 - 0xFE00 % 65536) % 65536 = i := by omega
  have h2 : ¬ (0xFE00 + i ≥ 0xA000 ∧ 0xFE00 + i ≤ 0xBFFF) := by omega
  have hr : gb.mbc.Read8_MBC (0xFE00 + i) = .ok (gb.mbc.oam.bytes i) := by
    unfold MBC.Read8_MBC
    rw [GetPage_oam gb.mbc (0xFE00 + i) (by omega)]
    show MemoryPage.read gb.mbc.oam ((0xFE00 + i + 65536 - gb.mbc.oam.base % 65536) % 65536) = _
    rw [hb, e]
    unfold MemoryPage.read
    rw [if_pos (by rw [hs]; exact hi)]
  unfold Read8
  rw [hc, hio]
  show gb.mbc.Read8 (0xFE00 + i) = _
  rw [← hr]
  unfold MBC.Read8
  cases gb.mbc.kind <;> simp only [MBC.Read8_MBC3, h2, if_false]

theorem withOam_zero (gb : GameBoy) (f : Nat → Nat) : withOam gb f 0 = gb := by
  unfold withOam
  simp

theorem withOam_succ (gb : GameBoy) (f : Nat → Nat) (n : Nat) :
    ({ withOam gb f n with mbc := { (withOam gb f n).mbc with oam := { (withOam gb f n).mbc.oam with
        bytes := Function.update (withOam gb f n).mbc.oam.bytes n (f n) } } } : GameBoy) =
      withOam gb f (n + 1) := by
  have hfun : Function.update (fun j => if j < n then f j else gb.mbc.oam.bytes j) n (f n) =
      fun j => if j < n + 1 then f j else gb.mbc.oam.bytes j := by
    funext j
    by_cases hj : j = n
    · subst hj
      simp
    · rw [Function.update_noteq hj]
      by_cases hlt : j < n
      · rw [if_pos hlt, if_pos (by omega)]
      · rw [if_neg hlt, if_neg (by omega)]
  unfold withOam
  simp only [hfun]

/-- The loop of `StartDMATransfer` after `n` of its 160 steps. -/
theorem DMA_loop (gb : GameBoy) (f : Nat → Nat) (src : Nat)
    (hb : gb.mbc.oam.base = 0xFE00) (hs : gb.mbc.oam.size = 0xA0)
    (hlow : src + 0xA0 ≤ 0xE000)
    (hsrc : ∀ i < 0xA0, Read8 gb (src + i) = .ok (f i)) :
    ∀ n ≤ 0xA0, (List.range n).foldlM
      (fun g i => do
        let v ← Read8 g ((src + i) % 65536)
        Write8F 1 g (0xFE00 + i) v) gb = .ok (withOam gb f n) := by
  intro n
  induction n with
  | zero =>
    intro _
    rw [withOam_zero]
    rfl
  | succ n ih =>
    intro hn
    have hmod : (src + n) % 65536 = src + n := Nat.mod_eq_of_lt (by omega)
    have hread : Read8 (withOam gb f n) (src + n) = .ok (f n) := by
      have := Read8_set_oam gb
        { gb.mbc.oam with bytes := fun j => if j < n then f j else gb.mbc.oam.bytes j }
        (src + n) (by omega)
      exact this.trans (hsrc n (by omega))
    have hwrite := Write8F_oam (withOam gb f n) n (f n) (by omega) hb hs
    rw [List.range_succ, List.foldlM_append, ih (by omega)]
    show (do
      let g ← (do
        let v ← Read8 (withOam gb f n) ((src + n) % 65536)
        Write8F 1 (withOam gb f n) (0xFE00 + n) v)
      pure g) = _
    rw [hmod, hread]
    show (do
      let g ← Write8F 1 (withOam gb f n) (0xFE00 + n) (f n)
      pure g) = _
    rw [hwrite, withOam_succ]
    rfl

/-- The write to `0xFF46`: 160 bytes are copied to OAM. -/
theorem Write8_FF46 (gb : GameBoy) (v : Nat) (f : Nat → Nat) (hv : v ≤ 0xDF)
    (hb : gb.mbc.oam.base = 0xFE00) (hs : gb.mbc.oam.size = 0xA0)
    (hsrc : ∀ i < 0xA0, Read8 gb ((v <<< 8) + i) = .ok (f i)) :
    Write8 gb 0xFF46 v = .ok (withOam gb f 0xA0) := by
  have hsh : v <<< 8 = v * 256 := by rw [Nat.shiftLeft_eq]
  have haddr : (v <<< 8) % 65536 = v <<< 8 := Nat.mod_eq_of_lt (by omega)
  have hloop := DMA_loop gb f (v <<< 8) hb hs (by omega) hsrc 0xA0 (Nat.le_refl _)
  have hdma : StartDMATransfer (Write8F 1) gb v = .ok (withOam gb f 0xA0) := by
    unfold StartDMATransfer
    simp only [haddr]
    exact hloop
  have hio : TryIOWrite (Write8F 1) gb 0xFF46 v =
      (do
        let g ← StartDMATransfer (Write8F 1) gb v
        pure (true, g)) := rfl
  have hc : CheckBounds8 0xFF46 = true := rfl
  unfold Write8 Write8F
  rw [hc, hio, hdma]
  rfl

/-! ## The `MBC1` controller -/

theorem loadedBanks_length (rom : Rom) (n : Nat) : (loadedBanks rom n).length = n := by
  simp [loadedBanks]

theorem loadedBanks_succ (rom : Rom) (n : Nat) :
    loadedBanks rom (n + 1) = loadedBanks rom n ++ [bankPage rom (n + 1)] := by
  simp [loadedBanks, List.range_succ]

theorem loadedBanks_get (rom : Rom) (n i : Nat) (hi : i < n) :
    (loadedBanks rom n)[i]? = some (bankPage rom (i + 1)) := by
  simp [loadedBanks, hi]

/-- One turn of the loop of `MBC1::Load` on a machine that holds the banks
`1 .. n`. -/
theorem Load_MBC1_step_ok (rom : Rom) (m : MBC) (n : Nat)
    (hm : m.switchableBanks = loadedBanks rom n)
    (hlen : 0x4000 * (n + 1) + 0x4000 ≤ rom.bytes.length) :
    MBC.Load_MBC1_step rom m (n + 1) =
      .ok { m with switchableBanks := loadedBanks rom (n + 1) } := by
  have hget : (loadedBanks rom n ++ [MemoryPage.new 0x4000 0x4000])[n]? =
      some (MemoryPage.new 0x4000 0x4000) := by
    rw [List.getElem?_append_right (by rw [loadedBanks_length])]
    simp [loadedBanks_length]
  have hset : (loadedBanks rom n ++ [MemoryPage.new 0x4000 0x4000]).set n (bankPage rom (n + 1)) =
      loadedBanks rom (n + 1) := by
    rw [loadedBanks_succ, List.set_append_right _ _ (by rw [loadedBanks_length])]
    simp [loadedBanks_length]
  unfold MBC.Load_MBC1_step
  simp only [hm, Nat.add_sub_cancel, hget]
  rw [if_neg (by omega)]
  show (do
    let pg ← MemoryPage.memcpyIn (MemoryPage.new 0x4000 0x4000) 0
      (fun k => rom.bytes.getD (0x4000 * (n + 1) + k) 0) 0x4000
    pure { m with switchableBanks :=
      (loadedBanks rom n ++ [MemoryPage.new 0x4000 0x4000]).set n pg }) = _
  have hcpy : MemoryPage.memcpyIn (MemoryPage.new 0x4000 0x4000) 0
      (fun k => rom.bytes.getD (0x4000 * (n + 1) + k) 0) 0x4000 = .ok (bankPage rom (n + 1)) := rfl
  rw [hcpy]
  show Except.ok _ = _
  rw [hset]

/-- The loop of `MBC1::Load` after `n` turns. -/
theorem Load_MBC1_loop (rom : Rom) (m : MBC) (hm : m.switchableBanks = []) :
    ∀ n, 0x4000 * n + 0x4000 ≤ rom.bytes.length →
      (List.range n).foldlM (fun m j => MBC.Load_MBC1_step rom m (j + 1)) m =
        .ok { m with switchableBanks := loadedBanks rom n } := by
  intro n
  induction n with
  | zero =>
    intro _
    show Except.ok m = _
    congr 1
    cases m
    simp only [loadedBanks, List.range_zero, List.map_nil] at hm ⊢
    rw [hm]
  | succ n ih =>
    intro hlen
    rw [List.range_succ, List.foldlM_append, ih (by omega)]
    show (do
      let g ← MBC.Load_MBC1_step rom { m with switchableBanks := loadedBanks rom n } (n + 1)
      pure g) = _
    rw [Load_MBC1_step_ok rom { m with switchableBanks := loadedBanks rom n } n rfl (by omega)]
    rfl

theorem except_ok_bind {ε α β : Type} (a : α) (f : α → Except ε β) :
    (Except.ok a >>= f) = f a := rfl

theorem two_pow_le_64 (r : Nat) (hr : r ≤ 6) : 1 ≤ 2 ^ r ∧ 2 ^ r ≤ 64 :=
  ⟨Nat.one_le_two_pow, by
    calc 2 ^ r ≤ 2 ^ 6 := Nat.pow_le_pow_right (by decide) hr
      _ = 64 := by decide⟩

/-- Source `MBC1::Load` returns, for a header code `RomSize <= 6` (up to 128 banks) and
an image that has the bytes of all the banks: bank 0 is copied to the fixed
page, and banks `1 .. 2 * 2^RomSize - 1` to the switchable pages. -/
theorem Load_MBC1_result (rom : Rom) (hsize : rom.RomSize ≤ 6)
    (hlen : 0x8000 * 2 ^ rom.RomSize ≤ rom.bytes.length) :
    MBC.Load_MBC1 MBC.constructed1 rom = .ok (loadedMBC1 rom) ∧
    (loadedMBC1 rom).numBanks = 2 * 2 ^ rom.RomSize := by
  obtain ⟨hp1, hp2⟩ := two_pow_le_64 rom.RomSize hsize
  have hbanks : (32 * 2 ^ rom.RomSize / 16) % 256 = 2 * 2 ^ rom.RomSize := by omega
  refine ⟨?_, hbanks⟩
  have hw : MBC.WriteBytes MBC.constructed1 (fun i => rom.bytes.getD i 0) 0x0000 0x4000 =
      .ok { MBC.constructed1 with
        romBank0 := { MBC.constructed1.romBank0 with
          bytes := fun i => if 0 ≤ i ∧ i < 0 + 0x4000 then rom.bytes.getD (i - 0) 0
            else MBC.constructed1.romBank0.bytes i } } := rfl
  have hloop := Load_MBC1_loop rom
    { MBC.constructed1 with
      romBank0 := { MBC.constructed1.romBank0 with
        bytes := fun i => if 0 ≤ i ∧ i < 0 + 0x4000 then rom.bytes.getD (i - 0) 0
          else MBC.constructed1.romBank0.bytes i }
      numBanks := (32 * 2 ^ rom.RomSize / 16) % 256 }
    rfl ((32 * 2 ^ rom.RomSize / 16) % 256 - 1) (by omega)
  unfold MBC.Load_MBC1
  rw [if_neg (by omega), hw, except_ok_bind, if_neg (by omega)]
  dsimp only
  rw [hloop, except_ok_bind]
  rfl

set_option maxRecDepth 100000 in
/-- The index `romBank - 1 | (selectedBank << 5)` of `MBC1::GetPage`, plus one, is
the bank number `(selectedBank << 5) | romBank`. -/
theorem bank_index_succ : ∀ lo < 32, ∀ hi < 4, 1 ≤ lo →
    ((lo - 1) ||| (hi <<< 5)) + 1 = ((hi <<< 5) ||| lo) := by
  decide

/-- A read of the switchable ROM area on an `MBC1` whose banks are those of a
cartridge image. -/
theorem Read8_MBC1_high (gb : GameBoy) (rom : Rom) (n k : Nat) (hkind : gb.mbc.kind = .MBC1)
    (hbanks : gb.mbc.switchableBanks = loadedBanks rom n)
    (hlo1 : 1 ≤ gb.mbc.romBank) (hlo : gb.mbc.romBank ≤ 31) (hhi : gb.mbc.selectedBank ≤ 3)
    (hk : k < 0x4000)
    (hB : (if gb.mbc.ramBanking = true then gb.mbc.romBank
      else (gb.mbc.selectedBank <<< 5) ||| gb.mbc.romBank) ≤ n) :
    Read8 gb (0x4000 + k) = .ok (rom.bytes.getD (0x4000 *
      (if gb.mbc.ramBanking = true then gb.mbc.romBank
        else (gb.mbc.selectedBank <<< 5) ||| gb.mbc.romBank) + k) 0) := by
  have hc : CheckBounds8 (0x4000 + k) = true := by
    unfold CheckBounds8
    rw [if_neg (by omega)]
  have hio : TryIORead gb (0x4000 + k) gb.uninit_data = none := by
    unfold TryIORead
    rw [if_neg (by omega)]
  have hidx := bank_index_succ gb.mbc.romBank (by omega) gb.mbc.selectedBank (by omega) hlo1
  have hne : gb.mbc.romBank ≠ 0 := by omega
  have haddr : (0x4000 + k + 65536 - 0x4000 % 65536) % 65536 = k := by omega
  -- the index into `switchableBanks` and the bank it holds
  have hpage : ∀ idx, idx < n →
      (do
        let pg ← gb.mbc.page (.switchableBanks idx)
        pg.read ((0x4000 + k + 65536 - pg.base % 65536) % 65536)) =
      Except.ok (rom.bytes.getD (0x4000 * (idx + 1) + k) 0) := by
    intro idx hidx
    have hget : gb.mbc.switchableBanks[idx]? = some (bankPage rom (idx + 1)) := by
      rw [hbanks]; exact loadedBanks_get rom n idx hidx
    unfold MBC.page
    simp only [hget]
    rw [except_ok_bind]
    show MemoryPage.read (bankPage rom (idx + 1)) ((0x4000 + k + 65536 - 0x4000 % 65536) % 65536) = _
    rw [haddr]
    unfold MemoryPage.read bankPage
    simp [hk]
  unfold Read8
  rw [hc, hio]
  show gb.mbc.Read8 (0x4000 + k) = _
  unfold MBC.Read8
  rw [hkind]
  show gb.mbc.Read8_MBC (0x4000 + k) = _
  unfold MBC.Read8_MBC MBC.GetPage
  rw [hkind]
  show (do
    let ref ← MBC.GetPage_MBC1 gb.mbc (0x4000 + k)
    let pg ← gb.mbc.page ref
    pg.read ((0x4000 + k + 65536 - pg.base % 65536) % 65536)) = _
  unfold MBC.GetPage_MBC1
  rw [if_pos (by omega), if_neg hne, hbanks, loadedBanks_length]
  cases hmode : gb.mbc.ramBanking
  · rw [hmode] at hB
    simp only [Bool.false_eq_true, if_false] at hB ⊢
    simp only [Bool.not_false, if_true]
    rw [if_pos (by omega), except_ok_bind, hpage _ (by omega), hidx]
  · rw [hmode] at hB
    simp only [if_true] at hB ⊢
    simp only [Bool.not_true, Bool.false_eq_true, if_false]
    have hsub : gb.mbc.romBank - 1 + 1 = gb.mbc.romBank := by omega
    rw [if_pos (by omega), except_ok_bind, hpage _ (by omega), hsub]

theorem smallRom_length : smallRom.bytes.length = 0x8000 := List.length_replicate _ _

theorem smallRom_byte (i : Nat) (hi : i < 0x8000) : smallRom.bytes.getD i 0 = 0xC3 := by
  unfold smallRom
  rw [List.getD_eq_getElem?_getD, List.getElem?_replicate, if_pos hi]
  rfl

/-- A bus write into `0x2000..0x3FFF` on an `MBC1`: only the ROM bank register
changes. -/
theorem Write8_MBC1_bank (gb : GameBoy) (a d : Nat) (hkind : gb.mbc.kind = .MBC1)
    (ha : 0x2000 ≤ a ∧ a ≤ 0x3FFF) :
    Write8 gb a d = .ok { gb with mbc := { gb.mbc with
      romBank := (if (d &&& 0x0F) = 0x00 then (d + 1) % 256 else d) &&& 0x1F } } := by
  have hc : CheckBounds8 a = true := by
    unfold CheckBounds8
    rw [if_neg (by omega)]
  have hio : TryIOWrite (Write8F 1) gb a d = .ok (false, gb) := by
    unfold TryIOWrite
    rw [if_neg (by omega)]
  have hm : gb.mbc.Write8 a d = .ok { gb.mbc with
      romBank := (if (d &&& 0x0F) = 0x00 then (d + 1) % 256 else d) &&& 0x1F } := by
    unfold MBC.Write8
    rw [hkind]
    show MBC.Write8_MBC1 gb.mbc a d = _
    unfold MBC.Write8_MBC1
    rw [if_neg (by omega), if_pos (by omega)]
  unfold Write8 Write8F
  rw [hc, hio]
  show (do
    let m ← gb.mbc.Write8 a d
    pure { gb with mbc := m }) = _
  rw [hm]
  rfl

set_option maxRecDepth 100000 in
/-- The ROM bank register after a write of the byte `d` is in `1..31`. -/
theorem rom_bank_range : ∀ d < 256,
    1 ≤ (if (d &&& 0x0F) = 0x00 then (d + 1) % 256 else d) &&& 0x1F ∧
    (if (d &&& 0x0F) = 0x00 then (d + 1) % 256 else d) &&& 0x1F ≤ 31 := by
  decide

/-! ## Writes to the ROM area and reads of external RAM -/

theorem CheckBounds8_below (a : Nat) (ha : a < 0xE000) : CheckBounds8 a = true := by
  unfold CheckBounds8
  rw [if_neg (by omega)]

theorem TryIORead_below (gb : GameBoy) (a r : Nat) (ha : a < 0xFF00) :
    TryIORead gb a r = none := by
  unfold TryIORead
  rw [if_neg (by omega)]

theorem TryIOWrite_below (w : GameBoy → Nat → Nat → Except Fault GameBoy) (gb : GameBoy)
    (a d : Nat) (ha : a < 0xFF00) : TryIOWrite w gb a d = .ok (false, gb) := by
  unfold TryIOWrite
  rw [if_neg (by omega)]

/-- A bus read below `0xE000` is the read of the bank controller. -/
theorem Read8_below (gb : GameBoy) (a : Nat) (ha : a < 0xE000) :
    Read8 gb a = gb.mbc.Read8 a := by
  unfold Read8
  rw [CheckBounds8_below a ha, TryIORead_below gb a _ (by omega)]
  rfl

/-- A bus write below `0xE000` is the write of the bank controller. -/
theorem Write8_below (gb : GameBoy) (a d : Nat) (ha : a < 0xE000) :
    Write8 gb a d = (gb.mbc.Write8 a d >>= fun m => pure { gb with mbc := m }) := by
  unfold Write8 Write8F
  rw [CheckBounds8_below a ha, TryIOWrite_below _ gb a d (by omega)]
  rfl

/-- A read of the fixed ROM area only looks at the page `romBank0`. -/
theorem MBC_Read8_fixed (m : MBC) (a : Nat) (ha : a ≤ 0x3FFF) :
    m.Read8 a = m.romBank0.read ((a + 65536 - m.romBank0.base % 65536) % 65536) := by
  have h2 : ¬ (a ≥ 0xA000 ∧ a ≤ 0xBFFF) := by omega
  have hread : m.Read8_MBC a =
      m.romBank0.read ((a + 65536 - m.romBank0.base % 65536) % 65536) := by
    unfold MBC.Read8_MBC
    rw [GetPage_low m a ha]
    rfl
  rw [← hread]
  unfold MBC.Read8
  cases m.kind <;> simp only [MBC.Read8_MBC3, h2, if_false]

/-- The writes of `MBC1::Write8` below `0x8000` change a register only. -/
theorem MBC_Write8_MBC1_regs (m : MBC) (w d : Nat) (hw : w ≤ 0x7FFF) :
    ∃ m', MBC.Write8_MBC1 m w d = .ok m' ∧
      m' = { m with romBank := m'.romBank, selectedBank := m'.selectedBank,
                    extRamEnabled := m'.extRamEnabled, ramBanking := m'.ramBanking } := by
  unfold MBC.Write8_MBC1
  split_ifs <;> first | exact ⟨_, rfl, rfl⟩ | omega

/-- The writes of `MBC1` and `MBC3` below `0x8000` change a register only. -/
theorem MBC_Write8_banked_regs (m : MBC) (w d : Nat) (hk : m.kind = .MBC1 ∨ m.kind = .MBC3)
    (hw : w ≤ 0x7FFF) :
    ∃ m', m.Write8 w d = .ok m' ∧
      m' = { m with romBank := m'.romBank, selectedBank := m'.selectedBank,
                    extRamEnabled := m'.extRamEnabled, ramBanking := m'.ramBanking } := by
  rcases hk with hk | hk
  · have e : m.Write8 w d = MBC.Write8_MBC1 m w d := by unfold MBC.Write8; rw [hk]
    rw [e]
    exact MBC_Write8_MBC1_regs m w d hw
  · have e : m.Write8 w d = MBC.Write8_MBC3 m w d := by unfold MBC.Write8; rw [hk]
    rw [e]
    unfold MBC.Write8_MBC3
    split_ifs <;> first | exact ⟨_, rfl, rfl⟩ | exact MBC_Write8_MBC1_regs m w d hw

/-- On a cartridge without a controller the write of `MBC::Write8` below
`0x4000` stores the byte in the page of ROM bank 0. -/
theorem MBC_Write8_rom0 (m : MBC) (a d : Nat) (hk : m.kind = .MBC) (ha : a ≤ 0x3FFF)
    (hb : m.romBank0.base = 0) (hs : m.romBank0.size = 0x4000) :
    m.Write8 a d = .ok { m with romBank0 := { m.romBank0 with
      bytes := Function.update m.romBank0.bytes a d } } := by
  have e : m.Write8 a d = MBC.Write8_MBC m a d := by unfold MBC.Write8; rw [hk]
  have haddr : (a + 65536 - 0 % 65536) % 65536 = a := by omega
  rw [e]
  unfold MBC.Write8_MBC
  rw [GetPage_low m a ha]
  show (do
    let pg ← MemoryPage.write m.romBank0 ((a + 65536 - m.romBank0.base % 65536) % 65536) d
    pure (m.setPage .romBank0 pg)) = _
  rw [hb, haddr]
  unfold MemoryPage.write
  rw [if_pos (by omega)]
  rfl

theorem GetPage_MBC_rom1 (m : MBC) (a : Nat) (hk : m.kind = .MBC)
    (ha : 0x4000 ≤ a ∧ a ≤ 0x7FFF) : m.GetPage a = .ok .romBank1 := by
  unfold MBC.GetPage
  rw [hk]
  show MBC.GetPage_MBC a = _
  unfold MBC.GetPage_MBC
  rw [if_neg (by omega), if_pos (by omega)]

/-- On a cartridge without a controller the write of `MBC::Write8` to
`0x4000..0x7FFF` stores the byte in the page of ROM bank 1. -/
theorem MBC_Write8_rom1 (m : MBC) (a d : Nat) (hk : m.kind = .MBC)
    (ha : 0x4000 ≤ a ∧ a ≤ 0x7FFF)
    (hb : m.romBank1.base = 0x4000) (hs : m.romBank1.size = 0x4000) :
    m.Write8 a d = .ok { m with romBank1 := { m.romBank1 with
      bytes := Function.update m.romBank1.bytes (a - 0x4000) d } } := by
  have e : m.Write8 a d = MBC.Write8_MBC m a d := by unfold MBC.Write8; rw [hk]
  have haddr : (a + 65536 - 0x4000 % 65536) % 65536 = a - 0x4000 := by omega
  rw [e]
  unfold MBC.Write8_MBC
  rw [GetPage_MBC_rom1 m a hk ha]
  show (do
    let pg ← MemoryPage.write m.romBank1 ((a + 65536 - m.romBank1.base % 65536) % 65536) d
    pure (m.setPage .romBank1 pg)) = _
  rw [hb, haddr]
  unfold MemoryPage.write
  rw [if_pos (by omega)]
  rfl

/-- A read of `0x4000..0x7FFF` on a cartridge without a controller. -/
theorem MBC_Read8_rom1 (m : MBC) (a : Nat) (hk : m.kind = .MBC)
    (ha : 0x4000 ≤ a ∧ a ≤ 0x7FFF)
    (hb : m.romBank1.base = 0x4000) (hs : m.romBank1.size = 0x4000) :
    m.Read8 a = .ok (m.romBank1.bytes (a - 0x4000)) := by
  have e : m.Read8 a = MBC.Read8_MBC m a := by unfold MBC.Read8; rw [hk]
  have haddr : (a + 65536 - 0x4000 % 65536) % 65536 = a - 0x4000 := by omega
  rw [e]
  unfold MBC.Read8_MBC
  rw [GetPage_MBC_rom1 m a hk ha]
  show MemoryPage.read m.romBank1 ((a + 65536 - m.romBank1.base % 65536) % 65536) = _
  rw [hb, haddr]
  unfold MemoryPage.read
  rw [if_pos (by omega)]

/-- A read of the ROM area on a cartridge without a controller, with the two ROM
pages as constructed. -/
theorem Read8_rom_MBC (gb : GameBoy) (x : Nat) (hk : gb.mbc.kind = .MBC) (hx : x ≤ 0x7FFF)
    (hb0 : gb.mbc.romBank0.base = 0) (hs0 : gb.mbc.romBank0.size = 0x4000)
    (hb1 : gb.mbc.romBank1.base = 0x4000) (hs1 : gb.mbc.romBank1.size = 0x4000) :
    Read8 gb x = .ok (if x ≤ 0x3FFF then gb.mbc.romBank0.bytes x
      else gb.mbc.romBank1.bytes (x - 0x4000)) := by
  rw [Read8_below gb x (by omega)]
  by_cases h : x ≤ 0x3FFF
  · rw [if_pos h, MBC_Read8_low gb.mbc x h hb0 hs0]
  · rw [if_neg h, MBC_Read8_rom1 gb.mbc x hk (by omega) hb1 hs1]

/-! ## The PPU step -/

namespace PPU

/-- The step with the LCD off. -/
theorem Update_lcd_off (gb : GameBoy) (c : Int) (hoff : gb.ppu.LCDC &&& 0x80 = 0) :
    Update gb c = .ok (0, { gb with ppu := { gb.ppu with frameCycles := 0, LY := 0 } }) := by
  unfold Update
  rw [if_neg (not_not.mpr hoff)]
  rfl

/-- Steps with the LCD off, from a machine with `LY = 0` and the counter at 0. -/
theorem UpdateAll_lcd_off (cs : List Int) (gb : GameBoy) (hoff : gb.ppu.LCDC &&& 0x80 = 0)
    (hLY : gb.ppu.LY = 0) (hfc : gb.ppu.frameCycles = 0) : UpdateAll gb cs = .ok gb := by
  induction cs with
  | nil => rfl
  | cons c cs ih =>
    have hsame : ({ gb with ppu := { gb.ppu with frameCycles := 0, LY := 0 } } : GameBoy) = gb := by
      cases gb with
      | mk P1 Keys TIMA TMA TAC options processor ppu game_rom mbc InBootROM Stopped fl se ud =>
        cases ppu
        simp only at hLY hfc
        subst hLY hfc
        rfl
    unfold UpdateAll at ih ⊢
    rw [List.foldlM_cons, Update_lcd_off gb c hoff, except_ok_bind]
    show (do
      let g ← (pure ({ gb with ppu := { gb.ppu with frameCycles := 0, LY := 0 } }) : Except Fault GameBoy)
      List.foldlM _ g cs) = _
    rw [hsame]
    exact ih

end PPU

/-! ## Tile decoding -/

theorem mask4_bit : ∀ k < 47, Nat.testBit 0x0F0F0F0F k = decide (k % 8 < 4 ∧ k < 32) := by
  decide

theorem mask2_bit : ∀ k < 47, Nat.testBit 0x33333333 k = decide (k % 4 < 2 ∧ k < 32) := by
  decide

theorem mask1_bit : ∀ k < 47, Nat.testBit 0x55555555 k = decide (k % 2 < 1 ∧ k < 32) := by
  decide

theorem byte_high_bits (b : Nat) (hb : b < 256) (p : Nat) (hp : 8 ≤ p) : b.testBit p = false :=
  Nat.testBit_lt_two_pow (lt_of_lt_of_le hb (by
    calc 256 = 2 ^ 8 := by decide
      _ ≤ 2 ^ p := Nat.pow_le_pow_right (by decide) hp))

theorem testBit_mod32 (x i : Nat) :
    (x % 4294967296).testBit i = (decide (i < 32) && x.testBit i) :=
  Nat.testBit_mod_two_pow x 32 i

theorem testBit_mod16 (x i : Nat) :
    (x % 65536).testBit i = (decide (i < 16) && x.testBit i) :=
  Nat.testBit_mod_two_pow x 16 i

/-- The bits of a decoded row: bit `2 i` is bit `i` of the first byte of the
pair, bit `2 i + 1` is bit `i` of the second. -/
theorem Decode_row_testBit (src : Nat → Nat) (row : Nat)
    (hlo : src (row * 2) < 256) (hhi : src ((row * 2) + 1) < 256) :
    ∀ j < 16, (Tile.Decode_row src row).testBit j =
      if j % 2 = 0 then (src (row * 2)).testBit (j / 2)
      else (src ((row * 2) + 1)).testBit (j / 2) := by
  intro j hj
  have L := byte_high_bits _ hlo
  have H := byte_high_bits _ hhi
  unfold Tile.Decode_row
  interval_cases j <;>
    simp [testBit_mod32, testBit_mod16, Nat.testBit_shiftLeft, Nat.testBit_shiftRight,
      mask4_bit, mask2_bit, mask1_bit, L, H, -Nat.testBit_zero]

theorem Decode_row_lt (src : Nat → Nat) (row : Nat) : Tile.Decode_row src row < 65536 :=
  Nat.mod_lt _ (by decide)

/-- Masking two bits at position `k` and shifting them down. -/
theorem and_shift_pair (row k : Nat) : (row &&& (3 <<< k)) >>> k = (row >>> k) % 4 := by
  apply Nat.eq_of_testBit_eq
  intro i
  have h3 : Nat.testBit 3 i = decide (i < 2) := Nat.testBit_two_pow_sub_one 2 i
  have h4 : ((row >>> k) % 4).testBit i = (decide (i < 2) && (row >>> k).testBit i) :=
    Nat.testBit_mod_two_pow (row >>> k) 2 i
  rw [h4, Nat.testBit_shiftRight, Nat.testBit_shiftRight, Nat.testBit_and,
    Nat.testBit_shiftLeft, Nat.add_sub_cancel_left, h3]
  have hle : decide (k + i ≥ k) = true := by simp
  rw [hle, Bool.true_and, Bool.and_comm]

theorem pair_mask : ∀ x < 8, 0xC000 >>> (2 * x) = 3 <<< (14 - 2 * x) := by decide

/-- Two bits as a number. -/
theorem pair_value (row k : Nat) :
    (row >>> k) % 4 = 2 * (row.testBit (k + 1)).toNat + (row.testBit k).toNat := by
  rw [Nat.toNat_testBit, Nat.toNat_testBit, Nat.shiftRight_eq_div_pow, Nat.pow_succ,
    ← Nat.div_div_eq_div_mul]
  omega

/-- The colour index that `GetPixel` takes from a row. -/
theorem pixel_of_row (row x : Nat) (hx : x < 8) :
    ((row &&& (0xC000 >>> ((x * 2) % 256))) >>> (14 - (x * 2) % 256)) % 256 =
      (row >>> (14 - 2 * x)) % 4 := by
  have e : (x * 2) % 256 = 2 * x := by omega
  rw [e, pair_mask x hx, and_shift_pair]
  omega

theorem Decode_rows_get (src : Nat → Nat) (y : Nat) (hy : y < 8) :
    (Tile.Decode src).rows[y]? = some (Tile.Decode_row src y) := by
  simp [Tile.Decode, hy]

/-- Reading a pixel of a decoded tile. -/
theorem GetPixel_Decode (src : Nat → Nat) (x y : Nat) (hx : x < 8) (hy : y < 8) :
    (Tile.Decode src).GetPixel x y = .ok ((Tile.Decode_row src y >>> (14 - 2 * x)) % 4) := by
  unfold Tile.GetPixel
  simp only [Decode_rows_get src y hy]
  rw [if_neg (by omega), pixel_of_row _ x hx]

/-! ## The interrupt request register on the bus -/

theorem Read8_FF0F (gb : GameBoy) : Read8 gb 0xFF0F = .ok gb.processor.IF := rfl

theorem Write8_FF0F (gb : GameBoy) (d : Nat) :
    Write8 gb 0xFF0F d = .ok { gb with processor := { gb.processor with IF := d } } := rfl

namespace PPU

theorem requestInterrupt_eq (gb : GameBoy) (bit : Nat) :
    requestInterrupt gb bit =
      .ok { gb with processor := { gb.processor with IF := (gb.processor.IF ||| bit) % 256 } } := rfl

/-- The step in V-Blank: no call that can fail is made. -/
theorem Update_vblank (gb : GameBoy) (c : Int) (hon : gb.ppu.LCDC &&& 0x80 ≠ 0)
    (hmode : gb.ppu.STAT &&& 0x03 = 1) :
    Update gb c = .ok (0, Update_VBLANK
      { gb with ppu := { gb.ppu with frameCycles := gb.ppu.frameCycles + c } }) := by
  unfold Update
  rw [if_pos hon]
  dsimp only
  rw [hmode]
  rfl

theorem setMode_testBit (S mode k : Nat) (hk : 2 ≤ k) (hm : mode < 4) :
    ((S &&& 0xFC) ||| mode).testBit k = (S.testBit k && decide (k < 8)) := by
  have h1 : mode.testBit k = false := by
    apply Nat.testBit_eq_false_of_lt
    calc mode < 4 := hm
      _ = 2 ^ 2 := rfl
      _ ≤ 2 ^ k := Nat.pow_le_pow_right (by decide) hk
  have h2 : Nat.testBit 0xFC k = decide (k < 8) := by
    by_cases h8 : k < 8
    · interval_cases k <;> decide
    · rw [Nat.testBit_eq_false_of_lt]
      · simp [h8]
      · calc 0xFC < 2 ^ 8 := by decide
          _ ≤ 2 ^ k := Nat.pow_le_pow_right (by decide) (by omega)
  rw [Nat.testBit_or, Nat.testBit_and, h1, h2, Bool.or_false]

/-- What the V-Blank case changes: the counter, `LY` and the mode bits of `STAT`. -/
theorem Update_VBLANK_frame (gb : GameBoy) :
    (Update_VBLANK gb).processor = gb.processor ∧ (Update_VBLANK gb).mbc = gb.mbc ∧
    (Update_VBLANK gb).ppu.LYC = gb.ppu.LYC ∧ (Update_VBLANK gb).ppu.LCDC = gb.ppu.LCDC ∧
    ((Update_VBLANK gb).ppu.STAT = gb.ppu.STAT ∨
      (Update_VBLANK gb).ppu.STAT = (gb.ppu.STAT &&& 0xFC) ||| 2) := by
  unfold Update_VBLANK
  dsimp only
  split_ifs <;>
    first
    | exact ⟨rfl, rfl, rfl, rfl, Or.inl rfl⟩
    | exact ⟨rfl, rfl, rfl, rfl, Or.inr rfl⟩

end PPU

/-! ## What the drawing and decoding calls of the PPU change -/

theorem SameButBuffers_refl (a : GameBoy) : SameButBuffers a a := ⟨_, _, _, _, rfl⟩

theorem SameButBuffers_trans {a b c : GameBoy} (h1 : SameButBuffers a b)
    (h2 : SameButBuffers b c) : SameButBuffers a c := by
  obtain ⟨_, _, _, _, rfl⟩ := h1
  obtain ⟨_, _, _, _, rfl⟩ := h2
  exact ⟨_, _, _, _, rfl⟩

theorem SameButBuffers_regs {a b : GameBoy} (h : SameButBuffers a b) :
    b.processor = a.processor ∧ b.mbc = a.mbc ∧ b.ppu.LCDC = a.ppu.LCDC ∧
    b.ppu.STAT = a.ppu.STAT ∧ b.ppu.LY = a.ppu.LY ∧ b.ppu.LYC = a.ppu.LYC ∧
    b.ppu.frameCycles = a.ppu.frameCycles := by
  obtain ⟨_, _, _, _, rfl⟩ := h
  exact ⟨rfl, rfl, rfl, rfl, rfl, rfl, rfl⟩

theorem foldlM_frame {α : Type} (f : GameBoy → α → Except Fault GameBoy)
    (hf : ∀ g a g', f g a = .ok g' → SameButBuffers g g') :
    ∀ (l : List α) (g g' : GameBoy), List.foldlM f g l = .ok g' → SameButBuffers g g' := by
  intro l
  induction l with
  | nil =>
    intro g g' h
    cases h
    exact SameButBuffers_refl g
  | cons a l ih =>
    intro g g' h
    rw [List.foldlM_cons] at h
    obtain ⟨g1, h1, h2⟩ := except_bind_ok h
    exact SameButBuffers_trans (hf g a g1 h1) (ih g1 g' h2)

namespace PPU

theorem setBackBuffer_frame (gb : GameBoy) (i : Int) (c : Nat) (g : GameBoy)
    (h : setBackBuffer gb i c = .ok g) : SameButBuffers gb g := by
  unfold setBackBuffer at h
  split_ifs at h
  cases h
  exact ⟨_, _, _, _, rfl⟩

theorem DrawScanlineWindow_column_frame (gb : GameBoy) (x : Int) (g : GameBoy)
    (h : DrawScanlineWindow_column gb x = .ok g) : SameButBuffers gb g := by
  unfold DrawScanlineWindow_column at h
  obtain ⟨tileID, -, h⟩ := except_bind_ok h
  dsimp only at h
  split_ifs at h
  · cases h
    exact SameButBuffers_refl gb
  · split at h
    · cases h
    · obtain ⟨pixel, -, h⟩ := except_bind_ok h
      obtain ⟨color, -, h⟩ := except_bind_ok h
      exact setBackBuffer_frame gb _ _ g h

theorem DrawScanlineWindow_frame (gb g : GameBoy) (h : DrawScanlineWindow gb = .ok g) :
    SameButBuffers gb g :=
  foldlM_frame DrawScanlineWindow_column DrawScanlineWindow_column_frame _ gb g h

theorem DrawScanlineSprites_pixel_frame (gb : GameBoy) (sprite : Sprite) (px : Nat) (g : GameBoy)
    (h : DrawScanlineSprites_pixel gb sprite px = .ok g) : SameButBuffers gb g := by
  unfold DrawScanlineSprites_pixel at h
  dsimp only at h
  split_ifs at h <;>
    first
    | (cases h
       exact SameButBuffers_refl gb)
    | (split at h
       · cases h
       · obtain ⟨color, -, h⟩ := except_bind_ok h
         split_ifs at h
         · cases h
           exact SameButBuffers_refl gb
         · obtain ⟨c, -, h⟩ := except_bind_ok h
           exact setBackBuffer_frame gb _ _ g h)

theorem DrawScanlineSprites_frame (gb g : GameBoy) (h : DrawScanlineSprites gb = .ok g) :
    SameButBuffers gb g := by
  unfold DrawScanlineSprites at h
  obtain ⟨g1, h1, h⟩ := except_bind_ok h
  cases h
  have hf := foldlM_frame
    (fun g sprite => (List.range 8).foldlM (fun g px => DrawScanlineSprites_pixel g sprite px) g)
    (fun g0 sprite g1 h0 => foldlM_frame (fun g px => DrawScanlineSprites_pixel g sprite px)
      (fun a px b hab => DrawScanlineSprites_pixel_frame a sprite px b hab) _ g0 g1 h0)
    _ gb g1 h1
  exact SameButBuffers_trans hf ⟨_, _, _, _, rfl⟩

theorem DrawScanline_frame (gb g : GameBoy) (h : DrawScanline gb = .ok g) :
    SameButBuffers gb g := by
  have key : ∀ g1, SameButBuffers gb g1 →
      (if g1.ppu.LCDC &&& 0x02 ≠ 0 then DrawScanlineSprites g1 else pure g1) = .ok g →
      SameButBuffers gb g := by
    intro g1 f1 h2
    split_ifs at h2
    · exact SameButBuffers_trans f1 (DrawScanlineSprites_frame g1 g h2)
    · cases h2
      exact f1
  unfold DrawScanline at h
  obtain ⟨u, -, h⟩ := except_bind_ok h
  dsimp only at h
  by_cases hw : gb.ppu.LCDC &&& 0x20 ≠ 0 ∧ gb.ppu.LY ≥ gb.ppu.WY
  · rw [if_pos hw] at h
    obtain ⟨g1, h1, h⟩ := except_bind_ok h
    exact key g1 (DrawScanlineWindow_frame gb g1 h1) h
  · rw [if_neg hw] at h
    exact key gb (SameButBuffers_refl gb) h

theorem FetchScanlineSprites_loop_frame (l : List Nat) :
    ∀ (c : Nat) (gb g : GameBoy), FetchScanlineSprites_loop l c gb = .ok g →
      SameButBuffers gb g := by
  induction l with
  | nil =>
    intro c gb g h
    cases h
    exact SameButBuffers_refl gb
  | cons i rest ih =>
    intro c gb g h
    unfold FetchScanlineSprites_loop at h
    obtain ⟨buffer, -, h⟩ := except_bind_ok h
    dsimp only at h
    split_ifs at h <;>
      first
      | exact ih c gb g h
      | (cases h
         exact SameButBuffers_refl gb)
      | exact SameButBuffers_trans ⟨_, _, _, _, rfl⟩ (ih _ _ g h)

theorem FetchScanlineSprites_frame (gb g : GameBoy) (h : FetchScanlineSprites gb = .ok g) :
    SameButBuffers gb g :=
  FetchScanlineSprites_loop_frame _ 0 gb g h

theorem DecodeTiles_bg_frame (gb : GameBoy) (bg : Nat) (g : GameBoy)
    (h : DecodeTiles_bg gb bg = .ok g) : SameButBuffers gb g := by
  unfold DecodeTiles_bg at h
  obtain ⟨buffer, -, h⟩ := except_bind_ok h
  split_ifs at h
  cases h
  exact ⟨_, _, _, _, rfl⟩

theorem DecodeTiles_obj_frame (gb : GameBoy) (obj : Nat) (g : GameBoy)
    (h : DecodeTiles_obj gb obj = .ok g) : SameButBuffers gb g := by
  unfold DecodeTiles_obj at h
  obtain ⟨buffer, -, h⟩ := except_bind_ok h
  split_ifs at h
  cases h
  exact ⟨_, _, _, _, rfl⟩

theorem DecodeTiles_frame (gb g : GameBoy) (h : DecodeTiles gb = .ok g) :
    SameButBuffers gb g := by
  unfold DecodeTiles at h
  obtain ⟨g1, h1, h⟩ := except_bind_ok h
  exact SameButBuffers_trans (foldlM_frame DecodeTiles_bg DecodeTiles_bg_frame _ gb g1 h1)
    (foldlM_frame DecodeTiles_obj DecodeTiles_obj_frame _ g1 g h)

end PPU

/-! ## The sprites of a scanline -/

theorem ReadBytes_oam (gb : GameBoy) (i : Nat) (hi : i < 40)
    (hb : gb.mbc.oam.base = 0xFE00) (hs : gb.mbc.oam.size = 0xA0) :
    ReadBytes gb ((0xFE00 + (i * 4)) % 65536) 4 =
      .ok ((List.range 4).map (fun k => gb.mbc.oam.bytes (i * 4 + k))) := by
  have ha : (0xFE00 + (i * 4)) % 65536 = 0xFE00 + i * 4 := by omega
  rw [ha]
  unfold ReadBytes MBC.ReadBytes
  rw [GetPage_oam gb.mbc (0xFE00 + i * 4) (by omega)]
  show (if 0xFE00 + i * 4 < gb.mbc.oam.base then .error .undefined
    else gb.mbc.oam.memcpyOut (0xFE00 + i * 4 - gb.mbc.oam.base) 4) = _
  rw [hb, if_neg (by omega)]
  unfold MemoryPage.memcpyOut
  rw [hs, if_pos (by omega)]
  have e : 0xFE00 + i * 4 - 0xFE00 = i * 4 := by omega
  rw [e]

theorem Sprite_Decode_buffer (f : Nat → Nat) :
    Sprite.Decode (fun k => ((List.range 4).map f).getD k 0) = Sprite.Decode f := rfl

namespace PPU

theorem ScanlineSprites_append_nil (gb : GameBoy) :
    ({ gb with ppu := { gb.ppu with ScanlineSprites := gb.ppu.ScanlineSprites ++ [] } } : GameBoy)
      = gb := by
  rw [List.append_nil]

/-- The loop of `FetchScanlineSprites` over the entries `l` with `c` sprites
counted: it appends the first `10 - c` of the entries that are on screen and on
the line. -/
theorem FetchScanlineSprites_loop_eq (l : List Nat) :
    ∀ (c : Nat) (gb : GameBoy), (∀ i ∈ l, i < 40) → gb.mbc.oam.base = 0xFE00 →
      gb.mbc.oam.size = 0xA0 → c ≤ 10 →
      FetchScanlineSprites_loop l c gb =
        .ok { gb with ppu := { gb.ppu with ScanlineSprites := gb.ppu.ScanlineSprites ++
          (((l.map (oamSprite gb)).filter
            (fun s => decide (s.OnScreen ∧ s.OnLine gb.ppu.LCDC gb.ppu.LY))).take (10 - c)) } } := by
  induction l with
  | nil =>
    intro c gb _ _ _ _
    rw [List.map_nil, List.filter_nil, List.take_nil, ScanlineSprites_append_nil]
    rfl
  | cons i rest ih =>
    intro c gb hl hb hs hc
    have hi : i < 40 := hl i (List.mem_cons_self i rest)
    have hrest : ∀ j ∈ rest, j < 40 := fun j hj => hl j (List.mem_cons_of_mem i hj)
    unfold FetchScanlineSprites_loop
    rw [ReadBytes_oam gb i hi hb hs, except_ok_bind]
    dsimp only
    rw [Sprite_Decode_buffer]
    rw [List.map_cons]
    change (if ((oamSprite gb i)._y = 0 ∨ (oamSprite gb i)._y ≥ 160) ∨
        ((oamSprite gb i)._x = 0 ∨ (oamSprite gb i)._x ≥ 168) then _
      else if (gb.ppu.LY + 16) % 256 < (oamSprite gb i)._y ∨
        (gb.ppu.LY + 16) % 256 - (oamSprite gb i)._y ≥ (if gb.ppu.LCDC &&& 4 ≠ 0 then 16 else 8)
        then _
      else if c + 1 > 10 then _ else _) = _
    by_cases h1 : ((oamSprite gb i)._y = 0 ∨ (oamSprite gb i)._y ≥ 160) ∨
        ((oamSprite gb i)._x = 0 ∨ (oamSprite gb i)._x ≥ 168)
    · have hsel : ¬ ((oamSprite gb i).OnScreen ∧ (oamSprite gb i).OnLine gb.ppu.LCDC gb.ppu.LY) := by
        unfold Sprite.OnScreen
        omega
      rw [if_pos h1, List.filter_cons_of_neg (by simpa using hsel)]
      exact ih c gb hrest hb hs hc
    · rw [if_neg h1]
      by_cases h2 : (gb.ppu.LY + 16) % 256 < (oamSprite gb i)._y ∨
          (gb.ppu.LY + 16) % 256 - (oamSprite gb i)._y ≥ (if gb.ppu.LCDC &&& 4 ≠ 0 then 16 else 8)
      · have hsel : ¬ ((oamSprite gb i).OnScreen ∧ (oamSprite gb i).OnLine gb.ppu.LCDC gb.ppu.LY) := by
          unfold Sprite.OnLine
          omega
        rw [if_pos h2, List.filter_cons_of_neg (by simpa using hsel)]
        exact ih c gb hrest hb hs hc
      · have hsel : (oamSprite gb i).OnScreen ∧ (oamSprite gb i).OnLine gb.ppu.LCDC gb.ppu.LY := by
          unfold Sprite.OnScreen Sprite.OnLine
          omega
        rw [if_neg h2, List.filter_cons_of_pos (by simpa using hsel)]
        by_cases h3 : c + 1 > 10
        · have h0 : 10 - c = 0 := by omega
          rw [if_pos h3, h0, List.take_zero, ScanlineSprites_append_nil]
        · rw [if_neg h3]
          have e := ih (c + 1)
            { gb with ppu := { gb.ppu with
              ScanlineSprites := gb.ppu.ScanlineSprites ++ [oamSprite gb i] } }
            hrest hb hs (by omega)
          refine Eq.trans e ?_
          have h10 : 10 - c = (10 - (c + 1)) + 1 := by omega
          rw [h10, List.take_succ_cons]
          dsimp only
          rw [List.append_assoc]
          rfl

end PPU

/-! ## The V-Blank lines -/

namespace PPU

theorem setMode_mode (S mode : Nat) (hm : mode < 4) : ((S &&& 0xFC) ||| mode) &&& 0x03 = mode := by
  apply Nat.eq_of_testBit_eq
  intro i
  rw [Nat.testBit_and, Nat.testBit_or, Nat.testBit_and]
  by_cases hi : i < 2
  · have h1 : Nat.testBit 0xFC i = false := by interval_cases i <;> decide
    have h2 : Nat.testBit 0x03 i = true := by interval_cases i <;> decide
    rw [h1, h2]
    simp
  · have h2 : Nat.testBit 0x03 i = false := by
      apply Nat.testBit_eq_false_of_lt
      calc 0x03 < 2 ^ 2 := by decide
        _ ≤ 2 ^ i := Nat.pow_le_pow_right (by decide) (by omega)
    have h3 : mode.testBit i = false := by
      apply Nat.testBit_eq_false_of_lt
      calc mode < 4 := hm
        _ = 2 ^ 2 := rfl
        _ ≤ 2 ^ i := Nat.pow_le_pow_right (by decide) (by omega)
    rw [h2, h3]
    simp

theorem UpdateAll_snoc (gb : GameBoy) (cs : List Int) (c : Int) :
    UpdateAll gb (cs ++ [c]) = (do
      let g ← UpdateAll gb cs
      let r ← Update g c
      pure r.2) := by
  unfold UpdateAll
  rw [List.foldlM_append]
  congr 1
  funext g
  rw [List.foldlM_cons]
  cases Update g c <;> rfl

theorem withLine_congr (gb : GameBoy) (a b : Int) (x y : Nat) (hab : a = b) (hxy : x = y) :
    withLine gb a x = withLine gb b y := by
  rw [hab, hxy]

/-- One call of 4 cycles in V-Blank, before the counter reaches 4650. -/
theorem Update_vblank_line (gb : GameBoy) (k : Nat) (hon : gb.ppu.LCDC &&& 0x80 ≠ 0)
    (hmode : gb.ppu.STAT &&& 0x03 = 1) (hk : 4 * (k + 1) < 4650) :
    Update (withLine gb ((4 * k : Nat) : Int) (144 + 4 * k / 465)) 4 =
      .ok (0, withLine gb ((4 * (k + 1) : Nat) : Int) (144 + 4 * (k + 1) / 465)) := by
  rw [Update_vblank (withLine gb ((4 * k : Nat) : Int) (144 + 4 * k / 465)) 4 hon hmode]
  have hc : (((4 * k : Nat) : Int) + 4) = ((4 * (k + 1) : Nat) : Int) := by
    push_cast
    ring
  have hd : (((4 * (k + 1) : Nat) : Int)).tdiv 465 = ((4 * (k + 1) / 465 : Nat) : Int) := rfl
  have hq : 4 * (k + 1) / 465 = 4 * k / 465 ∨ 4 * (k + 1) / 465 = 4 * k / 465 + 1 := by omega
  have h9 : 4 * (k + 1) / 465 ≤ 9 := by omega
  unfold Update_VBLANK withLine
  dsimp only
  rw [hc, hd]
  generalize 4 * (k + 1) / 465 = q' at hq h9 ⊢
  generalize 4 * k / 465 = q at hq ⊢
  rcases hq with hq | hq
  · rw [if_neg (by rw [hq]; push_cast; omega), hq]
  · have e : (144 + q + 1) % 256 = 144 + q' := by omega
    rw [if_pos (by rw [hq]; push_cast; omega), e, if_neg (by omega)]

/-- The calls of 4 cycles in V-Blank from `LY = 144` and a counter of 0: after
`k` of them, with `4 * k < 4650`, the counter is `4 * k` and `LY` is
`144 + 4 * k / 465`. -/
theorem UpdateAll_vblank (gb : GameBoy) (hon : gb.ppu.LCDC &&& 0x80 ≠ 0)
    (hmode : gb.ppu.STAT &&& 0x03 = 1) (hLY : gb.ppu.LY = 144) (hfc : gb.ppu.frameCycles = 0) :
    ∀ k, 4 * k < 4650 →
      UpdateAll gb (List.replicate k 4) =
        .ok (withLine gb ((4 * k : Nat) : Int) (144 + 4 * k / 465)) := by
  intro k
  induction k with
  | zero =>
    intro _
    have e : withLine gb ((4 * 0 : Nat) : Int) (144 + 4 * 0 / 465) = gb := by
      unfold withLine
      cases gb with
      | mk P1 Keys TIMA TMA TAC options processor ppu game_rom mbc InBootROM Stopped fl se ud =>
        cases ppu
        simp only at hLY hfc
        subst hLY hfc
        rfl
    rw [e]
    rfl
  | succ k ih =>
    intro hk
    rw [List.replicate_succ', UpdateAll_snoc, ih (by omega), except_ok_bind,
      Update_vblank_line gb k hon hmode hk]
    rfl

set_option maxRecDepth 100000 in
/-- The call that ends V-Blank: the 1163rd call of 4 cycles. -/
theorem Update_vblank_end (gb : GameBoy) (hon : gb.ppu.LCDC &&& 0x80 ≠ 0)
    (hmode : gb.ppu.STAT &&& 0x03 = 1) :
    Update (withLine gb ((4 * 1162 : Nat) : Int) (144 + 4 * 1162 / 465)) 4 =
      .ok (0, setMode (withLine gb 92 0) 2) := by
  rw [Update_vblank (withLine gb ((4 * 1162 : Nat) : Int) (144 + 4 * 1162 / 465)) 4 hon hmode]
  rfl

end PPU

/-! ## The H-Blank case of the PPU step -/

namespace PPU

theorem testBit_or_mod256 (x b k : Nat) (hk : k < 8) :
    ((x ||| b) % 256).testBit k = (x.testBit k || b.testBit k) := by
  have e : (256 : Nat) = 2 ^ 8 := rfl
  rw [e, Nat.testBit_mod_two_pow, Nat.testBit_or]
  simp [hk]

/-- The step in H-Blank. -/
theorem Update_hblank (gb : GameBoy) (c : Int)
    (hon : gb.ppu.LCDC &&& 0x80 ≠ 0) (hmode : gb.ppu.STAT &&& 0x03 = 0) :
    Update gb c = (do
      let g ← Update_HBLANK { gb with ppu := { gb.ppu with frameCycles := gb.ppu.frameCycles + c } }
      pure (0, g)) := by
  unfold Update
  rw [if_pos hon]
  dsimp only
  rw [hmode]
  try rfl

/-- The H-Blank case once the counter is above 207 and the line is drawn: the
registers it leaves. -/
theorem Update_HBLANK_eq (gb gbD : GameBoy) (hc : gb.ppu.frameCycles > 207)
    (hdraw : DrawScanline gb = .ok gbD) :
    Update_HBLANK gb = .ok
      { gbD with
        processor := { gbD.processor with
          IF := if (gb.ppu.LY + 1) % 256 = gb.ppu.LYC then
              ((if (gb.ppu.LY + 1) % 256 = 144 then (gb.processor.IF ||| 0x01) % 256
                else gb.processor.IF) ||| 0x02) % 256
            else if (gb.ppu.LY + 1) % 256 = 144 then (gb.processor.IF ||| 0x01) % 256
            else gb.processor.IF }
        ppu := { gbD.ppu with
          frameCycles := gb.ppu.frameCycles.tmod 207
          LY := (gb.ppu.LY + 1) % 256
          STAT := if (gb.ppu.LY + 1) % 256 = gb.ppu.LYC then
              ((gb.ppu.STAT &&& 0xFC) ||| (if (gb.ppu.LY + 1) % 256 = 144 then 1 else 2)) ||| 0x44
            else
              ((gb.ppu.STAT &&& 0xFC) ||| (if (gb.ppu.LY + 1) % 256 = 144 then 1 else 2)) &&& 0xBB } } := by
  obtain ⟨bb, bg, obj, ss, rfl⟩ := DrawScanline_frame gb gbD hdraw
  unfold Update_HBLANK
  rw [if_pos hc, hdraw, except_ok_bind]
  dsimp only
  by_cases h144 : (gb.ppu.LY + 1) % 256 = 144
  · rw [if_pos h144, requestInterrupt_eq, except_ok_bind]
    dsimp only [setMode]
    by_cases hl : (gb.ppu.LY + 1) % 256 = gb.ppu.LYC
    · rw [if_pos hl, if_pos hl, if_pos hl, requestInterrupt_eq]
      simp only [if_pos h144]
    · rw [if_neg hl, if_neg hl, if_neg hl]
      simp only [if_pos h144]
      rfl
  · rw [if_neg h144]
    show (if (gb.ppu.LY + 1) % 256 = gb.ppu.LYC then _ else _) = _
    by_cases hl : (gb.ppu.LY + 1) % 256 = gb.ppu.LYC
    · rw [if_pos hl, if_pos hl, if_pos hl, requestInterrupt_eq]
      simp only [if_neg h144]
      rfl
    · rw [if_neg hl, if_neg hl, if_neg hl]
      simp only [if_neg h144]
      rfl


theorem mode_or_44 (S : Nat) : (S ||| 0x44) &&& 0x03 = S &&& 0x03 := by
  rw [or_and_mask]
  have e : (0x44 : Nat) &&& 0x03 = 0 := by decide
  rw [e, Nat.or_zero]

theorem mode_and_BB (S : Nat) : (S &&& 0xBB) &&& 0x03 = S &&& 0x03 := by
  rw [Nat.and_assoc]
  have e : (0xBB : Nat) &&& 0x03 = 0x03 := by decide
  rw [e]

/-- A call of `Update` that does not go from mode 0 to mode 1 leaves bit 0 of
`IF` as it was. -/
theorem Update_keeps_IF_bit0 (g : GameBoy) (d r : Int) (g' : GameBoy)
    (h : Update g d = .ok (r, g'))
    (hn : ¬ (g.ppu.STAT &&& 0x03 = 0 ∧ g'.ppu.STAT &&& 0x03 = 1)) :
    g'.processor.IF.testBit 0 = g.processor.IF.testBit 0 := by
  by_cases hon : g.ppu.LCDC &&& 0x80 ≠ 0
  · by_cases h0 : g.ppu.STAT &&& 0x03 = 0
    · rw [Update_hblank g d hon h0] at h
      obtain ⟨g1, h1, h2⟩ := except_bind_ok h
      cases h2
      by_cases hc : g.ppu.frameCycles + d > 207
      · have h1' := h1
        unfold Update_HBLANK at h1'
        rw [if_pos hc] at h1'
        obtain ⟨gbD, hd, -⟩ := except_bind_ok h1'
        rw [Update_HBLANK_eq _ gbD hc hd] at h1
        cases h1
        obtain ⟨hp, -⟩ := SameButBuffers_regs (DrawScanline_frame _ gbD hd)
        by_cases h144 : (g.ppu.LY + 1) % 256 = 144
        · exfalso
          apply hn
          refine ⟨h0, ?_⟩
          dsimp only
          rw [if_pos h144]
          split_ifs
          · rw [mode_or_44, setMode_mode _ 1 (by decide)]
          · rw [mode_and_BB, setMode_mode _ 1 (by decide)]
        · dsimp only
          rw [if_neg h144]
          split_ifs
          · rw [testBit_or_mod256 _ _ 0 (by decide)]
            simp
          · rfl
      · unfold Update_HBLANK at h1
        rw [if_neg hc] at h1
        cases h1
        rfl
    · unfold Update at h
      rw [if_pos hon] at h
      dsimp only at h
      split at h
      · next hz => exact absurd hz h0
      · obtain ⟨g1, h1, h2⟩ := except_bind_ok h
        cases h2
        cases h1
        exact congrArg (fun p => p.IF.testBit 0) (Update_VBLANK_frame _).1
      · obtain ⟨g1, h1, h2⟩ := except_bind_ok h
        cases h2
        unfold Update_OAMACCESS at h1
        split_ifs at h1
        · obtain ⟨g2, h2, h3⟩ := except_bind_ok h1
          cases h3
          exact congrArg (fun p => p.IF.testBit 0) (SameButBuffers_regs (FetchScanlineSprites_frame _ g2 h2)).1
        · cases h1
          rfl
      · obtain ⟨g1, h1, h2⟩ := except_bind_ok h
        cases h2
        unfold Update_UPDATE at h1
        split_ifs at h1
        · exact congrArg (fun p => p.IF.testBit 0) (SameButBuffers_regs (DecodeTiles_frame _ _ h1)).1
        · cases h1
          rfl
  · unfold Update at h
    rw [if_neg hon] at h
    cases h
    rfl

end PPU

/-! ## Reads of the video RAM and the tile caches -/

theorem GetPage_vram (m : MBC) (a : Nat) (ha : 0x8000 ≤ a ∧ a ≤ 0x9FFF) :
    m.GetPage a = .ok .vram := by
  unfold MBC.GetPage MBC.GetPage_MBC3 MBC.GetPage_MBC1 MBC.GetPage_MBC
  have h1 : ¬ (a ≥ 0x4000 ∧ a ≤ 0x7FFF) := by omega
  have h2 : ¬ (a ≥ 0xA000 ∧ a ≤ 0xBFFF) := by omega
  have h3 : ¬ (a ≤ 0x3FFF) := by omega
  have h4 : a ≥ 0x8000 ∧ a ≤ 0x9FFF := by omega
  cases m.kind <;> simp [h1, h2, h3, h4]

theorem ReadBytes_vram (gb : GameBoy) (a n : Nat) (ha : 0x8000 ≤ a) (hn : a + n ≤ 0xA000)
    (hn0 : 0 < n) (hb : gb.mbc.vram.base = 0x8000) (hs : gb.mbc.vram.size = 0x2000) :
    ReadBytes gb a n = .ok ((List.range n).map (fun k => gb.mbc.vram.bytes (a - 0x8000 + k))) := by
  unfold ReadBytes MBC.ReadBytes
  rw [GetPage_vram gb.mbc a (by omega)]
  show (if a < gb.mbc.vram.base then .error .undefined
    else gb.mbc.vram.memcpyOut (a - gb.mbc.vram.base) n) = _
  rw [hb, if_neg (by omega)]
  unfold MemoryPage.memcpyOut
  rw [hs, if_pos (by omega)]

theorem Decode_row_congr (f g : Nat → Nat) (h : ∀ k < 16, f k = g k) (row : Nat) (hr : row < 8) :
    Tile.Decode_row f row = Tile.Decode_row g row := by
  have h1 := h (row * 2 + 1) (by omega)
  have h0 := h (row * 2) (by omega)
  simp only [Tile.Decode_row, h1, h0]

theorem Tile_Decode_congr (f g : Nat → Nat) (h : ∀ k < 16, f k = g k) :
    Tile.Decode f = Tile.Decode g := by
  have e : (List.range 8).map (Tile.Decode_row f) = (List.range 8).map (Tile.Decode_row g) :=
    List.map_congr_left (fun row hrow => Decode_row_congr f g h row (List.mem_range.mp hrow))
  unfold Tile.Decode
  rw [e]

theorem Tile_Decode_buffer (f : Nat → Nat) :
    Tile.Decode (fun k => ((List.range 16).map f).getD k 0) = Tile.Decode f := by
  apply Tile_Decode_congr
  intro k hk
  simp [List.getD_eq_getElem?_getD, hk]

namespace PPU

theorem DecodeTiles_bgAddress_range (ppu : PPU) (bg : Nat) :
    0x8000 ≤ DecodeTiles_bgAddress ppu bg ∧ DecodeTiles_bgAddress ppu bg + 16 ≤ 0xA000 := by
  unfold DecodeTiles_bgAddress
  dsimp only
  split_ifs <;> omega

/-- One turn of the first loop of `DecodeTiles`. -/
theorem DecodeTiles_bg_eq (gb : GameBoy) (bg : Nat)
    (hlen : bg < gb.ppu.BGTileset.length)
    (hb : gb.mbc.vram.base = 0x8000) (hs : gb.mbc.vram.size = 0x2000) :
    DecodeTiles_bg gb bg = .ok { gb with ppu := { gb.ppu with
      BGTileset := gb.ppu.BGTileset.set bg (vramTile gb (DecodeTiles_bgAddress gb.ppu bg)) } } := by
  obtain ⟨h1, h2⟩ := DecodeTiles_bgAddress_range gb.ppu bg
  unfold DecodeTiles_bg
  rw [ReadBytes_vram gb _ 16 h1 h2 (by decide) hb hs, except_ok_bind, if_pos hlen,
    Tile_Decode_buffer]
  rfl

/-- One turn of the second loop of `DecodeTiles`. -/
theorem DecodeTiles_obj_eq (gb : GameBoy) (obj : Nat) (hobj : obj < 256)
    (hlen : obj < gb.ppu.OBJTileset.length)
    (hb : gb.mbc.vram.base = 0x8000) (hs : gb.mbc.vram.size = 0x2000) :
    DecodeTiles_obj gb obj = .ok { gb with ppu := { gb.ppu with
      OBJTileset := gb.ppu.OBJTileset.set obj (vramTile gb (0x8000 + 16 * obj)) } } := by
  have e : (0x8000 + (obj * 16)) % 65536 = 0x8000 + 16 * obj := by omega
  unfold DecodeTiles_obj
  rw [e, ReadBytes_vram gb _ 16 (by omega) (by omega) (by decide) hb hs, except_ok_bind,
    if_pos hlen, Tile_Decode_buffer]
  rfl

/-- The first loop of `DecodeTiles` after `n` turns. -/
theorem DecodeTiles_bg_loop (gb : GameBoy) (hb : gb.mbc.vram.base = 0x8000)
    (hs : gb.mbc.vram.size = 0x2000) :
    ∀ n, n ≤ 256 → n ≤ gb.ppu.BGTileset.length →
      ∃ ts, (List.range n).foldlM DecodeTiles_bg gb =
          .ok { gb with ppu := { gb.ppu with BGTileset := ts } } ∧
        ts.length = gb.ppu.BGTileset.length ∧
        (∀ i < n, ts[i]? = some (vramTile gb (DecodeTiles_bgAddress gb.ppu i))) ∧
        (∀ i, n ≤ i → ts[i]? = gb.ppu.BGTileset[i]?) := by
  intro n
  induction n with
  | zero =>
    intro _ _
    exact ⟨gb.ppu.BGTileset, rfl, rfl, fun i hi => absurd hi (by omega), fun _ _ => rfl⟩
  | succ n ih =>
    intro h256 hlen
    obtain ⟨ts, hrun, hl, hlo, hhi⟩ := ih (by omega) (by omega)
    have hstep := DecodeTiles_bg_eq { gb with ppu := { gb.ppu with BGTileset := ts } } n
      (by show n < ts.length; omega) hb hs
    refine ⟨ts.set n (vramTile gb (DecodeTiles_bgAddress gb.ppu n)), ?_, ?_, ?_, ?_⟩
    · rw [List.range_succ, List.foldlM_append, hrun, except_ok_bind, List.foldlM_cons, hstep,
        except_ok_bind]
      rfl
    · rw [List.length_set, hl]
    · intro i hi
      by_cases hin : i = n
      · subst hin
        rw [List.getElem?_set_self (by omega)]
      · rw [List.getElem?_set_ne (fun e => hin e.symm)]
        exact hlo i (by omega)
    · intro i hi
      rw [List.getElem?_set_ne (by omega)]
      exact hhi i (by omega)

/-- The second loop of `DecodeTiles` after `n` turns. -/
theorem DecodeTiles_obj_loop (gb : GameBoy) (hb : gb.mbc.vram.base = 0x8000)
    (hs : gb.mbc.vram.size = 0x2000) :
    ∀ n, n ≤ 256 → n ≤ gb.ppu.OBJTileset.length →
      ∃ ts, (List.range n).foldlM DecodeTiles_obj gb =
          .ok { gb with ppu := { gb.ppu with OBJTileset := ts } } ∧
        ts.length = gb.ppu.OBJTileset.length ∧
        (∀ i < n, ts[i]? = some (vramTile gb (0x8000 + 16 * i))) ∧
        (∀ i, n ≤ i → ts[i]? = gb.ppu.OBJTileset[i]?) := by
  intro n
  induction n with
  | zero =>
    intro _ _
    exact ⟨gb.ppu.OBJTileset, rfl, rfl, fun i hi => absurd hi (by omega), fun _ _ => rfl⟩
  | succ n ih =>
    intro h256 hlen
    obtain ⟨ts, hrun, hl, hlo, hhi⟩ := ih (by omega) (by omega)
    have hstep := DecodeTiles_obj_eq { gb with ppu := { gb.ppu with OBJTileset := ts } } n
      (by omega) (by show n < ts.length; omega) hb hs
    refine ⟨ts.set n (vramTile gb (0x8000 + 16 * n)), ?_, ?_, ?_, ?_⟩
    · rw [List.range_succ, List.foldlM_append, hrun, except_ok_bind, List.foldlM_cons, hstep,
        except_ok_bind]
      rfl
    · rw [List.length_set, hl]
    · intro i hi
      by_cases hin : i = n
      · subst hin
        rw [List.getElem?_set_self (by omega)]
      · rw [List.getElem?_set_ne (fun e => hin e.symm)]
        exact hlo i (by omega)
    · intro i hi
      rw [List.getElem?_set_ne (by omega)]
      exact hhi i (by omega)

/-- Source `DecodeTiles` on a machine with the video RAM as constructed and
caches of 256 tiles: it returns, and slot `i` of each cache holds the tile
decoded from the 16 bytes at the address of the tile. -/
theorem DecodeTiles_eq (gb : GameBoy) (hb : gb.mbc.vram.base = 0x8000)
    (hs : gb.mbc.vram.size = 0x2000) (hbg : gb.ppu.BGTileset.length = 256)
    (hobj : gb.ppu.OBJTileset.length = 256) :
    ∃ bg obj, DecodeTiles gb =
        .ok { gb with ppu := { gb.ppu with BGTileset := bg, OBJTileset := obj } } ∧
      bg.length = 256 ∧ obj.length = 256 ∧
      (∀ i < 256, bg[i]? = some (vramTile gb (DecodeTiles_bgAddress gb.ppu i))) ∧
      (∀ i < 256, obj[i]? = some (vramTile gb (0x8000 + 16 * i))) := by
  obtain ⟨bg, h1, l1, g1, -⟩ := DecodeTiles_bg_loop gb hb hs 256 (by decide) (by omega)
  obtain ⟨obj, h2, l2, g2, -⟩ := DecodeTiles_obj_loop
    { gb with ppu := { gb.ppu with BGTileset := bg } } hb hs 256 (by decide)
    (by show 256 ≤ gb.ppu.OBJTileset.length; omega)
  refine ⟨bg, obj, ?_, by rw [l1, hbg], by rw [l2]; exact hobj, g1, g2⟩
  unfold DecodeTiles
  rw [h1, except_ok_bind, h2]

end PPU

/-! ## The range of `LY` -/

namespace PPU

theorem mode_lt_4 (S : Nat) : S &&& 0x03 < 4 := Nat.lt_succ_of_le Nat.and_le_right

theorem LYInRange_of (ppu : PPU) (h : ppu.LY ≤ 143) : ppu.LYInRange :=
  ⟨fun _ => h, fun _ => Nat.le_trans h (by decide)⟩

theorem Update_VBLANK_LYInRange (gb : GameBoy) (hmode : gb.ppu.STAT &&& 0x03 = 1)
    (h : gb.ppu.LY ≤ 153) : (Update_VBLANK gb).ppu.LYInRange := by
  unfold Update_VBLANK
  dsimp only
  by_cases hc : (gb.ppu.frameCycles.tdiv 465) + 144 > (gb.ppu.LY : Int)
  · rw [if_pos hc]
    by_cases h153 : (gb.ppu.LY + 1) % 256 > 153
    · rw [if_pos h153]
      exact LYInRange_of _ (Nat.zero_le _)
    · rw [if_neg h153]
      refine ⟨fun hm => ?_, fun _ => Nat.le_of_not_gt h153⟩
      have hm' : gb.ppu.STAT &&& 0x03 = 0 ∨ gb.ppu.STAT &&& 0x03 = 2 ∨ gb.ppu.STAT &&& 0x03 = 3 :=
        hm
      omega
  · rw [if_neg hc]
    refine ⟨fun hm => ?_, fun _ => h⟩
    omega

/-- The range predicate of `LY` is kept by every call of `Update` that returns. -/
theorem Update_LYInRange (g : GameBoy) (d r : Int) (g' : GameBoy)
    (h : Update g d = .ok (r, g')) (hinv : g.ppu.LYInRange) : g'.ppu.LYInRange := by
  obtain ⟨hlo, hhi⟩ := hinv
  by_cases hon : g.ppu.LCDC &&& 0x80 ≠ 0
  · by_cases h0 : g.ppu.STAT &&& 0x03 = 0
    · have hLY : g.ppu.LY ≤ 143 := hlo (Or.inl h0)
      rw [Update_hblank g d hon h0] at h
      obtain ⟨g1, h1, h2⟩ := except_bind_ok h
      cases h2
      by_cases hc : g.ppu.frameCycles + d > 207
      · have h1' := h1
        unfold Update_HBLANK at h1'
        rw [if_pos hc] at h1'
        obtain ⟨gbD, hd, -⟩ := except_bind_ok h1'
        rw [Update_HBLANK_eq _ gbD hc hd] at h1
        cases h1
        have hLY' : (g.ppu.LY + 1) % 256 = g.ppu.LY + 1 := by omega
        have hmode : ∀ m, m < 4 →
            (if (g.ppu.LY + 1) % 256 = g.ppu.LYC then ((g.ppu.STAT &&& 0xFC) ||| m) ||| 0x44
              else ((g.ppu.STAT &&& 0xFC) ||| m) &&& 0xBB) &&& 0x03 = m := by
          intro m hm
          split_ifs
          · rw [mode_or_44, setMode_mode _ m hm]
          · rw [mode_and_BB, setMode_mode _ m hm]
        by_cases h144 : (g.ppu.LY + 1) % 256 = 144
        · refine ⟨fun hm => ?_, fun _ => ?_⟩
          · exfalso
            have hm' := hmode 1 (by decide)
            dsimp only at hm
            rw [if_pos h144] at hm
            omega
          · show (g.ppu.LY + 1) % 256 ≤ 153
            omega
        · refine ⟨fun _ => ?_, fun hm => ?_⟩
          · show (g.ppu.LY + 1) % 256 ≤ 143
            omega
          · exfalso
            have hm' := hmode 2 (by decide)
            dsimp only at hm
            rw [if_neg h144] at hm
            omega
      · unfold Update_HBLANK at h1
        rw [if_neg hc] at h1
        cases h1
        exact ⟨hlo, hhi⟩
    · unfold Update at h
      rw [if_pos hon] at h
      dsimp only at h
      split at h
      · next hz => exact absurd hz h0
      · next h1m =>
        obtain ⟨g1, h1, h2⟩ := except_bind_ok h
        cases h2
        cases h1
        exact Update_VBLANK_LYInRange _ h1m (hhi h1m)
      · next h2m =>
        have hLY : g.ppu.LY ≤ 143 := hlo (Or.inr (Or.inl h2m))
        obtain ⟨g1, h1, h2⟩ := except_bind_ok h
        cases h2
        unfold Update_OAMACCESS at h1
        split_ifs at h1
        · obtain ⟨g2, h2, h3⟩ := except_bind_ok h1
          cases h3
          obtain ⟨-, -, -, -, hl, -⟩ := SameButBuffers_regs (FetchScanlineSprites_frame _ g2 h2)
          exact LYInRange_of _ (by show g2.ppu.LY ≤ 143; rw [hl]; exact hLY)
        · cases h1
          exact ⟨hlo, hhi⟩
      · next n0 n1 n2 =>
        have hlt := mode_lt_4 g.ppu.STAT
        have h3m : g.ppu.STAT &&& 0x03 = 3 := by
          have a0 : g.ppu.STAT &&& 0x03 ≠ 0 := n0
          have a1 : g.ppu.STAT &&& 0x03 ≠ 1 := n1
          have a2 : g.ppu.STAT &&& 0x03 ≠ 2 := n2
          omega
        have hLY : g.ppu.LY ≤ 143 := hlo (Or.inr (Or.inr h3m))
        obtain ⟨g1, h1, h2⟩ := except_bind_ok h
        cases h2
        unfold Update_UPDATE at h1
        split_ifs at h1
        · obtain ⟨-, -, -, -, hl, -⟩ := SameButBuffers_regs (DecodeTiles_frame _ _ h1)
          exact LYInRange_of _ (by rw [hl]; exact hLY)
        · cases h1
          exact ⟨hlo, hhi⟩
  · unfold Update at h
    rw [if_neg hon] at h
    cases h
    exact LYInRange_of _ (Nat.zero_le _)

/-- The range predicate of `LY` is kept by every sequence of calls of `Update`
that return. -/
theorem UpdateAll_LYInRange (cs : List Int) :
    ∀ (g g' : GameBoy), UpdateAll g cs = .ok g' → g.ppu.LYInRange → g'.ppu.LYInRange := by
  induction cs with
  | nil =>
    intro g g' h hinv
    cases h
    exact hinv
  | cons c cs ih =>
    intro g g' h hinv
    unfold UpdateAll at h
    rw [List.foldlM_cons] at h
    obtain ⟨g1, h1, h2⟩ := except_bind_ok h
    obtain ⟨r, hr, hp⟩ := except_bind_ok h1
    cases hp
    exact ih _ g' h2 (Update_LYInRange g c r.1 r.2 hr hinv)

theorem LYInRange_le_153 (ppu : PPU) (h : ppu.LYInRange) : ppu.LY ≤ 153 := by
  obtain ⟨hlo, hhi⟩ := h
  have hlt := mode_lt_4 ppu.STAT
  by_cases h1 : ppu.STAT &&& 0x03 = 1
  · exact hhi h1
  · have : ppu.LY ≤ 143 := hlo (by omega)
    omega

end PPU

/-! ## Arithmetic instructions -/

/-- The register and the flags after `add`. -/
theorem add_effect (p : Processor) (reg : R8) (n : Nat) (ha : p.r8 reg < 256) (hn : n < 256) :
    (p.add reg n).r8 reg = (p.r8 reg + n) % 256 ∧
    ((p.add reg n).Zero = true ↔ (p.r8 reg + n) % 256 = 0) ∧
    (p.add reg n).Subtract = false ∧
    ((p.add reg n).HalfCarry = true ↔ (p.r8 reg &&& 0xF) + (n &&& 0xF) > 0xF) ∧
    ((p.add reg n).Carry = true ↔ p.r8 reg + n > 0xFF) := by
  have hmod : (p.r8 reg + n) % 65536 = p.r8 reg + n := Nat.mod_eq_of_lt (by omega)
  have hH := toBool_and_16 ((p.r8 reg &&& 0x0F) + (n &&& 0x0F))
    (by rw [and_15, and_15]; omega)
  have hC := toBool_and_256 (p.r8 reg + n) (by omega)
  refine ⟨?_, ?_, ?_, ?_, ?_⟩
  · simp [Processor.add, hmod]
  · simp [Processor.add, hmod, and_255]
  · simp [Processor.add]
  · simp only [Processor.add, Processor.HalfCarry_setR8, Processor.HalfCarry_SetZero,
      Processor.HalfCarry_SetCarry, Processor.HalfCarry_SetHalfCarry, hH]
    simp
    omega
  · simp only [Processor.add, Processor.Carry_setR8, Processor.Carry_SetZero,
      Processor.Carry_SetCarry, hmod, hC]
    simp
    omega

/-- Claim C3.  `Processor::add(Reg8&, u8)` on 8-bit values: the register becomes
`(a + n) mod 256`, Z is set iff that result is 0, N is cleared, H is set iff
`(a & 0xF) + (n & 0xF) > 0xF`, and C is set iff `a + n > 0xFF`.  With `a = 0x0F`,
`n = 0x01` and a flag byte whose low nibble is clear, the result is `A = 0x10`,
`F = 0x20`. -/
theorem add_flags (p : Processor) (reg : R8) (n : Nat) (ha : p.r8 reg < 256) (hn : n < 256) :
    (p.add reg n).r8 reg = (p.r8 reg + n) % 256 ∧
    ((p.add reg n).Zero = true ↔ (p.r8 reg + n) % 256 = 0) ∧
    (p.add reg n).Subtract = false ∧
    ((p.add reg n).HalfCarry = true ↔ (p.r8 reg &&& 0xF) + (n &&& 0xF) > 0xF) ∧
    ((p.add reg n).Carry = true ↔ p.r8 reg + n > 0xFF) ∧
    (reg = .reg_A → p.reg_A = 0x0F → n = 0x01 → p.reg_F < 256 → p.reg_F &&& 0x0F = 0 →
      (p.add reg n).reg_A = 0x10 ∧ (p.add reg n).reg_F = 0x20) := by
  obtain ⟨h1, h2, h3, h4, h5⟩ := add_effect p reg n ha hn
  refine ⟨h1, h2, h3, h4, h5, ?_⟩
  rintro rfl hA rfl hF hlow
  have hA' : p.r8 .reg_A = 0x0F := hA
  refine ⟨?_, ?_⟩
  · show (p.add .reg_A 1).r8 .reg_A = 0x10
    simp [Processor.add, hA']
  · simp only [Processor.add, Processor.reg_F_setR8]
    rw [Processor.reg_F_after_all p _ _ _ _ hF hlow, hA']
    decide

/-- Claim C3 at `A = 0x0F`, `n = 0x01`. -/
theorem add_flags_witness :
    ({ Processor.zeroed with reg_A := 0x0F }.add .reg_A 0x01).reg_A = 0x10 ∧
    ({ Processor.zeroed with reg_A := 0x0F }.add .reg_A 0x01).reg_F = 0x20 :=
  (add_flags { Processor.zeroed with reg_A := 0x0F } .reg_A 0x01 (by decide) (by decide)).2.2.2.2.2
    rfl rfl rfl (by decide) (by decide)

/-- Claim C4.  `Processor::sbc` on 8-bit values with incoming carry `c`: the
register becomes `(a - n - c) mod 256`, Z is set iff that result is 0, N is set,
H is set iff `(a & 0xF) < (n & 0xF) + c`, and C is set iff `a < n + c`, the sum
`n + c` being taken without wrap-around, so that `n = 0xFF` with `c = 1` sets C. -/
theorem sbc_flags (p : Processor) (reg : R8) (n : Nat) (ha : p.r8 reg < 256) :
    (((p.sbc reg n).r8 reg : Nat) : Int) =
      ((p.r8 reg : Int) - (n : Int) - (p.Carry.toNat : Int)) % 256 ∧
    ((p.sbc reg n).Zero = true ↔ (p.sbc reg n).r8 reg = 0) ∧
    (p.sbc reg n).Subtract = true ∧
    ((p.sbc reg n).HalfCarry = true ↔ (p.r8 reg &&& 0xF) < (n &&& 0xF) + p.Carry.toNat) ∧
    ((p.sbc reg n).Carry = true ↔ p.r8 reg < n + p.Carry.toNat) ∧
    (n = 0xFF → p.Carry = true → (p.sbc reg n).Carry = true) := by
  have hadder : (if p.Carry = true then 1 else 0) = p.Carry.toNat := by
    cases p.Carry <;> rfl
  have hC : ((p.sbc reg n).Carry = true ↔ p.r8 reg < n + p.Carry.toNat) := by
    simp [Processor.sbc, hadder]
  refine ⟨?_, ?_, ?_, ?_, hC, ?_⟩
  · simp only [Processor.sbc, Processor.r8_SetZero, Processor.r8_setR8_same, hadder,
      static_cast_u8]
    rw [Int.toNat_of_nonneg (Int.emod_nonneg _ (by decide))]
    congr 1
    push_cast
    ring
  · simp [Processor.sbc]
  · simp [Processor.sbc]
  · simp [Processor.sbc, hadder]
  · intro h1 h2
    rw [hC, h1, h2]
    simp
    omega

/-- Claim C4 at `A = 0x00`, `n = 0xFF` with the carry set. -/
theorem sbc_flags_witness :
    ({ Processor.zeroed with reg_F := 0x10 }.sbc .reg_A 0xFF).Carry = true :=
  (sbc_flags { Processor.zeroed with reg_F := 0x10 } .reg_A 0xFF (by decide)).2.2.2.2.2
    rfl (by decide)


namespace Processor

@[simp] theorem reg_A_SetZero (p : Processor) (v : Bool) : (p.SetZero v).reg_A = p.reg_A := rfl

@[simp] theorem reg_A_SetSubtract (p : Processor) (v : Bool) : (p.SetSubtract v).reg_A = p.reg_A := rfl

@[simp] theorem reg_A_SetHalfCarry (p : Processor) (v : Bool) :
    (p.SetHalfCarry v).reg_A = p.reg_A := rfl

@[simp] theorem reg_A_SetCarry (p : Processor) (v : Bool) : (p.SetCarry v).reg_A = p.reg_A := rfl

@[simp] theorem reg_A_setR8_A (p : Processor) (v : Nat) : (p.setR8 .reg_A v).reg_A = v := rfl

/-- The accumulator and the flags after `daa` when N is clear. -/
theorem daa_of_not_Subtract (p : Processor) (hN : p.Subtract = false) :
    p.daa.reg_A =
      (if p.HalfCarry = true ∨
          (if p.Carry = true ∨ p.reg_A > 0x99 then (p.reg_A + 0x60) % 256 else p.reg_A) % 16 > 9
        then ((if p.Carry = true ∨ p.reg_A > 0x99 then (p.reg_A + 0x60) % 256 else p.reg_A) + 6) % 256
        else (if p.Carry = true ∨ p.reg_A > 0x99 then (p.reg_A + 0x60) % 256 else p.reg_A)) ∧
    (p.daa.Carry = true ↔ (p.Carry = true ∨ p.reg_A > 0x99)) ∧
    p.daa.Subtract = false ∧ p.daa.HalfCarry = false ∧ (p.daa.Zero = true ↔ p.daa.reg_A = 0) := by
  by_cases h1 : p.Carry = true ∨ p.reg_A > 0x99
  · have h1' : (p.Carry || decide (p.reg_A > 0x99)) = true := by simpa using h1
    by_cases h2 : p.HalfCarry = true ∨ ((p.reg_A + 0x60) % 256) % 16 > 9
    · have h2' : (p.HalfCarry || decide (((p.reg_A + 0x60) % 256) % 16 > 9)) = true := by
        simpa using h2
      simp [daa, hN, h1', h2', and_15, h1, h2]
    · have h2' : (p.HalfCarry || decide (((p.reg_A + 0x60) % 256) % 16 > 9)) = false := by
        simpa using h2
      simp [daa, hN, h1', h2', and_15, h1, h2]
  · have h1' : (p.Carry || decide (p.reg_A > 0x99)) = false := by simpa using h1
    have hc : p.Carry = false := by simpa using (not_or.mp h1).1
    have hgt : ¬ 153 < p.reg_A := (not_or.mp h1).2
    by_cases h2 : p.HalfCarry = true ∨ p.reg_A % 16 > 9
    · have h2' : (p.HalfCarry || decide (p.reg_A % 16 > 9)) = true := by
        simpa using h2
      simp [daa, hN, h1', h2', and_15, h2, hc, hgt]
    · have h2' : (p.HalfCarry || decide (p.reg_A % 16 > 9)) = false := by
        simpa using h2
      simp [daa, hN, h1', h2', and_15, h2, hc, hgt]

end Processor

set_option maxRecDepth 1000000 in
/-- The arithmetic of `ADD` followed by `DAA` on two packed-BCD bytes, checked on
each of the 100 x 100 pairs of digits. -/
theorem daa_after_add_digits : ∀ ah < 10, ∀ al < 10, ∀ bh < 10, ∀ bl < 10,
    (if (16 * ah + al) % 16 + (16 * bh + bl) % 16 > 15 ∨
        (if (16 * ah + al) + (16 * bh + bl) > 255 ∨ ((16 * ah + al) + (16 * bh + bl)) % 256 > 153
          then (((16 * ah + al) + (16 * bh + bl)) % 256 + 96) % 256
          else ((16 * ah + al) + (16 * bh + bl)) % 256) % 16 > 9
      then ((if (16 * ah + al) + (16 * bh + bl) > 255 ∨ ((16 * ah + al) + (16 * bh + bl)) % 256 > 153
          then (((16 * ah + al) + (16 * bh + bl)) % 256 + 96) % 256
          else ((16 * ah + al) + (16 * bh + bl)) % 256) + 6) % 256
      else (if (16 * ah + al) + (16 * bh + bl) > 255 ∨ ((16 * ah + al) + (16 * bh + bl)) % 256 > 153
          then (((16 * ah + al) + (16 * bh + bl)) % 256 + 96) % 256
          else ((16 * ah + al) + (16 * bh + bl)) % 256)) =
      bcdEncode ((bcdValue (16 * ah + al) + bcdValue (16 * bh + bl)) % 100) ∧
    (((16 * ah + al) + (16 * bh + bl) > 255 ∨ ((16 * ah + al) + (16 * bh + bl)) % 256 > 153) ↔
      bcdValue (16 * ah + al) + bcdValue (16 * bh + bl) ≥ 100) := by
  decide

/-- Claim C5.  For packed-BCD bytes `a` and `b` and any prior flags, `ADD A,b`
with `A = a` followed by `DAA` leaves `A` equal to the packed-BCD encoding of
`(dec a + dec b) mod 100`, sets C iff `dec a + dec b >= 100`, clears H and N, and
sets Z iff `A = 0`.  With `a = 0x15`, `b = 0x27` and a flag byte whose low nibble
is clear the result is `A = 0x42`, `F = 0`. -/
theorem daa_after_add (p : Processor) (b : Nat) (ha : IsPackedBCD p.reg_A)
    (hb : IsPackedBCD b) :
    ((p.add .reg_A b).daa).reg_A = bcdEncode ((bcdValue p.reg_A + bcdValue b) % 100) ∧
    (((p.add .reg_A b).daa).Carry = true ↔ bcdValue p.reg_A + bcdValue b ≥ 100) ∧
    ((p.add .reg_A b).daa).HalfCarry = false ∧
    ((p.add .reg_A b).daa).Subtract = false ∧
    (((p.add .reg_A b).daa).Zero = true ↔ ((p.add .reg_A b).daa).reg_A = 0) ∧
    (p.reg_A = 0x15 → b = 0x27 →
      ((p.add .reg_A b).daa).reg_A = 0x42 ∧ ((p.add .reg_A b).daa).Zero = false ∧
      ((p.add .reg_A b).daa).Carry = false) := by
  obtain ⟨ha1, ha2⟩ := ha
  obtain ⟨hb1, hb2⟩ := hb
  have hadd := add_effect p .reg_A b (by show p.reg_A < 256; omega) (by omega)
  obtain ⟨hA, -, hN, hH, hC⟩ := hadd
  have hA' : (p.add .reg_A b).reg_A = (p.reg_A + b) % 256 := hA
  have hr : p.r8 .reg_A = p.reg_A := rfl
  rw [hr, and_15, and_15] at hH
  rw [hr] at hC
  obtain ⟨dA, dC, dN, dH, dZ⟩ := Processor.daa_of_not_Subtract (p.add .reg_A b) hN
  simp only [hA', hH, hC] at dA
  simp only [hA', hC] at dC
  have hdig := daa_after_add_digits (p.reg_A / 16) (by omega) (p.reg_A % 16) (by omega)
    (b / 16) (by omega) (b % 16) (by omega)
  rw [Nat.div_add_mod, Nat.div_add_mod] at hdig
  have e1 : ((p.add .reg_A b).daa).reg_A = bcdEncode ((bcdValue p.reg_A + bcdValue b) % 100) := by
    rw [dA]; exact hdig.1
  have e2 : (((p.add .reg_A b).daa).Carry = true ↔ bcdValue p.reg_A + bcdValue b ≥ 100) := by
    rw [dC]; exact hdig.2
  refine ⟨e1, e2, dH, dN, dZ, ?_⟩
  intro h15 h27
  have e3 : ((p.add .reg_A b).daa).reg_A = 0x42 := by
    rw [e1, h15, h27]; decide
  refine ⟨e3, ?_, ?_⟩
  · cases hz : ((p.add .reg_A b).daa).Zero
    · rfl
    · rw [dZ.mp hz] at e3
      omega
  · cases hc : ((p.add .reg_A b).daa).Carry
    · rfl
    · have := e2.mp hc
      rw [h15, h27] at this
      revert this
      decide

/-- Claim C5 at `A = 0x15`, `b = 0x27`. -/
theorem daa_after_add_witness :
    (({ Processor.zeroed with reg_A := 0x15 }.add .reg_A 0x27).daa).reg_A = 0x42 ∧
    (({ Processor.zeroed with reg_A := 0x15 }.add .reg_A 0x27).daa).Zero = false ∧
    (({ Processor.zeroed with reg_A := 0x15 }.add .reg_A 0x27).daa).Carry = false :=
  (daa_after_add { Processor.zeroed with reg_A := 0x15 } 0x27 (by decide) (by decide)).2.2.2.2.2
    rfl rfl

/-- Claim C6 on the code.  `Processor::bit` sets Z whatever the tested bit is: N
is cleared, H is set, C and every register are unchanged, but Z is set also for
`byte = 0x01`, `bit = 0`, where `(byte >> bit) & 1` is 1. -/
theorem bit_sets_zero_always (p : Processor) (byte b : Nat) :
    (p.bit byte b).Zero = true ∧
    (p.bit byte b).Subtract = false ∧
    (p.bit byte b).HalfCarry = true ∧
    (p.bit byte b).Carry = p.Carry ∧
    (∀ r, (p.bit byte b).r8 r = p.r8 r) ∧
    (p.bit byte b).reg_PC = p.reg_PC ∧ (p.bit byte b).reg_SP = p.reg_SP ∧
    ((p.bit 0x01 0).Zero = true ∧ (0x01 >>> 0) &&& 1 ≠ 0) := by
  refine ⟨?_, ?_, ?_, ?_, ?_, rfl, rfl, ?_, by decide⟩ <;> simp [Processor.bit]

/-! ## The flag register -/

/-- Claim C1.  If the low nibble of `F` is clear before `Processor::ExecuteNext`,
it is clear in the state after it, for every opcode (base or `0xCB`-prefixed),
every cycle table and every content of memory. -/
theorem ExecuteNext_flag_low_nibble (T CBT : Nat → Opcode) (gb gb' : GameBoy) (cycles : Int)
    (hF : gb.processor.reg_F &&& 0x0F = 0)
    (h : Processor.ExecuteNext T CBT gb = .ok (cycles, gb')) :
    gb'.processor.reg_F &&& 0x0F = 0 :=
  Processor.Keeps_ExecuteNext T CBT gb cycles gb' hF h

set_option maxRecDepth 100000 in
/-- Claim C1 on `POP AF` with the word `0xFFFF` on the stack: `F` becomes `0xF0`. -/
theorem ExecuteNext_flag_low_nibble_witness :
    popAFExampleAfter.processor.reg_F = 0xF0 ∧
    popAFExampleAfter.processor.reg_F &&& 0x0F = 0 :=
  ⟨rfl, ExecuteNext_flag_low_nibble exampleCycles exampleCycles popAFExample popAFExampleAfter 4
    (by decide) rfl⟩

/-- Claim C2.  `POP AF` (`0xF1`) with the 16-bit word `w` readable at the stack
pointer yields `A = w >> 8`, `F = (w & 0xFF) & 0xF0` and `SP = SP + 2` (only `PC`,
`A`, `F` and `SP` change).  And the sequence `LD A,0xFF; PUSH AF; POP AF` with the
stack slot in work RAM or high RAM ends with `A = 0xFF`, `F` equal to the pushed
`F` with its low nibble cleared, and `SP` as before. -/
theorem pop_AF_masks_F (T CBT : Nat → Opcode) :
    (∀ (gb : GameBoy) (w : Nat),
      Read8 gb gb.processor.reg_PC = .ok 0xF1 →
      Read16 gb gb.processor.reg_SP = .ok w → w < 65536 →
      Processor.ExecuteNext T CBT gb = .ok ((T 0xF1).cycles,
        { gb with processor := { gb.processor with
            reg_PC := (gb.processor.reg_PC + 1) % 65536
            reg_A := w >>> 8
            reg_F := (w &&& 0xFF) &&& 0xF0
            reg_SP := (gb.processor.reg_SP + 2) % 65536 } })) ∧
    (∀ (gb : GameBoy),
      gb.mbc.PagesAsConstructed →
      gb.processor.reg_SP < 65536 → gb.processor.reg_F < 256 →
      StackSlot ((gb.processor.reg_SP + 65534) % 65536) →
      Read8 gb gb.processor.reg_PC = .ok 0x3E →
      Read8 gb ((gb.processor.reg_PC + 1) % 65536) = .ok 0xFF →
      Read8 gb ((gb.processor.reg_PC + 2) % 65536) = .ok 0xF5 →
      Read8 (storeWord gb ((gb.processor.reg_SP + 65534) % 65536) (0xFF * 256 + gb.processor.reg_F))
        ((gb.processor.reg_PC + 3) % 65536) = .ok 0xF1 →
      ∃ c gb', (Processor.ExecuteNext T CBT >>= fun _ =>
          Processor.ExecuteNext T CBT >>= fun _ => Processor.ExecuteNext T CBT) gb = .ok (c, gb') ∧
        gb'.processor.reg_A = 0xFF ∧
        gb'.processor.reg_F = gb.processor.reg_F &&& 0xF0 ∧
        gb'.processor.reg_SP = gb.processor.reg_SP) := by
  have part1 : ∀ (gb : GameBoy) (w : Nat),
      Read8 gb gb.processor.reg_PC = .ok 0xF1 →
      Read16 gb gb.processor.reg_SP = .ok w → w < 65536 →
      Processor.ExecuteNext T CBT gb = .ok ((T 0xF1).cycles,
        { gb with processor := { gb.processor with
            reg_PC := (gb.processor.reg_PC + 1) % 65536
            reg_A := w >>> 8
            reg_F := (w &&& 0xFF) &&& 0xF0
            reg_SP := (gb.processor.reg_SP + 2) % 65536 } }) := by
    intro gb w hop hw hw16
    rw [Processor.pop_AF_run T CBT gb w hop hw hw16, Nat.shiftRight_eq_div_pow, and_255]
  refine ⟨part1, ?_⟩
  intro gb hp hsp hF hs h0 h1 h2 h3
  -- LD A,0xFF
  have e1 := Processor.ld_A_run T CBT gb 0xFF h0 h1
  -- PUSH AF
  have e2 := Processor.push_AF_run T CBT
    { gb with processor := { gb.processor with
        reg_PC := (gb.processor.reg_PC + 2) % 65536, reg_A := 0xFF } }
    ((Read8_processor gb _ rfl rfl _).trans h2) hp hs
  dsimp only at e2
  have hword : 0xFF * 256 + gb.processor.reg_F < 65536 := by omega
  have hpc : ((gb.processor.reg_PC + 2) % 65536 + 1) % 65536 =
      (gb.processor.reg_PC + 3) % 65536 := by omega
  have hfetch : Read8 (storeWord { gb with processor := { gb.processor with
        reg_PC := ((gb.processor.reg_PC + 2) % 65536 + 1) % 65536
        reg_A := 0xFF
        reg_SP := (gb.processor.reg_SP + 65534) % 65536 } }
      ((gb.processor.reg_SP + 65534) % 65536) (0xFF * 256 + gb.processor.reg_F))
      (((gb.processor.reg_PC + 2) % 65536 + 1) % 65536) = .ok 0xF1 := by
    rw [hpc]
    exact (Read8_storeWord_processor gb { gb.processor with
        reg_PC := (gb.processor.reg_PC + 3) % 65536
        reg_A := 0xFF
        reg_SP := (gb.processor.reg_SP + 65534) % 65536 }
      ((gb.processor.reg_SP + 65534) % 65536) (0xFF * 256 + gb.processor.reg_F)
      ((gb.processor.reg_PC + 3) % 65536) rfl rfl).trans h3
  have hread : Read16 (storeWord { gb with processor := { gb.processor with
        reg_PC := ((gb.processor.reg_PC + 2) % 65536 + 1) % 65536
        reg_A := 0xFF
        reg_SP := (gb.processor.reg_SP + 65534) % 65536 } }
      ((gb.processor.reg_SP + 65534) % 65536) (0xFF * 256 + gb.processor.reg_F))
      ((gb.processor.reg_SP + 65534) % 65536) = .ok (0xFF * 256 + gb.processor.reg_F) :=
    Read16_storeWord { gb with processor := { gb.processor with
        reg_PC := ((gb.processor.reg_PC + 2) % 65536 + 1) % 65536
        reg_A := 0xFF
        reg_SP := (gb.processor.reg_SP + 65534) % 65536 } } hp
      ((gb.processor.reg_SP + 65534) % 65536) (0xFF * 256 + gb.processor.reg_F) hs hword
  have e3 := part1 (storeWord { gb with processor := { gb.processor with
        reg_PC := ((gb.processor.reg_PC + 2) % 65536 + 1) % 65536
        reg_A := 0xFF
        reg_SP := (gb.processor.reg_SP + 65534) % 65536 } }
      ((gb.processor.reg_SP + 65534) % 65536) (0xFF * 256 + gb.processor.reg_F))
    (0xFF * 256 + gb.processor.reg_F)
    (by rw [storeWord_processor]; exact hfetch)
    (by rw [storeWord_processor]; exact hread) hword
  have run : (Processor.ExecuteNext T CBT >>= fun _ =>
      Processor.ExecuteNext T CBT >>= fun _ => Processor.ExecuteNext T CBT) gb = _ :=
    (bind_run _ _ _ _ _ e1).trans ((bind_run _ _ _ _ _ e2).trans e3)
  refine ⟨_, _, run, ?_, ?_, ?_⟩
  · show (0xFF * 256 + gb.processor.reg_F) >>> 8 = 0xFF
    rw [Nat.shiftRight_eq_div_pow]; omega
  · show ((0xFF * 256 + gb.processor.reg_F) &&& 0xFF) &&& 0xF0 = gb.processor.reg_F &&& 0xF0
    have hlow : (0xFF * 256 + gb.processor.reg_F) % 256 = gb.processor.reg_F := by omega
    rw [and_255, hlow]
  · show ((storeWord _ _ _).processor.reg_SP + 2) % 65536 = gb.processor.reg_SP
    rw [storeWord_processor]
    show ((gb.processor.reg_SP + 65534) % 65536 + 2) % 65536 = gb.processor.reg_SP
    omega

set_option maxRecDepth 100000 in
/-- Claim C2 on `popAFExample` (the word `0xFFFF` on the stack) and on
`pushPopExample` (`F = 0xB5` pushed and popped). -/
theorem pop_AF_masks_F_witness :
    Processor.ExecuteNext exampleCycles exampleCycles popAFExample = .ok (4, popAFExampleAfter) ∧
    (∃ c gb', (Processor.ExecuteNext exampleCycles exampleCycles >>= fun _ =>
        Processor.ExecuteNext exampleCycles exampleCycles >>= fun _ =>
          Processor.ExecuteNext exampleCycles exampleCycles) pushPopExample = .ok (c, gb') ∧
      gb'.processor.reg_A = 0xFF ∧ gb'.processor.reg_F = 0xB5 &&& 0xF0 ∧
      gb'.processor.reg_SP = 0xFFFE) :=
  ⟨(pop_AF_masks_F exampleCycles exampleCycles).1 popAFExample 0xFFFF rfl rfl (by decide),
   (pop_AF_masks_F exampleCycles exampleCycles).2 pushPopExample
      (by unfold MBC.PagesAsConstructed; decide) (by decide) (by decide) (by decide) rfl rfl rfl rfl⟩

/-- Claim C7.  A conditional `JR` (`0x20`, `0x28`, `0x30`, `0x38`) at `PC = p`
with displacement byte `e`: when the condition holds the new `PC` is
`(p + 2 + signext e) mod 2^16`, otherwise it is `(p + 2) mod 2^16`; nothing else
of the machine changes, and the cycle count is the one of the table (the branch
count when taken).  With `p = 0x100`, bytes `0x28 0x04` and Z set, `PC` becomes
`0x106`. -/
theorem jr_conditional (T CBT : Nat → Opcode) (gb : GameBoy) (op e : Nat)
    (hcc : op = 0x20 ∨ op = 0x28 ∨ op = 0x30 ∨ op = 0x38)
    (hop : Read8 gb gb.processor.reg_PC = .ok op)
    (he : Read8 gb ((gb.processor.reg_PC + 1) % 65536) = .ok e) :
    Processor.ExecuteNext T CBT gb =
      .ok (if jrCondition op gb.processor then (T op).cycles_branch else (T op).cycles,
        gb.withPC (if jrCondition op gb.processor
          then static_cast_u16 ((gb.processor.reg_PC : Int) + 2 + static_cast_s8 e)
          else (gb.processor.reg_PC + 2) % 65536)) ∧
    (gb.processor.reg_PC = 0x100 → op = 0x28 → e = 0x04 → gb.processor.Zero = true →
      ∃ c gb', Processor.ExecuteNext T CBT gb = .ok (c, gb') ∧ gb'.processor.reg_PC = 0x106) := by
  have hne : op ≠ 0xCB := by omega
  have h1 : Read8 (gb.withPC ((gb.processor.reg_PC + 1) % 65536))
      (gb.withPC ((gb.processor.reg_PC + 1) % 65536)).processor.reg_PC = .ok e := by
    rw [Read8_withPC]; exact he
  have hnt : ((gb.processor.reg_PC + 1) % 65536 + 1) % 65536 = (gb.processor.reg_PC + 2) % 65536 := by
    omega
  have main : Processor.ExecuteNext T CBT gb =
      .ok (if jrCondition op gb.processor then (T op).cycles_branch else (T op).cycles,
        gb.withPC (if jrCondition op gb.processor
          then static_cast_u16 ((gb.processor.reg_PC : Int) + 2 + static_cast_s8 e)
          else (gb.processor.reg_PC + 2) % 65536)) := by
    rw [Processor.ExecuteNext_run T CBT gb op hop hne]
    rcases hcc with rfl | rfl | rfl | rfl
    · rw [Processor.case_0x20]
      refine (bind_run _ _ _ _ _
        (Processor.jr_body_run Processor.Zero (fun x => !x) _ e h1)).trans ?_
      show Except.ok _ = _
      cases hz : gb.processor.Zero <;>
        simp [jrCondition, hz, jr_target, jr_target_int, hnt, show (gb.withPC ((gb.processor.reg_PC + 1) % 65536)).processor.Zero = gb.processor.Zero from rfl]
    · rw [Processor.case_0x28]
      refine (bind_run _ _ _ _ _
        (Processor.jr_body_run Processor.Zero (fun x => x) _ e h1)).trans ?_
      show Except.ok _ = _
      cases hz : gb.processor.Zero <;>
        simp [jrCondition, hz, jr_target, jr_target_int, hnt, show (gb.withPC ((gb.processor.reg_PC + 1) % 65536)).processor.Zero = gb.processor.Zero from rfl]
    · rw [Processor.case_0x30]
      refine (bind_run _ _ _ _ _
        (Processor.jr_body_run Processor.Carry (fun x => !x) _ e h1)).trans ?_
      show Except.ok _ = _
      cases hz : gb.processor.Carry <;>
        simp [jrCondition, hz, jr_target, jr_target_int, hnt, show (gb.withPC ((gb.processor.reg_PC + 1) % 65536)).processor.Carry = gb.processor.Carry from rfl]
    · rw [Processor.case_0x38]
      refine (bind_run _ _ _ _ _
        (Processor.jr_body_run Processor.Carry (fun x => x) _ e h1)).trans ?_
      show Except.ok _ = _
      cases hz : gb.processor.Carry <;>
        simp [jrCondition, hz, jr_target, jr_target_int, hnt, show (gb.withPC ((gb.processor.reg_PC + 1) % 65536)).processor.Carry = gb.processor.Carry from rfl]
  refine ⟨main, ?_⟩
  intro hp hop28 he4 hz
  refine ⟨_, _, main, ?_⟩
  have hc : jrCondition op gb.processor = true := by
    rw [hop28]; simp [jrCondition, hz]
  rw [withPC_reg_PC, hc, if_pos rfl, hp, he4]
  rfl

/-- Claim C7 on a machine with `PC = 0x100`, the bytes `0x28 0x04` there and Z set. -/
theorem jr_conditional_witness :
    ∃ c gb', Processor.ExecuteNext exampleCycles exampleCycles
        { exampleMachine (programAt0100 [0x28, 0x04]) with
          processor := { (exampleMachine (programAt0100 [0x28, 0x04])).processor with reg_F := 0x80 } }
        = .ok (c, gb') ∧ gb'.processor.reg_PC = 0x106 :=
  (jr_conditional exampleCycles exampleCycles
    { exampleMachine (programAt0100 [0x28, 0x04]) with
      processor := { (exampleMachine (programAt0100 [0x28, 0x04])).processor with reg_F := 0x80 } }
    0x28 0x04 (Or.inr (Or.inl rfl)) rfl rfl).2 rfl rfl rfl rfl

/-- Claim C8.  `CALL t` (`0xCD`) at `PC = p` with `SP = s`, the two bytes at
`s - 2` and `s - 1` lying in one page of work RAM or high RAM: the instruction
stores `p + 3` at `s - 2`, low byte first, and sets `PC = t`, `SP = s - 2`,
changing nothing else; a `RET` (`0xC9`) executed next sets `PC = p + 3` and
`SP = s` again. -/
theorem call_ret_round_trip (T CBT : Nat → Opcode) (gb : GameBoy) (t : Nat)
    (hp : gb.mbc.PagesAsConstructed)
    (hs : StackSlot (gb.processor.reg_SP - 2))
    (hop : Read8 gb gb.processor.reg_PC = .ok 0xCD)
    (ht : Read16 gb ((gb.processor.reg_PC + 1) % 65536) = .ok t) :
    ∃ gb1, Processor.ExecuteNext T CBT gb = .ok ((T 0xCD).cycles, gb1) ∧
      gb1 = storeWord { gb with processor := { gb.processor with
          reg_PC := t % 65536
          reg_SP := gb.processor.reg_SP - 2 } }
        (gb.processor.reg_SP - 2) ((gb.processor.reg_PC + 3) % 65536) ∧
      gb1.processor.reg_PC = t % 65536 ∧
      gb1.processor.reg_SP = gb.processor.reg_SP - 2 ∧
      Read8 gb1 (gb.processor.reg_SP - 2) = .ok ((gb.processor.reg_PC + 3) % 65536 % 256) ∧
      Read8 gb1 (gb.processor.reg_SP - 2 + 1) = .ok ((gb.processor.reg_PC + 3) % 65536 / 256) ∧
      (Read8 gb1 (t % 65536) = .ok 0xC9 →
        Processor.ExecuteNext T CBT gb1 = .ok ((T 0xC9).cycles,
          { gb1 with processor := { gb1.processor with
              reg_PC := (gb.processor.reg_PC + 3) % 65536
              reg_SP := gb.processor.reg_SP } })) := by
  have hbytes := Read8_storeWord
    { gb with processor := { gb.processor with
        reg_PC := t % 65536
        reg_SP := gb.processor.reg_SP - 2 } }
    hp (gb.processor.reg_SP - 2) ((gb.processor.reg_PC + 3) % 65536) hs
    (Nat.mod_lt _ (by decide))
  refine ⟨_, Processor.call_nn_run T CBT gb t hop ht hp hs, rfl, ?_, ?_, hbytes.1, hbytes.2, ?_⟩
  · rw [storeWord_processor]
  · rw [storeWord_processor]
  · intro hret
    have hw := Read16_storeWord
      { gb with processor := { gb.processor with
          reg_PC := t % 65536
          reg_SP := gb.processor.reg_SP - 2 } }
      hp (gb.processor.reg_SP - 2) ((gb.processor.reg_PC + 3) % 65536) hs
      (Nat.mod_lt _ (by decide))
    have h := Processor.ret_run T CBT
      (storeWord { gb with processor := { gb.processor with
          reg_PC := t % 65536
          reg_SP := gb.processor.reg_SP - 2 } }
        (gb.processor.reg_SP - 2) ((gb.processor.reg_PC + 3) % 65536))
      ((gb.processor.reg_PC + 3) % 65536)
      (by rw [storeWord_processor]; exact hret)
      (by rw [storeWord_processor]; exact hw)
    rw [h, storeWord_processor]
    simp only [Nat.mod_mod, (stackSlot_sub_two _ hs).2]

set_option maxRecDepth 100000 in
/-- Claim C8 on `callRetExample`: `CALL 0x0105` at `0x0100` with `SP = 0xFFFE`
leaves `PC = 0x0105`, `SP = 0xFFFC` and the bytes `0x03`, `0x01` at `0xFFFC`,
`0xFFFD`. -/
theorem call_ret_round_trip_witness :
    ∃ gb1, Processor.ExecuteNext exampleCycles exampleCycles callRetExample = .ok (4, gb1) ∧
      gb1.processor.reg_PC = 0x0105 ∧ gb1.processor.reg_SP = 0xFFFC ∧
      Read8 gb1 0xFFFC = .ok 0x03 ∧ Read8 gb1 0xFFFD = .ok 0x01 ∧
      ∃ gb2, Processor.ExecuteNext exampleCycles exampleCycles gb1 = .ok (4, gb2) ∧
        gb2.processor.reg_PC = 0x0103 ∧ gb2.processor.reg_SP = 0xFFFE := by
  obtain ⟨gb1, h1, rfl, h3, h4, h5, h6, h7⟩ :=
    call_ret_round_trip exampleCycles exampleCycles callRetExample 0x0105
      (by unfold MBC.PagesAsConstructed; decide) (by decide) rfl rfl
  exact ⟨_, h1, h3, h4, h5, h6, _, h7 rfl, rfl, rfl⟩

/-- Claim C9.  `Processor::TickInterrupts` services an interrupt iff `IME` is set
and `IE & IF & 0x1F` is not zero.  When it is not, the call returns 0 and leaves
the machine as it was.  When it is, there is a lowest set bit `k < 5` of
`IE & IF`, and for that bit the call clears `IME`, clears bit `k` of `IF` and no
other of its eight bits, calls the vector `0x40 + 8 * k` and returns 12; with the
stack slot in work RAM or high RAM the resulting machine has the old `PC` stored
at `SP - 2`, `SP` lowered by 2 and `PC = 0x40 + 8 * k`, and nothing else
changed. -/
theorem TickInterrupts_services_lowest (gb : GameBoy) :
    (¬ (gb.processor.IME = true ∧ gb.processor.IE &&& gb.processor.IF &&& 0x1F ≠ 0) →
      Processor.TickInterrupts gb = .ok (0, gb)) ∧
    (gb.processor.IME = true → gb.processor.IE &&& gb.processor.IF &&& 0x1F ≠ 0 →
      ∃ k < 5, (gb.processor.IE &&& gb.processor.IF).testBit k = true ∧
        ∀ j < k, (gb.processor.IE &&& gb.processor.IF).testBit j = false) ∧
    (∀ k, gb.processor.IME = true → k < 5 →
      (gb.processor.IE &&& gb.processor.IF).testBit k = true →
      (∀ j < k, (gb.processor.IE &&& gb.processor.IF).testBit j = false) →
      Processor.TickInterrupts gb =
        (Processor.call (0x40 + 8 * k) >>= fun _ => (pure 12 : Exec Int))
          { gb with processor := { gb.processor with
              IME := false
              IF := gb.processor.IF &&& (0xFF - 2 ^ k) } } ∧
      (∀ j < 8, (gb.processor.IF &&& (0xFF - 2 ^ k)).testBit j =
        (gb.processor.IF.testBit j && decide (j ≠ k))) ∧
      (gb.mbc.PagesAsConstructed → StackSlot (gb.processor.reg_SP - 2) →
        Processor.TickInterrupts gb = .ok (12,
          storeWord { gb with processor := { gb.processor with
              IME := false
              IF := gb.processor.IF &&& (0xFF - 2 ^ k)
              reg_PC := 0x40 + 8 * k
              reg_SP := gb.processor.reg_SP - 2 } }
            (gb.processor.reg_SP - 2) gb.processor.reg_PC))) := by
  refine ⟨Processor.TickInterrupts_idle gb, fun _ h => lowest_pending_exists _ h, ?_⟩
  intro k hime hk hbit hlow
  have hrun := Processor.TickInterrupts_service gb k hime hk hbit hlow
  refine ⟨hrun, clear_bit_testBit _ k hk, ?_⟩
  intro hp hs
  have hv : (0x40 + 8 * k) % 65536 = 0x40 + 8 * k := by omega
  have hcall := Processor.call_run
    { gb with processor := { gb.processor with
        IME := false
        IF := gb.processor.IF &&& (0xFF - 2 ^ k) } }
    (0x40 + 8 * k) hp hs
  rw [hrun]
  refine (bind_run _ _ _ _ _ hcall).trans ?_
  rw [hv]
  rfl

set_option maxRecDepth 100000 in
/-- Claim C9 on `irqExample`: with V-Blank and Timer pending the V-Blank
interrupt is serviced: `PC = 0x0040`, `SP = 0xFFFC`, `IF = 0x04`, `IME` clear,
and the old `PC = 0x0100` on the stack. -/
theorem TickInterrupts_services_lowest_witness :
    Processor.TickInterrupts irqExample = .ok (12,
      storeWord { irqExample with processor := { irqExample.processor with
          IME := false
          IF := 0x04
          reg_PC := 0x0040
          reg_SP := 0xFFFC } }
        0xFFFC 0x0100) :=
  ((TickInterrupts_services_lowest irqExample).2.2 0 rfl (by decide) (by decide)
    (fun j hj => absurd hj (Nat.not_lt_zero j))).2.2
    (by unfold MBC.PagesAsConstructed; decide) (by decide)

/-- Two computations with the same result from two machines have the same
result when followed by the same continuation. -/
theorem bind_congr_run {α β : Type} (m m' : Exec α) (f : α → Exec β) (gb gb' : GameBoy)
    (h : m gb = m' gb') : (m >>= f) gb = (m' >>= f) gb' := by
  change (match m gb with
    | .ok (a, g) => f a g
    | .error e => .error e) =
    (match m' gb' with
    | .ok (a, g) => f a g
    | .error e => .error e)
  rw [h]

/-- Claim C10 as the code has it.  `HALT` (`0x76`) is executed as a no-op,
whatever `IME`, `IE` and `IF` are: `ExecuteNext` advances `PC` by one and changes
nothing else of the machine, no halted state being kept, and the `Tick` that
executes it goes on to `TickInterrupts` on that machine as after any other
instruction.  When that services no interrupt (`IME` clear or
`IE & IF & 0x1F = 0`, in particular when `IE & IF = 0`) the `Tick` returns the
table's cycle count and leaves the machine with only `PC` advanced; and on that
machine `ExecuteNext`, and so the following `Tick`, fetches the opcode at the
address after the `HALT` and runs it: `ExecuteCBOpcode` for the prefix `0xCB`,
its case of the switch otherwise, followed in the `Tick` by `TickInterrupts`. -/
theorem halt_is_nop (T CBT : Nat → Opcode) (gb : GameBoy)
    (hop : Read8 gb gb.processor.reg_PC = .ok 0x76) :
    Processor.ExecuteNext T CBT gb =
      .ok ((T 0x76).cycles, gb.withPC ((gb.processor.reg_PC + 1) % 65536)) ∧
    Processor.Tick T CBT gb =
      (Processor.TickInterrupts >>= fun n => (pure ((T 0x76).cycles + n) : Exec Int))
        (gb.withPC ((gb.processor.reg_PC + 1) % 65536)) ∧
    (¬ (gb.processor.IME = true ∧ gb.processor.IE &&& gb.processor.IF &&& 0x1F ≠ 0) →
      Processor.Tick T CBT gb =
        .ok ((T 0x76).cycles + 0, gb.withPC ((gb.processor.reg_PC + 1) % 65536))) ∧
    (gb.processor.IE &&& gb.processor.IF = 0 →
      Processor.Tick T CBT gb =
        .ok ((T 0x76).cycles + 0, gb.withPC ((gb.processor.reg_PC + 1) % 65536))) ∧
    (∀ op, Read8 gb ((gb.processor.reg_PC + 1) % 65536) = .ok op →
      Processor.ExecuteNext T CBT (gb.withPC ((gb.processor.reg_PC + 1) % 65536)) =
        (if op = 0xCB then
          Processor.ExecuteCBOpcode >>= fun opcode => (pure (CBT opcode).cycles : Exec Int)
        else
          switchOn (do stop; pure false) Processor.ExecuteNext_cases op >>=
            fun branch_taken =>
              (pure (if !branch_taken then (T op).cycles else (T op).cycles_branch) : Exec Int))
          ((gb.withPC ((gb.processor.reg_PC + 1) % 65536)).withPC
            (((gb.processor.reg_PC + 1) % 65536 + 1) % 65536)) ∧
      Processor.Tick T CBT (gb.withPC ((gb.processor.reg_PC + 1) % 65536)) =
        ((if op = 0xCB then
          Processor.ExecuteCBOpcode >>= fun opcode => (pure (CBT opcode).cycles : Exec Int)
        else
          switchOn (do stop; pure false) Processor.ExecuteNext_cases op >>=
            fun branch_taken =>
              (pure (if !branch_taken then (T op).cycles else (T op).cycles_branch) : Exec Int))
          >>= fun new_cycles =>
            Processor.TickInterrupts >>= fun n => (pure (new_cycles + n) : Exec Int))
          ((gb.withPC ((gb.processor.reg_PC + 1) % 65536)).withPC
            (((gb.processor.reg_PC + 1) % 65536 + 1) % 65536))) := by
  have hexec : Processor.ExecuteNext T CBT gb =
      .ok ((T 0x76).cycles, gb.withPC ((gb.processor.reg_PC + 1) % 65536)) := by
    rw [Processor.ExecuteNext_run T CBT gb 0x76 hop (by decide), Processor.case_0x76]
    rfl
  have htick : Processor.Tick T CBT gb =
      (Processor.TickInterrupts >>= fun n => (pure ((T 0x76).cycles + n) : Exec Int))
        (gb.withPC ((gb.processor.reg_PC + 1) % 65536)) := by
    unfold Processor.Tick
    refine (bind_run _ _ _ _ _ hexec).trans ?_
    rfl
  have hquiet : ¬ (gb.processor.IME = true ∧
      gb.processor.IE &&& gb.processor.IF &&& 0x1F ≠ 0) →
      Processor.Tick T CBT gb =
        .ok ((T 0x76).cycles + 0, gb.withPC ((gb.processor.reg_PC + 1) % 65536)) := by
    intro hq
    have hidle := Processor.TickInterrupts_idle
      (gb.withPC ((gb.processor.reg_PC + 1) % 65536)) hq
    rw [htick]
    refine (bind_run _ _ _ _ _ hidle).trans ?_
    rfl
  refine ⟨hexec, htick, hquiet, ?_, ?_⟩
  · intro hz
    apply hquiet
    rintro ⟨-, h⟩
    apply h
    rw [hz]
    rfl
  · intro op hread
    have hget : Processor.GetOperand8 (gb.withPC ((gb.processor.reg_PC + 1) % 65536)) =
        .ok (op, (gb.withPC ((gb.processor.reg_PC + 1) % 65536)).withPC
          (((gb.processor.reg_PC + 1) % 65536 + 1) % 65536)) :=
      Processor.GetOperand8_run (gb.withPC ((gb.processor.reg_PC + 1) % 65536)) op
        (by rw [Read8_withPC]; exact hread)
    have hnext : Processor.ExecuteNext T CBT (gb.withPC ((gb.processor.reg_PC + 1) % 65536)) =
        (if op = 0xCB then
          Processor.ExecuteCBOpcode >>= fun opcode => (pure (CBT opcode).cycles : Exec Int)
        else
          switchOn (do stop; pure false) Processor.ExecuteNext_cases op >>=
            fun branch_taken =>
              (pure (if !branch_taken then (T op).cycles else (T op).cycles_branch) : Exec Int))
          ((gb.withPC ((gb.processor.reg_PC + 1) % 65536)).withPC
            (((gb.processor.reg_PC + 1) % 65536 + 1) % 65536)) := by
      unfold Processor.ExecuteNext
      rw [bind_run _ _ _ _ op hget]
    refine ⟨hnext, ?_⟩
    unfold Processor.Tick
    exact bind_congr_run _ _ _ _ _ hnext

set_option maxRecDepth 100000 in
/-- Claim C10 on `haltExample`: the `HALT` at `0x0100` only moves `PC` to
`0x0101`. -/
theorem halt_is_nop_witness :
    Processor.ExecuteNext exampleCycles exampleCycles haltExample =
      .ok (4, haltExample.withPC 0x0101) :=
  (halt_is_nop exampleCycles exampleCycles haltExample rfl).1

set_option maxRecDepth 100000 in
/-- Claim C10 fails on `haltExample` (`HALT; INC B` with `IE = IF = 0`): the
`Tick` after the one that executes `HALT` runs `INC B`, moving `PC` from
`0x0101` to `0x0102` and `B` from 0 to 1, although `IE & IF` is zero before and
after. -/
theorem halt_does_not_suspend :
    Read8 haltExample haltExample.processor.reg_PC = .ok 0x76 ∧
    Processor.Tick exampleCycles exampleCycles haltExample =
      .ok (4, haltExample.withPC 0x0101) ∧
    (haltExample.withPC 0x0101).processor.IE &&& (haltExample.withPC 0x0101).processor.IF = 0 ∧
    ∃ gb2, Processor.Tick exampleCycles exampleCycles (haltExample.withPC 0x0101) = .ok (4, gb2) ∧
      gb2.processor.IE &&& gb2.processor.IF = 0 ∧
      gb2.processor.reg_PC = 0x0102 ∧ (haltExample.withPC 0x0101).processor.reg_PC = 0x0101 ∧
      gb2.processor.reg_B = 1 ∧ (haltExample.withPC 0x0101).processor.reg_B = 0 :=
  ⟨rfl, rfl, rfl, _, rfl, rfl, rfl, rfl, rfl, rfl⟩

/-! ## The memory bus -/

/-- Claim C11.  For an address `a` of the forbidden ranges `0xE000..0xFDFF` and
`0xFEA0..0xFEFF` and any byte `v`, `MemoryBus::Read8(a)` returns `0xFF` and
`MemoryBus::Write8(a, v)` returns with the machine unchanged; and
`MemoryBus::Read16(b)` returns `0xFFFF` when `b` or the address of its second
byte lies in those ranges. -/
theorem forbidden_range (gb : GameBoy) (a v : Nat) (ha : Forbidden a) :
    Read8 gb a = .ok 0xFF ∧
    Write8 gb a v = .ok gb ∧
    (∀ b, b < 65536 → (Forbidden b ∨ Forbidden ((b + 1) % 65536)) → Read16 gb b = .ok 0xFFFF) := by
  have h8 : CheckBounds8 a = false := by
    unfold Forbidden at ha
    unfold CheckBounds8
    rw [if_pos (by omega)]
  refine ⟨?_, ?_, ?_⟩
  · unfold Read8
    rw [h8]
    rfl
  · unfold Write8 Write8F
    rw [h8]
    rfl
  · intro b hb hf
    have h16 : CheckBounds16 b = false := by
      unfold Forbidden at hf
      unfold CheckBounds16
      rw [if_pos (by omega)]
    unfold Read16
    rw [h16]
    rfl

/-- Claim C11 at `a = 0xE000`, `v = 0x12` and the 16-bit read at `0xDFFF`. -/
theorem forbidden_range_witness :
    Read8 (exampleMachine (programAt0100 [])) 0xE000 = .ok 0xFF ∧
    Write8 (exampleMachine (programAt0100 [])) 0xE000 0x12 =
      .ok (exampleMachine (programAt0100 [])) ∧
    Read16 (exampleMachine (programAt0100 [])) 0xDFFF = .ok 0xFFFF :=
  ⟨(forbidden_range (exampleMachine (programAt0100 [])) 0xE000 0x12 (by decide)).1,
    (forbidden_range (exampleMachine (programAt0100 [])) 0xE000 0x12 (by decide)).2.1,
    (forbidden_range (exampleMachine (programAt0100 [])) 0xE000 0x12 (by decide)).2.2
      0xDFFF (by decide) (by decide)⟩

/-- Claim C12.  `MemoryBus::Write8(0xFF44, v)` sets `LY` to 0 whatever `v` is and
changes nothing else of the machine, so that `LCDC`, `STAT`, `SCY`, `SCX`, `LYC`,
`WY` and `WX` keep their values; the next `MemoryBus::Read8(0xFF44)` returns 0. -/
theorem write_FF44_resets_LY (gb : GameBoy) (v : Nat) :
    ∃ gb', Write8 gb 0xFF44 v = .ok gb' ∧
      gb' = { gb with ppu := { gb.ppu with LY := 0 } } ∧
      Read8 gb' 0xFF44 = .ok 0 ∧
      gb'.ppu.LCDC = gb.ppu.LCDC ∧ gb'.ppu.STAT = gb.ppu.STAT ∧ gb'.ppu.SCY = gb.ppu.SCY ∧
      gb'.ppu.SCX = gb.ppu.SCX ∧ gb'.ppu.LYC = gb.ppu.LYC ∧ gb'.ppu.WY = gb.ppu.WY ∧
      gb'.ppu.WX = gb.ppu.WX :=
  ⟨_, rfl, rfl, rfl, rfl, rfl, rfl, rfl, rfl, rfl, rfl⟩

/-- Repeated writes to `0xFF50` keep the boot overlay disabled. -/
theorem boot_disable_stays (R : Rom) (hrom : 0x100 ≤ R.bytes.length) :
    ∀ (vs : List Nat) (g : GameBoy), g.mbc.romBank0.base = 0 → g.mbc.romBank0.size = 0x4000 →
      g.game_rom = R → g.InBootROM = false →
      (∀ a < 0x100, Read8 g a = .ok (R.bytes.getD a 0)) →
      ∃ g2, vs.foldlM (fun g w => Write8 g 0xFF50 w) g = .ok g2 ∧ g2.InBootROM = false ∧
        ∀ a < 0x100, Read8 g2 a = .ok (R.bytes.getD a 0) := by
  intro vs
  induction vs with
  | nil =>
    intro g _ _ _ hboot hread
    exact ⟨g, rfl, hboot, hread⟩
  | cons w vs ih =>
    intro g hb hs hR _ _
    have hw := Write8_FF50 g w hb hs (by rw [hR]; exact hrom)
    obtain ⟨g2, hfold, hboot2, hread2⟩ := ih (afterBootDisable g) hb hs hR rfl
      (fun a ha => by rw [afterBootDisable_read g hb hs a ha, hR])
    refine ⟨g2, ?_, hboot2, hread2⟩
    rw [List.foldlM_cons, hw]
    exact hfold

/-- Claim C13.  On a machine whose ROM bank 0 page is as constructed and whose
cartridge image has at least `0x100` bytes, whatever the boot image overlaid on
it: a write of any byte `v` to `0xFF50` returns with `InBootROM` false and every
address `a` in `0x0000..0x00FF` reading cartridge byte `a`; and both still hold
after any further writes `vs` to `0xFF50`. -/
theorem boot_disable_one_shot (gb : GameBoy) (v : Nat) (vs : List Nat)
    (hb : gb.mbc.romBank0.base = 0) (hs : gb.mbc.romBank0.size = 0x4000)
    (hrom : 0x100 ≤ gb.game_rom.bytes.length) :
    ∃ gb1 gb2, Write8 gb 0xFF50 v = .ok gb1 ∧
      gb1.InBootROM = false ∧
      (∀ a < 0x100, Read8 gb1 a = .ok (gb.game_rom.bytes.getD a 0)) ∧
      vs.foldlM (fun g w => Write8 g 0xFF50 w) gb1 = .ok gb2 ∧
      gb2.InBootROM = false ∧
      (∀ a < 0x100, Read8 gb2 a = .ok (gb.game_rom.bytes.getD a 0)) := by
  have hread : ∀ a < 0x100, Read8 (afterBootDisable gb) a = .ok (gb.game_rom.bytes.getD a 0) :=
    fun a ha => afterBootDisable_read gb hb hs a ha
  obtain ⟨g2, hfold, hboot2, hread2⟩ :=
    boot_disable_stays gb.game_rom hrom vs (afterBootDisable gb) hb hs rfl rfl hread
  exact ⟨afterBootDisable gb, g2, Write8_FF50 gb v hb hs hrom, rfl, hread, hfold, hboot2, hread2⟩

set_option maxRecDepth 100000 in
/-- Claim C13 on `bootExample`: address `0x0000` reads the boot byte `0x31`
before, and the cartridge byte `0xC3` after the writes `0x01`, then `0x02` and
`0x00`, to `0xFF50`. -/
theorem boot_disable_one_shot_witness :
    Read8 bootExample 0x0000 = .ok 0x31 ∧
    ∃ gb1 gb2, Write8 bootExample 0xFF50 0x01 = .ok gb1 ∧
      [0x02, 0x00].foldlM (fun g w => Write8 g 0xFF50 w) gb1 = .ok gb2 ∧
      gb1.InBootROM = false ∧ Read8 gb1 0x0000 = .ok 0xC3 ∧
      gb2.InBootROM = false ∧ Read8 gb2 0x0000 = .ok 0xC3 := by
  obtain ⟨gb1, gb2, h1, h2, h3, h4, h5, h6⟩ :=
    boot_disable_one_shot bootExample 0x01 [0x02, 0x00] rfl rfl (by decide)
  exact ⟨rfl, gb1, gb2, h1, h4, h2, h3 0 (by decide), h5, h6 0 (by decide)⟩

set_option maxRecDepth 100000 in
/-- Claim C14 on the code, at the end of a page and at an I/O address.  On
`busExample` the bytes at `0x3FFF` and `0x4000` read `0x34` and `0x00`, but
`MemoryBus::Read16(0x3FFF)` does not return `0x0034`: `MBC::Read16` takes both
bytes from the page of `0x3FFF`, and the access `at(0x4000)` is out of range.
And `0xFF40`, `0xFF41` read `LCDC = 0x91` and `STAT = 0x85`, but
`MemoryBus::Read16(0xFF40)` skips the I/O dispatch and ends in `MBC::GetPage`
with an address for which it has no `return`.  Inside a page the two agree:
`Read16(0x3FFE)` is `0x3400`. -/
theorem Read16_skips_dispatch :
    Read8 busExample 0x3FFF = .ok 0x34 ∧ Read8 busExample 0x4000 = .ok 0x00 ∧
    Read16 busExample 0x3FFF = .error .out_of_range ∧
    Read8 busExample 0xFF40 = .ok 0x91 ∧ Read8 busExample 0xFF41 = .ok 0x85 ∧
    Read16 busExample 0xFF40 = .error .undefined ∧
    Read8 busExample 0x3FFE = .ok 0x00 ∧ Read16 busExample 0x3FFE = .ok 0x3400 :=
  ⟨rfl, rfl, rfl, rfl, rfl, rfl, rfl, rfl⟩

set_option maxRecDepth 100000 in
/-- Claim C15 on the code.  On `mbc1Example`, `MemoryBus::Write16(0x2000, 0x0503)`
stores the bytes `0x03`, `0x05` in ROM bank 0 and leaves the bank register at 1,
whereas `Write8(0x2000, 0x03)` followed by `Write8(0x2001, 0x05)` leaves the ROM
bytes as they were and sets the bank register to 5.  And
`MemoryBus::Write16(0xFF42, 0x1234)` skips the I/O dispatch and ends in
`MBC::GetPage` with an address for which it has no `return`, whereas the two
8-bit writes set `SCY = 0x34` and `SCX = 0x12`. -/
theorem Write16_skips_dispatch :
    (∃ g, Write16 mbc1Example 0x2000 0x0503 = .ok g ∧ g.mbc.romBank = 1 ∧
      g.mbc.romBank0.bytes 0x2000 = 0x03 ∧ g.mbc.romBank0.bytes 0x2001 = 0x05) ∧
    (∃ g, (Write8 mbc1Example 0x2000 0x03 >>= fun g1 => Write8 g1 0x2001 0x05) = .ok g ∧
      g.mbc.romBank = 5 ∧
      g.mbc.romBank0.bytes 0x2000 = 0x00 ∧ g.mbc.romBank0.bytes 0x2001 = 0x00) ∧
    Write16 mbc1Example 0xFF42 0x1234 = .error .undefined ∧
    (∃ g, (Write8 mbc1Example 0xFF42 0x34 >>= fun g1 => Write8 g1 0xFF43 0x12) = .ok g ∧
      g.ppu.SCY = 0x34 ∧ g.ppu.SCX = 0x12) :=
  ⟨⟨_, rfl, rfl, rfl, rfl⟩, ⟨_, rfl, rfl, rfl, rfl⟩, rfl, ⟨_, rfl, rfl, rfl⟩⟩

/-- Claim C16.  Let `v <= 0xDF` and let every address `(v << 8) + i`, `i < 160`,
of the source window be readable, with value `f i`.  Then
`MemoryBus::Write8(0xFF46, v)` returns, every `0xFE00 + i` with `i < 160` then
reads `f i`, and the machine differs from the one before only in the bytes of the
OAM page: the registers of the processor and of the PPU are the same, and every
address below `0xE000` reads as before. -/
theorem oam_dma_copies (gb : GameBoy) (v : Nat) (f : Nat → Nat) (hv : v ≤ 0xDF)
    (hb : gb.mbc.oam.base = 0xFE00) (hs : gb.mbc.oam.size = 0xA0)
    (hsrc : ∀ i < 0xA0, Read8 gb ((v <<< 8) + i) = .ok (f i)) :
    ∃ gb', Write8 gb 0xFF46 v = .ok gb' ∧
      (∀ i < 0xA0, Read8 gb' (0xFE00 + i) = .ok (f i)) ∧
      gb' = { gb with mbc := { gb.mbc with oam := { gb.mbc.oam with
        bytes := gb'.mbc.oam.bytes } } } ∧
      (∀ j, 0xA0 ≤ j → gb'.mbc.oam.bytes j = gb.mbc.oam.bytes j) ∧
      gb'.processor = gb.processor ∧ gb'.ppu = gb.ppu ∧
      (∀ a < 0xE000, Read8 gb' a = Read8 gb a) := by
  refine ⟨withOam gb f 0xA0, Write8_FF46 gb v f hv hb hs hsrc, ?_, rfl, ?_, rfl, rfl, ?_⟩
  · intro i hi
    rw [Read8_oam (withOam gb f 0xA0) i hi hb hs]
    show Except.ok (if i < 0xA0 then f i else gb.mbc.oam.bytes i) = _
    rw [if_pos hi]
  · intro j hj
    show (if j < 0xA0 then f j else gb.mbc.oam.bytes j) = _
    rw [if_neg (by omega)]
  · intro a ha
    exact Read8_set_oam gb _ a ha

set_option maxRecDepth 100000 in
/-- Claim C16 on `dmaExample` with `v = 0xC0`: the bytes of `0xC000..0xC09F` are
`0x00..0x9F`, and after the transfer `0xFE00` reads `0x00` and `0xFE9F` reads
`0x9F`. -/
theorem oam_dma_copies_witness :
    ∃ gb', Write8 dmaExample 0xFF46 0xC0 = .ok gb' ∧
      Read8 gb' 0xFE00 = .ok 0x00 ∧ Read8 gb' 0xFE9F = .ok 0x9F := by
  obtain ⟨gb', h1, h2, -⟩ := oam_dma_copies dmaExample 0xC0 (fun i => i) (by decide) rfl rfl
    (by intro i hi; interval_cases i <;> rfl)
  exact ⟨gb', h1, h2 0 (by decide), h2 0x9F (by decide)⟩

/-- Claim C17.  On an `MBC1`, a write of any byte `d` to an address of
`0x2000..0x3FFF` returns and changes only the ROM bank register, which then is
in `1..31`, and is 1 for `d = 0x00`.  In that case, with `selectedBank = 0` and
the banks being those that `MBC1::Load` made of a cartridge image (header code
`RomSize <= 6`, all banks present), every read of `0x4000 + k`, `k < 0x4000`,
returns byte `0x4000 + k` of the image. -/
theorem MBC1_rom_bank_never_zero (gb : GameBoy) (a d : Nat) (hkind : gb.mbc.kind = .MBC1)
    (ha : 0x2000 ≤ a ∧ a ≤ 0x3FFF) (hd : d < 256) :
    ∃ gb', Write8 gb a d = .ok gb' ∧
      gb' = { gb with mbc := { gb.mbc with romBank := gb'.mbc.romBank } } ∧
      1 ≤ gb'.mbc.romBank ∧ gb'.mbc.romBank ≤ 31 ∧
      (d = 0x00 → gb'.mbc.romBank = 1) ∧
      (d = 0x00 → gb.mbc.selectedBank = 0 →
        ∀ (rom : Rom) (m : MBC), rom.RomSize ≤ 6 → 0x8000 * 2 ^ rom.RomSize ≤ rom.bytes.length →
          MBC.Load_MBC1 MBC.constructed1 rom = .ok m →
          gb.mbc.switchableBanks = m.switchableBanks →
          ∀ k < 0x4000, Read8 gb' (0x4000 + k) = .ok (rom.bytes.getD (0x4000 + k) 0)) := by
  obtain ⟨h1, h2⟩ := rom_bank_range d hd
  refine ⟨_, Write8_MBC1_bank gb a d hkind ha, rfl, h1, h2, ?_, ?_⟩
  · intro h0
    rw [h0]
    rfl
  · intro h0 hsel rom m hsize hlen hload hbanks k hk
    obtain ⟨hres, -⟩ := Load_MBC1_result rom hsize hlen
    have hm : m = loadedMBC1 rom := by
      rw [hres] at hload
      cases hload
      rfl
    obtain ⟨hp1, hp2⟩ := two_pow_le_64 rom.RomSize hsize
    have hrb : (if (d &&& 0x0F) = 0x00 then (d + 1) % 256 else d) &&& 0x1F = 1 := by
      rw [h0]; rfl
    have hB : ∀ mode : Bool, (if mode = true then 1 else (0 <<< 5) ||| 1) = 1 := by
      intro mode; cases mode <;> rfl
    have hread := Read8_MBC1_high
      { gb with mbc := { gb.mbc with
        romBank := (if (d &&& 0x0F) = 0x00 then (d + 1) % 256 else d) &&& 0x1F } }
      rom ((32 * 2 ^ rom.RomSize / 16) % 256 - 1) k hkind
      (by rw [← show (loadedMBC1 rom).switchableBanks = loadedBanks rom _ from rfl, ← hm]
          exact hbanks)
      h1 h2 (by show gb.mbc.selectedBank ≤ 3; omega) hk
      (by
        show (if gb.mbc.ramBanking = true
          then (if (d &&& 0x0F) = 0x00 then (d + 1) % 256 else d) &&& 0x1F
          else (gb.mbc.selectedBank <<< 5) |||
            ((if (d &&& 0x0F) = 0x00 then (d + 1) % 256 else d) &&& 0x1F)) ≤ _
        rw [hrb, hsel, hB]
        omega)
    rw [hread]
    show Except.ok (rom.bytes.getD (0x4000 * (if gb.mbc.ramBanking = true
          then (if (d &&& 0x0F) = 0x00 then (d + 1) % 256 else d) &&& 0x1F
          else (gb.mbc.selectedBank <<< 5) |||
            ((if (d &&& 0x0F) = 0x00 then (d + 1) % 256 else d) &&& 0x1F)) + k) 0) = _
    rw [hrb, hsel, hB]

set_option maxRecDepth 100000 in
/-- Claim C17 on `mbc1Example`: the write of `0x00` to `0x2000` selects bank 1,
and `0x4000` then reads the byte `0x01` of bank 1. -/
theorem MBC1_rom_bank_never_zero_witness :
    ∃ gb', Write8 mbc1Example 0x2000 0x00 = .ok gb' ∧ gb'.mbc.romBank = 1 ∧
      Read8 gb' 0x4000 = .ok 0x01 := by
  obtain ⟨gb', h1, h2, -, -, h5, -⟩ :=
    MBC1_rom_bank_never_zero mbc1Example 0x2000 0x00 rfl (by decide) (by decide)
  refine ⟨gb', h1, h5 rfl, ?_⟩
  rw [h2, h5 rfl]
  rfl

set_option maxRecDepth 100000 in
/-- Claim C18 on the code.  `MBC1::Write8` tests `data & 0x0F`, not `data & 0x1F`,
before it increments: on `mbc1Example` the write of `0x10` to `0x2000` leaves the
bank register at `0x11` although `0x10 & 0x1F` is `0x10`, not zero.  The writes
of `0x20` and of `0x13` give 1 and `0x13`. -/
theorem MBC1_bank_write_tests_low_nibble :
    (∃ g, Write8 mbc1Example 0x2000 0x10 = .ok g ∧ g.mbc.romBank = 0x11) ∧
    0x10 &&& 0x1F = 0x10 ∧
    (∃ g, Write8 mbc1Example 0x2000 0x20 = .ok g ∧ g.mbc.romBank = 0x01) ∧
    (∃ g, Write8 mbc1Example 0x2000 0x13 = .ok g ∧ g.mbc.romBank = 0x13) :=
  ⟨⟨_, rfl, rfl⟩, by decide, ⟨_, rfl, rfl⟩, ⟨_, rfl, rfl⟩⟩

set_option maxRecDepth 100000 in
/-- Claim C19 on the code.  `MBC1::Write8` stores the byte written to
`0x4000..0x5FFF` unmasked: on `mbc1Example` the write of `0x04` leaves
`selectedBank = 0x04` although `0x04 & 0x03` is 0.  With external RAM enabled
and RAM banking mode set, a read of `0xA000` then indexes `ramBanks[4]`, outside
the array of four, where after the write of `0x03` it reads bank 3; and in ROM
banking mode after the write of `0xFF` a read of `0x4000` asks for the bank with
index `0x1FE0`, which `at` refuses. -/
theorem MBC1_upper_bank_unmasked :
    (∃ g, Write8 mbc1Example 0x4000 0x04 = .ok g ∧ g.mbc.selectedBank = 0x04) ∧
    0x04 &&& 0x03 = 0x00 ∧
    (Write8 mbc1Example 0x0000 0x0A >>= fun g => Write8 g 0x6000 0x01 >>= fun g =>
      Write8 g 0x4000 0x04 >>= fun g => Read8 g 0xA000) = .error .undefined ∧
    (Write8 mbc1Example 0x0000 0x0A >>= fun g => Write8 g 0x6000 0x01 >>= fun g =>
      Write8 g 0x4000 0x03 >>= fun g => Read8 g 0xA000) = .ok 0x00 ∧
    (Write8 mbc1Example 0x4000 0xFF >>= fun g => Read8 g 0x4000) = .error .out_of_range ∧
    (0x01 - 1) ||| (0xFF <<< 5) = 0x1FE0 :=
  ⟨⟨_, rfl, rfl⟩, by decide, rfl, rfl, rfl, by decide⟩

/-- Claim C20.  Let a cartridge image have the header code `RomSize <= 6` and the
bytes of all its `2 * 2^RomSize` banks.  Then `MBC1::Load` returns, with that
bank count; and on an `MBC1` holding the banks it loaded, for `romBank` in
`1..31`, `selectedBank` in `0..3` and `k < 0x4000`, a read of `0x4000 + k`
returns byte `0x4000 * B + k` of the image, where `B` is
`(selectedBank << 5) | romBank` in ROM banking mode and `romBank` in RAM banking
mode, provided `B` is below the bank count. -/
theorem MBC1_high_range_read (rom : Rom) (hsize : rom.RomSize ≤ 6)
    (hlen : 0x8000 * 2 ^ rom.RomSize ≤ rom.bytes.length) :
    ∃ m, MBC.Load_MBC1 MBC.constructed1 rom = .ok m ∧
      m.kind = .MBC1 ∧ m.numBanks = 2 * 2 ^ rom.RomSize ∧
      m.romBank = 1 ∧ m.selectedBank = 0 ∧ m.ramBanking = false ∧
      ∀ (gb : GameBoy) (k : Nat), gb.mbc.kind = .MBC1 →
        gb.mbc.switchableBanks = m.switchableBanks →
        1 ≤ gb.mbc.romBank → gb.mbc.romBank ≤ 31 → gb.mbc.selectedBank ≤ 3 → k < 0x4000 →
        (if gb.mbc.ramBanking = true then gb.mbc.romBank
          else (gb.mbc.selectedBank <<< 5) ||| gb.mbc.romBank) < m.numBanks →
        Read8 gb (0x4000 + k) = .ok (rom.bytes.getD (0x4000 *
          (if gb.mbc.ramBanking = true then gb.mbc.romBank
            else (gb.mbc.selectedBank <<< 5) ||| gb.mbc.romBank) + k) 0) := by
  obtain ⟨hload, hnum⟩ := Load_MBC1_result rom hsize hlen
  refine ⟨loadedMBC1 rom, hload, rfl, hnum, rfl, rfl, rfl, ?_⟩
  intro gb k hkind hbanks hlo1 hlo hhi hk hB
  have hB' : (if gb.mbc.ramBanking = true then gb.mbc.romBank
      else (gb.mbc.selectedBank <<< 5) ||| gb.mbc.romBank) ≤
      (32 * 2 ^ rom.RomSize / 16) % 256 - 1 := by
    have hn : (loadedMBC1 rom).numBanks = (32 * 2 ^ rom.RomSize / 16) % 256 := rfl
    rw [hn] at hB
    omega
  exact Read8_MBC1_high gb rom _ k hkind hbanks hlo1 hlo hhi hk hB'

set_option maxRecDepth 100000 in
/-- Claim C20 on `smallRom` (two banks of bytes `0xC3`): after `MBC1::Load` the
addresses `0x4000` and `0x7FFF` read `0xC3`. -/
theorem MBC1_high_range_read_witness :
    ∃ m, MBC.Load_MBC1 MBC.constructed1 smallRom = .ok m ∧ m.numBanks = 2 ∧
      Read8 { mbc1Example with mbc := m } 0x4000 = .ok 0xC3 ∧
      Read8 { mbc1Example with mbc := m } 0x7FFF = .ok 0xC3 := by
  obtain ⟨m, hload, hkind, hnum, hrb, hsb, hmode, hread⟩ :=
    MBC1_high_range_read smallRom (by decide) (by rw [smallRom_length]; decide)
  have hB : (if m.ramBanking = true then m.romBank else (m.selectedBank <<< 5) ||| m.romBank) = 1 := by
    rw [hmode, hrb, hsb]; rfl
  have hB2 : (if m.ramBanking = true then m.romBank else (m.selectedBank <<< 5) ||| m.romBank)
      < m.numBanks := by
    rw [hB, hnum]; decide
  have h0 := hread { mbc1Example with mbc := m } 0 hkind rfl (by rw [hrb]) (by rw [hrb]; decide)
    (by rw [hsb]; decide) (by decide) hB2
  have h1 := hread { mbc1Example with mbc := m } 0x3FFF hkind rfl (by rw [hrb]) (by rw [hrb]; decide)
    (by rw [hsb]; decide) (by decide) hB2
  refine ⟨m, hload, by rw [hnum]; rfl, ?_, ?_⟩
  · rw [h0]
    show Except.ok (smallRom.bytes.getD (0x4000 * (if m.ramBanking = true then m.romBank
      else (m.selectedBank <<< 5) ||| m.romBank) + 0) 0) = _
    rw [hB, smallRom_byte _ (by decide)]
  · rw [h1]
    show Except.ok (smallRom.bytes.getD (0x4000 * (if m.ramBanking = true then m.romBank
      else (m.selectedBank <<< 5) ||| m.romBank) + 0x3FFF) 0) = _
    rw [hB, smallRom_byte _ (by decide)]

/-- A read of the external RAM range on an `MBC1` whose RAM-enable latch is
off: the byte of bank 0. -/
theorem Read8_MBC1_ram_disabled (gb : GameBoy) (pg : MemoryPage) (a : Nat)
    (hk : gb.mbc.kind = .MBC1) (hoff : gb.mbc.extRamEnabled = false)
    (hpg : gb.mbc.ramBanks[0]? = some pg) (hb : pg.base = 0xA000) (hs : pg.size = 0x2000)
    (ha : 0xA000 ≤ a ∧ a ≤ 0xBFFF) :
    Read8 gb a = .ok (pg.bytes (a - 0xA000)) := by
  have hlen : 0 < gb.mbc.ramBanks.length := by
    rcases hl : gb.mbc.ramBanks with _ | ⟨p, ps⟩
    · rw [hl] at hpg
      cases hpg
    · simp
  have hget : MBC.GetPage_MBC1 gb.mbc a = .ok (.ramBanks 0) := by
    unfold MBC.GetPage_MBC1
    rw [if_neg (by omega), if_pos (by omega), hoff]
    simp only [Bool.not_false, Bool.true_or, if_true]
    rw [if_pos hlen]
  have haddr : (a + 65536 - 0xA000 % 65536) % 65536 = a - 0xA000 := by omega
  rw [Read8_below gb a (by omega)]
  unfold MBC.Read8
  rw [hk]
  show gb.mbc.Read8_MBC a = _
  unfold MBC.Read8_MBC MBC.GetPage
  rw [hk]
  show (do
    let ref ← MBC.GetPage_MBC1 gb.mbc a
    let p ← gb.mbc.page ref
    p.read ((a + 65536 - p.base % 65536) % 65536)) = _
  rw [hget, except_ok_bind]
  unfold MBC.page
  simp only [hpg]
  rw [except_ok_bind, hb, haddr]
  unfold MemoryPage.read
  rw [if_pos (by omega)]

/-- A write to the external RAM range on an `MBC1` whose RAM-enable latch is
off: the byte goes to bank 0. -/
theorem Write8_MBC1_ram_disabled (gb : GameBoy) (pg : MemoryPage) (a d : Nat)
    (hk : gb.mbc.kind = .MBC1) (hoff : gb.mbc.extRamEnabled = false)
    (hpg : gb.mbc.ramBanks[0]? = some pg) (hb : pg.base = 0xA000) (hs : pg.size = 0x2000)
    (ha : 0xA000 ≤ a ∧ a ≤ 0xBFFF) :
    Write8 gb a d = .ok { gb with mbc := { gb.mbc with
      ramBanks := gb.mbc.ramBanks.set 0
        { pg with bytes := Function.update pg.bytes (a - 0xA000) d } } } := by
  have hlen : 0 < gb.mbc.ramBanks.length := by
    rcases hl : gb.mbc.ramBanks with _ | ⟨p, ps⟩
    · rw [hl] at hpg
      cases hpg
    · simp
  have hget : MBC.GetPage_MBC1 gb.mbc a = .ok (.ramBanks 0) := by
    unfold MBC.GetPage_MBC1
    rw [if_neg (by omega), if_pos (by omega), hoff]
    simp only [Bool.not_false, Bool.true_or, if_true]
    rw [if_pos hlen]
  have haddr : (a + 65536 - 0xA000 % 65536) % 65536 = a - 0xA000 := by omega
  have e : gb.mbc.Write8 a d = MBC.Write8_MBC gb.mbc a d := by
    unfold MBC.Write8
    rw [hk]
    unfold MBC.Write8_MBC1
    rw [if_neg (by omega), if_neg (by omega), if_neg (by omega), if_neg (by omega)]
  have hw : MBC.Write8_MBC gb.mbc a d = .ok { gb.mbc with
      ramBanks := gb.mbc.ramBanks.set 0
        { pg with bytes := Function.update pg.bytes (a - 0xA000) d } } := by
    unfold MBC.Write8_MBC MBC.GetPage
    rw [hk]
    show (do
      let ref ← MBC.GetPage_MBC1 gb.mbc a
      let p ← gb.mbc.page ref
      let p' ← p.write ((a + 65536 - p.base % 65536) % 65536) d
      pure (gb.mbc.setPage ref p')) = _
    rw [hget, except_ok_bind]
    unfold MBC.page
    simp only [hpg]
    rw [except_ok_bind, hb, haddr]
    unfold MemoryPage.write
    rw [if_pos (by omega), except_ok_bind, hb]
    rfl
  rw [Write8_below gb a d (by omega), e, hw]
  rfl

/-- Claim C21 as the code has it.  On an `MBC1` whose RAM-enable latch is off,
for every address `a` in `0xA000..0xBFFF`, `MemoryBus::Read8(a)` returns the
byte at offset `a - 0xA000` of external RAM bank 0, whatever `selectedBank` and
the banking mode are (the stored byte, not a fixed `0xFF`), and
`MemoryBus::Write8(a, d)` stores `d` at that offset of bank 0 and changes nothing
else, so that `Read8(a)` returns `d` afterwards.  The latch is what the last
write to `0x0000..0x1FFF` left: set iff the low nibble written was `0xA`. -/
theorem MBC1_disabled_ram_reads_bank0 (gb : GameBoy) (pg : MemoryPage) (a : Nat)
    (hk : gb.mbc.kind = .MBC1) (hoff : gb.mbc.extRamEnabled = false)
    (hpg : gb.mbc.ramBanks[0]? = some pg) (hb : pg.base = 0xA000) (hs : pg.size = 0x2000)
    (ha : 0xA000 ≤ a ∧ a ≤ 0xBFFF) :
    Read8 gb a = .ok (pg.bytes (a - 0xA000)) ∧
    (∀ d, ∃ gb', Write8 gb a d = .ok gb' ∧
      gb' = { gb with mbc := { gb.mbc with
        ramBanks := gb.mbc.ramBanks.set 0
          { pg with bytes := Function.update pg.bytes (a - 0xA000) d } } } ∧
      gb'.mbc.extRamEnabled = false ∧ Read8 gb' a = .ok d) ∧
    (∀ w d, w ≤ 0x1FFF → ∃ gb', Write8 gb w d = .ok gb' ∧
      (gb'.mbc.extRamEnabled = true ↔ d &&& 0xF = 0xA)) := by
  refine ⟨Read8_MBC1_ram_disabled gb pg a hk hoff hpg hb hs ha, ?_, ?_⟩
  · intro d
    have hlen : 0 < gb.mbc.ramBanks.length := by
      rcases hl : gb.mbc.ramBanks with _ | ⟨p, ps⟩
      · rw [hl] at hpg
        cases hpg
      · simp
    refine ⟨_, Write8_MBC1_ram_disabled gb pg a d hk hoff hpg hb hs ha, rfl, hoff, ?_⟩
    have hr := Read8_MBC1_ram_disabled
      { gb with mbc := { gb.mbc with
        ramBanks := gb.mbc.ramBanks.set 0
          { pg with bytes := Function.update pg.bytes (a - 0xA000) d } } }
      { pg with bytes := Function.update pg.bytes (a - 0xA000) d } a hk hoff
      (List.getElem?_set_self hlen)
      hb hs ha
    rw [hr]
    dsimp only
    rw [Function.update_same]
  · intro w d hw
    have e : gb.mbc.Write8 w d = MBC.Write8_MBC1 gb.mbc w d := by unfold MBC.Write8; rw [hk]
    rw [Write8_below gb w d (by omega), e]
    unfold MBC.Write8_MBC1
    rw [if_pos hw]
    by_cases hd : d &&& 0xF = 0xA
    · rw [if_pos hd]
      exact ⟨_, rfl, fun _ => hd, fun _ => rfl⟩
    · rw [if_neg hd]
      refine ⟨_, rfl, fun h => ?_, fun h => absurd h hd⟩
      cases h

set_option maxRecDepth 100000 in
/-- Claim C21 on `mbc1Example`, whose latch is off and whose RAM is zero:
`0xA000` reads `0x00`, and after the write of `0x42` it reads `0x42`. -/
theorem MBC1_disabled_ram_reads_bank0_witness :
    Read8 mbc1Example 0xA000 = .ok 0x00 ∧
    ∃ g, Write8 mbc1Example 0xA000 0x42 = .ok g ∧ Read8 g 0xA000 = .ok 0x42 := by
  obtain ⟨h1, h2, -⟩ :=
    MBC1_disabled_ram_reads_bank0 mbc1Example (MemoryPage.new 0xA000 0x2000) 0xA000 rfl rfl rfl
      rfl rfl (by decide)
  obtain ⟨g, hw, -, -, hr⟩ := h2 0x42
  exact ⟨h1, g, hw, hr⟩

set_option maxRecDepth 100000 in
/-- Claim C21 fails on `mbc1Example`: the RAM-enable latch is off, and `0xA000`
reads `0x00`; after the write of `0x42` to `0xA000` (the latch still off) it
reads `0x42`.  Neither is `0xFF`. -/
theorem MBC1_disabled_ram_not_FF :
    mbc1Example.mbc.extRamEnabled = false ∧
    Read8 mbc1Example 0xA000 = .ok 0x00 ∧
    (∃ g, Write8 mbc1Example 0xA000 0x42 = .ok g ∧ g.mbc.extRamEnabled = false ∧
      Read8 g 0xA000 = .ok 0x42) ∧
    (0x00 : Nat) ≠ 0xFF ∧ (0x42 : Nat) ≠ 0xFF :=
  ⟨rfl, rfl, ⟨_, rfl, rfl, rfl⟩, by decide, by decide⟩

/-- Claim C22.  On an `MBC1` or `MBC3`, `MemoryBus::Write8(w, d)` with `w` in
`0x0000..0x7FFF` returns and changes nothing but the four bank registers: the
pages of ROM bank 0, VRAM, external RAM, WRAM, OAM and HRAM, the switchable ROM
banks and everything outside the controller are the same, and every address `a`
in `0x0000..0x3FFF` reads as before. -/
theorem bank_switch_keeps_bank0 (gb : GameBoy) (w d : Nat)
    (hk : gb.mbc.kind = .MBC1 ∨ gb.mbc.kind = .MBC3) (hw : w ≤ 0x7FFF) :
    ∃ gb', Write8 gb w d = .ok gb' ∧
      gb' = { gb with mbc := gb'.mbc } ∧
      gb'.mbc = { gb.mbc with romBank := gb'.mbc.romBank, selectedBank := gb'.mbc.selectedBank,
                              extRamEnabled := gb'.mbc.extRamEnabled,
                              ramBanking := gb'.mbc.ramBanking } ∧
      gb'.mbc.romBank0 = gb.mbc.romBank0 ∧ gb'.mbc.vram = gb.mbc.vram ∧
      gb'.mbc.sram = gb.mbc.sram ∧ gb'.mbc.ramBanks = gb.mbc.ramBanks ∧
      gb'.mbc.wram = gb.mbc.wram ∧ gb'.mbc.oam = gb.mbc.oam ∧
      gb'.mbc.highRam = gb.mbc.highRam ∧
      (∀ a ≤ 0x3FFF, Read8 gb' a = Read8 gb a) := by
  obtain ⟨m', hm, hshape⟩ := MBC_Write8_banked_regs gb.mbc w d hk hw
  have hwrite : Write8 gb w d = .ok { gb with mbc := m' } := by
    rw [Write8_below gb w d (by omega), hm]
    rfl
  have hrom : m'.romBank0 = gb.mbc.romBank0 := by rw [hshape]
  refine ⟨{ gb with mbc := m' }, hwrite, rfl, hshape, hrom, by rw [hshape], by rw [hshape],
    by rw [hshape], by rw [hshape], by rw [hshape], by rw [hshape], ?_⟩
  intro a ha
  rw [Read8_below _ a (by omega), Read8_below gb a (by omega), MBC_Read8_fixed _ a ha,
    MBC_Read8_fixed gb.mbc a ha]
  show m'.romBank0.read _ = _
  rw [hrom]

set_option maxRecDepth 100000 in
/-- Claim C22 on `mbc1Example`: after the write of `0x02` to `0x2000` the address
`0x0000` reads as before. -/
theorem bank_switch_keeps_bank0_witness :
    ∃ gb', Write8 mbc1Example 0x2000 0x02 = .ok gb' ∧
      Read8 gb' 0x0000 = Read8 mbc1Example 0x0000 ∧ gb'.mbc.wram = mbc1Example.mbc.wram := by
  obtain ⟨gb', h1, -, -, -, -, -, -, h8, -, -, h11⟩ :=
    bank_switch_keeps_bank0 mbc1Example 0x2000 0x02 (Or.inl rfl) (by decide)
  exact ⟨gb', h1, h11 0 (by decide), h8⟩

/-- Claim C23 as the code has it.  On a cartridge without a controller (class
`MBC`) with the two ROM pages as constructed, `MemoryBus::Write8(a, d)` with `a`
in `0x0000..0x7FFF` stores `d` in the ROM page: afterwards `Read8(a)` returns
`d`, and every other `x` in `0x0000..0x7FFF` reads as before. -/
theorem ROM_only_write_stores (gb : GameBoy) (a d : Nat) (hk : gb.mbc.kind = .MBC)
    (ha : a ≤ 0x7FFF)
    (hb0 : gb.mbc.romBank0.base = 0) (hs0 : gb.mbc.romBank0.size = 0x4000)
    (hb1 : gb.mbc.romBank1.base = 0x4000) (hs1 : gb.mbc.romBank1.size = 0x4000) :
    ∃ gb', Write8 gb a d = .ok gb' ∧ Read8 gb' a = .ok d ∧
      (∀ x ≤ 0x7FFF, x ≠ a → Read8 gb' x = Read8 gb x) := by
  by_cases h : a ≤ 0x3FFF
  · have hw : Write8 gb a d = .ok { gb with mbc := { gb.mbc with romBank0 :=
        { gb.mbc.romBank0 with bytes := Function.update gb.mbc.romBank0.bytes a d } } } := by
      rw [Write8_below gb a d (by omega), MBC_Write8_rom0 gb.mbc a d hk h hb0 hs0]
      rfl
    have hr := Read8_rom_MBC { gb with mbc := { gb.mbc with romBank0 :=
        { gb.mbc.romBank0 with bytes := Function.update gb.mbc.romBank0.bytes a d } } }
    refine ⟨_, hw, ?_, ?_⟩
    · rw [hr a hk ha hb0 hs0 hb1 hs1, if_pos h]
      show Except.ok (Function.update gb.mbc.romBank0.bytes a d a) = _
      rw [Function.update_same]
    · intro x hx hne
      rw [hr x hk hx hb0 hs0 hb1 hs1, Read8_rom_MBC gb x hk hx hb0 hs0 hb1 hs1]
      by_cases hx0 : x ≤ 0x3FFF
      · rw [if_pos hx0, if_pos hx0]
        show Except.ok (Function.update gb.mbc.romBank0.bytes a d x) = _
        rw [Function.update_noteq hne]
      · rw [if_neg hx0, if_neg hx0]
  · have hw : Write8 gb a d = .ok { gb with mbc := { gb.mbc with romBank1 :=
        { gb.mbc.romBank1 with
          bytes := Function.update gb.mbc.romBank1.bytes (a - 0x4000) d } } } := by
      rw [Write8_below gb a d (by omega),
        MBC_Write8_rom1 gb.mbc a d hk (by omega) hb1 hs1]
      rfl
    have hr := Read8_rom_MBC { gb with mbc := { gb.mbc with romBank1 :=
        { gb.mbc.romBank1 with
          bytes := Function.update gb.mbc.romBank1.bytes (a - 0x4000) d } } }
    refine ⟨_, hw, ?_, ?_⟩
    · rw [hr a hk ha hb0 hs0 hb1 hs1, if_neg h]
      dsimp only
      rw [Function.update_same]
    · intro x hx hne
      rw [hr x hk hx hb0 hs0 hb1 hs1, Read8_rom_MBC gb x hk hx hb0 hs0 hb1 hs1]
      by_cases hx0 : x ≤ 0x3FFF
      · rw [if_pos hx0, if_pos hx0]
      · rw [if_neg hx0, if_neg hx0]
        dsimp only
        rw [Function.update_noteq (by omega)]

set_option maxRecDepth 100000 in
/-- Claim C23 on `busExample` (no controller): after the write of `0x42` to
`0x0150` that address reads `0x42`. -/
theorem ROM_only_write_stores_witness :
    ∃ gb', Write8 busExample 0x0150 0x42 = .ok gb' ∧ Read8 gb' 0x0150 = .ok 0x42 := by
  obtain ⟨gb', h1, h2, -⟩ :=
    ROM_only_write_stores busExample 0x0150 0x42 rfl (by decide) rfl rfl rfl rfl
  exact ⟨gb', h1, h2⟩

set_option maxRecDepth 100000 in
/-- Claim C23 fails on `busExample` (no controller): `0x0150` reads `0x00`, and
after `Write8(0x0150, 0x42)` it reads `0x42`. -/
theorem ROM_only_write_changes_ROM :
    busExample.mbc.kind = .MBC ∧ Read8 busExample 0x0150 = .ok 0x00 ∧
    ∃ g, Write8 busExample 0x0150 0x42 = .ok g ∧ Read8 g 0x0150 = .ok 0x42 :=
  ⟨rfl, rfl, _, rfl, rfl⟩

/-! ## The PPU -/

/-- Claim C24.  With bit 7 of `LCDC` clear, `PPU::Update(c)` returns for every
cycle count `c` with `LY = 0` and the cycle counter at 0, and changes nothing
else: the other registers of the PPU, `IF` and the rest of the machine are as
before.  Hence after any further sequence `cs` of calls `LY` is still 0. -/
theorem Update_lcd_off_keeps_LY (gb : GameBoy) (c : Int) (cs : List Int)
    (hoff : gb.ppu.LCDC &&& 0x80 = 0) :
    ∃ gb', PPU.Update gb c = .ok (0, gb') ∧
      gb' = { gb with ppu := { gb.ppu with frameCycles := 0, LY := 0 } } ∧
      gb'.ppu.LY = 0 ∧ gb'.ppu.frameCycles = 0 ∧
      gb'.processor.IF = gb.processor.IF ∧
      gb'.ppu.LCDC = gb.ppu.LCDC ∧ gb'.ppu.STAT = gb.ppu.STAT ∧ gb'.ppu.SCY = gb.ppu.SCY ∧
      gb'.ppu.SCX = gb.ppu.SCX ∧ gb'.ppu.LYC = gb.ppu.LYC ∧ gb'.ppu.WY = gb.ppu.WY ∧
      gb'.ppu.WX = gb.ppu.WX ∧
      ∃ gb'', PPU.UpdateAll gb' cs = .ok gb'' ∧ gb''.ppu.LY = 0 ∧ gb''.ppu.frameCycles = 0 :=
  ⟨_, PPU.Update_lcd_off gb c hoff, rfl, rfl, rfl, rfl, rfl, rfl, rfl, rfl, rfl, rfl, rfl,
    _, PPU.UpdateAll_lcd_off cs _ hoff rfl rfl, rfl, rfl⟩

set_option maxRecDepth 100000 in
/-- Claim C24 on `lcdOffExample` (`LY = 5`, 100 cycles counted): after
`Update(4)` and three more calls `LY` is 0. -/
theorem Update_lcd_off_keeps_LY_witness :
    lcdOffExample.ppu.LY = 5 ∧
    ∃ gb' gb'', PPU.Update lcdOffExample 4 = .ok (0, gb') ∧ gb'.ppu.LY = 0 ∧
      PPU.UpdateAll gb' [4, 8, 12] = .ok gb'' ∧ gb''.ppu.LY = 0 := by
  obtain ⟨gb', h1, -, h3, -, -, -, -, -, -, -, -, -, gb'', h4, h5, -⟩ :=
    Update_lcd_off_keeps_LY lcdOffExample 4 [4, 8, 12] rfl
  exact ⟨rfl, gb', gb'', h1, h3, h4, h5⟩

/-- Claim C25 as the code has it.  With bit 7 of `LCDC` clear, `PPU::Update`
leaves `STAT`, and with it the mode field `STAT & 0x03`, as it was: the branch
resets the cycle counter and `LY` only. -/
theorem Update_lcd_off_keeps_mode (gb : GameBoy) (c : Int)
    (hoff : gb.ppu.LCDC &&& 0x80 = 0) :
    ∃ gb', PPU.Update gb c = .ok (0, gb') ∧
      gb'.ppu.STAT = gb.ppu.STAT ∧ gb'.ppu.STAT &&& 0x03 = gb.ppu.STAT &&& 0x03 ∧
      gb'.ppu.LY = 0 ∧ gb'.ppu.frameCycles = 0 :=
  ⟨_, PPU.Update_lcd_off gb c hoff, rfl, rfl, rfl, rfl⟩

set_option maxRecDepth 100000 in
/-- Claim C25 on `lcdOffExample`: the mode is 1 before and after the call. -/
theorem Update_lcd_off_keeps_mode_witness :
    lcdOffExample.ppu.STAT &&& 0x03 = 1 ∧
    ∃ gb', PPU.Update lcdOffExample 4 = .ok (0, gb') ∧ gb'.ppu.STAT &&& 0x03 = 1 := by
  obtain ⟨gb', h1, -, h3, -⟩ := Update_lcd_off_keeps_mode lcdOffExample 4 rfl
  exact ⟨by decide, gb', h1, by rw [h3]; decide⟩

set_option maxRecDepth 100000 in
/-- Claim C25 fails on `lcdOffExample` (LCD off, mode 1): after `Update(4)` the
mode field is still 1, not 0. -/
theorem Update_lcd_off_mode_not_reset :
    lcdOffExample.ppu.LCDC &&& 0x80 = 0 ∧ lcdOffExample.ppu.STAT &&& 0x03 = 1 ∧
    ∃ gb', PPU.Update lcdOffExample 4 = .ok (0, gb') ∧ gb'.ppu.STAT &&& 0x03 = 1 ∧
      gb'.ppu.STAT &&& 0x03 ≠ 0 :=
  ⟨by decide, by decide, _, rfl, by decide, by decide⟩

/-- Claim C26.  With the LCD on, in mode 0 at `LY = 143`, a call `Update(c)`
that brings the counter above 207 and whose `DrawScanline` returns (a drawing
call can index outside a tile or a buffer) returns in mode 1 with `LY = 144`
and bit 0 of `IF` set, the bits 2 to 7 of `IF` being as before and bit 1 being
set when `LYC` is 144.  And a call of `Update` that returns without going from
mode 0 to mode 1 leaves bit 0 of `IF` as it was. -/
theorem VBlank_interrupt_on_entry (gb : GameBoy) (c : Int) (gbD : GameBoy)
    (hon : gb.ppu.LCDC &&& 0x80 ≠ 0) (hmode : gb.ppu.STAT &&& 0x03 = 0)
    (hLY : gb.ppu.LY = 143) (hc : gb.ppu.frameCycles + c > 207)
    (hdraw : PPU.DrawScanline
      { gb with ppu := { gb.ppu with frameCycles := gb.ppu.frameCycles + c } } = .ok gbD) :
    (∃ gb', PPU.Update gb c = .ok (0, gb') ∧
      gb'.ppu.STAT &&& 0x03 = 1 ∧ gb'.ppu.LY = 144 ∧
      gb'.processor.IF.testBit 0 = true ∧
      gb'.processor.IF.testBit 1 = (gb.processor.IF.testBit 1 || decide (gb.ppu.LYC = 144)) ∧
      ∀ k, 2 ≤ k → k < 8 → gb'.processor.IF.testBit k = gb.processor.IF.testBit k) ∧
    (∀ (g : GameBoy) (d r : Int) (g' : GameBoy), PPU.Update g d = .ok (r, g') →
      ¬ (g.ppu.STAT &&& 0x03 = 0 ∧ g'.ppu.STAT &&& 0x03 = 1) →
      g'.processor.IF.testBit 0 = g.processor.IF.testBit 0) := by
  refine ⟨?_, PPU.Update_keeps_IF_bit0⟩
  have h144 : (gb.ppu.LY + 1) % 256 = 144 := by rw [hLY]
  have b1 : Nat.testBit 0x01 0 = true := by decide
  have b2 : Nat.testBit 0x02 0 = false := by decide
  have b3 : Nat.testBit 0x01 1 = false := by decide
  have b4 : Nat.testBit 0x02 1 = true := by decide
  have hk1 : ∀ k, 2 ≤ k → Nat.testBit 0x01 k = false := fun k hk =>
    Nat.testBit_eq_false_of_lt (Nat.lt_of_lt_of_le (by decide : 1 < 2 ^ 2)
      (Nat.pow_le_pow_right (by decide) hk))
  have hk2 : ∀ k, 2 ≤ k → Nat.testBit 0x02 k = false := fun k hk =>
    Nat.testBit_eq_false_of_lt (Nat.lt_of_lt_of_le (by decide : 2 < 2 ^ 2)
      (Nat.pow_le_pow_right (by decide) hk))
  rw [PPU.Update_hblank gb c hon hmode, PPU.Update_HBLANK_eq _ gbD hc hdraw, except_ok_bind]
  refine ⟨_, rfl, ?_, h144, ?_, ?_, ?_⟩
  · dsimp only
    rw [if_pos h144]
    split_ifs
    · rw [PPU.mode_or_44, PPU.setMode_mode _ 1 (by decide)]
    · rw [PPU.mode_and_BB, PPU.setMode_mode _ 1 (by decide)]
  · dsimp only
    rw [if_pos h144]
    split_ifs
    · rw [PPU.testBit_or_mod256 _ _ 0 (by decide), PPU.testBit_or_mod256 _ _ 0 (by decide), b1]
      simp
    · rw [PPU.testBit_or_mod256 _ _ 0 (by decide), b1]
      simp
  · dsimp only
    rw [if_pos h144, h144]
    by_cases hl : 144 = gb.ppu.LYC
    · rw [if_pos hl, PPU.testBit_or_mod256 _ _ 1 (by decide), b4]
      simp [hl.symm]
    · have hl' : ¬ gb.ppu.LYC = 144 := fun e => hl e.symm
      rw [if_neg hl, PPU.testBit_or_mod256 _ _ 1 (by decide), b3]
      simp [hl']
  · intro k hk2' hk8
    dsimp only
    rw [if_pos h144]
    split_ifs
    · rw [PPU.testBit_or_mod256 _ _ k hk8, PPU.testBit_or_mod256 _ _ k hk8, hk1 k hk2', hk2 k hk2']
      simp
    · rw [PPU.testBit_or_mod256 _ _ k hk8, hk1 k hk2']
      simp

set_option maxRecDepth 1000000 in
/-- Claim C26 on `hblankExample` (`LY = 143`, 204 cycles counted, `IF = 0x14`):
`Update(4)` returns in mode 1 with `LY = 144` and `IF = 0x15`. -/
theorem VBlank_interrupt_on_entry_witness :
    hblankExample.ppu.LY = 143 ∧ hblankExample.processor.IF = 0x14 ∧
    ∃ gb', PPU.Update hblankExample 4 = .ok (0, gb') ∧
      gb'.ppu.STAT &&& 0x03 = 1 ∧ gb'.ppu.LY = 144 ∧ gb'.processor.IF.testBit 0 = true ∧
      gb'.processor.IF = 0x15 := by
  obtain ⟨⟨gb', h, hm, hl, hb, -, -⟩, -⟩ :=
    VBlank_interrupt_on_entry hblankExample 4
      { hblankExample with ppu := { hblankExample.ppu with frameCycles := 208 } }
      (by decide) (by decide) rfl (by decide) rfl
  have e : PPU.Update hblankExample 4 = .ok (0, _) := rfl
  refine ⟨rfl, rfl, gb', h, hm, hl, hb, ?_⟩
  rw [e] at h
  cases h
  rfl

/-- Claim C27, amended.  With the OAM page as constructed (base `0xFE00`, size
`0xA0`) and an empty list, `PPU::FetchScanlineSprites` returns for every OAM
content, `LY` and sprite height, and leaves in `ScanlineSprites` the first
`min(10, n)` entries, in OAM index order, of the `n` OAM sprites that are on
screen (`1 ≤ y < 160` and `1 ≤ x < 168`) and whose Y range contains the scanline
(`y ≤ LY + 16 < y + height`, with `LY + 16` in 8 bits); nothing else changes. -/
theorem FetchScanlineSprites_first_ten (gb : GameBoy)
    (hb : gb.mbc.oam.base = 0xFE00) (hs : gb.mbc.oam.size = 0xA0)
    (hempty : gb.ppu.ScanlineSprites = []) :
    ∃ gb', PPU.FetchScanlineSprites gb = .ok gb' ∧
      gb'.ppu.ScanlineSprites =
        (((List.range 40).map (oamSprite gb)).filter
          (fun s => decide (s.OnScreen ∧ s.OnLine gb.ppu.LCDC gb.ppu.LY))).take 10 ∧
      gb'.ppu.ScanlineSprites.length =
        min 10 (((List.range 40).map (oamSprite gb)).filter
          (fun s => decide (s.OnScreen ∧ s.OnLine gb.ppu.LCDC gb.ppu.LY))).length ∧
      gb' = { gb with ppu := { gb.ppu with ScanlineSprites := gb'.ppu.ScanlineSprites } } := by
  have h := PPU.FetchScanlineSprites_loop_eq (List.range 40) 0 gb
    (fun i hi => List.mem_range.mp hi) hb hs (by decide)
  rw [hempty, List.nil_append] at h
  exact ⟨_, h, rfl, List.length_take _ _, rfl⟩

set_option maxRecDepth 100000 in
/-- Claim C27 on `spriteExample`: 16 sprites are on the line `LY = 0`, and the
list has length 10 and holds the OAM entries 0 to 9 in this order. -/
theorem FetchScanlineSprites_first_ten_witness :
    (((List.range 40).map (oamSprite spriteExample)).filter
      (fun s => decide (s.OnScreen ∧ s.OnLine spriteExample.ppu.LCDC spriteExample.ppu.LY))).length
      = 16 ∧
    ∃ gb', PPU.FetchScanlineSprites spriteExample = .ok gb' ∧
      gb'.ppu.ScanlineSprites.length = 10 ∧
      gb'.ppu.ScanlineSprites = (List.range 10).map (oamSprite spriteExample) ∧
      gb'.ppu.ScanlineSprites.map Sprite.id = [0, 1, 2, 3, 4, 5, 6, 7, 8, 9] := by
  obtain ⟨gb', h, hl, hn, -⟩ := FetchScanlineSprites_first_ten spriteExample rfl rfl rfl
  have e : (((List.range 40).map (oamSprite spriteExample)).filter
      (fun s => decide (s.OnScreen ∧ s.OnLine spriteExample.ppu.LCDC spriteExample.ppu.LY)))
      = (List.range 16).map (oamSprite spriteExample) := rfl
  rw [e] at hl hn
  refine ⟨by rw [e]; rfl, gb', h, hn, hl, ?_⟩
  rw [hl]
  rfl

set_option maxRecDepth 100000 in
/-- Claim C27 as stated fails on `hiddenSpriteExample`: the OAM entry 0 has
`y = 16`, so its Y range contains the scanline `LY = 0` (`16 ≤ 0 + 16 < 16 + 8`),
but its `x` is 0 and `FetchScanlineSprites` leaves the list empty. -/
theorem FetchScanlineSprites_skips_offscreen :
    hiddenSpriteExample.ppu.ScanlineSprites = [] ∧
    hiddenSpriteExample.ppu.LCDC &&& 4 = 0 ∧
    (oamSprite hiddenSpriteExample 0)._x = 0 ∧
    (oamSprite hiddenSpriteExample 0)._y ≤ hiddenSpriteExample.ppu.LY + 16 ∧
    hiddenSpriteExample.ppu.LY + 16 < (oamSprite hiddenSpriteExample 0)._y + 8 ∧
    ∃ gb', PPU.FetchScanlineSprites hiddenSpriteExample = .ok gb' ∧
      gb'.ppu.ScanlineSprites = [] :=
  ⟨rfl, by decide, rfl, by decide, by decide, _, rfl, rfl⟩

/-- Claim C28.  For a tile of bytes `src` (each below 256), a row `y < 8` and a
column `x < 8`, `GetPixel(x, y)` on the tile that `Tile::Decode` made returns
`2 * b1 + b0`, where `b1` is bit `7 - x` of byte `2 y + 1` and `b0` is bit
`7 - x` of byte `2 y`; this is the pair of bits at position `14 - 2 x` of the
16-bit row, and it is at most 3. -/
theorem tile_decode_pixel (src : Nat → Nat) (x y : Nat) (hsrc : ∀ i, src i < 256)
    (hx : x < 8) (hy : y < 8) :
    (Tile.Decode src).GetPixel x y =
      .ok (2 * ((src ((y * 2) + 1) >>> (7 - x)) % 2) + (src (y * 2) >>> (7 - x)) % 2) ∧
    (Tile.Decode src).rows[y]? = some (Tile.Decode_row src y) ∧
    Tile.Decode_row src y < 65536 ∧
    (Tile.Decode src).GetPixel x y = .ok ((Tile.Decode_row src y >>> (14 - 2 * x)) % 4) ∧
    2 * ((src ((y * 2) + 1) >>> (7 - x)) % 2) + (src (y * 2) >>> (7 - x)) % 2 ≤ 3 := by
  have hget := GetPixel_Decode src x y hx hy
  have hbits := Decode_row_testBit src y (hsrc _) (hsrc _)
  have h1 := hbits (14 - 2 * x + 1) (by omega)
  have h0 := hbits (14 - 2 * x) (by omega)
  rw [if_neg (by omega), show (14 - 2 * x + 1) / 2 = 7 - x by omega] at h1
  rw [if_pos (by omega), show (14 - 2 * x) / 2 = 7 - x by omega] at h0
  have hval : (Tile.Decode_row src y >>> (14 - 2 * x)) % 4 =
      2 * ((src ((y * 2) + 1) >>> (7 - x)) % 2) + (src (y * 2) >>> (7 - x)) % 2 := by
    rw [pair_value, h1, h0, Nat.toNat_testBit, Nat.toNat_testBit, Nat.shiftRight_eq_div_pow,
      Nat.shiftRight_eq_div_pow]
  refine ⟨by rw [hget, hval], Decode_rows_get src y hy, Decode_row_lt src y, hget, ?_⟩
  omega

/-- Claim C28 on a tile whose bytes 0 and 1 are `0x80` and `0xC0`: in row 0 the
pixel of column 0 is 3 and the pixel of column 1 is 2. -/
theorem tile_decode_pixel_witness :
    (Tile.Decode (fun i => if i = 0 then 0x80 else if i = 1 then 0xC0 else 0)).GetPixel 0 0 =
      .ok 3 ∧
    (Tile.Decode (fun i => if i = 0 then 0x80 else if i = 1 then 0xC0 else 0)).GetPixel 1 0 =
      .ok 2 :=
  ⟨(tile_decode_pixel (fun i => if i = 0 then 0x80 else if i = 1 then 0xC0 else 0) 0 0
      (by intro i; dsimp only; split_ifs <;> decide) (by decide) (by decide)).1,
    (tile_decode_pixel (fun i => if i = 0 then 0x80 else if i = 1 then 0xC0 else 0) 1 0
      (by intro i; dsimp only; split_ifs <;> decide) (by decide) (by decide)).1⟩

/-- Claim C29 on the code: the V-Blank case of `PPU::Update` has no coincidence
check.  With the LCD on and the mode 1, every call returns with `IF`, `LYC` and
bits 2 and 6 of `STAT` as they were, whatever `LY` becomes; the check
`if(LY == LYC)` stands in the H-Blank case only. -/
theorem Update_VBLANK_skips_coincidence (gb : GameBoy) (c : Int)
    (hon : gb.ppu.LCDC &&& 0x80 ≠ 0) (hmode : gb.ppu.STAT &&& 0x03 = 1) :
    ∃ gb', PPU.Update gb c = .ok (0, gb') ∧
      gb'.processor.IF = gb.processor.IF ∧ gb'.ppu.LYC = gb.ppu.LYC ∧
      gb'.ppu.STAT.testBit 2 = gb.ppu.STAT.testBit 2 ∧
      gb'.ppu.STAT.testBit 6 = gb.ppu.STAT.testBit 6 := by
  refine ⟨_, PPU.Update_vblank gb c hon hmode, ?_⟩
  obtain ⟨hp, -, hl, -, hs⟩ := PPU.Update_VBLANK_frame
    { gb with ppu := { gb.ppu with frameCycles := gb.ppu.frameCycles + c } }
  refine ⟨congrArg Processor.IF hp, hl, ?_, ?_⟩
  · rcases hs with hs | hs
    · rw [hs]
    · rw [hs, PPU.setMode_testBit _ 2 2 (by decide) (by decide)]
      simp
  · rcases hs with hs | hs
    · rw [hs]
    · rw [hs, PPU.setMode_testBit _ 2 6 (by decide) (by decide)]
      simp

set_option maxRecDepth 100000 in
/-- Claim C29 on `vblankExample`.  At `LY = 144` with `LYC = 145` and 464 cycles
counted, `Update(4)` moves `LY` to 145, equal to `LYC`, and bit 2 of `STAT` and
bit 1 of `IF` stay clear; at `LY = 153` with `LYC = 0` and 4648 cycles counted,
`Update(4)` wraps `LY` to 0, equal to `LYC`, and they stay clear as well. -/
theorem Update_VBLANK_skips_coincidence_witness :
    (∃ gb', PPU.Update (vblankExample 144 145 464) 4 = .ok (0, gb') ∧
      gb'.ppu.LY = 145 ∧ gb'.ppu.LYC = 145 ∧
      gb'.ppu.STAT.testBit 2 = false ∧ gb'.processor.IF.testBit 1 = false) ∧
    (∃ gb', PPU.Update (vblankExample 153 0 4648) 4 = .ok (0, gb') ∧
      gb'.ppu.LY = 0 ∧ gb'.ppu.LYC = 0 ∧ gb'.ppu.STAT &&& 0x03 = 2 ∧
      gb'.ppu.STAT.testBit 2 = false ∧ gb'.processor.IF.testBit 1 = false) := by
  obtain ⟨g1, h1, i1, l1, s1, -⟩ :=
    Update_VBLANK_skips_coincidence (vblankExample 144 145 464) 4 (by decide) (by decide)
  obtain ⟨g2, h2, i2, l2, s2, -⟩ :=
    Update_VBLANK_skips_coincidence (vblankExample 153 0 4648) 4 (by decide) (by decide)
  have e1 : PPU.Update (vblankExample 144 145 464) 4 = .ok (0, _) := rfl
  have e2 : PPU.Update (vblankExample 153 0 4648) 4 = .ok (0, _) := rfl
  refine ⟨⟨g1, h1, ?_, l1, ?_, ?_⟩, ⟨g2, h2, ?_, l2, ?_, ?_, ?_⟩⟩
  · rw [e1] at h1; cases h1; rfl
  · rw [s1]; rfl
  · rw [i1]; rfl
  · rw [e2] at h2; cases h2; rfl
  · rw [e2] at h2; cases h2; rfl
  · rw [s2]; rfl
  · rw [i2]; rfl

/-- Claim C30 on the code: the V-Blank case of `PPU::Update` divides the counter
by 465, not by 456.  From the entry into mode 1 with `LY = 144` and a counter of
0, with the LCD on, the calls `Update(4)` all return; after `k` of them, as long
as `4 * k < 4650`, the mode is still 1, the counter is `4 * k` and `LY` is
`144 + 4 * k / 465`, so `LY` becomes `144 + j` on the call where the cycles
first reach `465 * j`; the 1163rd call (4652 cycles) returns to mode 2 with
`LY = 0` and leaves 92 on the counter. -/
theorem VBlank_line_takes_465_cycles (gb : GameBoy) (hon : gb.ppu.LCDC &&& 0x80 ≠ 0)
    (hmode : gb.ppu.STAT &&& 0x03 = 1) (hLY : gb.ppu.LY = 144) (hfc : gb.ppu.frameCycles = 0) :
    (∀ k, 4 * k < 4650 →
      ∃ g, PPU.UpdateAll gb (List.replicate k 4) = .ok g ∧
        g.ppu.frameCycles = ((4 * k : Nat) : Int) ∧ g.ppu.LY = 144 + 4 * k / 465 ∧
        g.ppu.STAT &&& 0x03 = 1) ∧
    (∃ g, PPU.UpdateAll gb (List.replicate 1163 4) = .ok g ∧
        g.ppu.frameCycles = 92 ∧ g.ppu.LY = 0 ∧ g.ppu.STAT &&& 0x03 = 2) := by
  refine ⟨fun k hk => ⟨_, PPU.UpdateAll_vblank gb hon hmode hLY hfc k hk, rfl, rfl, hmode⟩, ?_⟩
  refine ⟨PPU.setMode (withLine gb 92 0) 2, ?_, rfl, rfl, PPU.setMode_mode _ 2 (by decide)⟩
  have e : List.replicate 1163 (4 : Int) = List.replicate 1162 4 ++ [4] :=
    List.replicate_succ' 1162 4
  rw [e, PPU.UpdateAll_snoc, PPU.UpdateAll_vblank gb hon hmode hLY hfc 1162 (by decide),
    except_ok_bind, PPU.Update_vblank_end gb hon hmode]
  rfl

/-- Claim C30 on `vblankExample 144 0 0`.  After 114 calls of 4 cycles (456
cycles) `LY` is still 144, and it becomes 145 on the 117th call (468 cycles);
after 1140 calls (4560 cycles) the mode is still 1 with `LY = 153`, and the
return to mode 2 with `LY = 0` comes on the 1163rd call (4652 cycles). -/
theorem VBlank_line_takes_465_cycles_witness :
    (∃ g, PPU.UpdateAll (vblankExample 144 0 0) (List.replicate 114 4) = .ok g ∧ g.ppu.LY = 144) ∧
    (∃ g, PPU.UpdateAll (vblankExample 144 0 0) (List.replicate 116 4) = .ok g ∧ g.ppu.LY = 144) ∧
    (∃ g, PPU.UpdateAll (vblankExample 144 0 0) (List.replicate 117 4) = .ok g ∧ g.ppu.LY = 145) ∧
    (∃ g, PPU.UpdateAll (vblankExample 144 0 0) (List.replicate 1140 4) = .ok g ∧
      g.ppu.LY = 153 ∧ g.ppu.STAT &&& 0x03 = 1) ∧
    (∃ g, PPU.UpdateAll (vblankExample 144 0 0) (List.replicate 1162 4) = .ok g ∧
      g.ppu.LY = 153 ∧ g.ppu.STAT &&& 0x03 = 1) ∧
    (∃ g, PPU.UpdateAll (vblankExample 144 0 0) (List.replicate 1163 4) = .ok g ∧
      g.ppu.LY = 0 ∧ g.ppu.STAT &&& 0x03 = 2) := by
  obtain ⟨h, g6, e6, -, l6, m6⟩ :=
    VBlank_line_takes_465_cycles (vblankExample 144 0 0) (by decide) (by decide) rfl rfl
  obtain ⟨g1, e1, -, l1, -⟩ := h 114 (by decide)
  obtain ⟨g2, e2, -, l2, -⟩ := h 116 (by decide)
  obtain ⟨g3, e3, -, l3, -⟩ := h 117 (by decide)
  obtain ⟨g4, e4, -, l4, m4⟩ := h 1140 (by decide)
  obtain ⟨g5, e5, -, l5, m5⟩ := h 1162 (by decide)
  exact ⟨⟨g1, e1, l1⟩, ⟨g2, e2, l2⟩, ⟨g3, e3, l3⟩, ⟨g4, e4, l4, m4⟩, ⟨g5, e5, l5, m5⟩,
    ⟨g6, e6, l6, m6⟩⟩

/-! ## Increment and 16-bit additions -/

set_option maxRecDepth 100000 in
/-- The flag byte after `inc` of `0xFF`, for a flag byte with C and the low
nibble clear. -/
theorem inc_flag_byte : ∀ F < 256, F &&& 0x0F = 0 → ((F &&& 0x10) != 0x00) = false →
    ((F &&& 0xBF) ||| 0x20) ||| 0x80 = 0xA0 := by
  decide

/-- Claim C31.  `Processor::inc(Reg8&)` sets the register to `(r + 1) mod 256`,
sets Z iff that result is 0, clears N, sets H iff the low nibble of the old
value is `0xF`, and leaves C, the low nibble of `F`, the other 8-bit registers,
`PC`, `SP`, `IME`, `IE` and `IF` as they were.  With `r = 0xFF`, C clear and a
flag byte whose low nibble is clear the result is `r = 0x00`, `F = 0xA0`. -/
theorem inc_preserves_carry (p : Processor) (reg : R8) :
    (p.inc reg).r8 reg = (p.r8 reg + 1) % 256 ∧
    ((p.inc reg).Zero = true ↔ (p.r8 reg + 1) % 256 = 0) ∧
    (p.inc reg).Subtract = false ∧
    ((p.inc reg).HalfCarry = true ↔ p.r8 reg &&& 0x0F = 0x0F) ∧
    (p.inc reg).Carry = p.Carry ∧
    (p.inc reg).reg_F &&& 0x0F = p.reg_F &&& 0x0F ∧
    (∀ r, r ≠ reg → (p.inc reg).r8 r = p.r8 r) ∧
    (p.inc reg).reg_PC = p.reg_PC ∧ (p.inc reg).reg_SP = p.reg_SP ∧
    (p.inc reg).IME = p.IME ∧ (p.inc reg).IE = p.IE ∧ (p.inc reg).IF = p.IF ∧
    (p.r8 reg = 0xFF → p.Carry = false → p.reg_F < 256 → p.reg_F &&& 0x0F = 0 →
      (p.inc reg).r8 reg = 0x00 ∧ (p.inc reg).reg_F = 0xA0) := by
  have hr : (p.inc reg).r8 reg = (p.r8 reg + 1) % 256 := by simp [Processor.inc]
  have hz : ((p.inc reg).Zero = true ↔ (p.r8 reg + 1) % 256 = 0) := by simp [Processor.inc]
  have hn : (p.inc reg).Subtract = false := by simp [Processor.inc]
  have hh : ((p.inc reg).HalfCarry = true ↔ p.r8 reg &&& 0x0F = 0x0F) := by
    simp [Processor.inc]
  have hc : (p.inc reg).Carry = p.Carry := by simp [Processor.inc]
  refine ⟨hr, hz, hn, hh, hc, Processor.lowF_inc p reg, ?_, ?_, ?_, ?_, ?_, ?_, ?_⟩
  · intro r hne
    cases reg <;> cases r <;> first | exact absurd rfl hne | rfl
  · cases reg <;> rfl
  · cases reg <;> rfl
  · cases reg <;> rfl
  · cases reg <;> rfl
  · cases reg <;> rfl
  · intro h255 hC hF hlow
    refine ⟨by rw [hr, h255], ?_⟩
    have e : (p.inc reg).reg_F =
        ((p.SetSubtract false).SetHalfCarry ((p.r8 reg &&& 0x0F) == 0x0F)).reg_F ||| 0x80 := by
      simp [Processor.inc, Processor.SetZero, h255]
    rw [e, h255]
    exact inc_flag_byte p.reg_F hF hlow hC

/-- Claim C31 at `B = 0xFF` with the flags clear: the result is `B = 0x00`,
`F = 0xA0`. -/
theorem inc_preserves_carry_witness :
    ({ Processor.zeroed with reg_B := 0xFF }.inc .reg_B).reg_B = 0x00 ∧
    ({ Processor.zeroed with reg_B := 0xFF }.inc .reg_B).reg_F = 0xA0 := by
  obtain ⟨-, -, -, -, -, -, -, -, -, -, -, -, h⟩ :=
    inc_preserves_carry { Processor.zeroed with reg_B := 0xFF } .reg_B
  exact h rfl (by decide) (by decide) (by decide)

/-! ## Decimal adjustment after a subtraction -/

theorem static_cast_u8_sub (x k : Nat) (hx : x < 256) (hk : k ≤ 256) :
    static_cast_u8 ((x : Int) - (k : Int)) = (x + 256 - k) % 256 := by
  unfold static_cast_u8
  omega

namespace Processor

/-- The accumulator and the flags after `daa` when N is set. -/
theorem daa_of_Subtract (p : Processor) (hN : p.Subtract = true) (hA : p.reg_A < 256) :
    p.daa.reg_A =
      (if p.HalfCarry = true then
        ((if p.Carry = true then (p.reg_A + 256 - 0x60) % 256 else p.reg_A) + 256 - 0x06) % 256
      else (if p.Carry = true then (p.reg_A + 256 - 0x60) % 256 else p.reg_A)) ∧
    p.daa.Carry = p.Carry ∧ p.daa.Subtract = true ∧ p.daa.HalfCarry = false ∧
    (p.daa.Zero = true ↔ p.daa.reg_A = 0) := by
  have e1 : static_cast_u8 ((p.reg_A : Int) - 0x60) = (p.reg_A + 256 - 0x60) % 256 :=
    static_cast_u8_sub p.reg_A 0x60 hA (by decide)
  have e2 : static_cast_u8 ((p.reg_A : Int) - 0x06) = (p.reg_A + 256 - 0x06) % 256 :=
    static_cast_u8_sub p.reg_A 0x06 hA (by decide)
  have e3 : static_cast_u8 ((((p.reg_A + 256 - 0x60) % 256 : Nat) : Int) - 0x06) =
      ((p.reg_A + 256 - 0x60) % 256 + 256 - 0x06) % 256 :=
    static_cast_u8_sub _ 0x06 (Nat.mod_lt _ (by decide)) (by decide)
  cases hc : p.Carry <;> cases hh : p.HalfCarry <;>
    simp [daa, hN, hc, hh, e1, e2, e3]
  unfold static_cast_u8
  omega

/-- The accumulator and the flags after `sub` on `A`. -/
theorem sub_A_effect (p : Processor) (b : Nat) (ha : p.reg_A < 256) (hb : b < 256) :
    (p.sub .reg_A b).reg_A = (p.reg_A + 256 - b) % 256 ∧
    (p.sub .reg_A b).Subtract = true ∧
    ((p.sub .reg_A b).HalfCarry = true ↔ p.reg_A % 16 < b % 16) ∧
    ((p.sub .reg_A b).Carry = true ↔ p.reg_A < b) := by
  have e : static_cast_u8 ((p.reg_A : Int) - (b : Int)) = (p.reg_A + 256 - b) % 256 :=
    static_cast_u8_sub p.reg_A b ha (by omega)
  have hr : p.r8 .reg_A = p.reg_A := rfl
  refine ⟨?_, ?_, ?_, ?_⟩
  · simp [sub, hr, e]
  · simp [sub]
  · simp [sub, hr, and_15]
  · simp [sub, hr]

end Processor

set_option maxRecDepth 1000000 in
/-- The arithmetic of `SUB` followed by `DAA` on two packed-BCD bytes, checked on
each of the 100 x 100 pairs of digits. -/
theorem daa_after_sub_digits : ∀ ah < 10, ∀ al < 10, ∀ bh < 10, ∀ bl < 10,
    (if (16 * ah + al) % 16 < (16 * bh + bl) % 16 then
        ((if 16 * ah + al < 16 * bh + bl
            then (((16 * ah + al) + 256 - (16 * bh + bl)) % 256 + 256 - 96) % 256
            else ((16 * ah + al) + 256 - (16 * bh + bl)) % 256) + 256 - 6) % 256
      else (if 16 * ah + al < 16 * bh + bl
            then (((16 * ah + al) + 256 - (16 * bh + bl)) % 256 + 256 - 96) % 256
            else ((16 * ah + al) + 256 - (16 * bh + bl)) % 256)) =
      bcdEncode ((bcdValue (16 * ah + al) + 100 - bcdValue (16 * bh + bl)) % 100) ∧
    (16 * ah + al < 16 * bh + bl ↔ bcdValue (16 * ah + al) < bcdValue (16 * bh + bl)) := by
  decide

/-- Claim C32.  For packed-BCD bytes `a` and `b` and any prior flags, `SUB b`
with `A = a` followed by `DAA` leaves `A` equal to the packed-BCD encoding of
`(dec a - dec b) mod 100` (written `(dec a + 100 - dec b) mod 100`), sets C iff
`dec a < dec b`, sets N, clears H, and sets Z iff `A = 0`. -/
theorem daa_after_sub (p : Processor) (b : Nat) (ha : IsPackedBCD p.reg_A)
    (hb : IsPackedBCD b) :
    ((p.sub .reg_A b).daa).reg_A = bcdEncode ((bcdValue p.reg_A + 100 - bcdValue b) % 100) ∧
    (((p.sub .reg_A b).daa).Carry = true ↔ bcdValue p.reg_A < bcdValue b) ∧
    ((p.sub .reg_A b).daa).Subtract = true ∧
    ((p.sub .reg_A b).daa).HalfCarry = false ∧
    (((p.sub .reg_A b).daa).Zero = true ↔ ((p.sub .reg_A b).daa).reg_A = 0) := by
  obtain ⟨ha1, ha2⟩ := ha
  obtain ⟨hb1, hb2⟩ := hb
  obtain ⟨sA, sN, sH, sC⟩ := Processor.sub_A_effect p b (by omega) (by omega)
  obtain ⟨dA, dC, dN, dH, dZ⟩ := Processor.daa_of_Subtract (p.sub .reg_A b) sN
    (by rw [sA]; exact Nat.mod_lt _ (by decide))
  have hdig := daa_after_sub_digits (p.reg_A / 16) (by omega) (p.reg_A % 16) (by omega)
    (b / 16) (by omega) (b % 16) (by omega)
  rw [Nat.div_add_mod, Nat.div_add_mod] at hdig
  simp only [sA, sH, sC] at dA
  refine ⟨by rw [dA]; exact hdig.1, ?_, dN, dH, dZ⟩
  rw [dC, sC]
  exact hdig.2

/-- Claim C32 at `A = 0x42`, `b = 0x15` (`A = 0x27`, C clear) and at `A = 0x00`,
`b = 0x01` (`A = 0x99`, C set). -/
theorem daa_after_sub_witness :
    ((({ Processor.zeroed with reg_A := 0x42 }.sub .reg_A 0x15).daa).reg_A = 0x27 ∧
      (({ Processor.zeroed with reg_A := 0x42 }.sub .reg_A 0x15).daa).Subtract = true) ∧
    ((({ Processor.zeroed with reg_A := 0x00 }.sub .reg_A 0x01).daa).reg_A = 0x99 ∧
      (({ Processor.zeroed with reg_A := 0x00 }.sub .reg_A 0x01).daa).Carry = true) := by
  obtain ⟨a1, -, a3, -⟩ :=
    daa_after_sub { Processor.zeroed with reg_A := 0x42 } 0x15 (by decide) (by decide)
  obtain ⟨b1, b2, -⟩ :=
    daa_after_sub { Processor.zeroed with reg_A := 0x00 } 0x01 (by decide) (by decide)
  exact ⟨⟨a1.trans (by decide), a3⟩, b1.trans (by decide), b2.mpr (by decide)⟩

theorem toBool_and_4096 (x : Nat) (hx : x < 0x2000) : toBool (x &&& 0x1000) = decide (0x1000 ≤ x) := by
  have e := and_two_pow_ne_zero x 12
  have e2 : (2 : Nat) ^ 12 = 0x1000 := rfl
  rw [e2] at e
  unfold toBool
  rw [e, Nat.testBit_to_div_mod]
  have e3 : (2 : Nat) ^ 12 = 4096 := rfl
  rw [e3]
  by_cases h : 0x1000 ≤ x
  · have : x / 4096 % 2 = 1 := by omega
    simp [this, h]
  · have : x / 4096 % 2 = 0 := by omega
    simp [this, h]

theorem and_4095 (x : Nat) : x &&& 4095 = x % 4096 := Nat.and_pow_two_sub_one_eq_mod x 12

/-- Claim C33.  `Processor::add(Reg16&, u16)` on `HL` (register bytes in
range, any operand `v`): `HL` becomes `(h + v) mod 2^16`, N is cleared, H is set iff
`(h & 0x0FFF) + (v & 0x0FFF) > 0x0FFF`, C is set iff `h + v > 0xFFFF`, and Z, the
low nibble of `F`, `A`, `SP` and `PC` are as before. -/
theorem add_HL_flags (p : Processor) (v : Nat) (hH : p.reg_H < 256) (hL : p.reg_L < 256) :
    (p.add16 .reg_HL v).r16 .reg_HL = (p.r16 .reg_HL + v) % 65536 ∧
    (p.add16 .reg_HL v).Subtract = false ∧
    ((p.add16 .reg_HL v).HalfCarry = true ↔
      (p.r16 .reg_HL &&& 0x0FFF) + (v &&& 0x0FFF) > 0x0FFF) ∧
    ((p.add16 .reg_HL v).Carry = true ↔ p.r16 .reg_HL + v > 0xFFFF) ∧
    (p.add16 .reg_HL v).Zero = p.Zero ∧
    (p.add16 .reg_HL v).reg_F &&& 0x0F = p.reg_F &&& 0x0F ∧
    (p.add16 .reg_HL v).reg_A = p.reg_A ∧ (p.add16 .reg_HL v).reg_SP = p.reg_SP ∧
    (p.add16 .reg_HL v).reg_PC = p.reg_PC := by
  have hw : p.r16 .reg_HL < 65536 := by
    show p.reg_H * 256 + p.reg_L < 65536
    omega
  have hHf := toBool_and_4096 ((p.r16 .reg_HL &&& 0x0FFF) + (v &&& 0x0FFF))
    (by rw [and_4095, and_4095]; omega)
  refine ⟨?_, ?_, ?_, ?_, ?_, Processor.lowF_add16 p .reg_HL v (by decide), rfl, rfl, rfl⟩
  · show ((p.r16 .reg_HL + v) % 65536 / 256 % 256) * 256 + (p.r16 .reg_HL + v) % 65536 % 256 = _
    omega
  · show (((p.SetSubtract false).SetHalfCarry _).SetCarry _).Subtract = false
    simp
  · show (((p.SetSubtract false).SetHalfCarry _).SetCarry _).HalfCarry = true ↔ _
    rw [Processor.HalfCarry_SetCarry, Processor.HalfCarry_SetHalfCarry, hHf]
    simp
    omega
  · show (((p.SetSubtract false).SetHalfCarry _).SetCarry _).Carry = true ↔ _
    rw [Processor.Carry_SetCarry]
    simp
    omega
  · show (((p.SetSubtract false).SetHalfCarry _).SetCarry _).Zero = p.Zero
    simp

/-- Claim C33 at `HL = 0x0FFF`, `v = 0x0001` (H set, C clear) and at
`HL = 0xFFFF`, `v = 0x0001` (`HL = 0`, H and C set). -/
theorem add_HL_flags_witness :
    (({ Processor.zeroed with reg_H := 0x0F, reg_L := 0xFF }.add16 .reg_HL 0x0001).r16 .reg_HL
      = 0x1000 ∧
     ({ Processor.zeroed with reg_H := 0x0F, reg_L := 0xFF }.add16 .reg_HL 0x0001).HalfCarry
      = true ∧
     ({ Processor.zeroed with reg_H := 0x0F, reg_L := 0xFF }.add16 .reg_HL 0x0001).Carry
      = false) ∧
    (({ Processor.zeroed with reg_H := 0xFF, reg_L := 0xFF }.add16 .reg_HL 0x0001).r16 .reg_HL
      = 0x0000 ∧
     ({ Processor.zeroed with reg_H := 0xFF, reg_L := 0xFF }.add16 .reg_HL 0x0001).Carry
      = true) := by
  obtain ⟨a1, -, a3, a4, -⟩ :=
    add_HL_flags { Processor.zeroed with reg_H := 0x0F, reg_L := 0xFF } 0x0001
      (by decide) (by decide)
  obtain ⟨b1, -, -, b4, -⟩ :=
    add_HL_flags { Processor.zeroed with reg_H := 0xFF, reg_L := 0xFF } 0x0001
      (by decide) (by decide)
  refine ⟨⟨a1, a3.mpr (by decide), ?_⟩, b1, b4.mpr (by decide)⟩
  cases hc : ({ Processor.zeroed with reg_H := 0x0F, reg_L := 0xFF }.add16 .reg_HL 0x0001).Carry
  · rfl
  · exact absurd (a4.mp hc) (by decide)

theorem static_cast_u8_s8 (e : Nat) (he : e < 256) : static_cast_u8 (static_cast_s8 e) = e := by
  unfold static_cast_u8 static_cast_s8
  split_ifs <;> omega

/-- Claim C34.  For every `SP` value `s` and operand byte `e`, taken as the
signed `signext(e)`, `ADD SP,s8` (`Processor::add(Reg16&, s8)` on `SP`) and
`LD HL,SP+s8` (`Processor::ld_sp_plus` on `HL`) compute
`(s + signext(e)) mod 2^16`, into `SP`, respectively into `HL` with `SP`
unchanged, and both clear Z and N, set H iff `(s & 0xF) + (e & 0xF) > 0xF` and
set C iff `(s & 0xFF) + (e & 0xFF) > 0xFF`. -/
theorem add_SP_s8_flags (p : Processor) (e : Nat) (he : e < 256) :
    ((((p.add_s8 .reg_SP (static_cast_s8 e)).reg_SP : Nat) : Int) =
        ((p.reg_SP : Int) + static_cast_s8 e) % 65536 ∧
      (p.add_s8 .reg_SP (static_cast_s8 e)).Zero = false ∧
      (p.add_s8 .reg_SP (static_cast_s8 e)).Subtract = false ∧
      ((p.add_s8 .reg_SP (static_cast_s8 e)).HalfCarry = true ↔
        (p.reg_SP &&& 0xF) + (e &&& 0xF) > 0xF) ∧
      ((p.add_s8 .reg_SP (static_cast_s8 e)).Carry = true ↔
        (p.reg_SP &&& 0xFF) + (e &&& 0xFF) > 0xFF)) ∧
    ((((p.ld_sp_plus .reg_HL (static_cast_s8 e)).r16 .reg_HL : Nat) : Int) =
        ((p.reg_SP : Int) + static_cast_s8 e) % 65536 ∧
      (p.ld_sp_plus .reg_HL (static_cast_s8 e)).reg_SP = p.reg_SP ∧
      (p.ld_sp_plus .reg_HL (static_cast_s8 e)).Zero = false ∧
      (p.ld_sp_plus .reg_HL (static_cast_s8 e)).Subtract = false ∧
      ((p.ld_sp_plus .reg_HL (static_cast_s8 e)).HalfCarry = true ↔
        (p.reg_SP &&& 0xF) + (e &&& 0xF) > 0xF) ∧
      ((p.ld_sp_plus .reg_HL (static_cast_s8 e)).Carry = true ↔
        (p.reg_SP &&& 0xFF) + (e &&& 0xFF) > 0xFF)) := by
  have hu := static_cast_u8_s8 e he
  have hH := toBool_and_16 ((p.reg_SP &&& 0x000F) + (e &&& 0x0F)) (by rw [and_15, and_15]; omega)
  have hC := toBool_and_256 ((p.reg_SP &&& 0x00FF) + e) (by rw [and_255]; omega)
  have he255 : e &&& 0xFF = e := by rw [and_255]; omega
  have hres : (((static_cast_u16 ((p.reg_SP : Int) + static_cast_s8 e)) : Nat) : Int) =
      ((p.reg_SP : Int) + static_cast_s8 e) % 65536 := by
    unfold static_cast_u16
    rw [Int.toNat_of_nonneg (Int.emod_nonneg _ (by decide))]
  have hlt : static_cast_u16 ((p.reg_SP : Int) + static_cast_s8 e) < 65536 := by
    unfold static_cast_u16
    omega
  refine ⟨⟨?_, ?_, ?_, ?_, ?_⟩, ⟨?_, ?_, ?_, ?_, ?_, ?_⟩⟩
  · show (((static_cast_u16 ((p.reg_SP : Int) + static_cast_s8 e) % 65536 : Nat)) : Int) = _
    rw [Nat.mod_eq_of_lt hlt, hres]
  · show ((((p.SetSubtract false).SetZero false).SetHalfCarry _).SetCarry _).Zero = false
    simp
  · show ((((p.SetSubtract false).SetZero false).SetHalfCarry _).SetCarry _).Subtract = false
    simp
  · show ((((p.SetSubtract false).SetZero false).SetHalfCarry
      (toBool (((p.reg_SP &&& 0x000F) + (static_cast_u8 (static_cast_s8 e) &&& 0x0F)) &&& 0x0010))).SetCarry
        _).HalfCarry = true ↔ _
    rw [Processor.HalfCarry_SetCarry, Processor.HalfCarry_SetHalfCarry, hu, hH]
    simp
    omega
  · show ((((p.SetSubtract false).SetZero false).SetHalfCarry _).SetCarry
      (toBool (((p.reg_SP &&& 0x00FF) + static_cast_u8 (static_cast_s8 e)) &&& 0x0100))).Carry
        = true ↔ _
    rw [Processor.Carry_SetCarry, hu, hC, he255]
    simp
    omega
  · show ((((static_cast_u16 ((p.reg_SP : Int) + static_cast_s8 e) / 256 % 256) * 256 +
      static_cast_u16 ((p.reg_SP : Int) + static_cast_s8 e) % 256 : Nat)) : Int) = _
    rw [← hres]
    congr 1
    omega
  · rfl
  · show ((((p.SetZero false).SetSubtract false).SetHalfCarry _).SetCarry _).Zero = false
    simp
  · show ((((p.SetZero false).SetSubtract false).SetHalfCarry _).SetCarry _).Subtract = false
    simp
  · show ((((p.SetZero false).SetSubtract false).SetHalfCarry
      (toBool (((p.reg_SP &&& 0x000F) + (static_cast_u8 (static_cast_s8 e) &&& 0x0F)) &&& 0x0010))).SetCarry
        _).HalfCarry = true ↔ _
    rw [Processor.HalfCarry_SetCarry, Processor.HalfCarry_SetHalfCarry, hu, hH]
    simp
    omega
  · show ((((p.SetZero false).SetSubtract false).SetHalfCarry _).SetCarry
      (toBool (((p.reg_SP &&& 0x00FF) + static_cast_u8 (static_cast_s8 e)) &&& 0x0100))).Carry
        = true ↔ _
    rw [Processor.Carry_SetCarry, hu, hC, he255]
    simp
    omega

/-- Claim C34 at `SP = 0x00FF`, `e = 0x01` (`0x0100`, H and C set) and at
`SP = 0x0000`, `e = 0xFF`, that is `-1` (`0xFFFF`, H and C clear). -/
theorem add_SP_s8_flags_witness :
    (({ Processor.zeroed with reg_SP := 0x00FF }.add_s8 .reg_SP (static_cast_s8 0x01)).reg_SP
        = 0x0100 ∧
      ({ Processor.zeroed with reg_SP := 0x00FF }.add_s8 .reg_SP (static_cast_s8 0x01)).Carry
        = true ∧
      ({ Processor.zeroed with reg_SP := 0x00FF }.add_s8 .reg_SP (static_cast_s8 0x01)).HalfCarry
        = true) ∧
    (({ Processor.zeroed with reg_SP := 0x0000 }.ld_sp_plus .reg_HL (static_cast_s8 0xFF)).r16
        .reg_HL = 0xFFFF ∧
      ({ Processor.zeroed with reg_SP := 0x0000 }.ld_sp_plus .reg_HL (static_cast_s8 0xFF)).reg_SP
        = 0x0000) := by
  obtain ⟨⟨a1, -, -, a4, a5⟩, -⟩ :=
    add_SP_s8_flags { Processor.zeroed with reg_SP := 0x00FF } 0x01 (by decide)
  obtain ⟨-, b1, b2, -⟩ :=
    add_SP_s8_flags { Processor.zeroed with reg_SP := 0x0000 } 0xFF (by decide)
  refine ⟨⟨?_, a5.mpr (by decide), a4.mpr (by decide)⟩, ?_, b2⟩
  · have e : (((0x00FF : Nat) : Int) + static_cast_s8 0x01) % 65536 = ((0x0100 : Nat) : Int) := by
      decide
    exact Int.ofNat_inj.mp (a1.trans e)
  · have e : (((0x0000 : Nat) : Int) + static_cast_s8 0xFF) % 65536 = ((0xFFFF : Nat) : Int) := by
      decide
    exact Int.ofNat_inj.mp (b1.trans e)

/-! ## The bank count of `MBC1::Load` -/

theorem largeRom_length : largeRom.bytes.length = 0x4000 * 256 := List.length_replicate _ _

/-- Source `MBC1::Load` on a header code from 7 to 10: the `u8` bank count is 0
and the loop does not run. -/
theorem Load_MBC1_wraps (rom : Rom) (h7 : 7 ≤ rom.RomSize) (h10 : rom.RomSize ≤ 10)
    (hlen : 0x4000 ≤ rom.bytes.length) :
    MBC.Load_MBC1 MBC.constructed1 rom = .ok (loadedMBC1 rom) ∧
    (loadedMBC1 rom).numBanks = 0 ∧ (loadedMBC1 rom).switchableBanks = [] := by
  obtain ⟨bytes, ct, c⟩ := rom
  simp only at h7 h10 hlen
  have hpow : 2 ^ c = 128 ∨ 2 ^ c = 256 ∨ 2 ^ c = 512 ∨ 2 ^ c = 1024 := by
    interval_cases c <;> simp
  have hbanks : (32 * 2 ^ c / 16) % 256 = 0 := by omega
  have hw : MBC.WriteBytes MBC.constructed1 (fun i => bytes.getD i 0) 0x0000 0x4000 =
      .ok { MBC.constructed1 with
        romBank0 := { MBC.constructed1.romBank0 with
          bytes := fun i => if 0 ≤ i ∧ i < 0 + 0x4000 then bytes.getD (i - 0) 0
            else MBC.constructed1.romBank0.bytes i } } := rfl
  refine ⟨?_, hbanks, ?_⟩
  · unfold MBC.Load_MBC1
    rw [if_neg (by simp only; omega)]
    simp only
    rw [hw, except_ok_bind, if_neg (by omega)]
    dsimp only
    unfold loadedMBC1
    simp only [hbanks]
    rfl
  · show loadedBanks _ ((32 * 2 ^ c / 16) % 256 - 1) = []
    rw [hbanks]
    rfl

/-- Claim C35 on the code.  `MBC1::Load` on an image that holds bank 0.  For a
header code `c` from 0 to 6 and an image that has the bytes of all `2^(c+1)`
banks, it returns with the bank count `2^(c+1)`, bank 0 in the fixed page and
the `2^(c+1) - 1` banks `1 .. 2^(c+1) - 1` of the image in the switchable pages,
as claimed.  For a code from 7 to 10 the count `romSize / 16` does not fit the
`u8 banks`: it returns with the count 0, not `2^(c+1)`, and without any
switchable bank, bank 0 alone being loaded. -/
theorem MBC1_bank_count (rom : Rom) (hlen0 : 0x4000 ≤ rom.bytes.length) :
    (rom.RomSize ≤ 6 → 0x8000 * 2 ^ rom.RomSize ≤ rom.bytes.length →
      ∃ m, MBC.Load_MBC1 MBC.constructed1 rom = .ok m ∧
        m.numBanks = 2 ^ (rom.RomSize + 1) ∧
        m.switchableBanks.length = 2 ^ (rom.RomSize + 1) - 1 ∧
        (∀ k < 0x4000, m.romBank0.bytes k = rom.bytes.getD k 0) ∧
        (∀ i, 1 ≤ i → i < 2 ^ (rom.RomSize + 1) →
          ∃ pg, m.switchableBanks[i - 1]? = some pg ∧
            ∀ k < 0x4000, pg.bytes k = rom.bytes.getD (0x4000 * i + k) 0)) ∧
    (7 ≤ rom.RomSize → rom.RomSize ≤ 10 →
      ∃ m, MBC.Load_MBC1 MBC.constructed1 rom = .ok m ∧
        m.numBanks = 0 ∧ m.numBanks ≠ 2 ^ (rom.RomSize + 1) ∧ m.switchableBanks = [] ∧
        (∀ k < 0x4000, m.romBank0.bytes k = rom.bytes.getD k 0)) := by
  have hbank0 : ∀ k < 0x4000, (loadedMBC1 rom).romBank0.bytes k = rom.bytes.getD k 0 := by
    intro k hk
    show (if 0 ≤ k ∧ k < 0 + 0x4000 then rom.bytes.getD (k - 0) 0
      else MBC.constructed1.romBank0.bytes k) = _
    rw [if_pos (by omega), Nat.sub_zero]
  constructor
  · intro hsize hlen
    obtain ⟨hload, hnum⟩ := Load_MBC1_result rom hsize hlen
    have hpow : 2 ^ (rom.RomSize + 1) = 2 * 2 ^ rom.RomSize := by rw [Nat.pow_succ, Nat.mul_comm]
    have hbanks : (32 * 2 ^ rom.RomSize / 16) % 256 = 2 * 2 ^ rom.RomSize := hnum
    have hsw : (loadedMBC1 rom).switchableBanks = loadedBanks rom (2 * 2 ^ rom.RomSize - 1) := by
      show loadedBanks rom ((32 * 2 ^ rom.RomSize / 16) % 256 - 1) = _
      rw [hbanks]
    refine ⟨loadedMBC1 rom, hload, by rw [hnum, hpow], ?_, hbank0, ?_⟩
    · rw [hsw, loadedBanks_length, hpow]
    · intro i hi1 hi2
      rw [hpow] at hi2
      refine ⟨bankPage rom i, ?_, ?_⟩
      · rw [hsw, loadedBanks_get rom _ (i - 1) (by omega)]
        have e : i - 1 + 1 = i := by omega
        rw [e]
      · intro k hk
        show (if 0 ≤ k ∧ k < 0 + 0x4000 then rom.bytes.getD (0x4000 * i + (k - 0)) 0 else 0) = _
        rw [if_pos (by omega), Nat.sub_zero]
  · intro h7 h10
    obtain ⟨hload, hnum, hsw⟩ := Load_MBC1_wraps rom h7 h10 hlen0
    refine ⟨loadedMBC1 rom, hload, hnum, ?_, hsw, hbank0⟩
    rw [hnum]
    exact (Nat.ne_of_gt (Nat.pow_pos (by decide))).symm

/-- Claim C35 on `largeRom`, an image of 256 banks with the header code 7
(`2^(7+1)` is 256): `MBC1::Load` leaves the bank count 0 and no switchable bank;
and on `smallRom` (code 0, 32 KiB): two banks, one of them switchable. -/
theorem MBC1_bank_count_witness :
    (largeRom.RomSize = 7 ∧ largeRom.bytes.length = 0x4000 * 2 ^ (7 + 1) ∧
      ∃ m, MBC.Load_MBC1 MBC.constructed1 largeRom = .ok m ∧ m.numBanks = 0 ∧
        m.switchableBanks = [] ∧ m.numBanks ≠ 2 ^ (7 + 1)) ∧
    (∃ m, MBC.Load_MBC1 MBC.constructed1 smallRom = .ok m ∧ m.numBanks = 2 ∧
      m.switchableBanks.length = 1) := by
  obtain ⟨m, h1, h2, h3, h4, -⟩ :=
    (MBC1_bank_count largeRom (by rw [largeRom_length]; decide)).2 (by decide) (by decide)
  obtain ⟨m', g1, g2, g3, -⟩ :=
    (MBC1_bank_count smallRom (by rw [smallRom_length]; decide)).1 (by decide)
      (by rw [smallRom_length]; decide)
  exact ⟨⟨rfl, largeRom_length, m, h1, h2, h4, h3⟩, m', g1, g2, g3⟩

/-! ## The tile caches -/

/-- Claim C36.  On a machine with the video RAM as constructed and caches of 256
tiles, `PPU::DecodeTiles` returns, and for every index `i` in `0..255` the slot
`i` of the BG tile cache holds the tile decoded from the 16 bytes read at the
address `a i` of the source (`0x9000 + 16 i` or `0x8800 + 16 (i - 128)` with
bit 4 of `LCDC` clear); that address is `0x9000 + 16 * s`, `s` being `i` taken
as a signed 8-bit value, when bit 4 of `LCDC` is clear and `0x8000 + 16 * i`
when it is set.  The slot `i` of the OBJ cache is decoded from `0x8000 + 16 i`. -/
theorem DecodeTiles_signed_addressing (gb : GameBoy) (hb : gb.mbc.vram.base = 0x8000)
    (hs : gb.mbc.vram.size = 0x2000) (hbg : gb.ppu.BGTileset.length = 256)
    (hobj : gb.ppu.OBJTileset.length = 256) :
    (∀ i < 256, ((PPU.DecodeTiles_bgAddress gb.ppu i : Nat) : Int) =
      if gb.ppu.LCDC &&& 0x10 = 0 then signedTileAddress i else 0x8000 + 16 * (i : Int)) ∧
    (∀ i < 256, PPU.DecodeTiles_bg gb i = (do
      let buffer ← ReadBytes gb (PPU.DecodeTiles_bgAddress gb.ppu i) 16
      pure { gb with ppu := { gb.ppu with
        BGTileset := gb.ppu.BGTileset.set i (Tile.Decode (fun k => buffer.getD k 0)) } })) ∧
    ∃ gb', PPU.DecodeTiles gb = .ok gb' ∧
      ∀ i < 256,
        gb'.ppu.BGTileset[i]? = some (vramTile gb (PPU.DecodeTiles_bgAddress gb.ppu i)) ∧
        gb'.ppu.OBJTileset[i]? = some (vramTile gb (0x8000 + 16 * i)) := by
  refine ⟨?_, ?_, ?_⟩
  · intro i hi
    unfold PPU.DecodeTiles_bgAddress signedTileAddress static_cast_s8
    dsimp only
    split_ifs <;> omega
  · intro i hi
    have hl : i < gb.ppu.BGTileset.length := by omega
    unfold PPU.DecodeTiles_bg
    simp only [hl, if_true]
  · obtain ⟨bg, obj, h, -, -, g1, g2⟩ := PPU.DecodeTiles_eq gb hb hs hbg hobj
    exact ⟨_, h, fun i hi => ⟨g1 i hi, g2 i hi⟩⟩

set_option maxRecDepth 100000 in
/-- Claim C36 on `tilesExample` (bit 4 of `LCDC` clear; `0xFF`, `0xFF` at
`0x8800` and `0xFF`, `0x00` at `0x9000`): the BG slot 128 is read from `0x8800`,
which is `0x9000 - 16 * 128`, and its first pixel is 3; the BG slot 0 is read
from `0x9000` and its first pixel is 1; the slot 255 is read from `0x8FF0`. -/
theorem DecodeTiles_signed_addressing_witness :
    PPU.DecodeTiles_bgAddress tilesExample.ppu 128 = 0x8800 ∧
    PPU.DecodeTiles_bgAddress tilesExample.ppu 255 = 0x8FF0 ∧
    PPU.DecodeTiles_bgAddress tilesExample.ppu 0 = 0x9000 ∧
    ∃ gb' t128 t0, PPU.DecodeTiles tilesExample = .ok gb' ∧
      gb'.ppu.BGTileset[128]? = some t128 ∧ t128.GetPixel 0 0 = .ok 3 ∧
      gb'.ppu.BGTileset[0]? = some t0 ∧ t0.GetPixel 0 0 = .ok 1 := by
  obtain ⟨-, -, gb', h, hall⟩ := DecodeTiles_signed_addressing tilesExample rfl rfl rfl rfl
  exact ⟨rfl, rfl, rfl, gb', _, _, h, (hall 128 (by decide)).1, rfl, (hall 0 (by decide)).1, rfl⟩

/-! ## The background scroll -/

/-- The loop of `DrawScanline` over the columns returns iff each column does:
every column of the list is evaluated. -/
theorem DrawScanline_columns_ok (gb : GameBoy) :
    ∀ (l : List Nat), PPU.DrawScanline_columns gb l = .ok () ↔
      ∀ x ∈ l, ∃ c, PPU.DrawScanline_column gb x = .ok c := by
  intro l
  induction l with
  | nil =>
    constructor
    · intro _ x hx
      cases hx
    · intro _
      rfl
  | cons x xs ih =>
    unfold PPU.DrawScanline_columns
    cases hcol : PPU.DrawScanline_column gb x with
    | error e =>
      constructor
      · intro h
        cases h
      · intro h
        obtain ⟨c, hc⟩ := h x (List.mem_cons_self x xs)
        rw [hcol] at hc
        cases hc
    | ok c =>
      rw [except_ok_bind, ih]
      constructor
      · intro h y hy
        rcases List.mem_cons.mp hy with rfl | hy'
        · exact ⟨c, hcol⟩
        · exact h y hy'
      · intro h y hy
        exact h y (List.mem_cons_of_mem x hy)

/-- The cell and the pixel of a column of `DrawScanline` at the wrapped
coordinates. -/
theorem DrawScanline_column_eq (gb : GameBoy) (x : Nat) (hLY : gb.ppu.LY ≤ 143)
    (hx : x < 160) (hSCY : gb.ppu.SCY < 256) (hSCX : gb.ppu.SCX < 256) :
    PPU.DrawScanline_cell gb.ppu x =
      ((gb.ppu.LY + gb.ppu.SCY) % 256 / 8, (x + gb.ppu.SCX) % 256 / 8,
        (x + gb.ppu.SCX) % 256 % 8, (gb.ppu.LY + gb.ppu.SCY) % 256 % 8) ∧
    (gb.ppu.LY + gb.ppu.SCY) % 256 / 8 < 32 ∧ (x + gb.ppu.SCX) % 256 / 8 < 32 ∧
    PPU.DrawScanline_column gb x = (do
      let tileID ← Read8 gb ((if gb.ppu.LCDC &&& 0x08 ≠ 0 then 0x9C00 else 0x9800) +
        32 * ((gb.ppu.LY + gb.ppu.SCY) % 256 / 8) + (x + gb.ppu.SCX) % 256 / 8)
      match gb.ppu.BGTileset[tileID]? with
      | none => .error .undefined
      | some tile => do
        let pixel ← tile.GetPixel ((x + gb.ppu.SCX) % 256 % 8) ((gb.ppu.LY + gb.ppu.SCY) % 256 % 8)
        gb.ppu.BGPalette.get pixel) := by
  have hcell : PPU.DrawScanline_cell gb.ppu x =
      ((gb.ppu.LY + gb.ppu.SCY) % 256 / 8, (x + gb.ppu.SCX) % 256 / 8,
        (x + gb.ppu.SCX) % 256 % 8, (gb.ppu.LY + gb.ppu.SCY) % 256 % 8) := by
    unfold PPU.DrawScanline_cell
    dsimp only
    refine Prod.ext ?_ (Prod.ext ?_ (Prod.ext ?_ ?_))
    · dsimp only
      split_ifs <;> omega
    · dsimp only
      split_ifs <;> omega
    · dsimp only
      split_ifs <;> omega
    · dsimp only
      split_ifs <;> omega
  refine ⟨hcell, by omega, by omega, ?_⟩
  unfold PPU.DrawScanline_column
  rw [hcell]
  dsimp only
  have hmod8x : (x + gb.ppu.SCX) % 256 % 8 % 256 = (x + gb.ppu.SCX) % 256 % 8 := by omega
  have hmod8y : (gb.ppu.LY + gb.ppu.SCY) % 256 % 8 % 256 = (gb.ppu.LY + gb.ppu.SCY) % 256 % 8 := by
    omega
  rw [hmod8x, hmod8y]
  by_cases h8 : gb.ppu.LCDC &&& 0x08 ≠ 0
  · have ha : ((0x9800 + 0x0400) % 65536 + (gb.ppu.LY + gb.ppu.SCY) % 256 / 8 * 32 +
        (x + gb.ppu.SCX) % 256 / 8) % 65536 =
        (0x9800 + 0x0400) % 65536 + 32 * ((gb.ppu.LY + gb.ppu.SCY) % 256 / 8) +
          (x + gb.ppu.SCX) % 256 / 8 := by
      omega
    rw [if_pos h8, ha]
    try rfl
  · have ha : (0x9800 + (gb.ppu.LY + gb.ppu.SCY) % 256 / 8 * 32 +
        (x + gb.ppu.SCX) % 256 / 8) % 65536 =
        0x9800 + 32 * ((gb.ppu.LY + gb.ppu.SCY) % 256 / 8) + (x + gb.ppu.SCX) % 256 / 8 := by
      omega
    rw [if_neg h8, ha]
    try rfl

/-- Claim C37.  Let `LY` be in `0..143`, the scroll bytes `SCY`, `SCX` below 256
and the screen 160 columns wide, and write `Y = (LY + SCY) mod 256` and, for a
column `x`, `X = (x + SCX) mod 256`.  For every `x` in `0..159` the cell of the
tile map that the loop body of `PPU::DrawScanline` computes is row `Y / 8`,
column `X / 8` (both below 32), the pixel it asks of the tile is
`(X mod 8, Y mod 8)`, and the tile index is read from
`base + 32 * (Y / 8) + X / 8` with the base `0x9C00` when bit 3 of `LCDC` is
set and `0x9800` otherwise.  `DrawScanline` runs this body for each of the 160
columns: whenever it returns, for every `x` in `0..159` the read of the tile
index at that address, the tile of that index, its pixel `(X mod 8, Y mod 8)`
and the colour of that pixel were all obtained; if the body fails for some
column `DrawScanline` does not return; and with the window and the sprites off
it returns, leaving the machine as it was, exactly when the body returns for
every column. -/
theorem DrawScanline_scroll_wrap (gb : GameBoy) (hLY : gb.ppu.LY ≤ 143)
    (hSCY : gb.ppu.SCY < 256) (hSCX : gb.ppu.SCX < 256) (hw : gb.ppu.width = 160) :
    (∀ x < 160,
      PPU.DrawScanline_cell gb.ppu x =
        ((gb.ppu.LY + gb.ppu.SCY) % 256 / 8, (x + gb.ppu.SCX) % 256 / 8,
          (x + gb.ppu.SCX) % 256 % 8, (gb.ppu.LY + gb.ppu.SCY) % 256 % 8) ∧
      (gb.ppu.LY + gb.ppu.SCY) % 256 / 8 < 32 ∧ (x + gb.ppu.SCX) % 256 / 8 < 32 ∧
      PPU.DrawScanline_column gb x = (do
        let tileID ← Read8 gb ((if gb.ppu.LCDC &&& 0x08 ≠ 0 then 0x9C00 else 0x9800) +
          32 * ((gb.ppu.LY + gb.ppu.SCY) % 256 / 8) + (x + gb.ppu.SCX) % 256 / 8)
        match gb.ppu.BGTileset[tileID]? with
        | none => .error .undefined
        | some tile => do
          let pixel ← tile.GetPixel ((x + gb.ppu.SCX) % 256 % 8)
            ((gb.ppu.LY + gb.ppu.SCY) % 256 % 8)
          gb.ppu.BGPalette.get pixel)) ∧
    (∀ g, PPU.DrawScanline gb = .ok g → ∀ x < 160, ∃ tileID tile pixel color,
      Read8 gb ((if gb.ppu.LCDC &&& 0x08 ≠ 0 then 0x9C00 else 0x9800) +
        32 * ((gb.ppu.LY + gb.ppu.SCY) % 256 / 8) + (x + gb.ppu.SCX) % 256 / 8) = .ok tileID ∧
      gb.ppu.BGTileset[tileID]? = some tile ∧
      tile.GetPixel ((x + gb.ppu.SCX) % 256 % 8) ((gb.ppu.LY + gb.ppu.SCY) % 256 % 8) = .ok pixel ∧
      gb.ppu.BGPalette.get pixel = .ok color ∧
      PPU.DrawScanline_column gb x = .ok color) ∧
    (∀ x < 160, ∀ e, PPU.DrawScanline_column gb x = .error e →
      ∀ g, PPU.DrawScanline gb ≠ .ok g) ∧
    (gb.ppu.LCDC &&& 0x20 = 0 → gb.ppu.LCDC &&& 0x02 = 0 →
      (PPU.DrawScanline gb = .ok gb ↔ ∀ x < 160, ∃ c, PPU.DrawScanline_column gb x = .ok c)) := by
  have hwn : gb.ppu.width.toNat = 160 := by rw [hw]; rfl
  have hcols : ∀ g, PPU.DrawScanline gb = .ok g →
      ∀ x < 160, ∃ c, PPU.DrawScanline_column gb x = .ok c := by
    intro g h x hx
    unfold PPU.DrawScanline at h
    obtain ⟨u, hu, -⟩ := except_bind_ok h
    rw [hwn] at hu
    cases u
    exact (DrawScanline_columns_ok gb (List.range 160)).mp hu x (List.mem_range.mpr hx)
  refine ⟨fun x hx => DrawScanline_column_eq gb x hLY hx hSCY hSCX, ?_, ?_, ?_⟩
  · intro g h x hx
    obtain ⟨c, hc⟩ := hcols g h x hx
    have hc' := hc
    rw [(DrawScanline_column_eq gb x hLY hx hSCY hSCX).2.2.2] at hc'
    obtain ⟨tileID, hread, hrest⟩ := except_bind_ok hc'
    try dsimp only at hrest
    split at hrest
    · cases hrest
    · next tile htile =>
      obtain ⟨pixel, hpix, hcol⟩ := except_bind_ok hrest
      exact ⟨tileID, tile, pixel, c, hread, htile, hpix, hcol, hc⟩
  · intro x hx e he g h
    obtain ⟨c, hc⟩ := hcols g h x hx
    rw [he] at hc
    cases hc
  · intro h20 h02
    constructor
    · intro h
      exact hcols gb h
    · intro h
      have hu : PPU.DrawScanline_columns gb (List.range 160) = .ok () :=
        (DrawScanline_columns_ok gb (List.range 160)).mpr
          (fun x hx => h x (List.mem_range.mp hx))
      unfold PPU.DrawScanline
      rw [hwn, hu, except_ok_bind]
      have n20 : ¬ (gb.ppu.LCDC &&& 0x20 ≠ 0 ∧ gb.ppu.LY ≥ gb.ppu.WY) := fun hh => hh.1 h20
      rw [if_neg n20]
      show (if gb.ppu.LCDC &&& 0x02 ≠ 0 then PPU.DrawScanlineSprites gb else pure gb) = _
      rw [if_neg (not_not.mpr h02)]
      rfl

set_option maxRecDepth 1000000 in
/-- Claim C37 on `scrollExample` (`LY = 10`, `SCY = 250`, `SCX = 254`): at the
column `x = 3`, `Y = 4` and `X = 1`, so the cell is row 0, column 0 and the
pixel is `(1, 4)`; at the column `x = 0`, `X = 254`: column 31, pixel column 6.
`DrawScanline` returns, and at the column 0 the tile index was read from
`0x9800 + 31` and the pixel `(6, 4)` of that tile was taken. -/
theorem DrawScanline_scroll_wrap_witness :
    PPU.DrawScanline_cell scrollExample.ppu 3 = (0, 0, 1, 4) ∧
    PPU.DrawScanline_cell scrollExample.ppu 0 = (0, 31, 6, 4) ∧
    PPU.DrawScanline scrollExample = .ok scrollExample ∧
    ∃ tileID tile pixel color, Read8 scrollExample (0x9800 + 31) = .ok tileID ∧
      scrollExample.ppu.BGTileset[tileID]? = some tile ∧ tile.GetPixel 6 4 = .ok pixel ∧
      scrollExample.ppu.BGPalette.get pixel = .ok color := by
  obtain ⟨hcell, hrun, -, -⟩ :=
    DrawScanline_scroll_wrap scrollExample (by decide) (by decide) (by decide) rfl
  have hd : PPU.DrawScanline scrollExample = .ok scrollExample := rfl
  obtain ⟨tileID, tile, pixel, color, h1, h2, h3, h4, -⟩ := hrun scrollExample hd 0 (by decide)
  exact ⟨(hcell 3 (by decide)).1.trans (by decide), (hcell 0 (by decide)).1.trans (by decide), hd,
    tileID, tile, pixel, color, h1, h2, h3, h4⟩

/-! ## The sprite list -/

set_option maxRecDepth 1000000 in
/-- Claim C38 on the code.  `ScanlineSprites` is cleared by `DrawScanlineSprites`
only, which `DrawScanline` calls when bit 1 of `LCDC` is set.  On
`spritesOffExample` (sprites disabled, empty list, ten sprites on the lines 0 to
7) the calls `Update(84)`, `Update(176)`, `Update(208)` go through the modes 3
and 0 to mode 2 at `LY = 1` with the ten sprites of line 0 still in the list,
and the next `Update(84)` appends the ten sprites of line 1: 20 entries.  The
triples are the mode, `LY` and the length of the list after the calls. -/
theorem ScanlineSprites_grows_past_10 :
    spritesOffExample.ppu.ScanlineSprites = [] ∧
    spritesOffExample.ppu.LCDC &&& 0x02 = 0 ∧
    (PPU.UpdateAll spritesOffExample [84]).map
      (fun g => (g.ppu.STAT &&& 0x03, g.ppu.LY, g.ppu.ScanlineSprites.length)) = .ok (3, 0, 10) ∧
    (PPU.UpdateAll spritesOffExample [84, 176, 208]).map
      (fun g => (g.ppu.STAT &&& 0x03, g.ppu.LY, g.ppu.ScanlineSprites.length)) = .ok (2, 1, 10) ∧
    (PPU.UpdateAll spritesOffExample [84, 176, 208, 84]).map
      (fun g => (g.ppu.STAT &&& 0x03, g.ppu.LY, g.ppu.ScanlineSprites.length)) = .ok (3, 1, 20) :=
  ⟨rfl, rfl, rfl, rfl, rfl⟩

/-- Claim C39.  The predicate `LYInRange` (`LY ≤ 143` in the modes 0, 2 and 3,
`LY ≤ 153` in mode 1) is kept by every call `PPU::Update(c)` that returns, for
every cycle count and `LCDC` value.  Hence after every sequence of calls from a
state satisfying it the predicate holds, `LY` is at most 153, and in mode 0,
the only mode in which `Update` runs `DrawScanline`, `LY` is at most 143. -/
theorem LY_range_invariant (gb : GameBoy) (hinv : gb.ppu.LYInRange) :
    (∀ (c r : Int) (gb' : GameBoy), PPU.Update gb c = .ok (r, gb') → gb'.ppu.LYInRange) ∧
    (∀ (cs : List Int) (gb' : GameBoy), PPU.UpdateAll gb cs = .ok gb' →
      gb'.ppu.LYInRange ∧ gb'.ppu.LY ≤ 153 ∧ (gb'.ppu.STAT &&& 0x03 = 0 → gb'.ppu.LY ≤ 143)) := by
  refine ⟨fun c r gb' h => PPU.Update_LYInRange gb c r gb' h hinv, fun cs gb' h => ?_⟩
  have hi := PPU.UpdateAll_LYInRange cs gb gb' h hinv
  exact ⟨hi, PPU.LYInRange_le_153 _ hi, fun h0 => hi.1 (Or.inl h0)⟩

set_option maxRecDepth 1000000 in
/-- Claim C39 on `hblankExample` (mode 0, `LY = 143`) and on
`vblankExample 153 0 4648` (mode 1, `LY = 153`): the call `Update(4)` leaves
mode 1 with `LY = 144` on the first and mode 2 with `LY = 0` on the second. -/
theorem LY_range_invariant_witness :
    (hblankExample.ppu.LYInRange ∧
      ∃ gb', PPU.Update hblankExample 4 = .ok (0, gb') ∧ gb'.ppu.LYInRange ∧
        gb'.ppu.LY = 144 ∧ gb'.ppu.STAT &&& 0x03 = 1) ∧
    ((vblankExample 153 0 4648).ppu.LYInRange ∧
      ∃ gb', PPU.Update (vblankExample 153 0 4648) 4 = .ok (0, gb') ∧ gb'.ppu.LYInRange ∧
        gb'.ppu.LY = 0 ∧ gb'.ppu.STAT &&& 0x03 = 2) := by
  have i1 : hblankExample.ppu.LYInRange := ⟨fun _ => by decide, fun _ => by decide⟩
  have i2 : (vblankExample 153 0 4648).ppu.LYInRange :=
    ⟨fun h => absurd h (by decide), fun _ => by decide⟩
  have e1 : PPU.Update hblankExample 4 = .ok (0, _) := rfl
  have e2 : PPU.Update (vblankExample 153 0 4648) 4 = .ok (0, _) := rfl
  exact ⟨⟨i1, _, e1, (LY_range_invariant hblankExample i1).1 4 0 _ e1, rfl, rfl⟩,
    ⟨i2, _, e2, (LY_range_invariant (vblankExample 153 0 4648) i2).1 4 0 _ e2, rfl, rfl⟩⟩

/-! ## The row of a sprite -/

/-- Claim C40 on the code.  For a sprite that `FetchScanlineSprites` selects at
a line `LY ≤ 143` (`y ≤ LY + 16 < y + height`), the row index `oamY` that
`DrawScanlineSprites` passes to `Tile::GetPixel` at the same `LY` is in
`0 .. height - 1`: in `0..7` for sprites of 8 rows, but up to 15 for sprites of
16 rows (bit 2 of `LCDC` set), where it is 8 or more on the lower half of the
sprite (without `flipY`: `y + 8 ≤ LY + 16`), outside the 8 rows of the tile, an
index for which `GetPixel` is undefined.  The pixel step uses this index. -/
theorem sprite_row_index_up_to_15 (gb : GameBoy) (s : Sprite) (hLY : gb.ppu.LY ≤ 143)
    (hline : s.OnLine gb.ppu.LCDC gb.ppu.LY) :
    0 ≤ PPU.DrawScanlineSprites_oamY gb.ppu s ∧
    PPU.DrawScanlineSprites_oamY gb.ppu s < (if gb.ppu.LCDC &&& 4 ≠ 0 then 16 else 8) ∧
    (gb.ppu.LCDC &&& 4 = 0 → PPU.DrawScanlineSprites_oamY gb.ppu s ≤ 7) ∧
    (gb.ppu.LCDC &&& 4 ≠ 0 → s.flipY = false →
      (8 ≤ PPU.DrawScanlineSprites_oamY gb.ppu s ↔ s._y + 8 ≤ gb.ppu.LY + 16)) ∧
    (gb.ppu.LCDC &&& 4 ≠ 0 → s.flipY = true →
      (8 ≤ PPU.DrawScanlineSprites_oamY gb.ppu s ↔ gb.ppu.LY + 16 < s._y + 8)) ∧
    (∀ (t : Tile) (x : Nat), t.rows.length = 8 → 8 ≤ PPU.DrawScanlineSprites_oamY gb.ppu s →
      t.GetPixel x (static_cast_u8 (PPU.DrawScanlineSprites_oamY gb.ppu s)) = .error .undefined) ∧
    (∀ (px : Nat) (t : Tile), ¬ ((s._x : Int) + px < 8 ∨ (s._x : Int) + px ≥ 168) →
      gb.ppu.OBJTileset[s.id]? = some t →
      8 ≤ PPU.DrawScanlineSprites_oamY gb.ppu s → t.rows.length = 8 →
      PPU.DrawScanlineSprites_pixel gb s px = .error .undefined) := by
  obtain ⟨h1, h2⟩ := hline
  have hadj : (gb.ppu.LY + 16) % 256 = gb.ppu.LY + 16 := by omega
  rw [hadj] at h1 h2
  have hrange : 0 ≤ PPU.DrawScanlineSprites_oamY gb.ppu s ∧
      PPU.DrawScanlineSprites_oamY gb.ppu s < (if gb.ppu.LCDC &&& 4 ≠ 0 then 16 else 8) := by
    unfold PPU.DrawScanlineSprites_oamY
    dsimp only
    split_ifs at h2 ⊢ <;> omega
  have hget : ∀ (t : Tile) (x : Nat), t.rows.length = 8 →
      8 ≤ PPU.DrawScanlineSprites_oamY gb.ppu s →
      t.GetPixel x (static_cast_u8 (PPU.DrawScanlineSprites_oamY gb.ppu s)) = .error .undefined := by
    intro t x hlen h8
    have hidx : 8 ≤ static_cast_u8 (PPU.DrawScanlineSprites_oamY gb.ppu s) := by
      unfold static_cast_u8
      have := hrange.2
      split_ifs at this <;> omega
    unfold Tile.GetPixel
    dsimp only
    rw [List.getElem?_eq_none (by omega)]
  refine ⟨hrange.1, hrange.2, ?_, ?_, ?_, hget, ?_⟩
  · intro h4
    have := hrange.2
    rw [if_neg (not_not.mpr h4)] at this
    omega
  · intro h4 hf
    unfold PPU.DrawScanlineSprites_oamY
    dsimp only
    rw [hf]
    simp only [Bool.false_eq_true, if_false]
    omega
  · intro h4 hf
    unfold PPU.DrawScanlineSprites_oamY
    dsimp only
    rw [hf, if_pos h4]
    simp only [if_true]
    omega
  · intro px t hx ht h8 hlen
    have hg := hget t (static_cast_u8 (if s.flipX then 7 - (px : Int) else px)) hlen h8
    unfold PPU.DrawScanlineSprites_pixel
    dsimp only
    rw [if_neg hx, ht]
    show (do
      let color ← t.GetPixel (static_cast_u8 (if s.flipX then 7 - (px : Int) else px))
        (static_cast_u8 (PPU.DrawScanlineSprites_oamY gb.ppu s))
      _) = _
    rw [hg]
    rfl

set_option maxRecDepth 1000000 in
/-- Claim C40 on `tallSpriteExample` (sprites of 16 rows, `LY = 8`, OAM entry 0
at `y = 16`): `FetchScanlineSprites` puts the entry in the list, its row index
at this line is 8, and `DrawScanlineSprites` is undefined. -/
theorem sprite_row_index_up_to_15_witness :
    ∃ g, PPU.FetchScanlineSprites tallSpriteExample = .ok g ∧
      g.ppu.ScanlineSprites = [oamSprite tallSpriteExample 0] ∧ g.ppu.LY = 8 ∧
      (oamSprite tallSpriteExample 0).OnLine g.ppu.LCDC g.ppu.LY ∧
      PPU.DrawScanlineSprites_oamY g.ppu (oamSprite tallSpriteExample 0) = 8 ∧
      PPU.DrawScanlineSprites_pixel g (oamSprite tallSpriteExample 0) 0 = .error .undefined ∧
      PPU.DrawScanlineSprites g = .error .undefined := by
  have hl : (oamSprite tallSpriteExample 0).OnLine tallSpriteExample.ppu.LCDC
      tallSpriteExample.ppu.LY := by
    unfold Sprite.OnLine
    decide
  obtain ⟨-, -, -, h8, -, -, hpx⟩ :=
    sprite_row_index_up_to_15
      { tallSpriteExample with ppu := { tallSpriteExample.ppu with
        ScanlineSprites := [oamSprite tallSpriteExample 0] } }
      (oamSprite tallSpriteExample 0) (by decide) hl
  refine ⟨{ tallSpriteExample with ppu := { tallSpriteExample.ppu with
        ScanlineSprites := [oamSprite tallSpriteExample 0] } }, rfl, rfl, rfl, hl, by decide, ?_, rfl⟩
  exact hpx 0 { rows := [0, 0, 0, 0, 0, 0, 0, 0] } (by decide) rfl
    ((h8 (by decide) rfl).mpr (by decide)) rfl

end JaxBoy
